import Mathlib

/-!
# tinydb: storage, B+-tree, MVCC and table facade

A shallow embedding of the C sources (`tinydb.h`, `storage.c`, `btree.c`,
`transaction.c`, `table.c`, `persistence.c`) as state-passing functions.

Conventions of the embedding:

* A `page_t *` is the index of a frame in the buffer pool; `NULL` is `none`.
* A `btree_node_t *` obtained from a page is the index of the frame holding it,
  so writes through the pointer are writes to that frame's data.
* The mutexes are left out: every function is modelled as run by one thread.
* The debugging `printf` calls are left out, except where they read through a
  pointer that may be `NULL`.
* A stateful function returns `none` when the C program has no defined result at
  that point (a read through `NULL`, a read of an uninitialised local, a page
  that is read with another layout than it was written with, or the descent
  budget `fuel` running out); a C-level failure is an ordinary return value.
-/

namespace TinyDB

/-! ## Constants of `tinydb.h` -/

def PAGE_SIZE : Nat := 4096
def MAX_COLUMNS : Nat := 8
def MAX_TRANSACTIONS : Nat := 1024
def BTREE_ORDER : Nat := 49
def METADATA_PAGE_ID : Nat := 1
/-- Number of `tuple_t` records in a heap page, `(PAGE_SIZE - sizeof(int)) / sizeof(tuple_t)`
with `sizeof(tuple_t) = 608`. -/
def TUPLES_PER_PAGE : Nat := (PAGE_SIZE - 4) / 608

/-! ## Data model -/

inductive data_type_t where
  | DATA_TYPE_INT
  | DATA_TYPE_VARCHAR
  | DATA_TYPE_FLOAT
deriving DecidableEq, Repr

inductive transaction_state_t where
  | TXN_STATE_ACTIVE
  | TXN_STATE_COMMITTED
  | TXN_STATE_ABORTED
deriving DecidableEq, Repr

structure column_def_t where
  type : data_type_t
  name : List Nat
  size : Int
  is_primary_key : Bool
deriving DecidableEq, Repr

structure table_schema_t where
  name : List Nat
  column_count : Nat
  columns : List column_def_t
  root_page_id : Nat
deriving DecidableEq, Repr

/-- The `value_t` record. The three members of the C union are kept as three
fields; only the one selected by `type` is read by the code. A string is the
list of its bytes before the terminator; a float is taken as a rational. -/
structure value_t where
  int_val : Int
  float_val : Rat
  str_val : List Nat
  type : data_type_t
  is_null : Int
deriving DecidableEq, Repr

structure tuple_header_t where
  xmin : Nat
  xmax : Nat
  is_deleted : Bool
deriving DecidableEq, Repr

structure tuple_t where
  header : tuple_header_t
  values : List value_t
  column_count : Nat
deriving DecidableEq, Repr

/-- The `btree_node_t` record. Each array has one cell more than the C
declaration (`keys[48]`, `leaf.tuple_page_ids[48]`, `leaf.tuple_slots[48]`,
`children[49]`): `btree_insert_key_at_position` on a node with 48 keys writes
cell 48 (cell 49 of `children`), which in C lies past the declared array and
overlaps the following member. The embedding keeps that cell apart and does not
model the overlap. The two branches of the `pointers` union are kept as separate
fields; a node reads only the branch selected by `is_leaf`. -/
structure btree_node_t where
  is_leaf : Bool
  key_count : Nat
  keys : List value_t
  children : List Nat
  tuple_page_ids : List Nat
  tuple_slots : List Nat
deriving DecidableEq, Repr

/-- The leading fields of the metadata page, `metadata_t`. -/
structure metadata_t where
  schema_count : Nat
  next_page_id : Nat
deriving DecidableEq, Repr

/-- The 4096 bytes of a page, by the layout they were last written with.
`zero` is the all-zero page, which every layout can read. -/
inductive page_data where
  | zero
  | metadata (m : metadata_t) (schemas : List table_schema_t)
  | btree_node (n : btree_node_t)
  | heap (tuple_count : Nat) (tuples : List tuple_t)
deriving DecidableEq, Repr

structure page_t where
  page_id : Nat
  data : page_data
  is_dirty : Bool
  pin_count : Nat
deriving DecidableEq, Repr

structure buffer_pool_t where
  pages : List page_t
deriving DecidableEq, Repr

structure transaction_t where
  txn_id : Nat
  state : transaction_state_t
  start_time : Nat
deriving DecidableEq, Repr

structure transaction_manager_t where
  transactions : List transaction_t
  next_txn_id : Nat
deriving DecidableEq, Repr

/-- The `database_t` record. `data_file` is the content of the open file as
whole pages, page `p` at index `p - 1`. -/
structure database_t where
  data_file : List page_data
  buffer_pool : buffer_pool_t
  txn_manager : Option transaction_manager_t
  schemas : List table_schema_t
  schema_count : Nat
  max_schemas : Nat
deriving DecidableEq, Repr

/-! ## Zero values (what an all-zero page holds under each layout) -/

def zero_value : value_t :=
  { int_val := 0, float_val := 0, str_val := [], type := data_type_t.DATA_TYPE_INT, is_null := 0 }

def zero_tuple : tuple_t :=
  { header := { xmin := 0, xmax := 0, is_deleted := false },
    values := List.replicate MAX_COLUMNS zero_value, column_count := 0 }

def zero_node : btree_node_t :=
  { is_leaf := false, key_count := 0,
    keys := List.replicate BTREE_ORDER zero_value,
    children := List.replicate (BTREE_ORDER + 1) 0,
    tuple_page_ids := List.replicate BTREE_ORDER 0,
    tuple_slots := List.replicate BTREE_ORDER 0 }

def zero_column : column_def_t :=
  { type := data_type_t.DATA_TYPE_INT, name := [], size := 0, is_primary_key := false }

def zero_schema : table_schema_t :=
  { name := [], column_count := 0, columns := List.replicate MAX_COLUMNS zero_column,
    root_page_id := 0 }

/-- Read a page as a B+-tree node. -/
def page_data.as_node : page_data → Option btree_node_t
  | page_data.zero => some zero_node
  | page_data.btree_node n => some n
  | _ => none

/-- Read a page as a heap page: the tuple count and the tuple records. -/
def page_data.as_heap : page_data → Option (Nat × List tuple_t)
  | page_data.zero => some (0, List.replicate TUPLES_PER_PAGE zero_tuple)
  | page_data.heap c ts => some (c, ts)
  | _ => none

/-- Read a page as the metadata page. -/
def page_data.as_metadata : page_data → Option (metadata_t × List table_schema_t)
  | page_data.zero => some ({ schema_count := 0, next_page_id := 0 }, List.replicate 9 zero_schema)
  | page_data.metadata m ss => some (m, ss)
  | _ => none

/-! ## `btree.c`: comparison and node-local operations -/

/-- C `strcmp` on the bytes before the terminator; only the sign of the result
is used by the callers. -/
def strcmp : List Nat → List Nat → Int
  | [], [] => 0
  | [], _ :: _ => -1
  | _ :: _, [] => 1
  | a :: as, b :: bs => if a < b then -1 else if b < a then 1 else strcmp as bs

def value_compare (a b : value_t) : Int :=
  if a.type ≠ b.type then -2
  else
    match a.type with
    | data_type_t.DATA_TYPE_INT =>
      if a.int_val < b.int_val then -1 else if a.int_val > b.int_val then 1 else 0
    | data_type_t.DATA_TYPE_FLOAT =>
      if a.float_val < b.float_val then -1 else if a.float_val > b.float_val then 1 else 0
    | data_type_t.DATA_TYPE_VARCHAR => strcmp a.str_val b.str_val

/-- The `while (left <= right)` loop of `btree_find_key_position`; `fuel` bounds
the number of iterations. -/
def btree_find_key_position_loop (node : btree_node_t) (key : value_t) :
    Nat → Int → Int → Int → Int
  | 0, _, _, pos => pos
  | fuel + 1, left, right, pos =>
    if left ≤ right then
      let mid := (left + right) / 2
      let cmp := value_compare key (node.keys.getD mid.toNat zero_value)
      if cmp = 0 then mid
      else if cmp < 0 then btree_find_key_position_loop node key fuel left (mid - 1) mid
      else btree_find_key_position_loop node key fuel (mid + 1) right (mid + 1)
    else pos

/-- The interval `[left, right]` shrinks by at least one index per iteration, so
`key_count + 1` iterations are enough. -/
def btree_find_key_position (node : btree_node_t) (key : value_t) : Nat :=
  (btree_find_key_position_loop node key (node.key_count + 1) 0
    ((node.key_count : Int) - 1) 0).toNat

/-- One iteration of the shifting loop of `btree_insert_key_at_position`, at index `i`. -/
def btree_shift_step (node : btree_node_t) (i : Nat) : btree_node_t :=
  let node1 := { node with keys := node.keys.set i (node.keys.getD (i - 1) zero_value) }
  if node1.is_leaf then
    { node1 with
      tuple_page_ids := node1.tuple_page_ids.set i (node1.tuple_page_ids.getD (i - 1) 0),
      tuple_slots := node1.tuple_slots.set i (node1.tuple_slots.getD (i - 1) 0) }
  else
    { node1 with children := node1.children.set (i + 1) (node1.children.getD i 0) }

/-- The loop `for (i = key_count; i > pos; i--)`, started at `i`. -/
def btree_shift_loop (pos : Nat) : Nat → btree_node_t → btree_node_t
  | 0, node => node
  | i + 1, node =>
    if i + 1 > pos then btree_shift_loop pos i (btree_shift_step node (i + 1)) else node

def btree_insert_key_at_position (node : btree_node_t) (pos : Nat) (key : value_t)
    (tuple_page_id : Nat) (tuple_slot : Nat) : btree_node_t :=
  let node1 := btree_shift_loop pos node.key_count node
  let node2 := { node1 with keys := node1.keys.set pos key }
  let node3 :=
    if node2.is_leaf then
      { node2 with
        tuple_page_ids := node2.tuple_page_ids.set pos tuple_page_id,
        tuple_slots := node2.tuple_slots.set pos tuple_slot }
    else node2
  { node3 with key_count := node3.key_count + 1 }

/-- The copy loop of `btree_split_node`: cell `i` of the new node from cell
`mid + 1 + i` of the full node, for `i` below the new node's key count. -/
def btree_split_copy (full_node : btree_node_t) (mid : Nat) :
    Nat → btree_node_t → btree_node_t
  | 0, new_node => new_node
  | n + 1, new_node =>
    let prev := btree_split_copy full_node mid n new_node
    let i := n
    let node1 := { prev with keys := prev.keys.set i (full_node.keys.getD (mid + 1 + i) zero_value) }
    if full_node.is_leaf then
      { node1 with
        tuple_page_ids :=
          node1.tuple_page_ids.set i (full_node.tuple_page_ids.getD (mid + 1 + i) 0),
        tuple_slots := node1.tuple_slots.set i (full_node.tuple_slots.getD (mid + 1 + i) 0) }
    else
      { node1 with children := node1.children.set i (full_node.children.getD (mid + 1 + i) 0) }

/-- The node-local part of `btree_split_node`: the promoted key, the full node
after `key_count = mid`, and the filled new node. `new_node` is the node made
by `btree_create_node`. -/
def btree_split_fill (full_node new_node : btree_node_t) :
    value_t × btree_node_t × btree_node_t :=
  let mid := BTREE_ORDER / 2
  let promoted_key := full_node.keys.getD mid zero_value
  let new_count := full_node.key_count - mid - 1
  let new1 := btree_split_copy full_node mid new_count { new_node with key_count := new_count }
  let new2 :=
    if !full_node.is_leaf then
      { new1 with
        children := new1.children.set new1.key_count (full_node.children.getD full_node.key_count 0) }
    else new1
  (promoted_key, { full_node with key_count := mid }, new2)

/-! ## `storage.c`: file, buffer pool, page allocation -/

def empty_frame : page_t :=
  { page_id := 0, data := page_data.zero, is_dirty := false, pin_count := 0 }

def buffer_pool_create (capacity : Nat) : buffer_pool_t :=
  { pages := List.replicate capacity empty_frame }

/-- The frame a `page_t *` points to. -/
def database_t.frame (db : database_t) (idx : Nat) : page_t :=
  db.buffer_pool.pages.getD idx empty_frame

/-- A write through a `page_t *`. -/
def database_t.set_frame (db : database_t) (idx : Nat) (f : page_t) : database_t :=
  { db with buffer_pool := { pages := db.buffer_pool.pages.set idx f } }

/-- The first loop of `buffer_get_page`: the first frame with
`page_id == page_id && pin_count >= 0`. -/
def find_resident (page_id : Nat) : List page_t → Option Nat
  | [] => none
  | f :: fs =>
    if f.page_id = page_id ∧ 0 ≤ f.pin_count then some 0
    else (find_resident page_id fs).map (· + 1)

def find_victim_page : List page_t → Option Nat
  | [] => none
  | f :: fs => if f.pin_count = 0 then some 0 else (find_victim_page fs).map (· + 1)

/-- Reads page `page_id` of the file; `none` is the result `-1` (fewer than
`PAGE_SIZE` bytes read). For `page_id = 0` the seek offset is negative: the C code
does not look at the result of `fseek` and reads at the position the file is
at, while the embedding takes that read as failed; likewise the offset
`(page_id - 1) * PAGE_SIZE` is taken to fit a `long`. -/
def storage_read_page (file : List page_data) (page_id : Nat) : Option page_data :=
  if page_id = 0 then none else file.get? (page_id - 1)

/-- Writes page `page_id` of the file (the write itself is taken to succeed). A
write past the end of the file leaves zero pages in the gap. For `page_id = 0`
the seek offset is negative: the C code does not look at the result of `fseek`
and writes at the position the file is at, while the embedding leaves the
file as it is; likewise the offset `(page_id - 1) * PAGE_SIZE` is taken to fit a
`long`. -/
def storage_write_page (file : List page_data) (page_id : Nat) (buffer : page_data) :
    List page_data :=
  if page_id = 0 then file
  else if page_id - 1 < file.length then file.set (page_id - 1) buffer
  else file ++ List.replicate (page_id - 1 - file.length) page_data.zero ++ [buffer]

/-- The bytes `buffer_get_page` leaves in a frame it loads: those read from the
file, or zero bytes when the read failed (`memset` after a short read). -/
def file_content (file : List page_data) (page_id : Nat) : page_data :=
  (storage_read_page file page_id).getD page_data.zero

/-- The call `storage_write_page(db, page_id, buffer)` on the database. -/
def write_page (db : database_t) (page_id : Nat) (buffer : page_data) : database_t :=
  { db with data_file := storage_write_page db.data_file page_id buffer }

def buffer_flush_page (db : database_t) (idx : Nat) : database_t :=
  let page := db.frame idx
  if !page.is_dirty then db
  else
    (write_page db page.page_id page.data).set_frame idx { page with is_dirty := false }

def buffer_get_page (db : database_t) (page_id : Nat) : Option Nat × database_t :=
  match find_resident page_id db.buffer_pool.pages with
  | some i =>
    let page := db.frame i
    (some i, db.set_frame i { page with pin_count := page.pin_count + 1 })
  | none =>
    match find_victim_page db.buffer_pool.pages with
    | none => (none, db)
    | some victim_idx =>
      let victim_page := db.frame victim_idx
      let db1 :=
        if victim_page.is_dirty ∧ victim_page.page_id ≠ 0 then buffer_flush_page db victim_idx
        else db
      let data := file_content db1.data_file page_id
      (some victim_idx,
        db1.set_frame victim_idx
          { page_id := page_id, data := data, is_dirty := false, pin_count := 1 })

def buffer_release_page (db : database_t) (idx : Nat) : database_t :=
  let page := db.frame idx
  if page.pin_count > 0 then db.set_frame idx { page with pin_count := page.pin_count - 1 }
  else db

/-- Marks the frame dirty (`page->is_dirty = 1` under the page mutex). -/
def mark_dirty (db : database_t) (idx : Nat) : database_t :=
  db.set_frame idx { db.frame idx with is_dirty := true }

/-- A write of the data of the frame. -/
def set_data (db : database_t) (idx : Nat) (d : page_data) : database_t :=
  db.set_frame idx { db.frame idx with data := d }

/-- Returns the page id taken from the metadata page (`0` when the metadata
page cannot be pinned). -/
def allocate_new_page_id (db : database_t) : Option (Nat × database_t) :=
  match buffer_get_page db METADATA_PAGE_ID with
  | (none, db1) => some (0, db1)
  | (some metadata_page, db1) =>
    match (db1.frame metadata_page).data.as_metadata with
    | none => none
    | some (metadata, schemas) =>
      let current_id := metadata.next_page_id
      let db2 := set_data db1 metadata_page
        (page_data.metadata { metadata with next_page_id := metadata.next_page_id + 1 } schemas)
      let db3 := mark_dirty db2 metadata_page
      some (current_id, buffer_release_page db3 metadata_page)

def storage_allocate_page (db : database_t) : Option (Option Nat × database_t) :=
  match allocate_new_page_id db with
  | none => none
  | some (new_page_id, db1) =>
    match buffer_get_page db1 new_page_id with
    | (none, db2) => some (none, db2)
    | (some page, db2) => some (some page, mark_dirty db2 page)

/-- The file is an argument: `fopen` of an existing file keeps its content, a
new file is empty. `txn_manager` is taken as `NULL` in the new record. -/
def db_create (file : List page_data) : database_t :=
  { data_file := file, buffer_pool := buffer_pool_create 256, txn_manager := none,
    schemas := List.replicate 9 zero_schema, schema_count := 0, max_schemas := 9 }

/-- Closes the database; what remains is the file. -/
def db_close (db : database_t) : List page_data := db.data_file

/-! ## `btree.c`: operations on pages -/

def btree_create_node (db : database_t) (is_leaf : Bool) : Option (Option Nat × database_t) :=
  match storage_allocate_page db with
  | none => none
  | some (none, db1) => some (none, db1)
  | some (some page, db1) =>
    let db2 := set_data db1 page (page_data.btree_node { zero_node with is_leaf := is_leaf })
    some (some page, mark_dirty db2 page)

def btree_load_node (db : database_t) (page_id : Nat) : Option Nat × database_t :=
  buffer_get_page db page_id

/-- The function `btree_save_node(db, page_id, node)`, with `node` the frame the node pointer
points into. The `memcpy` of `sizeof(btree_node_t)` bytes leaves the last 56
bytes of the target page; they are unused by the node and heap layouts. -/
def btree_save_node (db : database_t) (page_id : Nat) (node : Nat) : Option database_t :=
  match buffer_get_page db page_id with
  | (none, db1) => some db1
  | (some page, db1) =>
    if page = node then some (buffer_release_page (mark_dirty db1 page) page)
    else
      match (db1.frame node).data.as_node, (db1.frame page).data with
      | none, _ => none
      | some _, page_data.metadata _ _ => none
      | some n, _ =>
        let db2 := set_data db1 page (page_data.btree_node n)
        some (buffer_release_page (mark_dirty db2 page) page)

/-- The result of `btree_split_node`: the new node pointer (or `NULL`), and the two
output parameters; `new_page_id` is `none` when it was left unassigned. -/
structure split_result where
  new_node : Option Nat
  promoted_key : value_t
  new_page_id : Option Nat
deriving DecidableEq, Repr

def btree_split_node (db : database_t) (full_node : Nat) : Option (split_result × database_t) :=
  match (db.frame full_node).data.as_node with
  | none => none
  | some full0 =>
    match btree_create_node db full0.is_leaf with
    | none => none
    | some (none, db1) =>
      some ({ new_node := none, promoted_key := zero_value, new_page_id := none }, db1)
    | some (some new_node, db1) =>
      match (db1.frame full_node).data.as_node, (db1.frame new_node).data.as_node with
      | some full, some new0 =>
        let (promoted_key, full1, new1) := btree_split_fill full new0
        let db2 := set_data db1 new_node (page_data.btree_node new1)
        let db3 := set_data db2 full_node (page_data.btree_node full1)
        match storage_allocate_page db3 with
        | none => none
        | some (none, db4) =>
          some ({ new_node := some new_node, promoted_key := promoted_key,
                  new_page_id := none }, db4)
        | some (some new_page, db4) =>
          some ({ new_node := some new_node, promoted_key := promoted_key,
                  new_page_id := some (db4.frame new_page).page_id },
                buffer_release_page db4 new_page)
      | _, _ => none

/-- The result of `btree_insert_recursive`: the return value and the two output
parameters, which are assigned only by a split. -/
structure insert_result where
  result : Int
  promoted_key : value_t
  new_page_id : Option Nat
deriving DecidableEq, Repr

def no_split (r : Int) : insert_result :=
  { result := r, promoted_key := zero_value, new_page_id := none }

/-- The common tail of the two split branches of `btree_insert_recursive`. -/
def btree_split_and_save (db : database_t) (page_id : Nat) (page_handle : Nat) :
    Option (insert_result × database_t) :=
  match btree_split_node db page_handle with
  | none => none
  | some (sr, db1) =>
    match sr.new_node with
    | none => some (no_split (-1), buffer_release_page db1 page_handle)
    | some new_node =>
      match btree_save_node db1 page_id page_handle with
      | none => none
      | some db2 =>
        match sr.new_page_id with
        | none => none
        | some new_page_id =>
          match btree_save_node db2 new_page_id new_node with
          | none => none
          | some db3 =>
            some ({ result := 1, promoted_key := sr.promoted_key,
                    new_page_id := some new_page_id },
                  buffer_release_page db3 page_handle)

/-- The recursion of `btree_insert_recursive` descends one level per call; `fuel` bounds
the depth. -/
def btree_insert_recursive : Nat → database_t → Nat → value_t → Nat → Nat →
    Option (insert_result × database_t)
  | 0, _, _, _, _, _ => none
  | fuel + 1, db, page_id, key, tuple_page_id, tuple_slot =>
    match btree_load_node db page_id with
    | (none, db1) => some (no_split (-1), db1)
    | (some page_handle, db1) =>
      match (db1.frame page_handle).data.as_node with
      | none => none
      | some node =>
        if node.is_leaf then
          let pos := btree_find_key_position node key
          if pos < node.key_count ∧ value_compare key (node.keys.getD pos zero_value) = 0 then
            match btree_save_node db1 page_id page_handle with
            | none => none
            | some db2 => some (no_split (-1), buffer_release_page db2 page_handle)
          else if node.key_count < BTREE_ORDER - 1 then
            let db2 := set_data db1 page_handle (page_data.btree_node
              (btree_insert_key_at_position node pos key tuple_page_id tuple_slot))
            match btree_save_node db2 page_id page_handle with
            | none => none
            | some db3 => some (no_split 0, buffer_release_page db3 page_handle)
          else
            let db2 := set_data db1 page_handle (page_data.btree_node
              (btree_insert_key_at_position node pos key tuple_page_id tuple_slot))
            btree_split_and_save db2 page_id page_handle
        else
          let pos := btree_find_key_position node key
          let child_page_id := node.children.getD pos 0
          match btree_insert_recursive fuel db1 child_page_id key tuple_page_id tuple_slot with
          | none => none
          | some (child, db2) =>
            if child.result = 0 then
              match btree_save_node db2 page_id page_handle with
              | none => none
              | some db3 => some (no_split 0, buffer_release_page db3 page_handle)
            else if child.result = 1 then
              match child.new_page_id, (db2.frame page_handle).data.as_node with
              | some child_new_page_id, some node1 =>
                let node2 := btree_insert_key_at_position node1 pos child.promoted_key 0 0
                let node3 :=
                  { node2 with children := node2.children.set (pos + 1) child_new_page_id }
                let db3 := set_data db2 page_handle (page_data.btree_node node3)
                if node1.key_count < BTREE_ORDER - 1 then
                  match btree_save_node db3 page_id page_handle with
                  | none => none
                  | some db4 => some (no_split 0, buffer_release_page db4 page_handle)
                else btree_split_and_save db3 page_id page_handle
              | _, _ => none
            else some (no_split (-1), buffer_release_page db2 page_handle)

def btree_insert (fuel : Nat) (db : database_t) (root_page_id : Nat) (key : value_t)
    (tuple_page_id : Nat) (tuple_slot : Nat) : Option (Int × database_t) :=
  match btree_insert_recursive fuel db root_page_id key tuple_page_id tuple_slot with
  | none => none
  | some (r, db1) =>
    if r.result = 1 then
      match btree_create_node db1 false with
      | none => none
      | some (none, db2) => some (-1, db2)
      | some (some new_root, db2) =>
        match r.new_page_id, (db2.frame new_root).data.as_node with
        | some new_page_id, some root0 =>
          let root1 :=
            { root0 with
              key_count := 1,
              keys := root0.keys.set 0 r.promoted_key,
              children := (root0.children.set 0 root_page_id).set 1 new_page_id }
          let db3 := set_data db2 new_root (page_data.btree_node root1)
          match storage_allocate_page db3 with
          | none => none
          | some (none, db4) => some (0, db4)
          | some (some root_page, db4) =>
            match btree_save_node db4 (db4.frame root_page).page_id new_root with
            | none => none
            | some db5 => some (0, buffer_release_page db5 root_page)
        | _, _ => none
    else some (if r.result ≥ 0 then 0 else -1, db1)

/-- The function `btree_search`: the return value and, on `0`, the tuple location. The
loop `while (current_page_id != 0)` descends one level per iteration; `fuel`
bounds the depth. The key may be `NULL` (`none`). -/
def btree_search : Nat → database_t → Nat → Option value_t →
    Option (Option (Nat × Nat) × database_t)
  | 0, _, _, _ => none
  | fuel + 1, db, current_page_id, key =>
    if current_page_id = 0 then some (none, db)
    else
      match btree_load_node db current_page_id with
      | (none, db1) => some (none, db1)
      | (some page_handle, db1) =>
        match (db1.frame page_handle).data.as_node with
        | none => none
        | some node =>
          if node.is_leaf then
            match key with
            | none => none
            | some k =>
              let pos := btree_find_key_position node k
              if pos < node.key_count ∧ value_compare k (node.keys.getD pos zero_value) = 0 then
                some (some (node.tuple_page_ids.getD pos 0, node.tuple_slots.getD pos 0),
                  buffer_release_page db1 page_handle)
              else some (none, buffer_release_page db1 page_handle)
          else
            match key, node.key_count with
            | none, 0 =>
              btree_search fuel (buffer_release_page db1 page_handle)
                (node.children.getD 0 0) key
            | none, _ + 1 => none
            | some k, _ =>
              let pos := btree_find_key_position node k
              btree_search fuel (buffer_release_page db1 page_handle)
                (node.children.getD pos 0) key

def btree_delete (_db : database_t) (_root_page_id : Nat) (_key : value_t) : Int := 0

/-! ## `transaction.c` -/

def txn_manager_create : transaction_manager_t :=
  { transactions := List.replicate MAX_TRANSACTIONS
      { txn_id := 0, state := transaction_state_t.TXN_STATE_ABORTED, start_time := 0 },
    next_txn_id := 1 }

/-- The slot search of `txn_begin`: the first slot that is Aborted or Committed. -/
def find_free_slot : List transaction_t → Option Nat
  | [] => none
  | t :: ts =>
    if t.state = transaction_state_t.TXN_STATE_ABORTED ∨
        t.state = transaction_state_t.TXN_STATE_COMMITTED then some 0
    else (find_free_slot ts).map (· + 1)

/-- The function `txn_begin`; `now` is the value of `time(NULL)`. The counter is a 64-bit
unsigned integer. Returns the new id, or `0`. -/
def txn_begin (db : database_t) (now : Nat) : Nat × database_t :=
  let manager := match db.txn_manager with
    | some m => m
    | none => txn_manager_create
  match find_free_slot manager.transactions with
  | none => (0, { db with txn_manager := some manager })
  | some slot =>
    let txn_id := manager.next_txn_id
    let manager1 : transaction_manager_t :=
      { transactions := manager.transactions.set slot
          { txn_id := txn_id, state := transaction_state_t.TXN_STATE_ACTIVE, start_time := now },
        next_txn_id := (manager.next_txn_id + 1) % 2 ^ 64 }
    (txn_id, { db with txn_manager := some manager1 })

/-- The index of the first slot holding `txn_id`, or `none` for `NULL`. -/
def find_transaction_idx (txn_id : Nat) : List transaction_t → Option Nat
  | [] => none
  | t :: ts =>
    if t.txn_id = txn_id then some 0 else (find_transaction_idx txn_id ts).map (· + 1)

/-- The slot `find_transaction` returns, by value. -/
def find_transaction (manager : transaction_manager_t) (txn_id : Nat) : Option transaction_t :=
  manager.transactions.find? (fun t => t.txn_id = txn_id)

/-- The common body of `txn_commit` and `txn_abort`. -/
def txn_finish (db : database_t) (txn_id : Nat) (final : transaction_state_t) :
    Int × database_t :=
  match db.txn_manager with
  | none => (-1, db)
  | some manager =>
    match find_transaction_idx txn_id manager.transactions with
    | none => (-1, db)
    | some i =>
      let txn := manager.transactions.getD i
        { txn_id := 0, state := transaction_state_t.TXN_STATE_ABORTED, start_time := 0 }
      if txn.state ≠ transaction_state_t.TXN_STATE_ACTIVE then (-1, db)
      else
        let txn1 : transaction_t := { txn with state := final }
        let manager1 : transaction_manager_t :=
          { manager with transactions := manager.transactions.set i txn1 }
        (0, { db with txn_manager := some manager1 })

def txn_commit (db : database_t) (txn_id : Nat) : Int × database_t :=
  txn_finish db txn_id transaction_state_t.TXN_STATE_COMMITTED

def txn_abort (db : database_t) (txn_id : Nat) : Int × database_t :=
  txn_finish db txn_id transaction_state_t.TXN_STATE_ABORTED

def mvcc_is_visible (header : tuple_header_t) (txn_id : Nat)
    (manager : transaction_manager_t) : Bool :=
  if header.is_deleted then false
  else if header.xmin > txn_id then false
  else
    let creating_ok : Bool :=
      match find_transaction manager header.xmin with
      | some creating_txn =>
        if creating_txn.state ≠ transaction_state_t.TXN_STATE_COMMITTED then
          if creating_txn.txn_id ≠ txn_id then false else true
        else true
      | none => true
    if !creating_ok then false
    else if header.xmax ≠ 0 ∧ header.xmax ≤ txn_id then
      match find_transaction manager header.xmax with
      | some deleting_txn =>
        if deleting_txn.txn_id = txn_id then false
        else if deleting_txn.state = transaction_state_t.TXN_STATE_COMMITTED then false
        else true
      | none => false
    else true

def mvcc_mark_deleted (header : tuple_header_t) (txn_id : Nat) : tuple_header_t :=
  { header with xmax := txn_id }

/-! ## `table.c` -/

/-- The index of the schema `find_table_schema` returns. -/
def find_schema_idx (table_name : List Nat) : List table_schema_t → Option Nat
  | [] => none
  | s :: ss => if s.name = table_name then some 0 else (find_schema_idx table_name ss).map (· + 1)

def find_table_schema (db : database_t) (table_name : List Nat) : Option Nat :=
  find_schema_idx table_name (db.schemas.take db.schema_count)

def database_t.schema (db : database_t) (idx : Nat) : table_schema_t :=
  db.schemas.getD idx zero_schema

/-- The function `table_create`. The name is cut to `MAX_TABLE_NAME - 1` bytes; at most
`MAX_COLUMNS` columns are copied. The schema record at `schema_count` is written
before the root page is allocated. -/
def table_create (db : database_t) (table_name : List Nat) (columns : List column_def_t)
    (column_count : Nat) : Option (Int × database_t) :=
  if db.schema_count ≥ db.max_schemas then some (-1, db)
  else if (find_table_schema db table_name).isSome then some (-1, db)
  else
    let old := db.schema db.schema_count
    let schema : table_schema_t :=
      { old with
        name := table_name.take 63,
        column_count := column_count,
        columns := (columns.take (min column_count MAX_COLUMNS)) ++
          old.columns.drop (min column_count MAX_COLUMNS) }
    let db1 := { db with schemas := db.schemas.set db.schema_count schema }
    match storage_allocate_page db1 with
    | none => none
    | some (none, db2) => some (-1, db2)
    | some (some root_page, db2) =>
      let db3 := set_data db2 root_page
        (page_data.btree_node { zero_node with is_leaf := true, key_count := 0 })
      let db4 := mark_dirty db3 root_page
      let page := db4.frame root_page
      let db5 := write_page db4 page.page_id page.data
      let schema1 : table_schema_t := { db5.schema db5.schema_count with root_page_id := page.page_id }
      let db6 := { db5 with schemas := db5.schemas.set db5.schema_count schema1 }
      let db7 := buffer_release_page db6 root_page
      some (0, { db7 with schema_count := db7.schema_count + 1 })

/-- The index of the first column flagged as primary key, among the first
`column_count` columns. -/
def primary_key_column : Nat → List column_def_t → Option Nat
  | 0, _ => none
  | _ + 1, [] => none
  | n + 1, c :: cs =>
    if c.is_primary_key then some 0 else (primary_key_column n cs).map (· + 1)

/-- The value `extract_primary_key` points to, or `none` for `NULL`. -/
def extract_primary_key (schema : table_schema_t) (tuple : tuple_t) : Option value_t :=
  match primary_key_column schema.column_count schema.columns with
  | none => none
  | some i => some (tuple.values.getD i zero_value)

/-- The function `store_tuple_in_page`: the return value and the slot written. -/
def store_tuple_in_page (db : database_t) (page_id : Nat) (tuple : tuple_t) :
    Option (Int × Nat × database_t) :=
  match buffer_get_page db page_id with
  | (none, db1) => some (-1, 0, db1)
  | (some page, db1) =>
    match (db1.frame page).data.as_heap with
    | none => none
    | some (tuple_count, tuples) =>
      if tuple_count ≥ TUPLES_PER_PAGE then some (-1, 0, buffer_release_page db1 page)
      else
        let db2 := set_data db1 page (page_data.heap (tuple_count + 1) (tuples.set tuple_count tuple))
        let db3 := mark_dirty db2 page
        let db4 := write_page db3 page_id (db3.frame page).data
        some (0, tuple_count, buffer_release_page db4 page)

def tuple_insert (fuel : Nat) (db : database_t) (table_name : List Nat) (tuple : tuple_t)
    (txn_id : Nat) : Option (Int × database_t) :=
  match find_table_schema db table_name with
  | none => some (-1, db)
  | some schema_idx =>
    let schema := db.schema schema_idx
    if tuple.column_count ≠ schema.column_count then some (-1, db)
    else
      let tuple1 := { tuple with header := { xmin := txn_id, xmax := 0, is_deleted := false } }
      match storage_allocate_page db with
      | none => none
      | some (none, db1) => some (-1, db1)
      | some (some data_page, db1) =>
        match store_tuple_in_page db1 (db1.frame data_page).page_id tuple1 with
        | none => none
        | some (rc, slot, db2) =>
          if rc ≠ 0 then some (-1, buffer_release_page db2 data_page)
          else
            match extract_primary_key schema tuple1 with
            | none => some (0, buffer_release_page db2 data_page)
            | some primary_key =>
              match btree_insert fuel db2 schema.root_page_id primary_key
                  (db2.frame data_page).page_id slot with
              | none => none
              | some (rc1, db3) =>
                if rc1 ≠ 0 then some (-1, buffer_release_page db3 data_page)
                else some (0, buffer_release_page db3 data_page)

/-- The conversion `(int)slot` of a 32-bit unsigned slot id. -/
def slot_as_int (slot : Nat) : Int :=
  if slot % 2 ^ 32 < 2 ^ 31 then (slot % 2 ^ 32 : Nat) else ((slot % 2 ^ 32 : Nat) : Int) - 2 ^ 32

def load_tuple_from_page (db : database_t) (page_id : Nat) (slot : Nat) :
    Option (Option tuple_t × database_t) :=
  match buffer_get_page db page_id with
  | (none, db1) => some (none, db1)
  | (some page, db1) =>
    match (db1.frame page).data.as_heap with
    | none => none
    | some (tuple_count, tuples) =>
      if slot_as_int slot ≥ (tuple_count : Int) then some (none, buffer_release_page db1 page)
      else some (some (tuples.getD slot zero_tuple), buffer_release_page db1 page)

/-- What `tuple_select` hands back: the return value, `*count`, and `*results`
when it was assigned. -/
structure select_result where
  ret : Int
  count : Nat
  results : Option tuple_t
deriving DecidableEq, Repr

def tuple_select (fuel : Nat) (db : database_t) (table_name : List Nat) (key : Option value_t)
    (txn_id : Nat) : Option (select_result × database_t) :=
  match find_table_schema db table_name with
  | none => some ({ ret := -1, count := 0, results := none }, db)
  | some schema_idx =>
    match btree_search fuel db (db.schema schema_idx).root_page_id key with
    | none => none
    | some (none, db1) => some ({ ret := 0, count := 0, results := none }, db1)
    | some (some (tuple_page_id, tuple_slot), db1) =>
      match load_tuple_from_page db1 tuple_page_id tuple_slot with
      | none => none
      | some (none, db2) => some ({ ret := 0, count := 0, results := none }, db2)
      | some (some tuple, db2) =>
        match db2.txn_manager with
        | none => none
        | some manager =>
          if mvcc_is_visible tuple.header txn_id manager then
            some ({ ret := 0, count := 1, results := some tuple }, db2)
          else some ({ ret := 0, count := 0, results := none }, db2)

def tuple_delete (fuel : Nat) (db : database_t) (table_name : List Nat) (key : value_t)
    (txn_id : Nat) : Option (Int × database_t) :=
  match find_table_schema db table_name with
  | none => some (-1, db)
  | some schema_idx =>
    match btree_search fuel db (db.schema schema_idx).root_page_id (some key) with
    | none => none
    | some (none, db1) => some (-1, db1)
    | some (some (tuple_page_id, tuple_slot), db1) =>
      match load_tuple_from_page db1 tuple_page_id tuple_slot with
      | none => none
      | some (none, db2) => some (-1, db2)
      | some (some tuple, db2) =>
        match db2.txn_manager with
        | none => none
        | some manager =>
          if mvcc_is_visible tuple.header txn_id manager then
            let tuple1 := { tuple with header := mvcc_mark_deleted tuple.header txn_id }
            match buffer_get_page db2 tuple_page_id with
            | (none, db3) => some (0, db3)
            | (some page, db3) =>
              match (db3.frame page).data.as_heap with
              | none => none
              | some (tuple_count, tuples) =>
                let db4 := set_data db3 page (page_data.heap tuple_count (tuples.set tuple_slot tuple1))
                let db5 := mark_dirty db4 page
                let db6 := write_page db5 tuple_page_id (db5.frame page).data
                some (0, buffer_release_page db6 page)
          else some (-1, db2)

/-! ## `persistence.c` -/

def db_save_metadata (db : database_t) : Option (Int × database_t) :=
  match buffer_get_page db METADATA_PAGE_ID with
  | (none, db1) => some (-1, db1)
  | (some metadata_page0, db1) =>
    match (db1.frame metadata_page0).data.as_metadata with
    | none => none
    | some (current_metadata, _) =>
      let db2 := buffer_release_page db1 metadata_page0
      match buffer_get_page db2 METADATA_PAGE_ID with
      | (none, db3) => some (-1, db3)
      | (some metadata_page, db3) =>
        match (db3.frame metadata_page).data.as_metadata with
        | none => none
        | some (_, page_schemas) =>
          let page_metadata : metadata_t :=
            { schema_count := db.schema_count, next_page_id := current_metadata.next_page_id }
          let db4 := set_data db3 metadata_page (page_data.metadata page_metadata page_schemas)
          if db.schema_count > 9 then some (-1, buffer_release_page db4 metadata_page)
          else
            let db5 := set_data db4 metadata_page (page_data.metadata page_metadata
              (db.schemas.take db.schema_count ++ page_schemas.drop db.schema_count))
            let db6 := mark_dirty db5 metadata_page
            let db7 := write_page db6 METADATA_PAGE_ID (db6.frame metadata_page).data
            some (0, buffer_release_page db7 metadata_page)

def db_load_metadata (db : database_t) : Option (Int × database_t) :=
  match buffer_get_page db METADATA_PAGE_ID with
  | (none, db1) => some (-1, db1)
  | (some metadata_page, db1) =>
    match storage_read_page db1.data_file METADATA_PAGE_ID with
    | none =>
      let db2 := set_data db1 metadata_page
        (page_data.metadata { schema_count := 0, next_page_id := 2 } (List.replicate 9 zero_schema))
      let db3 := mark_dirty db2 metadata_page
      some (0, buffer_release_page { db3 with schema_count := 0 } metadata_page)
    | some d =>
      let db2 := set_data db1 metadata_page d
      match d.as_metadata with
      | none => none
      | some (metadata, page_schemas) =>
        let db3 := { db2 with schema_count := metadata.schema_count }
        if metadata.schema_count > 0 then
          if metadata.schema_count ≤ 9 then
            let schemas1 :=
              page_schemas.take metadata.schema_count ++ db3.schemas.drop metadata.schema_count
            let db4 := { db3 with schemas := schemas1 }
            some (0, buffer_release_page db4 metadata_page)
          else
            some (-1, buffer_release_page { db3 with schema_count := 0 } metadata_page)
        else some (0, buffer_release_page db3 metadata_page)

/-- The flush loop of `db_checkpoint` over the frames from index `i` on. -/
def checkpoint_loop : Nat → Nat → database_t → database_t
  | 0, _, db => db
  | n + 1, i, db =>
    let page := db.frame i
    let db1 :=
      if page.is_dirty ∧ page.page_id ≠ 0 then
        (write_page db page.page_id page.data).set_frame i { page with is_dirty := false }
      else db
    checkpoint_loop n (i + 1) db1

def db_checkpoint (db : database_t) : Option (Int × database_t) :=
  match db_save_metadata db with
  | none => none
  | some (rc, db1) =>
    if rc ≠ 0 then some (-1, db1)
    else some (0, checkpoint_loop db1.buffer_pool.pages.length 0 db1)

def db_recovery (db : database_t) : Option (Int × database_t) :=
  match db_load_metadata db with
  | none => none
  | some (rc, db1) => if rc ≠ 0 then some (-1, db1) else some (0, db1)

/-! ## Scenarios: the seed tests of the specification, as runs of the embedding

The table is `t(id INT PRIMARY KEY)`; a row is one integer. Every run starts as
the tests of `test.c` do: `db_create` on a new file, `db_recovery`, `CREATE TABLE`.
A run is `none` when one of its steps does not return the expected status. -/

/-- The value the SQL layer builds for an integer literal. -/
def int_value (n : Int) : value_t := { zero_value with int_val := n }

/-- The tuple the SQL layer builds for `INSERT INTO t VALUES (n)`. -/
def int_row (n : Int) : tuple_t :=
  { header := { xmin := 0, xmax := 0, is_deleted := false }, values := [int_value n],
    column_count := 1 }

/-- The tuple as `tuple_insert` stores it for transaction `txn_id`. -/
def stamped (tuple : tuple_t) (txn_id : Nat) : tuple_t :=
  { tuple with header := { xmin := txn_id, xmax := 0, is_deleted := false } }

/-- The table name `t`. -/
def t_name : List Nat := [116]

/-- The column list `(id INT PRIMARY KEY)`. -/
def t_columns : List column_def_t :=
  [{ type := data_type_t.DATA_TYPE_INT, name := [105, 100], size := 4, is_primary_key := true }]

/-- Depth budget used by the runs (the trees of the runs have depth 1). -/
def run_fuel : Nat := 4

/-- The steps `db_create` on the given file, then `db_recovery`. -/
def open_db (file : List page_data) : Option database_t :=
  match db_recovery (db_create file) with
  | some (0, db) => some db
  | _ => none

/-- A new database with the table `t` created. -/
def fresh_db : Option database_t :=
  match open_db [] with
  | none => none
  | some db =>
    match table_create db t_name t_columns 1 with
    | some (0, db1) => some db1
    | _ => none

/-- The step `INSERT INTO t VALUES (n)` in transaction `txn`, expected to succeed. -/
def insert_id (db : database_t) (n : Int) (txn : Nat) : Option database_t :=
  match tuple_insert run_fuel db t_name (int_row n) txn with
  | some (0, db1) => some db1
  | _ => none

/-- Inserts the `count` ids `first, first + 1, ...` in ascending order, each expected
to succeed. -/
def insert_ids : Nat → Int → Nat → database_t → Option database_t
  | 0, _, _, db => some db
  | count + 1, first, txn, db =>
    match insert_id db first txn with
    | some db1 => insert_ids count (first + 1) txn db1
    | none => none

/-- The step `SELECT * FROM t WHERE id = n` in transaction `txn`: what `tuple_select` hands back. -/
def select_id (db : database_t) (n : Int) (txn : Nat) : Option select_result :=
  (tuple_select run_fuel db t_name (some (int_value n)) txn).map Prod.fst

/-- The step `COMMIT`, expected to succeed. -/
def commit (db : database_t) (txn : Nat) : Option database_t :=
  match txn_commit db txn with
  | (0, db1) => some db1
  | _ => none

/-- The step `ROLLBACK`, expected to succeed. -/
def rollback (db : database_t) (txn : Nat) : Option database_t :=
  match txn_abort db txn with
  | (0, db1) => some db1
  | _ => none

/-- Scenario S2 up to the commit: `BEGIN`, the ids `1 .. count` inserted in
ascending order, `COMMIT`. -/
def s2_committed (count : Nat) : Option database_t :=
  match fresh_db with
  | none => none
  | some db =>
    let (t1, db1) := txn_begin db 0
    match insert_ids count 1 t1 db1 with
    | none => none
    | some db2 => commit db2 t1

/-- Scenario S2: after the commit, a new transaction selects id `n`. -/
def s2_select (count : Nat) (n : Int) : Option select_result :=
  match s2_committed count with
  | none => none
  | some db =>
    let (t2, db1) := txn_begin db 0
    select_id db1 n t2

/-- After the 49 inserts of S2: the same transaction inserts id `n` once more;
the return value of `tuple_insert`. -/
def s2_insert_again (n : Int) : Option Int :=
  match fresh_db with
  | none => none
  | some db =>
    let (t1, db1) := txn_begin db 0
    match insert_ids 49 1 t1 db1 with
    | none => none
    | some db2 => (tuple_insert run_fuel db2 t_name (int_row n) t1).map Prod.fst

/-- The state after the ids `1 .. count` were inserted by one transaction. -/
def s2_inserted (count : Nat) : Option database_t :=
  match fresh_db with
  | none => none
  | some db =>
    let (t1, db1) := txn_begin db 0
    insert_ids count 1 t1 db1

/-- The current bytes of page `page_id`: those of the frame that holds the page,
else those of the file (zero bytes where the file is too short), which is what
`buffer_get_page` would load. -/
def page_content (db : database_t) (page_id : Nat) : page_data :=
  match find_resident page_id db.buffer_pool.pages with
  | some i => (db.frame i).data
  | none => file_content db.data_file page_id

/-- Scenario of `test_persistence` with two writers: transaction 1 inserts id 1 and
commits, transaction 2 inserts id 2 and commits, checkpoint, close; the file
that remains. -/
def persist_file : Option (List page_data) :=
  match fresh_db with
  | none => none
  | some db =>
    let (t1, db1) := txn_begin db 0
    match insert_id db1 1 t1 with
    | none => none
    | some db2 =>
      match commit db2 t1 with
      | none => none
      | some db3 =>
        let (t2, db4) := txn_begin db3 0
        match insert_id db4 2 t2 with
        | none => none
        | some db5 =>
          match commit db5 t2 with
          | none => none
          | some db6 =>
            match db_checkpoint db6 with
            | some (0, db7) => some (db_close db7)
            | _ => none

/-- Reopens the file of `persist_file`, begins a transaction and selects id `n`:
the id of the new transaction and what `tuple_select` hands back. -/
def persist_reopen_select (n : Int) : Option (Nat × select_result) :=
  match persist_file with
  | none => none
  | some file =>
    match open_db file with
    | none => none
    | some db =>
      let (t, db1) := txn_begin db 0
      (select_id db1 n t).map (fun r => (t, r))

/-- Scenario of `test_rollback` (S4 after a first committed transaction): id 1 is
inserted and committed, id 2 is inserted and rolled back, then a new transaction
selects id `n`: the id of that transaction and what `tuple_select` hands back. -/
def rollback_select (n : Int) : Option (Nat × select_result) :=
  match fresh_db with
  | none => none
  | some db =>
    let (t1, db1) := txn_begin db 0
    match insert_id db1 1 t1 with
    | none => none
    | some db2 =>
      match commit db2 t1 with
      | none => none
      | some db3 =>
        let (t2, db4) := txn_begin db3 0
        match insert_id db4 2 t2 with
        | none => none
        | some db5 =>
          match rollback db5 t2 with
          | none => none
          | some db6 =>
            let (t3, db7) := txn_begin db6 0
            (select_id db7 n t3).map (fun r => (t3, r))

/-! ## The visibility rule in the words of the specification -/

/-- The state recorded for the transaction a header field identifies: the state
of the slot `find_transaction` returns. -/
def txn_state_of (manager : transaction_manager_t) (txn_id : Nat) : Option transaction_state_t :=
  (find_transaction manager txn_id).map (fun t => t.state)

/-- The four conditions of the specification's visibility rule. -/
def visible_spec (header : tuple_header_t) (viewer : Nat) (manager : transaction_manager_t) :
    Prop :=
  header.is_deleted = false ∧
  header.xmin ≤ viewer ∧
  (txn_state_of manager header.xmin = some transaction_state_t.TXN_STATE_COMMITTED ∨
    header.xmin = viewer) ∧
  (header.xmax = 0 ∨ header.xmax > viewer ∨
    (txn_state_of manager header.xmax ≠ some transaction_state_t.TXN_STATE_COMMITTED ∧
      header.xmax ≠ viewer))

/-- A manager with one committed transaction, id 1, in its first slot. -/
def one_committed : transaction_manager_t :=
  { transactions := txn_manager_create.transactions.set 0
      { txn_id := 1, state := transaction_state_t.TXN_STATE_COMMITTED, start_time := 0 },
    next_txn_id := 2 }

/-- What C6 looks at after a run: the schema's `root_page_id`, the kind and key
count of the node that is page `old_root`, and of the node that is page
`new_root` its kind, key count, first key and first two children. -/
structure root_view_t where
  root_page_id : Nat
  old_is_leaf : Bool
  old_key_count : Nat
  new_is_leaf : Bool
  new_key_count : Nat
  new_key : Int
  new_child0 : Nat
  new_child1 : Nat
deriving DecidableEq, Repr

def root_view (db : database_t) (old_root new_root : Nat) : Option root_view_t :=
  match (page_content db old_root).as_node, (page_content db new_root).as_node with
  | some o, some n =>
    some { root_page_id := (db.schema 0).root_page_id,
           old_is_leaf := o.is_leaf, old_key_count := o.key_count,
           new_is_leaf := n.is_leaf, new_key_count := n.key_count,
           new_key := (n.keys.getD 0 zero_value).int_val,
           new_child0 := n.children.getD 0 0, new_child1 := n.children.getD 1 0 }
  | _, _ => none

/-! ## Invariants and relations used by the general theorems -/

/-- No two frames hold the same page. -/
def frames_unique (db : database_t) : Prop :=
  ∀ i j, (db.frame i).page_id = (db.frame j).page_id → (db.frame i).page_id ≠ 0 → i = j

/-- Every frame that is not dirty holds the bytes the file has for its page. -/
def frames_clean (db : database_t) : Prop :=
  ∀ i, (db.frame i).page_id ≠ 0 → (db.frame i).is_dirty = false →
    (db.frame i).data = file_content db.data_file (db.frame i).page_id

/-- Number of frames of the pool. -/
def database_t.capacity (db : database_t) : Nat := db.buffer_pool.pages.length

/-- What the storage operations leave alone: the number of frames, the
transaction manager and the catalog. -/
structure same_env (db db' : database_t) : Prop where
  cap : db'.capacity = db.capacity
  txn : db'.txn_manager = db.txn_manager
  schemas : db'.schemas = db.schemas
  schema_count : db'.schema_count = db.schema_count
  max_schemas : db'.max_schemas = db.max_schemas

/-- Some frame of the pool is not pinned. -/
def free_frame (db : database_t) : Prop :=
  ∃ j, j < db.capacity ∧ (db.frame j).pin_count = 0

/-- The state `db'` is reached from `db` by an operation that keeps the pool
invariants, releases every pin it takes, and does not evict a pinned frame. -/
structure balanced (db db' : database_t) : Prop where
  env : same_env db db'
  unique : frames_unique db'
  clean : frames_clean db'
  pins : ∀ j, (db'.frame j).pin_count = (db.frame j).pin_count
  held : ∀ j, (db.frame j).pin_count > 0 → (db'.frame j).page_id = (db.frame j).page_id

/-- Frame `i` of `db'` holds page `p` with one pin more than in `db`; otherwise
`db'` is reached from `db` by a balanced step. -/
structure acquired (db db' : database_t) (i p : Nat) : Prop where
  env : same_env db db'
  unique : frames_unique db'
  clean : frames_clean db'
  lt : i < db'.capacity
  page_id : (db'.frame i).page_id = p
  pin : (db'.frame i).pin_count = (db.frame i).pin_count + 1
  pins : ∀ j, j ≠ i → (db'.frame j).pin_count = (db.frame j).pin_count
  held : ∀ j, (db.frame j).pin_count > 0 → (db'.frame j).page_id = (db.frame j).page_id

/-- What `btree_search` reports for a leaf: the tuple location stored with the key,
when the position found holds an equal key. -/
def leaf_lookup (node : btree_node_t) (key : value_t) : Option (Nat × Nat) :=
  if btree_find_key_position node key < node.key_count ∧
      value_compare key (node.keys.getD (btree_find_key_position node key) zero_value) = 0 then
    some (node.tuple_page_ids.getD (btree_find_key_position node key) 0,
      node.tuple_slots.getD (btree_find_key_position node key) 0)
  else none

/-- Two different frames of the pool are not pinned. -/
def two_free_frames (db : database_t) : Prop :=
  ∃ a b, a ≠ b ∧ a < db.capacity ∧ b < db.capacity ∧
    (db.frame a).pin_count = 0 ∧ (db.frame b).pin_count = 0

/-- The search key's comparison with the key in cell `i` of the node. -/
def key_cmp (node : btree_node_t) (key : value_t) (i : Nat) : Int :=
  value_compare key (node.keys.getD i zero_value)

/-- The position `r` is the lower bound of the key among the node's keys: the key is
greater than every key before `r` and less than every key after `r`, and not
greater than the key at `r`. -/
def is_lower_bound (node : btree_node_t) (key : value_t) (r : Nat) : Prop :=
  r ≤ node.key_count ∧ (∀ i, i < r → 0 < key_cmp node key i) ∧
    (∀ i, r ≤ i → i < node.key_count → key_cmp node key i ≤ 0) ∧
    (∀ i, r < i → i < node.key_count → key_cmp node key i < 0)

/-- The node's keys are in order as seen from the key: once the key is
not greater than a key of the node, it is less than all later ones. -/
def ordered_for (node : btree_node_t) (key : value_t) : Prop :=
  ∀ i j, i < j → j < node.key_count → key_cmp node key i ≤ 0 → key_cmp node key j < 0

/-- The value `a` is below `b`: same type tag, and the comparator says less. -/
def value_lt (a b : value_t) : Prop := a.type = b.type ∧ value_compare a b < 0

/-- The keys in use of the node are strictly increasing. -/
def keys_sorted (node : btree_node_t) : Prop :=
  ∀ j, j < node.key_count → ∀ i, i < j →
    value_lt (node.keys.getD i zero_value) (node.keys.getD j zero_value)

/-- The pool invariants in a form that can be evaluated: no two frames hold the
same page, and every frame that is not dirty holds the file's bytes of its page. -/
def pool_ok (db : database_t) : Prop :=
  db.buffer_pool.pages.Pairwise (fun a b => a.page_id ≠ b.page_id ∨ a.page_id = 0) ∧
  ∀ f ∈ db.buffer_pool.pages, f.page_id ≠ 0 → f.is_dirty = false →
    f.data = file_content db.data_file f.page_id

instance pool_ok_decidable (db : database_t) : Decidable (pool_ok db) := by
  unfold pool_ok
  infer_instance

/-- A heap page holds `TUPLES_PER_PAGE` tuple records. -/
def page_ok : page_data → Prop
  | page_data.heap _ ts => ts.length = TUPLES_PER_PAGE
  | _ => True

instance page_ok_decidable (d : page_data) : Decidable (page_ok d) := by
  cases d <;> unfold page_ok <;> infer_instance

/-- Every page, in the pool and in the file, has a well-formed layout. -/
def pages_ok (db : database_t) : Prop :=
  (∀ f ∈ db.buffer_pool.pages, page_ok f.data) ∧ ∀ d ∈ db.data_file, page_ok d

instance pages_ok_decidable (db : database_t) : Decidable (pages_ok db) := by
  unfold pages_ok
  infer_instance

/-- The databases have the same pool, file and catalog; they may differ in the
transaction manager. -/
structure same_storage (db db' : database_t) : Prop where
  file : db'.data_file = db.data_file
  pool : db'.buffer_pool = db.buffer_pool
  schemas : db'.schemas = db.schemas
  schema_count : db'.schema_count = db.schema_count

/-- The table `name` is schema `si` of the catalog and holds at most 48 keys in a
single leaf `node`: its root page is that leaf, the node's arrays have their full
length, the keys in use are strictly increasing, and every key in use points to
a slot of a page other than page 0. -/
structure leaf_table (db : database_t) (name : List Nat) (si : Nat) (node : btree_node_t) :
    Prop where
  schema : find_table_schema db name = some si
  root_ne : (db.schema si).root_page_id ≠ 0
  root : page_content db (db.schema si).root_page_id = page_data.btree_node node
  leaf : node.is_leaf = true
  count : node.key_count ≤ BTREE_ORDER - 1
  keys_len : node.keys.length = BTREE_ORDER
  page_ids_len : node.tuple_page_ids.length = BTREE_ORDER
  slots_len : node.tuple_slots.length = BTREE_ORDER
  sorted : keys_sorted node
  locations : ∀ i, i < node.key_count →
    node.tuple_page_ids.getD i 0 ≠ 0 ∧ node.tuple_slots.getD i 0 < TUPLES_PER_PAGE

/-- The step `DELETE FROM t WHERE id = n` in transaction `txn`, expected to succeed. -/
def delete_id (db : database_t) (n : Int) (txn : Nat) : Option database_t :=
  match tuple_delete run_fuel db t_name (int_value n) txn with
  | some (0, db1) => some db1
  | _ => none

/-- Two deleters of one row: transaction 1 inserts id 1 and commits; transactions 2
and 3 begin; transaction 3 deletes id 1 and commits; transaction 2, still
Active, deletes id 1 as well; transaction 4 begins and selects id 1. Every
step before the select is expected to succeed. The result is the id of the last
transaction and what `tuple_select` hands back. -/
def two_deleters_select : Option (Nat × select_result) :=
  match fresh_db with
  | none => none
  | some db =>
    let (t1, db1) := txn_begin db 0
    match insert_id db1 1 t1 with
    | none => none
    | some db2 =>
      match commit db2 t1 with
      | none => none
      | some db3 =>
        let (t2, db4) := txn_begin db3 0
        let (t3, db5) := txn_begin db4 0
        match delete_id db5 1 t3 with
        | none => none
        | some db6 =>
          match commit db6 t3 with
          | none => none
          | some db7 =>
            match delete_id db7 1 t2 with
            | none => none
            | some db8 =>
              let (t4, db9) := txn_begin db8 0
              (select_id db9 1 t4).map (fun r => (t4, r))

/-- A new database with table `t`, in which transaction 1 has begun. -/
def begun_db : database_t :=
  match fresh_db with
  | some db => (txn_begin db 0).2
  | none => db_create []

/-- The empty leaf that `table_create` writes. -/
def empty_leaf : btree_node_t := { zero_node with is_leaf := true }

/-- The state `begun_db` after transaction 1 inserted id 1 and committed and
transaction 2 began. -/
def one_row_db : database_t :=
  match insert_id begun_db 1 1 with
  | none => begun_db
  | some db =>
    match commit db 1 with
    | none => begun_db
    | some db1 => (txn_begin db1 0).2

/-- The root leaf of table `t` in `one_row_db`. -/
def one_row_leaf : btree_node_t :=
  ((page_content one_row_db 2).as_node).getD zero_node

/-- The state `one_row_db` after transaction 2 deleted id 1. -/
def one_row_deleted : database_t :=
  match delete_id one_row_db 1 2 with
  | some db => db
  | none => one_row_db

/-- The transaction manager after transaction 2 committed in `one_row_deleted`. -/
def deleter_committed : transaction_manager_t :=
  ((txn_commit one_row_deleted 2).2.txn_manager).getD txn_manager_create

/-- The transaction manager of `begun_db`. -/
def begun_manager : transaction_manager_t := (begun_db.txn_manager).getD txn_manager_create

/-- The tuple with the header stamps `xmin` and `xmax`, not flagged deleted. -/
def with_stamps (tuple : tuple_t) (xmin xmax : Nat) : tuple_t :=
  { tuple with header := { xmin := xmin, xmax := xmax, is_deleted := false } }

/-- The state `begun_db` after transaction 1 inserted id 1. -/
def inserted_db : database_t := (insert_id begun_db 1 1).getD begun_db

/-- The state `inserted_db` after transaction 2 began. -/
def second_begun_db : database_t := (txn_begin inserted_db 0).2

/-- The transaction manager of `second_begun_db`: transactions 1 and 2 Active. -/
def two_active_manager : transaction_manager_t :=
  (second_begun_db.txn_manager).getD txn_manager_create

/-- The state `second_begun_db` after transaction 1 committed. -/
def first_committed_db : database_t := (txn_commit second_begun_db 1).2

/-! ## States, runs and contracts used by the claims on the pool, the transaction
manager and the catalog -/

/-- The page ids held by the frames that are pinned, in frame order. -/
def pinned_pages (db : database_t) : List Nat :=
  (db.buffer_pool.pages.filter (fun f => decide (0 < f.pin_count))).map (fun f => f.page_id)

/-- The state `begun_db` with the root page of table `t` pinned once. -/
def root_pinned_db : database_t := (buffer_get_page begun_db 2).2

/-- The state `inserted_db` with the heap page 3 pinned once (it is in frame 0). -/
def heap_pinned_db : database_t := (buffer_get_page inserted_db 3).2

/-- Pins the pages `first, first + 1, ...`, `count` of them, one `buffer_get_page` each
without a release. -/
def pin_pages : Nat → Nat → database_t → database_t
  | 0, _, db => db
  | count + 1, first, db => pin_pages count (first + 1) (buffer_get_page db first).2

/-- A new database whose pool was made by `buffer_pool_create` with 3 frames. -/
def small_pool_db : database_t := { db_create [] with buffer_pool := buffer_pool_create 3 }

/-- The state `small_pool_db` after the pages 2, 3 and 4 were pinned and none released. -/
def all_pinned_db : database_t := pin_pages 3 2 small_pool_db

/-- The slot record `txn_manager_create` writes into every slot. -/
def free_slot : transaction_t :=
  { txn_id := 0, state := transaction_state_t.TXN_STATE_ABORTED, start_time := 0 }

/-- The manager after `txn_begin` took the slot `slot` at time `now`. -/
def manager_after_begin (manager : transaction_manager_t) (slot now : Nat) :
    transaction_manager_t :=
  { transactions := manager.transactions.set slot
      { txn_id := manager.next_txn_id, state := transaction_state_t.TXN_STATE_ACTIVE,
        start_time := now },
    next_txn_id := (manager.next_txn_id + 1) % 2 ^ 64 }

/-- The manager after `txn_commit` or `txn_abort` set the state of the slot `slot`. -/
def manager_after_finish (manager : transaction_manager_t) (slot : Nat)
    (final : transaction_state_t) : transaction_manager_t :=
  let txn := manager.transactions.getD slot free_slot
  { manager with transactions := manager.transactions.set slot { txn with state := final } }

/-- No Active slot shares its transaction id with another slot. -/
def slots_distinct (manager : transaction_manager_t) : Prop :=
  ∀ i j, i < j → j < manager.transactions.length →
    (manager.transactions.getD i free_slot).txn_id =
      (manager.transactions.getD j free_slot).txn_id →
    (manager.transactions.getD i free_slot).state ≠ transaction_state_t.TXN_STATE_ACTIVE ∧
      (manager.transactions.getD j free_slot).state ≠ transaction_state_t.TXN_STATE_ACTIVE

/-- The invariant of a manager made by `txn_manager_create` and used through
`txn_begin`, `txn_commit` and `txn_abort` while the counter has not wrapped: the
counter is at least 1 and above every id in a slot, a slot with id 0 is not
Active, and no id other than 0 is in two slots. -/
def manager_wf (manager : transaction_manager_t) : Prop :=
  1 ≤ manager.next_txn_id ∧
  (∀ i, i < manager.transactions.length →
    (manager.transactions.getD i free_slot).txn_id < manager.next_txn_id) ∧
  (∀ i, i < manager.transactions.length →
    (manager.transactions.getD i free_slot).txn_id = 0 →
    (manager.transactions.getD i free_slot).state ≠ transaction_state_t.TXN_STATE_ACTIVE) ∧
  ∀ i j, i < j → j < manager.transactions.length →
    (manager.transactions.getD i free_slot).txn_id =
      (manager.transactions.getD j free_slot).txn_id →
    (manager.transactions.getD i free_slot).txn_id = 0

/-- The contract of `txn_commit` and `txn_abort` in the words of the specification,
for the result `result` of the call on `db` with manager `manager`: the call
returns 0 exactly when some slot holds `txn_id` in state Active; on success the
state of that slot becomes `final` and nothing else changes (no other slot, not
`next_txn_id`); a failing call returns -1 and changes nothing. -/
def finish_contract (result : Int × database_t) (final : transaction_state_t)
    (db : database_t) (manager : transaction_manager_t) (txn_id : Nat) : Prop :=
  (result.1 = 0 ↔ ∃ i, i < manager.transactions.length ∧
      (manager.transactions.getD i free_slot).txn_id = txn_id ∧
      (manager.transactions.getD i free_slot).state = transaction_state_t.TXN_STATE_ACTIVE) ∧
  (result.1 = 0 → ∃ i, i < manager.transactions.length ∧
      (manager.transactions.getD i free_slot).txn_id = txn_id ∧
      (manager.transactions.getD i free_slot).state = transaction_state_t.TXN_STATE_ACTIVE ∧
      result.2 = { db with txn_manager := some (manager_after_finish manager i final) }) ∧
  (result.1 ≠ 0 → result = (-1, db))

/-- One call on the transaction manager. -/
inductive txn_call where
  | call_begin (now : Nat)
  | call_commit (txn_id : Nat)
  | call_abort (txn_id : Nat)
deriving DecidableEq, Repr

/-- Runs the calls in order on the database: the ids returned by the `txn_begin`
calls that succeeded (returned an id other than 0), in call order, and the
final state. -/
def run_calls : List txn_call → database_t → List Nat × database_t
  | [], db => ([], db)
  | txn_call.call_begin now :: calls, db =>
    let r := txn_begin db now
    let rest := run_calls calls r.2
    (if r.1 = 0 then rest.1 else r.1 :: rest.1, rest.2)
  | txn_call.call_commit txn_id :: calls, db => run_calls calls (txn_commit db txn_id).2
  | txn_call.call_abort txn_id :: calls, db => run_calls calls (txn_abort db txn_id).2

/-- The value of `next_txn_id` the next `txn_begin` reads: that of the manager, or 1
when `txn_begin` has yet to create the manager. -/
def next_id (db : database_t) : Nat :=
  match db.txn_manager with
  | some manager => manager.next_txn_id
  | none => 1

/-- The state in which `storage_allocate_page` hands out page `n` next: the pool
invariants hold, a frame that holds no page is not pinned, and the metadata page
(in the pool or, when it is not resident, in the file) has `next_page_id = n`,
which is not 0. The counter is a C `int`; the embedding takes it as a natural
number and leaves its overflow past `2 ^ 31 - 1` out. -/
structure alloc_ok (db : database_t) (n : Nat) : Prop where
  unique : frames_unique db
  clean : frames_clean db
  empty_unpinned : ∀ j, (db.frame j).page_id = 0 → (db.frame j).pin_count = 0
  next : ∃ m ss, page_content db METADATA_PAGE_ID = page_data.metadata m ss ∧
    m.next_page_id = n
  nonzero : n ≠ 0

/-- The state after `db_create` on an empty file and `db_load_metadata`. -/
def empty_loaded_db : database_t :=
  ((db_load_metadata (db_create [])).map Prod.snd).getD (db_create [])

/-- The page `db_save_metadata` writes: the catalog's count, the page's own
`next_page_id`, and the first `schema_count` schema records of the catalog in
front of what the page held behind them. -/
def saved_metadata (db : database_t) (m : metadata_t) (ss : List table_schema_t) : page_data :=
  page_data.metadata { schema_count := db.schema_count, next_page_id := m.next_page_id }
    (db.schemas.take db.schema_count ++ ss.drop db.schema_count)

/-- Inserts the `count` ids `first, first - 1, ...` in descending order, each expected
to succeed. -/
def insert_ids_down : Nat → Int → Nat → database_t → Option database_t
  | 0, _, _, db => some db
  | count + 1, first, txn, db =>
    match insert_id db first txn with
    | some db1 => insert_ids_down count (first - 1) txn db1
    | none => none

/-- The state after one transaction inserted the 48 ids 1048, 1047, ..., 1001. -/
def full_leaf_db : Option database_t :=
  match fresh_db with
  | none => none
  | some db =>
    let (t1, db1) := txn_begin db 0
    insert_ids_down 48 1048 t1 db1

/-- The root leaf of table `t` in `full_leaf_db`. -/
def full_leaf : Option btree_node_t :=
  full_leaf_db.bind (fun db => (page_content db 2).as_node)

/-- The id of the page `storage_allocate_page` hands out next in `full_leaf_db`. -/
def full_leaf_next_page : Option Nat :=
  full_leaf_db.bind (fun db =>
    (page_content db METADATA_PAGE_ID).as_metadata.map (fun r => r.1.next_page_id))

/-! ## `sql.c`, and the states and relations used by the claims on the SQL layer, table
creation, search and checkpoint -/

inductive sql_command_t where
  | SQL_CREATE_TABLE
  | SQL_INSERT
  | SQL_SELECT
  | SQL_DELETE
  | SQL_BEGIN
  | SQL_COMMIT
  | SQL_ROLLBACK
  | SQL_UNKNOWN
deriving DecidableEq, Repr

structure sql_statement_t where
  command : sql_command_t
  table_name : List Nat
  columns : List column_def_t
  column_count : Nat
  values : List value_t
  value_count : Nat
  where_key : value_t
  has_where : Bool
deriving DecidableEq, Repr

/-- The function `sql_execute` of `sql.c` from the point where `sql_parse` has returned:
`parsed` is the statement record the parser filled, or `none` when it returned 0
(the parser writes only that local record). `current_txn` is the value of
`*current_txn`, `now` the value of `time(NULL)` for `txn_begin`. The result is
the return value, the database and `*current_txn` after the call. The local
`tuple` of the INSERT case is given the first `value_count` values; its header
is written by `tuple_insert`. The printing of a selected row is left out. -/
def sql_execute (fuel : Nat) (db : database_t) (parsed : Option sql_statement_t)
    (current_txn now : Nat) : Option (Int × database_t × Nat) :=
  match parsed with
  | none => some (-1, db, current_txn)
  | some stmt =>
    match stmt.command with
    | sql_command_t.SQL_CREATE_TABLE =>
      (table_create db stmt.table_name stmt.columns stmt.column_count).map
        (fun r => (r.1, r.2, current_txn))
    | sql_command_t.SQL_INSERT =>
      if current_txn = 0 then some (-1, db, current_txn)
      else
        let tuple : tuple_t :=
          { header := { xmin := 0, xmax := 0, is_deleted := false },
            values := stmt.values.take stmt.value_count, column_count := stmt.value_count }
        (tuple_insert fuel db stmt.table_name tuple current_txn).map
          (fun r => (r.1, r.2, current_txn))
    | sql_command_t.SQL_SELECT =>
      if current_txn = 0 then some (-1, db, current_txn)
      else
        let key := if stmt.has_where then some stmt.where_key else none
        (tuple_select fuel db stmt.table_name key current_txn).map
          (fun r => (r.1.ret, r.2, current_txn))
    | sql_command_t.SQL_DELETE =>
      if current_txn = 0 then some (-1, db, current_txn)
      else if !stmt.has_where then some (-1, db, current_txn)
      else
        (tuple_delete fuel db stmt.table_name stmt.where_key current_txn).map
          (fun r => (r.1, r.2, current_txn))
    | sql_command_t.SQL_BEGIN =>
      let r := txn_begin db now
      some (if r.1 > 0 then 0 else -1, r.2, r.1)
    | sql_command_t.SQL_COMMIT =>
      if current_txn = 0 then some (-1, db, current_txn)
      else
        let r := txn_commit db current_txn
        some (r.1, r.2, 0)
    | sql_command_t.SQL_ROLLBACK =>
      if current_txn = 0 then some (-1, db, current_txn)
      else
        let r := txn_abort db current_txn
        some (r.1, r.2, 0)
    | sql_command_t.SQL_UNKNOWN => some (-1, db, current_txn)

/-- A statement record with every field zero, as `sql_parse` starts from (`memset`). -/
def zero_statement : sql_statement_t :=
  { command := sql_command_t.SQL_CREATE_TABLE, table_name := [],
    columns := List.replicate MAX_COLUMNS zero_column, column_count := 0,
    values := List.replicate MAX_COLUMNS zero_value, value_count := 0,
    where_key := zero_value, has_where := false }

/-- The record `sql_parse` fills for `INSERT INTO t VALUES (n)`. -/
def insert_statement (n : Int) : sql_statement_t :=
  { zero_statement with
    command := sql_command_t.SQL_INSERT, table_name := t_name,
    values := (List.replicate MAX_COLUMNS zero_value).set 0 (int_value n), value_count := 1 }

/-- The record `sql_parse` fills for `SELECT * FROM t`. -/
def select_all_statement : sql_statement_t :=
  { zero_statement with command := sql_command_t.SQL_SELECT, table_name := t_name }

/-- The record `sql_parse` fills for `DELETE FROM t WHERE id = n`. -/
def delete_statement (n : Int) : sql_statement_t :=
  { zero_statement with
    command := sql_command_t.SQL_DELETE, table_name := t_name,
    where_key := int_value n, has_where := true }

/-- The root leaf of table `t` after the ids `1 .. count` were inserted. -/
def s2_root_leaf (count : Nat) : Option btree_node_t :=
  (s2_inserted count).bind (fun db => (page_content db 2).as_node)

/-- The node `btree_insert_key_at_position` leaves when the leaf of `s2_root_leaf count`
takes the key `count + 1` with the tuple location (`tuple_page_id`, 0). -/
def s2_leaf_after_insert (count tuple_page_id : Nat) : Option btree_node_t :=
  (s2_root_leaf count).map (fun n =>
    btree_insert_key_at_position n (btree_find_key_position n (int_value (count + 1)))
      (int_value (count + 1)) tuple_page_id 0)

/-- The return value of `btree_insert_recursive` on the root leaf of `s2_inserted count` for
the key `count + 1`, and the leaf's `key_count` after the call. -/
def s2_leaf_insert (count : Nat) : Option (List Int) :=
  (s2_inserted count).bind (fun db =>
    (btree_insert_recursive run_fuel db 2 (int_value (count + 1)) 3 0).bind (fun r =>
      (page_content r.2 2).as_node.map (fun n => [r.1.result, n.key_count])))

/-- The root leaf of table `t` after the ids 1, 2, 3 were inserted. -/
def three_key_leaf : btree_node_t := (s2_root_leaf 3).getD zero_node

/-- The schema record `table_create` leaves at index `schema_count`: the name cut to 63
bytes, the column count as given, the first `min column_count MAX_COLUMNS` of the
given columns in front of what the record held behind them, and the root page. -/
def created_schema (db : database_t) (table_name : List Nat) (columns : List column_def_t)
    (column_count root_page_id : Nat) : table_schema_t :=
  { name := table_name.take 63,
    column_count := column_count,
    columns := columns.take (min column_count MAX_COLUMNS) ++
      (db.schema db.schema_count).columns.drop (min column_count MAX_COLUMNS),
    root_page_id := root_page_id }

/-- The database after `table_create` has written name, column count and columns into the
schema record at index `schema_count`, before the root page is allocated. -/
def with_schema_record (db : database_t) (table_name : List Nat) (columns : List column_def_t)
    (column_count : Nat) : database_t :=
  let schema := created_schema db table_name columns column_count
    (db.schema db.schema_count).root_page_id
  { db with schemas := db.schemas.set db.schema_count schema }

/-- The database with the catalog fields replaced. -/
def with_catalog (db : database_t) (schemas : List table_schema_t) (schema_count : Nat) :
    database_t :=
  { db with schemas := schemas, schema_count := schema_count }

/-- The steps of `table_create` after `storage_allocate_page` has returned the frame
`root_page`: the page is made an empty leaf, marked dirty and written to the
file, its id is recorded in the schema record, the frame is released and
`schema_count` is advanced. -/
def table_create_finish (db2 : database_t) (root_page : Nat) : database_t :=
  let db3 := set_data db2 root_page
    (page_data.btree_node { zero_node with is_leaf := true, key_count := 0 })
  let db4 := mark_dirty db3 root_page
  let page := db4.frame root_page
  let db5 := write_page db4 page.page_id page.data
  let schema1 : table_schema_t := { db5.schema db5.schema_count with root_page_id := page.page_id }
  let db6 := { db5 with schemas := db5.schemas.set db5.schema_count schema1 }
  let db7 := buffer_release_page db6 root_page
  { db7 with schema_count := db7.schema_count + 1 }

/-- A table name of 64 bytes, one more than the name field holds with its terminator. -/
def long_name : List Nat := List.replicate 64 97

/-- A new database after `CREATE TABLE t`. -/
def created_db : database_t := fresh_db.getD (db_create [])

/-- The database after `db_create` on an empty file, `db_recovery`, and `table_create` with
the 64-byte name `long_name`; `none` when a step fails. -/
def long_name_db : Option database_t :=
  match open_db [] with
  | none => none
  | some db =>
    match table_create db long_name t_columns 1 with
    | some (0, db1) => some db1
    | _ => none

/-- The root leaf of table `t` in `inserted_db`: the key 1 alone. -/
def one_key_leaf : btree_node_t := ((page_content inserted_db 2).as_node).getD zero_node

/-- Page `p` is the root of a B+-tree of height at most `h` all of whose keys in use carry
the type tag `t`: the page holds a node, each of its keys in use has the tag, and
the node is a leaf or each of its `key_count + 1` children is the root of such a
tree of height at most `h - 1`. -/
def tagged_tree (db : database_t) (t : data_type_t) : Nat → Nat → Prop
  | 0, _ => False
  | h + 1, p => p ≠ 0 ∧ ∃ node, page_content db p = page_data.btree_node node ∧
      (∀ i, i < node.key_count → (node.keys.getD i zero_value).type = t) ∧
      (node.is_leaf = true ∨
        ∀ i, i ≤ node.key_count → tagged_tree db t h (node.children.getD i 0))

/-- A VARCHAR search key. -/
def str_value (s : List Nat) : value_t :=
  { zero_value with str_val := s, type := data_type_t.DATA_TYPE_VARCHAR }

/-- One iteration of the flush loop of `db_checkpoint`, on frame `i`. -/
def checkpoint_step (db : database_t) (i : Nat) : database_t :=
  if (db.frame i).is_dirty ∧ (db.frame i).page_id ≠ 0 then
    (write_page db (db.frame i).page_id (db.frame i).data).set_frame i
      { db.frame i with is_dirty := false }
  else db

/-- What the flush loop has done so far: every frame keeps its page, its data and
its pin count; a frame that is dirty was dirty before. The pool invariants hold,
and the file differs only in pages that frames hold. -/
structure flushed (db db' : database_t) : Prop where
  env : same_env db db'
  unique : frames_unique db'
  clean : frames_clean db'
  page_id : ∀ j, (db'.frame j).page_id = (db.frame j).page_id
  data : ∀ j, (db'.frame j).data = (db.frame j).data
  pins : ∀ j, (db'.frame j).pin_count = (db.frame j).pin_count
  dirty : ∀ j, (db'.frame j).is_dirty = true → (db.frame j).is_dirty = true
  file : ∀ q, q ≠ 0 → (∀ j, (db.frame j).page_id ≠ q) →
    file_content db'.data_file q = file_content db.data_file q

/-! ## States, runs and relations used by the claims on node splits, the page table of
the pool, transaction states, deletes and repeated inserts -/

/-- One call on the buffer pool; a `page_t *` argument is the index of a frame. -/
inductive pool_call where
  | call_get (page_id : Nat)
  | call_release (idx : Nat)
  | call_flush (idx : Nat)
deriving DecidableEq, Repr

/-- The database after one call on its buffer pool. -/
def run_pool_call (db : database_t) : pool_call → database_t
  | pool_call.call_get page_id => (buffer_get_page db page_id).2
  | pool_call.call_release idx => buffer_release_page db idx
  | pool_call.call_flush idx => buffer_flush_page db idx

/-- Runs the calls in order. -/
def run_pool_calls : List pool_call → database_t → database_t
  | [], db => db
  | c :: calls, db => run_pool_calls calls (run_pool_call db c)

/-- A pool state reached by calls: pages 7 and 9 loaded into frames 0 and 1, page 7 released
and pinned again, frame 1 flushed. -/
def three_calls_db : database_t :=
  run_pool_calls [pool_call.call_get 7, pool_call.call_get 9, pool_call.call_release 0,
    pool_call.call_get 7, pool_call.call_flush 1] (db_create [])

/-- The row the SQL layer builds for `INSERT INTO t VALUES ('x')`. -/
def str_row (s : List Nat) : tuple_t :=
  { header := { xmin := 0, xmax := 0, is_deleted := false }, values := [str_value s],
    column_count := 1 }

/-- A leaf with 49 keys, as `btree_insert_key_at_position` leaves it before a split: the keys
1 .. 49 in order, key `i` with the tuple location (`i + 2`, 0). -/
def split_ready_leaf : btree_node_t :=
  { is_leaf := true, key_count := BTREE_ORDER,
    keys := (List.range BTREE_ORDER).map (fun i => int_value (i + 1)),
    children := List.replicate (BTREE_ORDER + 1) 0,
    tuple_page_ids := (List.range BTREE_ORDER).map (fun i => i + 3),
    tuple_slots := List.replicate BTREE_ORDER 0 }

/-- A state of the shape `btree_insert_recursive` hands to `btree_split_node`: the root page 2
of table `t` in `begun_db` is pinned by `btree_load_node` (in frame 0), and the frame holds
`split_ready_leaf`; the dirty flag of the frame is as `btree_load_node` left it. -/
def split_ready_db : database_t :=
  set_data (btree_load_node begun_db 2).2 0 (page_data.btree_node split_ready_leaf)

/-- Byte offset of `keys[i]` in `btree_node_t` (`tinydb.h`) on the usual layout: the two `int`
fields `is_leaf` and `key_count`, then cells of `sizeof(value_t) = 72` bytes (the 64-byte union
`data` at offset 0, then `type` and `is_null`). -/
def keys_offset (i : Nat) : Nat := 8 + 72 * i

/-- Byte offset of `tuple_page_ids[i]`: the pointers union follows the `BTREE_ORDER - 1` declared
cells of `keys`; a cell is a `page_id_t` of 8 bytes. -/
def tuple_page_ids_offset (i : Nat) : Nat := keys_offset (BTREE_ORDER - 1) + 8 * i

/-- Byte offset of `tuple_slots[i]`: the array follows the `BTREE_ORDER - 1` declared cells of
`tuple_page_ids`; a cell is a `slot_id_t` of 4 bytes. -/
def tuple_slots_offset (i : Nat) : Nat := tuple_page_ids_offset (BTREE_ORDER - 1) + 4 * i

/-- What `btree_search` reports for the id `n`, started at page `root` of the state after the
ids `1 .. 49` were inserted. -/
def s2_search_from (root : Nat) (n : Int) : Option (Option (Nat × Nat)) :=
  (s2_inserted 49).bind (fun db =>
    (btree_search run_fuel db root (some (int_value n))).map Prod.fst)

/-- The node on page `page_id` after the ids `1 .. 49` were inserted: kind, `key_count`, first
key, and the first two children. -/
def s2_split_node (page_id : Nat) : Option (Bool × Nat × Int × Nat × Nat) :=
  (s2_inserted 49).bind (fun db =>
    (page_content db page_id).as_node.map (fun n =>
      (n.is_leaf, n.key_count, (n.keys.getD 0 zero_value).int_val, n.children.getD 0 0,
        n.children.getD 1 0)))

/-- The transaction id `txn_id` is recorded in state `st`: a slot of the manager holds the id
with that state. -/
def recorded (db : database_t) (txn_id : Nat) (st : transaction_state_t) : Prop :=
  match db.txn_manager with
  | none => False
  | some manager => ∃ t ∈ manager.transactions, t.txn_id = txn_id ∧ t.state = st

instance recorded_decidable (db : database_t) (txn_id : Nat) (st : transaction_state_t) :
    Decidable (recorded db txn_id st) := by
  unfold recorded
  cases db.txn_manager <;> infer_instance

/-- Every slot that holds `txn_id` has the state `st`, and the counter is past `txn_id`. -/
def settled (db : database_t) (txn_id : Nat) (st : transaction_state_t) : Prop :=
  ∃ manager, db.txn_manager = some manager ∧ txn_id < manager.next_txn_id ∧
    ∀ t ∈ manager.transactions, t.txn_id = txn_id → t.state = st

/-- The manager of the database, when there is one, satisfies `manager_wf`. -/
def manager_ok (db : database_t) : Prop :=
  ∀ manager, db.txn_manager = some manager → manager_wf manager

/-- The calls of the example: two transactions begin, transaction 2 commits. -/
def two_begun_one_committed : List txn_call :=
  [txn_call.call_begin 0, txn_call.call_begin 0, txn_call.call_commit 2]

/-- The later calls of the example: transaction 1 aborts, then `txn_abort` and `txn_commit` are
tried on transaction 2. -/
def later_finish_calls : List txn_call :=
  [txn_call.call_abort 1, txn_call.call_abort 2, txn_call.call_commit 2]

/-- The transaction manager of `inserted_db`: transaction 1 is Active. -/
def inserted_manager : transaction_manager_t :=
  (inserted_db.txn_manager).getD txn_manager_create

/-- The heap page 3 of `inserted_db`: the row of id 1. -/
def inserted_heap : Nat × List tuple_t :=
  ((page_content inserted_db 3).as_heap).getD (0, [])

/-- The state `one_row_db` after transaction 3 began: the row of id 1 is committed,
transactions 2 and 3 are Active. -/
def third_begun_db : database_t := (txn_begin one_row_db 0).2

/-- The state `third_begun_db` after transaction 3 deleted id 1. -/
def third_deleted_db : database_t :=
  ((tuple_delete run_fuel third_begun_db t_name (int_value 1) 3).map Prod.snd).getD third_begun_db

/-- The state `third_deleted_db` after transaction 3 aborted. -/
def third_aborted_db : database_t := (txn_abort third_deleted_db 3).2

/-- The slot that holds the transaction id in the manager of the database. -/
def slot_of (db : database_t) (txn_id : Nat) : Option Nat :=
  db.txn_manager.bind (fun manager => find_transaction_idx txn_id manager.transactions)

/-- A rolled-back DELETE followed by a DELETE of an older transaction. In
`third_aborted_db` the next `txn_begin` returns transaction 4; transaction 4 selects id 1;
transaction 2, still Active, deletes id 1; transaction 4 selects id 1 again. The result lists
the id of the new transaction, the slot that held transaction 3 before it aborted, the slot of
the new transaction, the `count` of the first select, the return value of the second DELETE,
and the `count` of the second select. -/
def redelete_after_rollback : Option (List Int) :=
  let r4 := txn_begin third_aborted_db 0
  match tuple_select run_fuel r4.2 t_name (some (int_value 1)) r4.1 with
  | none => none
  | some (s1, db5) =>
    match tuple_delete run_fuel db5 t_name (int_value 1) 2 with
    | none => none
    | some (d, db6) =>
      match tuple_select run_fuel db6 t_name (some (int_value 1)) r4.1 with
      | none => none
      | some (s2, _) =>
        some [r4.1, ((slot_of third_deleted_db 3).getD 1024 : Nat),
          ((slot_of r4.2 r4.1).getD 1024 : Nat), s1.count, d, s2.count]

/-- The transaction manager of `third_begun_db`: transaction 2 in slot 0 and transaction 3 in
slot 1, both Active. -/
def third_manager : transaction_manager_t :=
  (third_begun_db.txn_manager).getD txn_manager_create

/-- The heap page 3 of `third_begun_db`: the committed row of id 1. -/
def third_heap : Nat × List tuple_t :=
  ((page_content third_begun_db 3).as_heap).getD (0, [])

/-- The calls on the transaction manager that lead to `third_begun_db`. -/
def third_begun_calls : List txn_call :=
  [txn_call.call_begin 0, txn_call.call_commit 1, txn_call.call_begin 0, txn_call.call_begin 0]

/-- A table that is a single leaf of keys of one type tag, in a state in which
`tuple_insert` and `tuple_delete` run: the pool invariants hold with two frames free, the leaf's
keys in use are strictly increasing and carry the tag `t`, the metadata page holds the
allocator's counter, every page from the counter on is a zero page, every tuple location in
the leaf is a heap page below the counter, and there is a transaction manager. -/
structure table_kept (db : database_t) (name : List Nat) (si : Nat) (t : data_type_t)
    (node : btree_node_t) (m : metadata_t) (ss : List table_schema_t) : Prop where
  unique : frames_unique db
  clean : frames_clean db
  free : two_free_frames db
  table : leaf_table db name si node
  tags : ∀ i, i < node.key_count → (node.keys.getD i zero_value).type = t
  metadata : page_content db METADATA_PAGE_ID = page_data.metadata m ss
  next_ne : m.next_page_id ≠ 0
  fresh : ∀ q, m.next_page_id ≤ q → page_content db q = page_data.zero
  rows : ∀ i, i < node.key_count → node.tuple_page_ids.getD i 0 < m.next_page_id ∧
    ((page_content db (node.tuple_page_ids.getD i 0)).as_heap).isSome = true
  manager : db.txn_manager.isSome = true

/-- The key is among the keys in use of the node. -/
def holds_key (node : btree_node_t) (k : value_t) : Prop :=
  ∃ i, i < node.key_count ∧ value_compare k (node.keys.getD i zero_value) = 0

/-- One operation on a table or on the transaction manager. -/
inductive table_op where
  | op_insert (tuple : tuple_t) (txn_id : Nat)
  | op_delete (key : value_t) (txn_id : Nat)
  | op_btree_delete (key : value_t)
  | op_txn (call : txn_call)
deriving DecidableEq, Repr

/-- Runs one operation on the table `name`; `none` when the call has no result in the
embedding. `btree_delete` returns 0 and changes nothing. -/
def run_op (fuel : Nat) (name : List Nat) : table_op → database_t → Option database_t
  | table_op.op_insert tuple txn_id, db => (tuple_insert fuel db name tuple txn_id).map Prod.snd
  | table_op.op_delete key txn_id, db => (tuple_delete fuel db name key txn_id).map Prod.snd
  | table_op.op_btree_delete key, db =>
    match find_table_schema db name with
    | none => some db
    | some si => if btree_delete db (db.schema si).root_page_id key = 0 then some db else none
  | table_op.op_txn call, db => some (run_calls [call] db).2

/-- Runs the operations in order. -/
def run_ops (fuel : Nat) (name : List Nat) : List table_op → database_t → Option database_t
  | [], db => some db
  | op :: ops, db =>
    match run_op fuel name op db with
    | none => none
    | some db1 => run_ops fuel name ops db1

/-- An insert operation gives a row with the column count of the schema and a primary key
of type tag `t`; the other operations are not restricted. -/
def op_typed (schema : table_schema_t) (t : data_type_t) : table_op → Prop
  | table_op.op_insert tuple txn_id =>
    tuple.column_count = schema.column_count ∧
      (extract_primary_key schema (stamped tuple txn_id)).map (fun key => key.type) = some t
  | _ => True

instance op_typed_decidable (schema : table_schema_t) (t : data_type_t) (op : table_op) :
    Decidable (op_typed schema t op) := by
  cases op <;> unfold op_typed <;> infer_instance

/-- A key re-inserted after a key of another type: in `begun_db` transaction 1 inserts id 1,
then the string 'x', then id 1 again. The result lists the three return values of
`tuple_insert` and the `key_count` of the root leaf at the end. -/
def reinsert_after_other_type : Option (List Int) :=
  match tuple_insert run_fuel begun_db t_name (int_row 1) 1 with
  | none => none
  | some (r1, db1) =>
    match tuple_insert run_fuel db1 t_name (str_row [120]) 1 with
    | none => none
    | some (r2, db2) =>
      match tuple_insert run_fuel db2 t_name (int_row 1) 1 with
      | none => none
      | some (r3, db3) =>
        (page_content db3 2).as_node.map (fun n => [r1, r2, r3, n.key_count])

/-- The state `begun_db` after transaction 1 inserted id 1. -/
def first_insert_db : database_t :=
  ((tuple_insert run_fuel begun_db t_name (int_row 1) 1).map Prod.snd).getD begun_db

/-- The operations of the example: transaction 1 deletes id 1 and rolls back, transaction 2
begins, `btree_delete` is called for id 1, and transaction 2 inserts id 2. -/
def example_ops : List table_op :=
  [table_op.op_delete (int_value 1) 1, table_op.op_txn (txn_call.call_abort 1),
    table_op.op_txn (txn_call.call_begin 0), table_op.op_btree_delete (int_value 1),
    table_op.op_insert (int_row 2) 2]

/-- The state `created_db` after a caller pinned page id 0 (`buffer_get_page` returns
frame 1, the first frame that holds no page), set the dirty flag of the frame
and released it. -/
def dirty_empty_db : database_t :=
  buffer_release_page (mark_dirty (buffer_get_page created_db 0).2 1) 1

/-- The state `created_db` after `buffer_get_page` of the metadata page (it is loaded
into frame 0 and stays pinned) and one `storage_allocate_page`. -/
def allocated_db : database_t :=
  match storage_allocate_page (buffer_get_page created_db METADATA_PAGE_ID).2 with
  | some (_, db) => db
  | none => created_db

/-! ## Theorems -/


theorem find_transaction_txn_id (manager : transaction_manager_t) (txn_id : Nat)
    (t : transaction_t) (h : find_transaction manager txn_id = some t) : t.txn_id = txn_id := by
  unfold find_transaction at h
  have := List.find?_some h
  simpa using this

/-- C1 (primary-key round trip), at the input the claim names: 49 ids inserted in
ascending order and committed. All 49 inserts return success, and afterwards a
new transaction's `tuple_select` of id 49, and of id 25, returns `count = 0`,
while with 48 ids the select of id 48 returns the row. -/
theorem c1_select_after_root_split :
    s2_select 49 49 = some { ret := 0, count := 0, results := none } ∧
    s2_select 49 25 = some { ret := 0, count := 0, results := none } ∧
    s2_select 48 48 =
      some { ret := 0, count := 1, results := some (stamped (int_row 48) 1) } := by
  decide!

/-- C2 (durability across restart): transaction 1 commits id 1, transaction 2
commits id 2, then checkpoint and close. After reopening, the first new
transaction has id 1 again; its select of id 1 returns the row, its select of
id 2 (written by transaction 2) returns `count = 0`. -/
theorem c2_reopen_hides_rows_of_later_writers :
    persist_reopen_select 1 =
      some (1, { ret := 0, count := 1, results := some (stamped (int_row 1) 1) }) ∧
    persist_reopen_select 2 = some (1, { ret := 0, count := 0, results := none }) := by
  decide!

/-- C3 (rollback invisibility), on the run of `test_rollback`: id 2 is inserted by
transaction 2, which rolls back; the transaction begun next (id 3) selects id 2
and gets `count = 1` with the rolled-back row. -/
theorem c3_rolled_back_row_is_returned :
    rollback_select 2 =
      some (3, { ret := 0, count := 1, results := some (stamped (int_row 2) 2) }) := by
  decide!

/-- C4 (the visibility rule): when `header.xmin`, and `header.xmax` if it is not zero,
each identify a slot of the manager, `mvcc_is_visible` is true exactly when the
four conditions of the specification hold. -/
theorem c4_mvcc_is_visible_iff_spec (header : tuple_header_t) (viewer : Nat)
    (manager : transaction_manager_t)
    (hmin : (find_transaction manager header.xmin).isSome)
    (hmax : header.xmax ≠ 0 → (find_transaction manager header.xmax).isSome) :
    mvcc_is_visible header viewer manager = true ↔ visible_spec header viewer manager := by
  obtain ⟨c, hc⟩ := Option.isSome_iff_exists.mp hmin
  have hcid := find_transaction_txn_id manager _ c hc
  unfold mvcc_is_visible visible_spec txn_state_of
  rw [hc]
  by_cases hx : header.xmax = 0
  · cases hdel : header.is_deleted <;> by_cases h1 : header.xmin > viewer <;>
      by_cases h2 : c.state = transaction_state_t.TXN_STATE_COMMITTED <;>
      by_cases h3 : header.xmin = viewer <;> simp [hdel, h1, h2, h3, hx, hcid]
    all_goals omega
  · obtain ⟨d, hd⟩ := Option.isSome_iff_exists.mp (hmax hx)
    have hdid := find_transaction_txn_id manager _ d hd
    rw [hd]
    cases hdel : header.is_deleted <;> by_cases h1 : header.xmin > viewer <;>
      by_cases h2 : c.state = transaction_state_t.TXN_STATE_COMMITTED <;>
      by_cases h3 : header.xmin = viewer <;>
      by_cases h4 : header.xmax ≤ viewer <;>
      by_cases h5 : d.state = transaction_state_t.TXN_STATE_COMMITTED <;>
      by_cases h6 : header.xmax = viewer <;>
      simp [hdel, h1, h2, h3, h4, h5, h6, hx, hcid, hdid]
    all_goals omega

/-- Witness of C4: a row written by the committed transaction 1, read by viewer 2. -/
theorem c4_mvcc_is_visible_iff_spec_witness :
    (mvcc_is_visible { xmin := 1, xmax := 0, is_deleted := false } 2 one_committed = true ↔
      visible_spec { xmin := 1, xmax := 0, is_deleted := false } 2 one_committed) :=
  c4_mvcc_is_visible_iff_spec { xmin := 1, xmax := 0, is_deleted := false } 2 one_committed
    (by decide) (by decide)

/-- C5 (B+-tree uniqueness) after a root split: when the ids 1 .. 49 have been
inserted, inserting id 49 a second time returns success (`0`), while inserting
id 24 a second time is rejected (`-1`). -/
theorem c5_duplicate_accepted_after_root_split :
    s2_insert_again 49 = some 0 ∧ s2_insert_again 24 = some (-1) := by
  decide!

/-- C6 (root split is published): the 49th ascending insert splits the root leaf
(page 2). On return the new internal root (one key, 25, children 2 and 53) is
held as page 55, and the schema's `root_page_id` is still 2, a leaf. -/
theorem c6_root_page_id_not_updated :
    (s2_inserted 49).bind (fun db => root_view db 2 55) =
      some { root_page_id := 2, old_is_leaf := true, old_key_count := 24,
             new_is_leaf := false, new_key_count := 1, new_key := 25,
             new_child0 := 2, new_child1 := 53 } := by
  decide!

/-! ## Buffer pool, B-tree leaf and MVCC lemmas -/

theorem getD_set_same {α : Type} (l : List α) (i : Nat) (a d : α) (h : i < l.length) :
    (l.set i a).getD i d = a := by
  induction l generalizing i with
  | nil => simp at h
  | cons x xs ih =>
    cases i with
    | zero => simp
    | succ k =>
      simp only [List.set_cons_succ, List.getD_cons_succ]
      exact ih k (by simpa using h)

theorem getD_set_ne {α : Type} (l : List α) (i j : Nat) (a d : α) (h : j ≠ i) :
    (l.set i a).getD j d = l.getD j d := by
  induction l generalizing i j with
  | nil => simp
  | cons x xs ih =>
    cases i with
    | zero =>
      cases j with
      | zero => exact absurd rfl h
      | succ m => simp
    | succ k =>
      cases j with
      | zero => simp
      | succ m =>
        simp only [List.set_cons_succ, List.getD_cons_succ]
        exact ih k m (by omega)

theorem getD_ge {α : Type} (l : List α) (i : Nat) (d : α) (h : l.length ≤ i) :
    l.getD i d = d := by
  induction l generalizing i with
  | nil => simp
  | cons x xs ih =>
    cases i with
    | zero => simp at h
    | succ k =>
      simp only [List.getD_cons_succ]
      exact ih k (by simpa using h)

theorem frame_set_frame_same (db : database_t) (i : Nat) (f : page_t) (h : i < db.capacity) :
    (db.set_frame i f).frame i = f := by
  unfold database_t.set_frame database_t.frame
  exact getD_set_same _ _ _ _ h

theorem frame_set_frame_ne (db : database_t) (i j : Nat) (f : page_t) (h : j ≠ i) :
    (db.set_frame i f).frame j = db.frame j := by
  unfold database_t.set_frame database_t.frame
  exact getD_set_ne _ _ _ _ _ h

theorem capacity_set_frame (db : database_t) (i : Nat) (f : page_t) :
    (db.set_frame i f).capacity = db.capacity := by
  unfold database_t.set_frame database_t.capacity
  simp

theorem frame_ge (db : database_t) (i : Nat) (h : db.capacity ≤ i) : db.frame i = empty_frame := by
  unfold database_t.frame
  exact getD_ge _ _ _ h

theorem frame_lt_of_page_id (db : database_t) (i : Nat) (h : (db.frame i).page_id ≠ 0) :
    i < db.capacity := by
  by_contra hc
  rw [frame_ge db i (by omega)] at h
  exact h rfl

/-- What `find_resident` returns, in terms of the frames. -/
theorem find_resident_some (p : Nat) (l : List page_t) (i : Nat)
    (h : find_resident p l = some i) :
    i < l.length ∧ (l.getD i empty_frame).page_id = p ∧
      ∀ j, j < i → (l.getD j empty_frame).page_id ≠ p := by
  induction l generalizing i with
  | nil => simp [find_resident] at h
  | cons x xs ih =>
    unfold find_resident at h
    by_cases hx : x.page_id = p ∧ 0 ≤ x.pin_count
    · rw [if_pos hx] at h
      cases h
      refine ⟨by simp, by simpa using hx.1, ?_⟩
      intro j hj
      omega
    · rw [if_neg hx] at h
      cases hr : find_resident p xs with
      | none => rw [hr] at h; simp at h
      | some k =>
        rw [hr] at h
        simp at h
        subst h
        obtain ⟨h1, h2, h3⟩ := ih k hr
        refine ⟨by simpa using h1, by simpa using h2, ?_⟩
        intro j hj
        cases j with
        | zero =>
          simp only [List.getD_cons_zero]
          intro hxp
          exact hx ⟨hxp, Nat.zero_le _⟩
        | succ m =>
          simp only [List.getD_cons_succ]
          exact h3 m (by omega)

theorem find_resident_none (p : Nat) (l : List page_t) (h : find_resident p l = none) :
    ∀ j, j < l.length → (l.getD j empty_frame).page_id ≠ p := by
  induction l with
  | nil => intro j hj; simp at hj
  | cons x xs ih =>
    unfold find_resident at h
    by_cases hx : x.page_id = p ∧ 0 ≤ x.pin_count
    · rw [if_pos hx] at h; cases h
    · rw [if_neg hx] at h
      have hr : find_resident p xs = none := by
        cases hr : find_resident p xs with
        | none => rfl
        | some k => rw [hr] at h; simp at h
      intro j hj
      cases j with
      | zero =>
        simp only [List.getD_cons_zero]
        intro hxp
        exact hx ⟨hxp, Nat.zero_le _⟩
      | succ m =>
        simp only [List.getD_cons_succ]
        exact ih hr m (by simpa using hj)

theorem find_victim_some (l : List page_t) (i : Nat) (h : find_victim_page l = some i) :
    i < l.length ∧ (l.getD i empty_frame).pin_count = 0 := by
  induction l generalizing i with
  | nil => simp [find_victim_page] at h
  | cons x xs ih =>
    unfold find_victim_page at h
    by_cases hx : x.pin_count = 0
    · rw [if_pos hx] at h
      cases h
      exact ⟨by simp, by simpa using hx⟩
    · rw [if_neg hx] at h
      cases hr : find_victim_page xs with
      | none => rw [hr] at h; simp at h
      | some k =>
        rw [hr] at h
        simp at h
        subst h
        obtain ⟨h1, h2⟩ := ih k hr
        exact ⟨by simpa using h1, by simpa using h2⟩

theorem find_victim_none (l : List page_t) (h : find_victim_page l = none) :
    ∀ j, j < l.length → (l.getD j empty_frame).pin_count ≠ 0 := by
  induction l with
  | nil => intro j hj; simp at hj
  | cons x xs ih =>
    unfold find_victim_page at h
    by_cases hx : x.pin_count = 0
    · rw [if_pos hx] at h; cases h
    · rw [if_neg hx] at h
      have hr : find_victim_page xs = none := by
        cases hr : find_victim_page xs with
        | none => rfl
        | some k => rw [hr] at h; simp at h
      intro j hj
      cases j with
      | zero => simpa using hx
      | succ m =>
        simp only [List.getD_cons_succ]
        exact ih hr m (by simpa using hj)

theorem get?_getD_eq {α : Type} (l : List α) (i : Nat) (d : α) :
    (l.get? i).getD d = l.getD i d := by
  induction l generalizing i with
  | nil => simp
  | cons x xs ih =>
    cases i with
    | zero => simp
    | succ k => simp [ih k]

theorem file_content_eq (file : List page_data) (q : Nat) (hq : q ≠ 0) :
    file_content file q = file.getD (q - 1) page_data.zero := by
  unfold file_content storage_read_page
  rw [if_neg hq]
  exact get?_getD_eq _ _ _

theorem getD_append_pad (l : List page_data) (k j : Nat) (d : page_data) :
    (l ++ List.replicate k page_data.zero ++ [d]).getD j page_data.zero =
      if j = l.length + k then d else l.getD j page_data.zero := by
  induction l generalizing j with
  | nil =>
    induction k generalizing j with
    | zero =>
      cases j with
      | zero => simp
      | succ m => simp
    | succ n ih =>
      cases j with
      | zero => simp [List.replicate_succ]
      | succ m =>
        have := ih m
        simp only [List.nil_append, List.length_nil, Nat.zero_add, List.getD_nil] at this
        simp only [List.nil_append, List.replicate_succ, List.cons_append, List.getD_cons_succ,
          List.length_nil, Nat.zero_add, List.getD_nil, this]
        by_cases h : m = n
        · simp [h]
        · simp [h]
  | cons x xs ih =>
    cases j with
    | zero =>
      have : ¬ (0 = xs.length + 1 + k) := by omega
      simp [this]
    | succ m =>
      have := ih m
      simp only [List.cons_append, List.getD_cons_succ, List.length_cons]
      simp only [List.append_assoc] at this ⊢
      rw [this]
      by_cases h : m = xs.length + k
      · rw [if_pos h, if_pos (by omega)]
      · rw [if_neg h, if_neg (by omega)]

/-- The file after `storage_write_page`: the written page holds the buffer, every
other page is as before. -/
theorem file_content_write (file : List page_data) (p q : Nat) (d : page_data) (hp : p ≠ 0)
    (hq : q ≠ 0) :
    file_content (storage_write_page file p d) q = if q = p then d else file_content file q := by
  rw [file_content_eq _ _ hq, file_content_eq _ _ hq]
  unfold storage_write_page
  rw [if_neg hp]
  by_cases h : p - 1 < file.length
  · rw [if_pos h]
    by_cases hqp : q = p
    · subst hqp
      rw [if_pos rfl]
      exact getD_set_same _ _ _ _ h
    · rw [if_neg hqp]
      exact getD_set_ne _ _ _ _ _ (by omega)
  · rw [if_neg h, getD_append_pad]
    by_cases hqp : q = p
    · subst hqp
      rw [if_pos rfl, if_pos (by omega)]
    · rw [if_neg hqp, if_neg (by omega)]

/-- The content of a page that a frame holds is that frame's data. -/
theorem page_content_of_frame (db : database_t) (q i : Nat) (hu : frames_unique db)
    (hq : q ≠ 0) (hi : (db.frame i).page_id = q) : page_content db q = (db.frame i).data := by
  unfold page_content
  cases hr : find_resident q db.buffer_pool.pages with
  | none =>
    have := find_resident_none q _ hr i (frame_lt_of_page_id db i (by rw [hi]; exact hq))
    exact absurd hi this
  | some k =>
    obtain ⟨_, h2, _⟩ := find_resident_some q _ k hr
    have : k = i := hu k i (by rw [hi]; exact h2) (by rw [show (db.frame k).page_id = q from h2]; exact hq)
    subst this
    rfl

/-- The content of a page that no frame holds is the file's. -/
theorem page_content_of_file (db : database_t) (q : Nat)
    (hn : ∀ j, (db.frame j).page_id ≠ q) : page_content db q = file_content db.data_file q := by
  unfold page_content
  cases hr : find_resident q db.buffer_pool.pages with
  | none => rfl
  | some k =>
    obtain ⟨_, h2, _⟩ := find_resident_some q _ k hr
    exact absurd h2 (hn k)

theorem resident_or_not (db : database_t) (q : Nat) :
    (∃ i, (db.frame i).page_id = q) ∨ ∀ j, (db.frame j).page_id ≠ q := by
  by_cases h : ∃ i, (db.frame i).page_id = q
  · exact Or.inl h
  · right
    intro j hj
    exact h ⟨j, hj⟩

theorem same_env_refl (db : database_t) : same_env db db :=
  ⟨Eq.refl _, Eq.refl _, Eq.refl _, Eq.refl _, Eq.refl _⟩

theorem same_env_trans {a b c : database_t} (h1 : same_env a b) (h2 : same_env b c) :
    same_env a c :=
  ⟨h2.cap.trans h1.cap, h2.txn.trans h1.txn, h2.schemas.trans h1.schemas,
    h2.schema_count.trans h1.schema_count, h2.max_schemas.trans h1.max_schemas⟩

theorem same_env_set_frame (db : database_t) (i : Nat) (f : page_t) :
    same_env db (db.set_frame i f) :=
  ⟨capacity_set_frame db i f, rfl, rfl, rfl, rfl⟩

theorem same_env_write_page (db : database_t) (p : Nat) (d : page_data) :
    same_env db (write_page db p d) := ⟨rfl, rfl, rfl, rfl, rfl⟩

theorem frame_write_page (db : database_t) (p : Nat) (d : page_data) (j : Nat) :
    (write_page db p d).frame j = db.frame j := rfl

theorem buffer_flush_page_dirty (db : database_t) (idx : Nat)
    (h : (db.frame idx).is_dirty = true) :
    buffer_flush_page db idx =
      (write_page db (db.frame idx).page_id (db.frame idx).data).set_frame idx
        { db.frame idx with is_dirty := false } := by
  unfold buffer_flush_page
  simp [h]

theorem data_file_set_frame (db : database_t) (i : Nat) (f : page_t) :
    (db.set_frame i f).data_file = db.data_file := rfl

/-- The effect of `buffer_get_page` on a page that is resident or loadable:
the returned frame holds the page with its content and one more pin, every
other frame is untouched, no page changes its content. -/
theorem buffer_get_page_spec (db : database_t) (p : Nat) (hp : p ≠ 0)
    (hu : frames_unique db) (hc : frames_clean db)
    (hfree : (∃ j, (db.frame j).page_id = p) ∨
      ∃ j, j < db.capacity ∧ (db.frame j).pin_count = 0) :
    ∃ i db', buffer_get_page db p = (some i, db') ∧ i < db.capacity ∧ same_env db db' ∧
      frames_unique db' ∧ frames_clean db' ∧
      (db'.frame i).page_id = p ∧ (db'.frame i).data = page_content db p ∧
      (db'.frame i).pin_count = (db.frame i).pin_count + 1 ∧
      ((db.frame i).page_id = p ∨ (db.frame i).pin_count = 0) ∧
      ((db.frame i).page_id = p → (db'.frame i).is_dirty = (db.frame i).is_dirty) ∧
      (∀ j, j ≠ i → db'.frame j = db.frame j) ∧
      (∀ q, q ≠ 0 → page_content db' q = page_content db q) := by
  cases hr : find_resident p db.buffer_pool.pages with
  | some i =>
    obtain ⟨hi, hpid, _⟩ := find_resident_some p _ i hr
    have hpid' : (db.frame i).page_id = p := hpid
    have hi' : i < db.capacity := hi
    refine ⟨i, db.set_frame i { db.frame i with pin_count := (db.frame i).pin_count + 1 }, ?_,
      hi', same_env_set_frame _ _ _, ?_, ?_, ?_, ?_, ?_, Or.inl hpid', ?_, ?_, ?_⟩
    · unfold buffer_get_page
      rw [hr]
    · intro a b hab ha
      by_cases ha' : a = i <;> by_cases hb' : b = i
      · rw [ha', hb']
      · subst ha'
        rw [frame_set_frame_same _ _ _ hi', frame_set_frame_ne _ _ _ _ hb'] at hab
        rw [frame_set_frame_same _ _ _ hi'] at ha
        exact hu a b hab ha
      · subst hb'
        rw [frame_set_frame_same _ _ _ hi', frame_set_frame_ne _ _ _ _ ha'] at hab
        rw [frame_set_frame_ne _ _ _ _ ha'] at ha
        exact hu a b hab ha
      · rw [frame_set_frame_ne _ _ _ _ ha', frame_set_frame_ne _ _ _ _ hb'] at hab
        rw [frame_set_frame_ne _ _ _ _ ha'] at ha
        exact hu a b hab ha
    · intro a ha hd
      by_cases ha' : a = i
      · subst ha'
        rw [frame_set_frame_same _ _ _ hi'] at ha hd ⊢
        exact hc a ha hd
      · rw [frame_set_frame_ne _ _ _ _ ha'] at ha hd ⊢
        exact hc a ha hd
    · rw [frame_set_frame_same _ _ _ hi']; exact hpid'
    · rw [frame_set_frame_same _ _ _ hi']
      exact (page_content_of_frame db p i hu hp hpid').symm
    · rw [frame_set_frame_same _ _ _ hi']
    · intro _
      rw [frame_set_frame_same _ _ _ hi']
    · intro j hj
      exact frame_set_frame_ne _ _ _ _ hj
    · intro q hq
      have hu' : frames_unique
          (db.set_frame i { db.frame i with pin_count := (db.frame i).pin_count + 1 }) := by
        intro a b hab ha
        by_cases ha' : a = i <;> by_cases hb' : b = i
        · rw [ha', hb']
        · subst ha'
          rw [frame_set_frame_same _ _ _ hi', frame_set_frame_ne _ _ _ _ hb'] at hab
          rw [frame_set_frame_same _ _ _ hi'] at ha
          exact hu a b hab ha
        · subst hb'
          rw [frame_set_frame_same _ _ _ hi', frame_set_frame_ne _ _ _ _ ha'] at hab
          rw [frame_set_frame_ne _ _ _ _ ha'] at ha
          exact hu a b hab ha
        · rw [frame_set_frame_ne _ _ _ _ ha', frame_set_frame_ne _ _ _ _ hb'] at hab
          rw [frame_set_frame_ne _ _ _ _ ha'] at ha
          exact hu a b hab ha
      rcases resident_or_not db q with ⟨k, hk⟩ | hn
      · rw [page_content_of_frame db q k hu hq hk]
        have : ((db.set_frame i { db.frame i with pin_count := (db.frame i).pin_count + 1 }).frame k).page_id = q ∧
            ((db.set_frame i { db.frame i with pin_count := (db.frame i).pin_count + 1 }).frame k).data = (db.frame k).data := by
          by_cases hk' : k = i
          · subst hk'
            rw [frame_set_frame_same _ _ _ hi']
            exact ⟨hk, rfl⟩
          · rw [frame_set_frame_ne _ _ _ _ hk']
            exact ⟨hk, rfl⟩
        rw [page_content_of_frame _ q k hu' hq this.1, this.2]
      · rw [page_content_of_file db q hn, page_content_of_file _ q]
        · rfl
        · intro j
          by_cases hj' : j = i
          · subst hj'
            rw [frame_set_frame_same _ _ _ hi']
            exact hn j
          · rw [frame_set_frame_ne _ _ _ _ hj']
            exact hn j
  | none =>
    have hnone : ∀ j, (db.frame j).page_id ≠ p := by
      intro j hj
      exact find_resident_none p _ hr j (frame_lt_of_page_id db j (by rw [hj]; exact hp)) hj
    have hfree' : ∃ j, j < db.capacity ∧ (db.frame j).pin_count = 0 := by
      rcases hfree with ⟨j, hj⟩ | h
      · exact absurd hj (hnone j)
      · exact h
    cases hv : find_victim_page db.buffer_pool.pages with
    | none =>
      obtain ⟨j, hj, hj0⟩ := hfree'
      exact absurd hj0 (find_victim_none _ hv j hj)
    | some v =>
      obtain ⟨hvlt, hv0⟩ := find_victim_some _ v hv
      have hvlt' : v < db.capacity := hvlt
      have hv0' : (db.frame v).pin_count = 0 := hv0
      -- the state after the optional flush
      obtain ⟨db1, hdb1, hcap1, henv1, hfr1, hfile1⟩ :
          ∃ db1, db1 = (if (db.frame v).is_dirty = true ∧ (db.frame v).page_id ≠ 0 then
              buffer_flush_page db v else db) ∧ db1.capacity = db.capacity ∧ same_env db db1 ∧
            (∀ j, j ≠ v → db1.frame j = db.frame j) ∧
            (∀ q, q ≠ 0 → file_content db1.data_file q =
              if q = (db.frame v).page_id ∧ (db.frame v).is_dirty = true then (db.frame v).data
              else file_content db.data_file q) := by
        refine ⟨_, rfl, ?_⟩
        by_cases hd : (db.frame v).is_dirty = true ∧ (db.frame v).page_id ≠ 0
        · rw [if_pos hd]
          rw [buffer_flush_page_dirty db v hd.1]
          refine ⟨capacity_set_frame _ _ _,
            same_env_trans (same_env_write_page _ _ _) (same_env_set_frame _ _ _),
            ?_, ?_⟩
          · intro j hj
            rw [frame_set_frame_ne _ _ _ _ hj]
            rfl
          · intro q hq
            rw [data_file_set_frame]
            show file_content (storage_write_page db.data_file _ _) q = _
            rw [file_content_write _ _ _ _ hd.2 hq]
            by_cases hqv : q = (db.frame v).page_id
            · rw [if_pos hqv, if_pos ⟨hqv, hd.1⟩]
            · rw [if_neg hqv, if_neg (fun h => hqv h.1)]
        · rw [if_neg hd]
          refine ⟨rfl, same_env_refl _, fun _ _ => rfl, ?_⟩
          intro q hq
          by_cases hqv : q = (db.frame v).page_id ∧ (db.frame v).is_dirty = true
          · exact absurd ⟨hqv.2, by rw [← hqv.1]; exact hq⟩ hd
          · rw [if_neg hqv]
      have hv1 : v < db1.capacity := by rw [hcap1]; exact hvlt'
      have hget : buffer_get_page db p = (some v, db1.set_frame v
          { page_id := p, data := file_content db1.data_file p, is_dirty := false,
            pin_count := 1 }) := by
        unfold buffer_get_page
        rw [hr, hv]
        simp only []
        rw [← hdb1]
      have hfp : file_content db1.data_file p = file_content db.data_file p := by
        rw [hfile1 p hp, if_neg]
        intro h
        exact hnone v h.1.symm
      have hframe : ∀ j, j ≠ v → (db1.set_frame v
          { page_id := p, data := file_content db1.data_file p, is_dirty := false,
            pin_count := 1 }).frame j = db.frame j := by
        intro j hj
        rw [frame_set_frame_ne _ _ _ _ hj, hfr1 j hj]
      have hu' : frames_unique (db1.set_frame v
          { page_id := p, data := file_content db1.data_file p, is_dirty := false,
            pin_count := 1 }) := by
        intro a b hab ha
        by_cases ha' : a = v <;> by_cases hb' : b = v
        · rw [ha', hb']
        · subst ha'
          rw [frame_set_frame_same _ _ _ hv1, hframe b hb'] at hab
          exact absurd hab.symm (hnone b)
        · subst hb'
          rw [frame_set_frame_same _ _ _ hv1, hframe a ha'] at hab
          exact absurd hab (hnone a)
        · rw [hframe a ha', hframe b hb'] at hab
          rw [hframe a ha'] at ha
          exact hu a b hab ha
      refine ⟨v, _, hget, hvlt', same_env_trans henv1 (same_env_set_frame _ _ _), hu', ?_, ?_, ?_, ?_,
        Or.inr hv0', ?_, hframe, ?_⟩
      · intro a ha hd
        by_cases ha' : a = v
        · subst ha'
          rw [frame_set_frame_same _ _ _ hv1]
          rfl
        · rw [hframe a ha'] at ha hd ⊢
          rw [data_file_set_frame, hfile1 _ ha, if_neg]
          · exact hc a ha hd
          · intro h
            exact ha' (hu a v h.1 ha)
      · rw [frame_set_frame_same _ _ _ hv1]
      · rw [frame_set_frame_same _ _ _ hv1]
        show file_content db1.data_file p = _
        rw [hfp, page_content_of_file db p hnone]
      · rw [frame_set_frame_same _ _ _ hv1, hv0']
      · intro h
        exact absurd h (hnone v)
      · intro q hq
        by_cases hqp : q = p
        · subst hqp
          rw [page_content_of_frame _ q v hu' hq (by rw [frame_set_frame_same _ _ _ hv1]),
            frame_set_frame_same _ _ _ hv1, page_content_of_file db q hnone]
          exact hfp
        · rcases resident_or_not db q with ⟨k, hk⟩ | hn
          · rw [page_content_of_frame db q k hu hq hk]
            by_cases hkv : k = v
            · subst hkv
              rw [page_content_of_file _ q, data_file_set_frame, hfile1 q hq]
              · by_cases hd : (db.frame k).is_dirty = true
                · rw [if_pos ⟨hk.symm, hd⟩]
                · rw [if_neg (fun h => hd h.2)]
                  exact (hc k (by rw [hk]; exact hq) (by simpa using hd) ▸ by rw [hk])
              · intro j
                by_cases hjv : j = k
                · subst hjv
                  rw [frame_set_frame_same _ _ _ hv1]
                  exact fun h => hqp h.symm
                · rw [hframe j hjv]
                  intro h
                  exact hjv (hu j k (by rw [h, hk]) (by rw [h]; exact hq))
            · rw [page_content_of_frame _ q k hu' hq (by rw [hframe k hkv]; exact hk),
                hframe k hkv]
          · rw [page_content_of_file db q hn, page_content_of_file _ q, data_file_set_frame,
              hfile1 q hq, if_neg]
            · intro h
              exact hn v h.1.symm
            · intro j
              by_cases hjv : j = v
              · subst hjv
                rw [frame_set_frame_same _ _ _ hv1]
                exact fun h => hqp h.symm
              · rw [hframe j hjv]
                exact hn j

theorem set_frame_set_frame (db : database_t) (i : Nat) (f g : page_t) :
    (db.set_frame i f).set_frame i g = db.set_frame i g := by
  unfold database_t.set_frame
  simp

theorem set_frame_write_page (db : database_t) (i p : Nat) (f : page_t) (d : page_data) :
    (write_page db p d).set_frame i f = write_page (db.set_frame i f) p d := rfl

/-- The call `buffer_get_page` on a page held by frame `i` pins that frame and
changes nothing else. -/
theorem buffer_get_page_hit (db : database_t) (p i : Nat) (hp : p ≠ 0)
    (hu : frames_unique db) (hi : (db.frame i).page_id = p) :
    buffer_get_page db p =
      (some i, db.set_frame i { db.frame i with pin_count := (db.frame i).pin_count + 1 }) := by
  cases hr : find_resident p db.buffer_pool.pages with
  | none =>
    have := find_resident_none p _ hr i (frame_lt_of_page_id db i (by rw [hi]; exact hp))
    exact absurd hi this
  | some k =>
    obtain ⟨_, h2, _⟩ := find_resident_some p _ k hr
    have : k = i := hu k i (by rw [hi]; exact h2)
      (by rw [show (db.frame k).page_id = p from h2]; exact hp)
    subst this
    unfold buffer_get_page
    rw [hr]

/-- Replacing frame `i` by a record for the same page that is dirty, or has the
same data and dirty flag, keeps the pool invariants; the page's content becomes
the record's data. -/
theorem set_frame_spec (db : database_t) (i p : Nat) (f : page_t) (hp : p ≠ 0)
    (hu : frames_unique db) (hc : frames_clean db) (hi : (db.frame i).page_id = p)
    (hf : f.page_id = p)
    (hd : f.is_dirty = true ∨ (f.data = (db.frame i).data ∧ f.is_dirty = (db.frame i).is_dirty)) :
    frames_unique (db.set_frame i f) ∧ frames_clean (db.set_frame i f) ∧
      (∀ q, q ≠ 0 → page_content (db.set_frame i f) q =
        if q = p then f.data else page_content db q) := by
  have hlt : i < db.capacity := frame_lt_of_page_id db i (by rw [hi]; exact hp)
  have hpid : ∀ j, ((db.set_frame i f).frame j).page_id = (db.frame j).page_id := by
    intro j
    by_cases hj : j = i
    · subst hj
      rw [frame_set_frame_same _ _ _ hlt, hf, hi]
    · rw [frame_set_frame_ne _ _ _ _ hj]
  have hu' : frames_unique (db.set_frame i f) := by
    intro a b hab ha
    rw [hpid a, hpid b] at hab
    rw [hpid a] at ha
    exact hu a b hab ha
  refine ⟨hu', ?_, ?_⟩
  · intro a ha hda
    by_cases haj : a = i
    · subst haj
      rw [frame_set_frame_same _ _ _ hlt] at ha hda ⊢
      rcases hd with hd | ⟨hd1, hd2⟩
      · rw [hd] at hda
        cases hda
      · rw [hd1, hf, ← hi]
        exact hc a (by rw [hi]; exact hp) (by rw [← hd2]; exact hda)
    · rw [frame_set_frame_ne _ _ _ _ haj] at ha hda ⊢
      exact hc a ha hda
  · intro q hq
    by_cases hqp : q = p
    · subst hqp
      rw [if_pos rfl, page_content_of_frame _ q i hu' hq (by rw [hpid i]; exact hi),
        frame_set_frame_same _ _ _ hlt]
    · rw [if_neg hqp]
      rcases resident_or_not db q with ⟨k, hk⟩ | hn
      · have hki : k ≠ i := by
          intro h
          subst h
          exact hqp (hk.symm.trans hi)
        rw [page_content_of_frame db q k hu hq hk,
          page_content_of_frame _ q k hu' hq (by rw [hpid k]; exact hk),
          frame_set_frame_ne _ _ _ _ hki]
      · rw [page_content_of_file db q hn, page_content_of_file _ q]
        · rfl
        · intro j
          rw [hpid j]
          exact hn j

/-- Writing to the file the data a frame holds for the page changes no page's content
and keeps the pool invariants. -/
theorem write_page_spec (db : database_t) (i p : Nat) (hp : p ≠ 0)
    (hu : frames_unique db) (hc : frames_clean db) (hi : (db.frame i).page_id = p) :
    frames_unique (write_page db p (db.frame i).data) ∧
      frames_clean (write_page db p (db.frame i).data) ∧
      (∀ q, q ≠ 0 → page_content (write_page db p (db.frame i).data) q = page_content db q) := by
  have hu' : frames_unique (write_page db p (db.frame i).data) := hu
  refine ⟨hu', ?_, ?_⟩
  · intro a ha hda
    rw [frame_write_page] at ha hda ⊢
    show _ = file_content (storage_write_page db.data_file p _) _
    rw [file_content_write _ _ _ _ hp ha]
    by_cases hap : (db.frame a).page_id = p
    · rw [if_pos hap]
      have : a = i := hu a i (hap.trans hi.symm) ha
      rw [this]
    · rw [if_neg hap]
      exact hc a ha hda
  · intro q hq
    rcases resident_or_not db q with ⟨k, hk⟩ | hn
    · rw [page_content_of_frame db q k hu hq hk, page_content_of_frame _ q k hu' hq hk]
      rfl
    · rw [page_content_of_file db q hn,
        page_content_of_file (write_page db p (db.frame i).data) q hn]
      show file_content (storage_write_page db.data_file p _) q = _
      rw [file_content_write _ _ _ _ hp hq, if_neg]
      intro h
      exact hn i (hi.trans h.symm)

theorem buffer_release_page_pinned (db : database_t) (i : Nat)
    (h : (db.frame i).pin_count > 0) :
    buffer_release_page db i =
      db.set_frame i { db.frame i with pin_count := (db.frame i).pin_count - 1 } := by
  unfold buffer_release_page
  simp [h]

theorem mark_dirty_eq (db : database_t) (i : Nat) :
    mark_dirty db i = db.set_frame i { db.frame i with is_dirty := true } := rfl

theorem set_data_eq (db : database_t) (i : Nat) (d : page_data) :
    set_data db i d = db.set_frame i { db.frame i with data := d } := rfl

theorem balanced_refl (db : database_t) (hu : frames_unique db) (hc : frames_clean db) :
    balanced db db :=
  ⟨same_env_refl db, hu, hc, fun _ => rfl, fun _ _ => rfl⟩

theorem balanced_trans {a b c : database_t} (h1 : balanced a b) (h2 : balanced b c) :
    balanced a c :=
  ⟨same_env_trans h1.env h2.env, h2.unique, h2.clean,
    fun j => (h2.pins j).trans (h1.pins j),
    fun j hj => (h2.held j (by rw [h1.pins j]; exact hj)).trans (h1.held j hj)⟩

theorem free_frame_of_balanced {db db' : database_t} (h : balanced db db')
    (hf : free_frame db) : free_frame db' := by
  obtain ⟨j, hj, hj0⟩ := hf
  exact ⟨j, by rw [h.env.cap]; exact hj, by rw [h.pins j]; exact hj0⟩

/-- Pin a page, then replace its frame by a record `f` for the same page that
gives the pin back: the pool is as before, the page's content is `f.data`. -/
theorem get_then_set (db : database_t) (p : Nat) (hp : p ≠ 0)
    (hu : frames_unique db) (hc : frames_clean db)
    (hfree : (∃ j, (db.frame j).page_id = p) ∨ free_frame db) :
    ∃ i db1, buffer_get_page db p = (some i, db1) ∧ i < db1.capacity ∧
      (db1.frame i).page_id = p ∧ (db1.frame i).data = page_content db p ∧
      (db1.frame i).pin_count = (db.frame i).pin_count + 1 ∧
      frames_unique db1 ∧
      ∀ f : page_t, f.page_id = p → f.pin_count = (db.frame i).pin_count →
        (f.is_dirty = true ∨ (f.data = (db1.frame i).data ∧ f.is_dirty = (db1.frame i).is_dirty)) →
        balanced db (db1.set_frame i f) ∧
          ∀ q, q ≠ 0 → page_content (db1.set_frame i f) q =
            if q = p then f.data else page_content db q := by
  obtain ⟨i, db1, hget, hlt, henv, hu1, hc1, hpid, hdata, hpin, hor, _, hothers, hcont⟩ :=
    buffer_get_page_spec db p hp hu hc hfree
  have hlt1 : i < db1.capacity := by rw [henv.cap]; exact hlt
  refine ⟨i, db1, hget, hlt1, hpid, hdata, hpin, hu1, ?_⟩
  intro f hf1 hf2 hf3
  obtain ⟨hu2, hc2, hcont2⟩ := set_frame_spec db1 i p f hp hu1 hc1 hpid hf1 hf3
  refine ⟨⟨same_env_trans henv (same_env_set_frame _ _ _), hu2, hc2, ?_, ?_⟩, ?_⟩
  · intro j
    by_cases hj : j = i
    · subst hj
      rw [frame_set_frame_same _ _ _ hlt1, hf2]
    · rw [frame_set_frame_ne _ _ _ _ hj, hothers j hj]
  · intro j hj
    by_cases hji : j = i
    · subst hji
      rw [frame_set_frame_same _ _ _ hlt1, hf1]
      rcases hor with h | h
      · exact h.symm
      · omega
    · rw [frame_set_frame_ne _ _ _ _ hji, hothers j hji]
  · intro q hq
    rw [hcont2 q hq]
    by_cases hqp : q = p
    · rw [if_pos hqp, if_pos hqp]
    · rw [if_neg hqp, if_neg hqp, hcont q hq]

/-- After a balanced step, writing a resident page's data to the file is again a
balanced step and changes no content. -/
theorem balanced_write_page {db s : database_t} (h : balanced db s) (i p : Nat) (hp : p ≠ 0)
    (hi : (s.frame i).page_id = p) :
    balanced db (write_page s p (s.frame i).data) ∧
      ∀ q, q ≠ 0 → page_content (write_page s p (s.frame i).data) q = page_content s q := by
  obtain ⟨hu, hc, hcont⟩ := write_page_spec s i p hp h.unique h.clean hi
  exact ⟨⟨same_env_trans h.env (same_env_write_page _ _ _), hu, hc, h.pins, h.held⟩, hcont⟩

theorem release_eq (s : database_t) (i : Nat) (hpin : (s.frame i).pin_count > 0) :
    buffer_release_page s i =
      s.set_frame i (page_t.mk (s.frame i).page_id (s.frame i).data (s.frame i).is_dirty
        ((s.frame i).pin_count - 1)) := by
  rw [buffer_release_page_pinned s i hpin]

theorem modify_eq (s : database_t) (i : Nat) (d : page_data) (hlt : i < s.capacity) :
    mark_dirty (set_data s i d) i =
      s.set_frame i (page_t.mk (s.frame i).page_id d true (s.frame i).pin_count) := by
  rw [mark_dirty_eq, set_data_eq, frame_set_frame_same _ _ _ hlt, set_frame_set_frame]

theorem modify_release_eq (s : database_t) (i : Nat) (d : page_data) (hlt : i < s.capacity)
    (hpin : (s.frame i).pin_count > 0) :
    buffer_release_page (mark_dirty (set_data s i d) i) i =
      s.set_frame i (page_t.mk (s.frame i).page_id d true ((s.frame i).pin_count - 1)) := by
  rw [modify_eq s i d hlt, release_eq _ _ (by rw [frame_set_frame_same _ _ _ hlt]; exact hpin),
    frame_set_frame_same _ _ _ hlt, set_frame_set_frame]

/-- The function `allocate_new_page_id` on a pool with a free frame: it returns the
metadata page's `next_page_id` and advances it by one. -/
theorem allocate_new_page_id_spec (db : database_t) (m : metadata_t)
    (ss : List table_schema_t) (hu : frames_unique db) (hc : frames_clean db)
    (hfree : free_frame db)
    (hmeta : page_content db METADATA_PAGE_ID = page_data.metadata m ss) :
    ∃ db', allocate_new_page_id db = some (m.next_page_id, db') ∧ balanced db db' ∧
      ∀ q, q ≠ 0 → page_content db' q =
        if q = METADATA_PAGE_ID then
          page_data.metadata { m with next_page_id := m.next_page_id + 1 } ss
        else page_content db q := by
  obtain ⟨i, db1, hget, hlt, hpid, hdata, hpin, _, hf⟩ :=
    get_then_set db METADATA_PAGE_ID (by decide) hu hc (Or.inr hfree)
  refine ⟨_, ?_, hf (page_t.mk (db1.frame i).page_id
      (page_data.metadata { m with next_page_id := m.next_page_id + 1 } ss) true
      ((db1.frame i).pin_count - 1)) hpid (by simp [hpin])
      (Or.inl rfl)⟩
  unfold allocate_new_page_id
  rw [hget]
  simp only []
  rw [hdata, hmeta]
  simp only [page_data.as_metadata]
  rw [modify_release_eq db1 i _ hlt (by omega)]

/-- The function `storage_allocate_page` when the page at `next_page_id` is a fresh (all-zero)
page: it returns a frame pinned on that page, marked dirty, holding zero bytes. -/
theorem storage_allocate_page_spec (db : database_t) (m : metadata_t)
    (ss : List table_schema_t) (hu : frames_unique db) (hc : frames_clean db)
    (hfree : free_frame db)
    (hmeta : page_content db METADATA_PAGE_ID = page_data.metadata m ss)
    (hnew : m.next_page_id ≠ 0)
    (hzero : page_content db m.next_page_id = page_data.zero) :
    ∃ i db', storage_allocate_page db = some (some i, db') ∧ acquired db db' i m.next_page_id ∧
      (db'.frame i).data = page_data.zero ∧
      ∀ q, q ≠ 0 → page_content db' q =
        if q = METADATA_PAGE_ID then
          page_data.metadata { m with next_page_id := m.next_page_id + 1 } ss
        else page_content db q := by
  obtain ⟨da, halloc, hbal, hcont⟩ := allocate_new_page_id_spec db m ss hu hc hfree hmeta
  have hne1 : m.next_page_id ≠ METADATA_PAGE_ID := by
    intro h
    rw [h, hmeta] at hzero
    cases hzero
  obtain ⟨i, db1, hget, hlt, henv, hu1, hc1, hpid, hdata, hpin, hor, _, hothers, hcont1⟩ :=
    buffer_get_page_spec da m.next_page_id hnew hbal.unique hbal.clean
      (Or.inr (free_frame_of_balanced hbal hfree))
  have hlt1 : i < db1.capacity := by rw [henv.cap]; exact hlt
  have hdz : (db1.frame i).data = page_data.zero := by
    rw [hdata, hcont _ hnew, if_neg hne1, hzero]
  obtain ⟨hu2, hc2, hcont2⟩ := set_frame_spec db1 i m.next_page_id
    { db1.frame i with is_dirty := true } hnew hu1 hc1 hpid hpid (Or.inl rfl)
  refine ⟨i, mark_dirty db1 i, ?_, ?_, ?_, ?_⟩
  · unfold storage_allocate_page
    rw [halloc]
    simp only []
    rw [hget]
  · rw [mark_dirty_eq]
    refine ⟨same_env_trans hbal.env (same_env_trans henv (same_env_set_frame _ _ _)), hu2, hc2,
      by rw [capacity_set_frame]; exact hlt1, ?_, ?_, ?_, ?_⟩
    · rw [frame_set_frame_same _ _ _ hlt1]; exact hpid
    · rw [frame_set_frame_same _ _ _ hlt1]
      show (db1.frame i).pin_count = _
      rw [hpin, hbal.pins i]
    · intro j hj
      rw [frame_set_frame_ne _ _ _ _ hj, hothers j hj, hbal.pins j]
    · intro j hj
      have hj' : (da.frame j).pin_count > 0 := by rw [hbal.pins j]; exact hj
      by_cases hji : j = i
      · subst hji
        rw [frame_set_frame_same _ _ _ hlt1]
        show (db1.frame j).page_id = _
        rw [hpid, ← hbal.held j hj]
        rcases hor with h | h
        · exact h.symm
        · omega
      · rw [frame_set_frame_ne _ _ _ _ hji, hothers j hji, hbal.held j hj]
  · rw [mark_dirty_eq, frame_set_frame_same _ _ _ hlt1]
    exact hdz
  · intro q hq
    rw [mark_dirty_eq, hcont2 q hq]
    by_cases hqn : q = m.next_page_id
    · rw [if_pos hqn]
      show (db1.frame i).data = _
      rw [hdz, hqn, if_neg hne1, hzero]
    · rw [if_neg hqn, hcont1 q hq, hcont q hq]

/-- The function `store_tuple_in_page` on a heap page with room: the tuple is written at
slot `tuple_count`, in the pool and in the file. -/
theorem store_tuple_in_page_spec (db : database_t) (p : Nat) (tuple : tuple_t) (c : Nat)
    (ts : List tuple_t) (hp : p ≠ 0) (hu : frames_unique db) (hc : frames_clean db)
    (hfree : (∃ j, (db.frame j).page_id = p) ∨ free_frame db)
    (hheap : (page_content db p).as_heap = some (c, ts)) (hroom : c < TUPLES_PER_PAGE) :
    ∃ db', store_tuple_in_page db p tuple = some (0, c, db') ∧ balanced db db' ∧
      ∀ q, q ≠ 0 → page_content db' q =
        if q = p then page_data.heap (c + 1) (ts.set c tuple) else page_content db q := by
  obtain ⟨i, db1, hget, hlt, hpid, hdata, hpin, _, hf⟩ := get_then_set db p hp hu hc hfree
  obtain ⟨hbal, hcont⟩ := hf (page_t.mk (db1.frame i).page_id (page_data.heap (c + 1) (ts.set c tuple)) true
      ((db1.frame i).pin_count - 1)) hpid (by simp [hpin])
      (Or.inl rfl)
  have hfr := frame_set_frame_same db1 i (page_t.mk (db1.frame i).page_id
      (page_data.heap (c + 1) (ts.set c tuple)) true ((db1.frame i).pin_count - 1)) hlt
  obtain ⟨hbal2, hcont2⟩ := balanced_write_page hbal i p hp (by rw [hfr]; exact hpid)
  rw [hfr] at hbal2 hcont2
  refine ⟨_, ?_, hbal2, ?_⟩
  · unfold store_tuple_in_page
    rw [hget]
    simp only []
    rw [hdata, hheap]
    simp only []
    rw [if_neg (by omega), modify_eq db1 i _ hlt, frame_set_frame_same _ _ _ hlt]
    simp only []
    rw [release_eq _ _ (by rw [frame_write_page, frame_set_frame_same _ _ _ hlt]; simp; omega),
      frame_write_page, frame_set_frame_same _ _ _ hlt, set_frame_write_page,
      set_frame_set_frame]
  · intro q hq
    rw [hcont2 q hq, hcont q hq]

theorem frames_unique_set_frame (s : database_t) (i : Nat) (f : page_t)
    (hu : frames_unique s) (hlt : i < s.capacity) (hf : f.page_id = (s.frame i).page_id) :
    frames_unique (s.set_frame i f) := by
  have hpid : ∀ j, ((s.set_frame i f).frame j).page_id = (s.frame j).page_id := by
    intro j
    by_cases hj : j = i
    · subst hj
      rw [frame_set_frame_same _ _ _ hlt, hf]
    · rw [frame_set_frame_ne _ _ _ _ hj]
  intro a b hab ha
  rw [hpid a, hpid b] at hab
  rw [hpid a] at ha
  exact hu a b hab ha

theorem set_data_mk (s : database_t) (i : Nat) (d : page_data) :
    set_data s i d =
      s.set_frame i (page_t.mk (s.frame i).page_id d (s.frame i).is_dirty
        (s.frame i).pin_count) := rfl

/-- The call `btree_save_node(db, page_id, node)` with `node` pointing into the frame that
holds `page_id`: the frame is marked dirty. -/
theorem btree_save_node_self (s : database_t) (ph p : Nat) (hp : p ≠ 0)
    (hu : frames_unique s) (hpid : (s.frame ph).page_id = p) (hlt : ph < s.capacity) :
    btree_save_node s p ph =
      some (s.set_frame ph (page_t.mk (s.frame ph).page_id (s.frame ph).data true
        (s.frame ph).pin_count)) := by
  unfold btree_save_node
  rw [buffer_get_page_hit s p ph hp hu hpid]
  simp only [if_true]
  rw [mark_dirty_eq, frame_set_frame_same _ _ _ hlt, set_frame_set_frame,
    release_eq _ _ (by rw [frame_set_frame_same _ _ _ hlt]; simp),
    frame_set_frame_same _ _ _ hlt, set_frame_set_frame]
  simp

/-- The function `btree_insert` into a root that is a leaf with room, for a key the leaf
does not hold: the key is placed at the position `btree_find_key_position` gives. -/
theorem btree_insert_leaf_spec (fuel : Nat) (db : database_t) (root : Nat) (key : value_t)
    (tp ts : Nat) (node : btree_node_t) (hroot : root ≠ 0)
    (hu : frames_unique db) (hc : frames_clean db)
    (hfree : (∃ j, (db.frame j).page_id = root) ∨ free_frame db)
    (hnode : page_content db root = page_data.btree_node node) (hleaf : node.is_leaf = true)
    (hnodup : ¬ (btree_find_key_position node key < node.key_count ∧
      value_compare key (node.keys.getD (btree_find_key_position node key) zero_value) = 0))
    (hroom : node.key_count < BTREE_ORDER - 1) :
    ∃ db', btree_insert (fuel + 1) db root key tp ts = some (0, db') ∧ balanced db db' ∧
      ∀ q, q ≠ 0 → page_content db' q =
        if q = root then
          page_data.btree_node
            (btree_insert_key_at_position node (btree_find_key_position node key) key tp ts)
        else page_content db q := by
  obtain ⟨i, db1, hget, hlt, hpid, hdata, hpin, hu1, hf⟩ := get_then_set db root hroot hu hc hfree
  obtain ⟨hbal, hcont⟩ := hf (page_t.mk (db1.frame i).page_id
      (page_data.btree_node
        (btree_insert_key_at_position node (btree_find_key_position node key) key tp ts)) true
      ((db1.frame i).pin_count - 1)) hpid (by simp [hpin]) (Or.inl rfl)
  refine ⟨_, ?_, hbal, hcont⟩
  have hrec : btree_insert_recursive (fuel + 1) db root key tp ts =
      some (no_split 0, db1.set_frame i (page_t.mk (db1.frame i).page_id
        (page_data.btree_node
          (btree_insert_key_at_position node (btree_find_key_position node key) key tp ts)) true
        ((db1.frame i).pin_count - 1))) := by
    rw [btree_insert_recursive]
    unfold btree_load_node
    rw [hget]
    simp only []
    rw [hdata, hnode]
    simp only [page_data.as_node]
    rw [if_pos hleaf, if_neg hnodup, if_pos hroom, set_data_mk]
    rw [btree_save_node_self (db1.set_frame i (page_t.mk (db1.frame i).page_id
        (page_data.btree_node
          (btree_insert_key_at_position node (btree_find_key_position node key) key tp ts))
        (db1.frame i).is_dirty (db1.frame i).pin_count)) i root hroot
      (frames_unique_set_frame db1 i _ hu1 hlt rfl)
      (by rw [frame_set_frame_same _ _ _ hlt]; exact hpid)
      (by rw [capacity_set_frame]; exact hlt)]
    simp only []
    rw [frame_set_frame_same _ _ _ hlt, set_frame_set_frame,
      release_eq _ _ (by rw [frame_set_frame_same _ _ _ hlt]; simp; omega),
      frame_set_frame_same _ _ _ hlt, set_frame_set_frame]
  unfold btree_insert
  rw [hrec]
  simp [no_split]

/-- Pin a page and release it again: a balanced step that changes no content. -/
theorem get_then_release (db : database_t) (p : Nat) (hp : p ≠ 0)
    (hu : frames_unique db) (hc : frames_clean db)
    (hfree : (∃ j, (db.frame j).page_id = p) ∨ free_frame db) :
    ∃ i db1, buffer_get_page db p = (some i, db1) ∧
      (db1.frame i).data = page_content db p ∧
      balanced db (buffer_release_page db1 i) ∧
      ∀ q, q ≠ 0 → page_content (buffer_release_page db1 i) q = page_content db q := by
  obtain ⟨i, db1, hget, hlt, hpid, hdata, hpin, _, hf⟩ := get_then_set db p hp hu hc hfree
  obtain ⟨hbal, hcont⟩ := hf (page_t.mk (db1.frame i).page_id (db1.frame i).data
      (db1.frame i).is_dirty ((db1.frame i).pin_count - 1)) hpid (by simp [hpin])
      (Or.inr ⟨rfl, rfl⟩)
  rw [← release_eq db1 i (by omega)] at hbal hcont
  refine ⟨i, db1, hget, hdata, hbal, ?_⟩
  intro q hq
  rw [hcont q hq]
  by_cases hqp : q = p
  · rw [if_pos hqp, hqp]
    exact hdata
  · rw [if_neg hqp]

/-- The function `btree_search` from a root that is a leaf. -/
theorem btree_search_leaf_spec (fuel : Nat) (db : database_t) (root : Nat) (key : value_t)
    (node : btree_node_t) (hroot : root ≠ 0)
    (hu : frames_unique db) (hc : frames_clean db)
    (hfree : (∃ j, (db.frame j).page_id = root) ∨ free_frame db)
    (hnode : page_content db root = page_data.btree_node node) (hleaf : node.is_leaf = true) :
    ∃ db', btree_search (fuel + 1) db root (some key) = some (leaf_lookup node key, db') ∧
      balanced db db' ∧ ∀ q, q ≠ 0 → page_content db' q = page_content db q := by
  obtain ⟨i, db1, hget, hdata, hbal, hcont⟩ := get_then_release db root hroot hu hc hfree
  refine ⟨buffer_release_page db1 i, ?_, hbal, hcont⟩
  rw [btree_search, if_neg hroot]
  unfold btree_load_node
  rw [hget]
  simp only []
  rw [hdata, hnode]
  simp only [page_data.as_node]
  rw [if_pos hleaf]
  unfold leaf_lookup
  by_cases h : btree_find_key_position node key < node.key_count ∧
      value_compare key (node.keys.getD (btree_find_key_position node key) zero_value) = 0
  · rw [if_pos h, if_pos h]
  · rw [if_neg h, if_neg h]

/-- The function `load_tuple_from_page` on a heap page. -/
theorem load_tuple_from_page_spec (db : database_t) (p slot c : Nat) (tl : List tuple_t)
    (hp : p ≠ 0) (hu : frames_unique db) (hc : frames_clean db)
    (hfree : (∃ j, (db.frame j).page_id = p) ∨ free_frame db)
    (hheap : (page_content db p).as_heap = some (c, tl)) :
    ∃ db', load_tuple_from_page db p slot =
        some (if slot_as_int slot ≥ (c : Int) then none else some (tl.getD slot zero_tuple), db') ∧
      balanced db db' ∧ ∀ q, q ≠ 0 → page_content db' q = page_content db q := by
  obtain ⟨i, db1, hget, hdata, hbal, hcont⟩ := get_then_release db p hp hu hc hfree
  refine ⟨buffer_release_page db1 i, ?_, hbal, hcont⟩
  unfold load_tuple_from_page
  rw [hget]
  simp only []
  rw [hdata, hheap]
  simp only []
  by_cases h : slot_as_int slot ≥ (c : Int)
  · rw [if_pos h, if_pos h]
  · rw [if_neg h, if_neg h]

/-- The function `load_tuple_from_page` on a page that does not have the heap layout has no
result in the embedding. -/
theorem load_tuple_from_page_none (db : database_t) (p slot : Nat)
    (hp : p ≠ 0) (hu : frames_unique db) (hc : frames_clean db)
    (hfree : (∃ j, (db.frame j).page_id = p) ∨ free_frame db)
    (hheap : (page_content db p).as_heap = none) :
    load_tuple_from_page db p slot = none := by
  obtain ⟨i, db1, hget, hdata, _, _⟩ := get_then_release db p hp hu hc hfree
  unfold load_tuple_from_page
  rw [hget]
  simp only []
  rw [hdata, hheap]

theorem free_frame_of_two (db : database_t) (h : two_free_frames db) : free_frame db := by
  obtain ⟨a, _, _, ha, _, ha0, _⟩ := h
  exact ⟨a, ha, ha0⟩

theorem free_frame_of_acquired {db db1 : database_t} {i p : Nat} (hacq : acquired db db1 i p)
    (h : two_free_frames db) : free_frame db1 := by
  obtain ⟨a, b, hab, ha, hb, ha0, hb0⟩ := h
  by_cases hai : a = i
  · have hbi : b ≠ i := fun h => hab (hai.trans h.symm)
    exact ⟨b, by rw [hacq.env.cap]; exact hb, by rw [hacq.pins b hbi]; exact hb0⟩
  · exact ⟨a, by rw [hacq.env.cap]; exact ha, by rw [hacq.pins a hai]; exact ha0⟩

/-- Giving back the pin of an acquired frame after balanced steps is, in all, a
balanced step. -/
theorem release_acquired {db db1 s : database_t} {i p : Nat} (hacq : acquired db db1 i p)
    (hbal : balanced db1 s) (hp : p ≠ 0) :
    balanced db (buffer_release_page s i) ∧
      ∀ q, q ≠ 0 → page_content (buffer_release_page s i) q = page_content s q := by
  have hpin1 : (db1.frame i).pin_count > 0 := by rw [hacq.pin]; omega
  have hpin : (s.frame i).pin_count = (db.frame i).pin_count + 1 := by
    rw [hbal.pins i, hacq.pin]
  have hpid : (s.frame i).page_id = p := by rw [hbal.held i hpin1, hacq.page_id]
  have hlt : i < s.capacity := by rw [hbal.env.cap]; exact hacq.lt
  obtain ⟨hu, hc, hcont⟩ := set_frame_spec s i p (page_t.mk (s.frame i).page_id (s.frame i).data
    (s.frame i).is_dirty ((s.frame i).pin_count - 1)) hp hbal.unique hbal.clean hpid hpid
    (Or.inr ⟨rfl, rfl⟩)
  rw [release_eq s i (by omega)]
  refine ⟨⟨same_env_trans hacq.env (same_env_trans hbal.env (same_env_set_frame _ _ _)), hu, hc,
    ?_, ?_⟩, ?_⟩
  · intro j
    by_cases hj : j = i
    · subst hj
      rw [frame_set_frame_same _ _ _ hlt]
      show (s.frame j).pin_count - 1 = _
      omega
    · rw [frame_set_frame_ne _ _ _ _ hj, hbal.pins j, hacq.pins j hj]
  · intro j hj
    have hj1 : (db1.frame j).pin_count > 0 := by
      by_cases hji : j = i
      · rw [hji]; exact hpin1
      · rw [hacq.pins j hji]; exact hj
    by_cases hji : j = i
    · subst hji
      rw [frame_set_frame_same _ _ _ hlt]
      show (s.frame j).page_id = _
      rw [hbal.held j hj1, hacq.held j hj]
    · rw [frame_set_frame_ne _ _ _ _ hji, hbal.held j hj1, hacq.held j hj]
  · intro q hq
    rw [hcont q hq]
    by_cases hqp : q = p
    · rw [if_pos hqp, hqp]
      exact (page_content_of_frame s p i hbal.unique hp hpid).symm
    · rw [if_neg hqp]

/-- The function `tuple_insert` into a table whose root is a leaf with room, for a key the
leaf does not hold: it succeeds; the row is slot 0 of the page that was the
metadata page's `next_page_id`, and the leaf maps the key to that location. -/
theorem tuple_insert_spec (fuel : Nat) (db : database_t) (name : List Nat) (tuple : tuple_t)
    (txn_id si : Nat) (key : value_t) (m : metadata_t) (ss : List table_schema_t)
    (node : btree_node_t)
    (hu : frames_unique db) (hc : frames_clean db) (hfree : two_free_frames db)
    (hs : find_table_schema db name = some si)
    (hcc : tuple.column_count = (db.schema si).column_count)
    (hpk : extract_primary_key (db.schema si) (stamped tuple txn_id) = some key)
    (hmeta : page_content db METADATA_PAGE_ID = page_data.metadata m ss)
    (hnew : m.next_page_id ≠ 0)
    (hzero : page_content db m.next_page_id = page_data.zero)
    (hroot : (db.schema si).root_page_id ≠ 0)
    (hnode : page_content db (db.schema si).root_page_id = page_data.btree_node node)
    (hleaf : node.is_leaf = true)
    (hnodup : ¬ (btree_find_key_position node key < node.key_count ∧
      value_compare key (node.keys.getD (btree_find_key_position node key) zero_value) = 0))
    (hroom : node.key_count < BTREE_ORDER - 1) :
    ∃ db', tuple_insert (fuel + 1) db name tuple txn_id = some (0, db') ∧ balanced db db' ∧
      page_content db' (db.schema si).root_page_id =
        page_data.btree_node (btree_insert_key_at_position node
          (btree_find_key_position node key) key m.next_page_id 0) ∧
      page_content db' m.next_page_id =
        page_data.heap 1 ((List.replicate TUPLES_PER_PAGE zero_tuple).set 0
          (stamped tuple txn_id)) := by
  have hne1 : m.next_page_id ≠ METADATA_PAGE_ID := by
    intro h
    rw [h, hmeta] at hzero
    cases hzero
  have hrne1 : (db.schema si).root_page_id ≠ METADATA_PAGE_ID := by
    intro h
    rw [h, hmeta] at hnode
    cases hnode
  have hrnew : (db.schema si).root_page_id ≠ m.next_page_id := by
    intro h
    rw [h, hzero] at hnode
    cases hnode
  obtain ⟨i, db1, halloc, hacq, hdz, hcont1⟩ :=
    storage_allocate_page_spec db m ss hu hc (free_frame_of_two db hfree) hmeta hnew hzero
  have hc1new : page_content db1 m.next_page_id = page_data.zero := by
    rw [page_content_of_frame db1 _ i hacq.unique hnew hacq.page_id, hdz]
  obtain ⟨db2, hstore, hbal2, hcont2⟩ :=
    store_tuple_in_page_spec db1 m.next_page_id (stamped tuple txn_id) 0
      (List.replicate TUPLES_PER_PAGE zero_tuple) hnew hacq.unique hacq.clean
      (Or.inl ⟨i, hacq.page_id⟩) (by rw [hc1new]; rfl) (by decide)
  have hpin1 : (db1.frame i).pin_count > 0 := by rw [hacq.pin]; omega
  have hpid2 : (db2.frame i).page_id = m.next_page_id := by
    rw [hbal2.held i hpin1, hacq.page_id]
  have hroot2 : page_content db2 (db.schema si).root_page_id = page_data.btree_node node := by
    rw [hcont2 _ hroot, if_neg hrnew, hcont1 _ hroot, if_neg hrne1, hnode]
  obtain ⟨db3, hins, hbal3, hcont3⟩ :=
    btree_insert_leaf_spec fuel db2 (db.schema si).root_page_id key m.next_page_id 0 node hroot
      hbal2.unique hbal2.clean
      (Or.inr (free_frame_of_balanced hbal2 (free_frame_of_acquired hacq hfree)))
      hroot2 hleaf hnodup hroom
  obtain ⟨hbal4, hcont4⟩ := release_acquired hacq (balanced_trans hbal2 hbal3) hnew
  refine ⟨buffer_release_page db3 i, ?_, hbal4, ?_, ?_⟩
  · unfold tuple_insert
    rw [hs]
    simp only []
    rw [if_neg (by simpa using hcc)]
    rw [halloc]
    simp only []
    rw [hacq.page_id]
    have hst : ({ tuple with header := { xmin := txn_id, xmax := 0, is_deleted := false } } :
        tuple_t) = stamped tuple txn_id := rfl
    rw [hst, hstore]
    simp only []
    rw [if_neg (by simp), hpk]
    simp only []
    rw [hpid2, hins]
    simp
  · rw [hcont4 _ hroot, hcont3 _ hroot, if_pos rfl]
  · rw [hcont4 _ hnew, hcont3 _ hnew, if_neg (fun h => hrnew h.symm), hcont2 _ hnew, if_pos rfl]

/-- The function `tuple_select` for a key the root leaf holds, whose location is a slot in
use of a heap page: the result is decided by `mvcc_is_visible` on the tuple
stored there. -/
theorem tuple_select_found (fuel : Nat) (db : database_t) (name : List Nat) (key : value_t)
    (viewer si : Nat) (node : btree_node_t) (tp sl c : Nat) (tl : List tuple_t)
    (m : transaction_manager_t)
    (hu : frames_unique db) (hc : frames_clean db) (hfree : free_frame db)
    (hs : find_table_schema db name = some si)
    (hroot : (db.schema si).root_page_id ≠ 0)
    (hnode : page_content db (db.schema si).root_page_id = page_data.btree_node node)
    (hleaf : node.is_leaf = true)
    (hlook : leaf_lookup node key = some (tp, sl)) (htp : tp ≠ 0)
    (hheap : (page_content db tp).as_heap = some (c, tl))
    (hslot : slot_as_int sl < (c : Int))
    (hm : db.txn_manager = some m) :
    ∃ db', tuple_select (fuel + 1) db name (some key) viewer =
        some (if mvcc_is_visible (tl.getD sl zero_tuple).header viewer m = true then
            { ret := 0, count := 1, results := some (tl.getD sl zero_tuple) }
          else { ret := 0, count := 0, results := none }, db') ∧
      balanced db db' ∧ ∀ q, q ≠ 0 → page_content db' q = page_content db q := by
  obtain ⟨da, hsearch, hbala, hconta⟩ :=
    btree_search_leaf_spec fuel db _ key node hroot hu hc (Or.inr hfree) hnode hleaf
  obtain ⟨dbb, hload, hbalb, hcontb⟩ :=
    load_tuple_from_page_spec da tp sl c tl htp hbala.unique hbala.clean
      (Or.inr (free_frame_of_balanced hbala hfree)) (by rw [hconta tp htp]; exact hheap)
  refine ⟨dbb, ?_, balanced_trans hbala hbalb, ?_⟩
  · unfold tuple_select
    rw [hs]
    simp only []
    rw [hsearch, hlook]
    simp only []
    rw [hload, if_neg (by omega)]
    simp only []
    rw [hbalb.env.txn, hbala.env.txn, hm]
    simp only []
    by_cases hv : mvcc_is_visible (tl.getD sl zero_tuple).header viewer m = true
    · rw [if_pos hv, if_pos hv]
    · rw [if_neg hv, if_neg hv]
  · intro q hq
    rw [hcontb q hq, hconta q hq]

theorem modify_write_release_eq (s : database_t) (i p : Nat) (d : page_data)
    (hlt : i < s.capacity) (hpin : (s.frame i).pin_count > 0) :
    buffer_release_page
        (write_page (mark_dirty (set_data s i d) i) p
          ((mark_dirty (set_data s i d) i).frame i).data) i =
      write_page (s.set_frame i (page_t.mk (s.frame i).page_id d true
        ((s.frame i).pin_count - 1))) p d := by
  rw [modify_eq s i d hlt, frame_set_frame_same _ _ _ hlt]
  rw [release_eq _ _ (by rw [frame_write_page, frame_set_frame_same _ _ _ hlt]; exact hpin),
    frame_write_page, frame_set_frame_same _ _ _ hlt, set_frame_write_page,
    set_frame_set_frame]

/-- A successful `tuple_delete` on a table whose root is a leaf: the key was in
the leaf, its row was visible to the deleting transaction, and afterwards the
row's slot holds the row with `xmax` set to that transaction; nothing else
changed. -/
theorem tuple_delete_leaf_success (fuel : Nat) (db db1 : database_t) (name : List Nat)
    (key : value_t) (txn_id si : Nat) (node : btree_node_t)
    (hu : frames_unique db) (hc : frames_clean db) (hfree : free_frame db)
    (hs : find_table_schema db name = some si)
    (hroot : (db.schema si).root_page_id ≠ 0)
    (hnode : page_content db (db.schema si).root_page_id = page_data.btree_node node)
    (hleaf : node.is_leaf = true)
    (hptr : ∀ tp sl, leaf_lookup node key = some (tp, sl) → tp ≠ 0)
    (hdel : tuple_delete fuel db name key txn_id = some (0, db1)) :
    ∃ tp sl c tl m, leaf_lookup node key = some (tp, sl) ∧
      (page_content db tp).as_heap = some (c, tl) ∧ slot_as_int sl < (c : Int) ∧
      db.txn_manager = some m ∧
      mvcc_is_visible (tl.getD sl zero_tuple).header txn_id m = true ∧
      balanced db db1 ∧
      page_content db1 tp = page_data.heap c (tl.set sl
        { tl.getD sl zero_tuple with
          header := mvcc_mark_deleted (tl.getD sl zero_tuple).header txn_id }) ∧
      ∀ q, q ≠ 0 → q ≠ tp → page_content db1 q = page_content db q := by
  cases fuel with
  | zero =>
    unfold tuple_delete at hdel
    rw [hs] at hdel
    simp [btree_search] at hdel
  | succ fuel =>
    obtain ⟨da, hsearch, hbala, hconta⟩ :=
      btree_search_leaf_spec fuel db _ key node hroot hu hc (Or.inr hfree) hnode hleaf
    unfold tuple_delete at hdel
    rw [hs] at hdel
    simp only [] at hdel
    rw [hsearch] at hdel
    cases hlook : leaf_lookup node key with
    | none =>
      rw [hlook] at hdel
      simp at hdel
    | some loc =>
      obtain ⟨tp, sl⟩ := loc
      have htp := hptr tp sl hlook
      rw [hlook] at hdel
      simp only [] at hdel
      have hfa := free_frame_of_balanced hbala hfree
      cases hheap : (page_content db tp).as_heap with
      | none =>
        rw [load_tuple_from_page_none da tp sl htp hbala.unique hbala.clean (Or.inr hfa)
          (by rw [hconta tp htp]; exact hheap)] at hdel
        simp at hdel
      | some ct =>
        obtain ⟨c, tl⟩ := ct
        obtain ⟨dbb, hload, hbalb, hcontb⟩ :=
          load_tuple_from_page_spec da tp sl c tl htp hbala.unique hbala.clean (Or.inr hfa)
            (by rw [hconta tp htp]; exact hheap)
        rw [hload] at hdel
        by_cases hslot : slot_as_int sl ≥ (c : Int)
        · rw [if_pos hslot] at hdel
          simp at hdel
        · rw [if_neg hslot] at hdel
          simp only [] at hdel
          have hbalab := balanced_trans hbala hbalb
          cases hm : db.txn_manager with
          | none =>
            rw [hbalb.env.txn, hbala.env.txn, hm] at hdel
            simp at hdel
          | some m =>
            rw [hbalb.env.txn, hbala.env.txn, hm] at hdel
            simp only [] at hdel
            by_cases hv : mvcc_is_visible (tl.getD sl zero_tuple).header txn_id m = true
            · rw [if_pos hv] at hdel
              obtain ⟨i, dbc, hget, hlt, hpid, hdata, hpin, _, hf⟩ :=
                get_then_set dbb tp htp hbalab.unique hbalab.clean
                  (Or.inr (free_frame_of_balanced hbalab hfree))
              have hcb : page_content dbb tp = page_content db tp := by
                rw [hcontb tp htp, hconta tp htp]
              obtain ⟨hbal, hcont⟩ := hf (page_t.mk (dbc.frame i).page_id
                (page_data.heap c (tl.set sl
                  { tl.getD sl zero_tuple with
                    header := mvcc_mark_deleted (tl.getD sl zero_tuple).header txn_id })) true
                ((dbc.frame i).pin_count - 1)) hpid (by simp [hpin]) (Or.inl rfl)
              have hfr := frame_set_frame_same dbc i (page_t.mk (dbc.frame i).page_id
                (page_data.heap c (tl.set sl
                  { tl.getD sl zero_tuple with
                    header := mvcc_mark_deleted (tl.getD sl zero_tuple).header txn_id })) true
                ((dbc.frame i).pin_count - 1)) hlt
              obtain ⟨hbal2, hcont2⟩ := balanced_write_page hbal i tp htp (by rw [hfr]; exact hpid)
              rw [hfr] at hbal2 hcont2
              rw [hget] at hdel
              simp only [] at hdel
              rw [hdata, hcb, hheap] at hdel
              simp only [] at hdel
              rw [modify_write_release_eq dbc i tp _ hlt (by omega)] at hdel
              simp only [Option.some.injEq, Prod.mk.injEq, true_and] at hdel
              subst hdel
              refine ⟨tp, sl, c, tl, m, rfl, hheap, by omega, rfl, hv,
                balanced_trans hbalab hbal2, ?_, ?_⟩
              · rw [hcont2 tp htp, hcont tp htp, if_pos rfl]
              · intro q hq hqtp
                rw [hcont2 q hq, hcont q hq, if_neg hqtp, hcontb q hq, hconta q hq]
            · rw [if_neg hv] at hdel
              simp at hdel

theorem find_loop_spec (node : btree_node_t) (key : value_t) (hmono : ordered_for node key) :
    ∀ (fuel : Nat) (left right pos : Int), 0 ≤ left → right < node.key_count → left ≤ pos →
      pos ≤ right + 1 → right + 1 - left ≤ fuel →
      (∀ i : Nat, (i : Int) < left → 0 < key_cmp node key i) →
      (∀ i : Nat, right < (i : Int) → i < node.key_count → key_cmp node key i < 0) →
      is_lower_bound node key (btree_find_key_position_loop node key fuel left right pos).toNat := by
  intro fuel
  induction fuel with
  | zero =>
    intro left right pos h0 hr hlp hpr hfuel hl hrt
    have hpos : pos = left := by omega
    subst hpos
    unfold btree_find_key_position_loop
    refine ⟨by omega, ?_, ?_, ?_⟩
    · intro i hi
      exact hl i (by omega)
    · intro i hi hin
      exact le_of_lt (hrt i (by omega) hin)
    · intro i hi hin
      exact hrt i (by omega) hin
  | succ fuel ih =>
    intro left right pos h0 hr hlp hpr hfuel hl hrt
    unfold btree_find_key_position_loop
    by_cases hlr : left ≤ right
    · rw [if_pos hlr]
      simp only []
      have hmid1 : left ≤ (left + right) / 2 := by omega
      have hmid2 : (left + right) / 2 ≤ right := by omega
      have hmidn : ((left + right) / 2).toNat < node.key_count := by omega
      have hmidc : (((left + right) / 2).toNat : Int) = (left + right) / 2 := by omega
      by_cases hc0 : value_compare key (node.keys.getD ((left + right) / 2).toNat zero_value) = 0
      · rw [if_pos hc0]
        have hc0' : key_cmp node key ((left + right) / 2).toNat = 0 := hc0
        refine ⟨by omega, ?_, ?_, ?_⟩
        · intro i hi
          by_contra hneg
          have := hmono i ((left + right) / 2).toNat (by omega) hmidn (by omega)
          omega
        · intro i hi hin
          by_cases hie : i = ((left + right) / 2).toNat
          · rw [hie, hc0']
          · exact le_of_lt (hmono ((left + right) / 2).toNat i (by omega) hin (by omega))
        · intro i hi hin
          exact hmono ((left + right) / 2).toNat i (by omega) hin (by omega)
      · rw [if_neg hc0]
        by_cases hneg : value_compare key (node.keys.getD ((left + right) / 2).toNat zero_value) < 0
        · rw [if_pos hneg]
          have hneg' : key_cmp node key ((left + right) / 2).toNat < 0 := hneg
          apply ih left ((left + right) / 2 - 1) ((left + right) / 2) h0 (by omega) hmid1
            (by omega) (by omega) hl
          intro i hi hin
          by_cases hie : i = ((left + right) / 2).toNat
          · rw [hie]; exact hneg'
          · exact hmono ((left + right) / 2).toNat i (by omega) hin (by omega)
        · rw [if_neg hneg]
          have hpos' : 0 < key_cmp node key ((left + right) / 2).toNat := by
            unfold key_cmp
            omega
          apply ih ((left + right) / 2 + 1) right ((left + right) / 2 + 1) (by omega) hr
            (le_refl _) (by omega) (by omega) _ hrt
          intro i hi
          by_cases hie : i = ((left + right) / 2).toNat
          · rw [hie]; exact hpos'
          · by_contra hcon
            have := hmono i ((left + right) / 2).toNat (by omega) hmidn (by omega)
            omega
    · rw [if_neg hlr]
      have hpos : pos = left := by omega
      subst hpos
      refine ⟨by omega, ?_, ?_, ?_⟩
      · intro i hi
        exact hl i (by omega)
      · intro i hi hin
        exact le_of_lt (hrt i (by omega) hin)
      · intro i hi hin
        exact hrt i (by omega) hin

/-- The function `btree_find_key_position` returns the lower bound of the key when the node's keys
are in order as seen from the key. -/
theorem btree_find_key_position_spec (node : btree_node_t) (key : value_t)
    (hmono : ordered_for node key) :
    is_lower_bound node key (btree_find_key_position node key) := by
  unfold btree_find_key_position
  apply find_loop_spec node key hmono (node.key_count + 1) 0 ((node.key_count : Int) - 1) 0
    (le_refl _) (by omega) (le_refl _) (by omega) (by push_cast; omega)
  · intro i hi
    omega
  · intro i hi hin
    omega

theorem lower_bound_unique (node : btree_node_t) (key : value_t) (r r' : Nat)
    (h : is_lower_bound node key r) (h' : is_lower_bound node key r') : r = r' := by
  obtain ⟨h1, h2, h3, _⟩ := h
  obtain ⟨h1', h2', h3', _⟩ := h'
  by_contra hne
  rcases Nat.lt_or_gt_of_ne hne with hlt | hgt
  · have := h2' r hlt
    have := h3 r (le_refl _) (by omega)
    omega
  · have := h2 r' hgt
    have := h3' r' (le_refl _) (by omega)
    omega

theorem strcmp_self (x : List Nat) : strcmp x x = 0 := by
  induction x with
  | nil => rfl
  | cons a as ih => simp [strcmp, ih]

theorem strcmp_le_lt_trans (x y z : List Nat) (h1 : strcmp x y ≤ 0) (h2 : strcmp y z < 0) :
    strcmp x z < 0 := by
  induction x generalizing y z with
  | nil =>
    cases z with
    | nil =>
      cases y with
      | nil => simp [strcmp] at h2
      | cons b bs => simp [strcmp] at h2
    | cons c cs => simp [strcmp]
  | cons a as ih =>
    cases y with
    | nil => simp [strcmp] at h1
    | cons b bs =>
      cases z with
      | nil => simp [strcmp] at h2
      | cons c cs =>
        unfold strcmp at h1 h2 ⊢
        by_cases hab : a < b
        · by_cases hbc : b < c
          · rw [if_pos (by omega)]; decide
          · rw [if_neg hbc] at h2
            by_cases hcb : c < b
            · rw [if_pos hcb] at h2; simp at h2
            · rw [if_pos (by omega)]; decide
        · rw [if_neg hab] at h1
          by_cases hba : b < a
          · rw [if_pos hba] at h1; simp at h1
          · rw [if_neg hba] at h1
            have hab' : a = b := by omega
            subst hab'
            by_cases hbc : a < c
            · rw [if_pos hbc]; decide
            · rw [if_neg hbc] at h2 ⊢
              by_cases hcb : c < a
              · rw [if_pos hcb] at h2; simp at h2
              · rw [if_neg hcb] at h2 ⊢
                exact ih bs cs h1 h2

theorem value_compare_self (k : value_t) : value_compare k k = 0 := by
  unfold value_compare
  rw [if_neg (by simp)]
  cases k.type <;> simp [strcmp_self]

theorem value_compare_le_lt_trans (k a b : value_t) (h1 : value_compare k a ≤ 0)
    (h2 : value_lt a b) : value_compare k b < 0 := by
  obtain ⟨hty, hlt⟩ := h2
  by_cases hk : k.type = a.type
  · unfold value_compare at h1 hlt ⊢
    rw [if_neg (by simpa using hk)] at h1
    rw [if_neg (by simpa using hty)] at hlt
    rw [if_neg (by simpa using hk.trans hty)]
    rw [← hk] at hlt
    cases hkt : k.type with
    | DATA_TYPE_INT =>
      rw [hkt] at h1 hlt
      simp only [] at h1 hlt ⊢
      have h1' : k.int_val ≤ a.int_val := by
        by_contra hc
        rw [if_neg (by omega), if_pos (by omega)] at h1
        simp at h1
      have h2' : a.int_val < b.int_val := by
        by_contra hc
        rw [if_neg hc] at hlt
        by_cases hc2 : a.int_val > b.int_val
        · rw [if_pos hc2] at hlt; simp at hlt
        · rw [if_neg hc2] at hlt; simp at hlt
      rw [if_pos (by omega)]
      decide
    | DATA_TYPE_FLOAT =>
      rw [hkt] at h1 hlt
      simp only [] at h1 hlt ⊢
      have h1' : k.float_val ≤ a.float_val := by
        by_contra hc
        rw [if_neg (by intro h; exact hc (le_of_lt h)), if_pos (lt_of_not_le hc)] at h1
        simp at h1
      have h2' : a.float_val < b.float_val := by
        by_contra hc
        rw [if_neg hc] at hlt
        by_cases hc2 : a.float_val > b.float_val
        · rw [if_pos hc2] at hlt; simp at hlt
        · rw [if_neg hc2] at hlt; simp at hlt
      rw [if_pos (lt_of_le_of_lt h1' h2')]
      decide
    | DATA_TYPE_VARCHAR =>
      rw [hkt] at h1 hlt
      simp only [] at h1 hlt ⊢
      exact strcmp_le_lt_trans _ _ _ h1 hlt
  · unfold value_compare
    rw [if_pos (by rw [← hty]; simpa using hk)]
    decide

/-- Strictly increasing keys are in order as seen from every key. -/
theorem ordered_of_sorted (node : btree_node_t) (key : value_t) (h : keys_sorted node) :
    ordered_for node key := by
  intro i j hij hj hle
  exact value_compare_le_lt_trans key _ _ hle (h j hj i hij)

theorem getD_set_eq {α : Type} (l : List α) (i j : Nat) (a d : α) (h : i < l.length) :
    (l.set i a).getD j d = if j = i then a else l.getD j d := by
  by_cases hj : j = i
  · subst hj
    rw [if_pos rfl]
    exact getD_set_same _ _ _ _ h
  · rw [if_neg hj]
    exact getD_set_ne _ _ _ _ _ hj

/-- The shifting loop of `btree_insert_key_at_position` on a leaf, started at index `m`:
the cells `pos + 1 .. m` receive the content of the cell before them. -/
theorem btree_shift_loop_spec (pos m : Nat) (node : btree_node_t)
    (hleaf : node.is_leaf = true) (hk : m < node.keys.length)
    (htp : m < node.tuple_page_ids.length) (hsl : m < node.tuple_slots.length) :
    (btree_shift_loop pos m node).is_leaf = true ∧
    (btree_shift_loop pos m node).key_count = node.key_count ∧
    (btree_shift_loop pos m node).keys.length = node.keys.length ∧
    (btree_shift_loop pos m node).tuple_page_ids.length = node.tuple_page_ids.length ∧
    (btree_shift_loop pos m node).tuple_slots.length = node.tuple_slots.length ∧
    (∀ j, (btree_shift_loop pos m node).keys.getD j zero_value =
      if pos < j ∧ j ≤ m then node.keys.getD (j - 1) zero_value
      else node.keys.getD j zero_value) ∧
    (∀ j, (btree_shift_loop pos m node).tuple_page_ids.getD j 0 =
      if pos < j ∧ j ≤ m then node.tuple_page_ids.getD (j - 1) 0
      else node.tuple_page_ids.getD j 0) ∧
    (∀ j, (btree_shift_loop pos m node).tuple_slots.getD j 0 =
      if pos < j ∧ j ≤ m then node.tuple_slots.getD (j - 1) 0
      else node.tuple_slots.getD j 0) := by
  induction m generalizing node with
  | zero =>
    unfold btree_shift_loop
    refine ⟨hleaf, rfl, rfl, rfl, rfl, ?_, ?_, ?_⟩ <;>
    · intro j
      rw [if_neg (by omega)]
  | succ m ih =>
    unfold btree_shift_loop
    by_cases hp : m + 1 > pos
    · rw [if_pos hp]
      have hstep : btree_shift_step node (m + 1) =
          { node with
            keys := node.keys.set (m + 1) (node.keys.getD m zero_value),
            tuple_page_ids := node.tuple_page_ids.set (m + 1) (node.tuple_page_ids.getD m 0),
            tuple_slots := node.tuple_slots.set (m + 1) (node.tuple_slots.getD m 0) } := by
        unfold btree_shift_step
        simp [hleaf]
      rw [hstep]
      obtain ⟨h1, h2, h3, h4, h5, h6, h7, h8⟩ := ih
        { node with
          keys := node.keys.set (m + 1) (node.keys.getD m zero_value),
          tuple_page_ids := node.tuple_page_ids.set (m + 1) (node.tuple_page_ids.getD m 0),
          tuple_slots := node.tuple_slots.set (m + 1) (node.tuple_slots.getD m 0) }
        hleaf (by simp; omega) (by simp; omega) (by simp; omega)
      refine ⟨h1, h2, by rw [h3]; simp, by rw [h4]; simp, by rw [h5]; simp, ?_, ?_, ?_⟩
      · intro j
        rw [h6 j]
        simp only []
        rw [getD_set_eq _ _ _ _ _ hk, getD_set_eq _ _ _ _ _ hk]
        by_cases hj1 : pos < j ∧ j ≤ m
        · rw [if_pos hj1, if_neg (by omega), if_pos (by omega)]
        · rw [if_neg hj1]
          by_cases hj2 : j = m + 1
          · rw [if_pos hj2, if_pos (by omega), hj2]
            simp
          · rw [if_neg hj2, if_neg (by omega)]
      · intro j
        rw [h7 j]
        simp only []
        rw [getD_set_eq _ _ _ _ _ htp, getD_set_eq _ _ _ _ _ htp]
        by_cases hj1 : pos < j ∧ j ≤ m
        · rw [if_pos hj1, if_neg (by omega), if_pos (by omega)]
        · rw [if_neg hj1]
          by_cases hj2 : j = m + 1
          · rw [if_pos hj2, if_pos (by omega), hj2]
            simp
          · rw [if_neg hj2, if_neg (by omega)]
      · intro j
        rw [h8 j]
        simp only []
        rw [getD_set_eq _ _ _ _ _ hsl, getD_set_eq _ _ _ _ _ hsl]
        by_cases hj1 : pos < j ∧ j ≤ m
        · rw [if_pos hj1, if_neg (by omega), if_pos (by omega)]
        · rw [if_neg hj1]
          by_cases hj2 : j = m + 1
          · rw [if_pos hj2, if_pos (by omega), hj2]
            simp
          · rw [if_neg hj2, if_neg (by omega)]
    · rw [if_neg hp]
      refine ⟨hleaf, rfl, rfl, rfl, rfl, ?_, ?_, ?_⟩ <;>
      · intro j
        rw [if_neg (by omega)]

/-- The cells of a leaf after `btree_insert_key_at_position` at `pos`: the key and its tuple
location are in cell `pos`, the earlier cells are as before, the later ones moved
up by one. -/
theorem btree_insert_key_at_position_leaf (node : btree_node_t) (pos : Nat) (key : value_t)
    (tp ts : Nat) (hleaf : node.is_leaf = true) (hpos : pos ≤ node.key_count)
    (hk : node.key_count < node.keys.length)
    (htp : node.key_count < node.tuple_page_ids.length)
    (hsl : node.key_count < node.tuple_slots.length) :
    (btree_insert_key_at_position node pos key tp ts).is_leaf = true ∧
    (btree_insert_key_at_position node pos key tp ts).key_count = node.key_count + 1 ∧
    (∀ j, (btree_insert_key_at_position node pos key tp ts).keys.getD j zero_value =
      if j = pos then key
      else if pos < j ∧ j ≤ node.key_count then node.keys.getD (j - 1) zero_value
      else node.keys.getD j zero_value) ∧
    (∀ j, (btree_insert_key_at_position node pos key tp ts).tuple_page_ids.getD j 0 =
      if j = pos then tp
      else if pos < j ∧ j ≤ node.key_count then node.tuple_page_ids.getD (j - 1) 0
      else node.tuple_page_ids.getD j 0) ∧
    (∀ j, (btree_insert_key_at_position node pos key tp ts).tuple_slots.getD j 0 =
      if j = pos then ts
      else if pos < j ∧ j ≤ node.key_count then node.tuple_slots.getD (j - 1) 0
      else node.tuple_slots.getD j 0) := by
  obtain ⟨h1, h2, h3, h4, h5, h6, h7, h8⟩ :=
    btree_shift_loop_spec pos node.key_count node hleaf hk htp hsl
  unfold btree_insert_key_at_position
  simp only [h1, if_true]
  refine ⟨trivial, by rw [h2], ?_, ?_, ?_⟩
  · intro j
    rw [getD_set_eq _ _ _ _ _ (by rw [h3]; omega), h6 j]
  · intro j
    rw [getD_set_eq _ _ _ _ _ (by rw [h4]; omega), h7 j]
  · intro j
    rw [getD_set_eq _ _ _ _ _ (by rw [h5]; omega), h8 j]

/-- After a key that the sorted leaf does not hold is inserted at the position
`btree_find_key_position` gives, the leaf lookup of that key returns the location
inserted with it. -/
theorem leaf_lookup_after_insert (node : btree_node_t) (key : value_t) (tp ts : Nat)
    (hleaf : node.is_leaf = true) (hsorted : keys_sorted node)
    (habsent : ∀ i, i < node.key_count → value_compare key (node.keys.getD i zero_value) ≠ 0)
    (hk : node.key_count < node.keys.length)
    (htp : node.key_count < node.tuple_page_ids.length)
    (hsl : node.key_count < node.tuple_slots.length) :
    leaf_lookup
      (btree_insert_key_at_position node (btree_find_key_position node key) key tp ts) key =
      some (tp, ts) := by
  have hlb := btree_find_key_position_spec node key (ordered_of_sorted node key hsorted)
  obtain ⟨hpos, hbefore, hle, hafter⟩ := hlb
  obtain ⟨_, hcount, hkeys, hpids, hslots⟩ :=
    btree_insert_key_at_position_leaf node (btree_find_key_position node key) key tp ts hleaf
      hpos hk htp hsl
  have hcmp : ∀ j, key_cmp
      (btree_insert_key_at_position node (btree_find_key_position node key) key tp ts) key j =
      if j = btree_find_key_position node key then 0
      else if btree_find_key_position node key < j ∧ j ≤ node.key_count then
        key_cmp node key (j - 1)
      else key_cmp node key j := by
    intro j
    unfold key_cmp
    rw [hkeys j]
    by_cases h1 : j = btree_find_key_position node key
    · rw [if_pos h1, if_pos h1, value_compare_self]
    · rw [if_neg h1, if_neg h1]
      by_cases h2 : btree_find_key_position node key < j ∧ j ≤ node.key_count
      · rw [if_pos h2, if_pos h2]
      · rw [if_neg h2, if_neg h2]
  have hlt : ∀ i, btree_find_key_position node key ≤ i → i < node.key_count →
      key_cmp node key i < 0 := by
    intro i hi hin
    have h1 := hle i hi hin
    have h2 := habsent i hin
    unfold key_cmp at h1 ⊢
    omega
  have hlb' : is_lower_bound
      (btree_insert_key_at_position node (btree_find_key_position node key) key tp ts) key
      (btree_find_key_position node key) := by
    refine ⟨by rw [hcount]; omega, ?_, ?_, ?_⟩
    · intro i hi
      rw [hcmp i, if_neg (by omega), if_neg (by omega)]
      exact hbefore i hi
    · intro i hi hin
      rw [hcount] at hin
      rw [hcmp i]
      by_cases h1 : i = btree_find_key_position node key
      · rw [if_pos h1]
      · rw [if_neg h1, if_pos (by omega)]
        exact le_of_lt (hlt (i - 1) (by omega) (by omega))
    · intro i hi hin
      rw [hcount] at hin
      rw [hcmp i, if_neg (by omega), if_pos (by omega)]
      exact hlt (i - 1) (by omega) (by omega)
  have hord' : ordered_for
      (btree_insert_key_at_position node (btree_find_key_position node key) key tp ts) key := by
    intro i j hij hj hi0
    obtain ⟨_, hb', _, ha'⟩ := hlb'
    have hge : btree_find_key_position node key ≤ i := by
      by_contra hc
      have := hb' i (by omega)
      omega
    exact ha' j (by omega) hj
  have hfind : btree_find_key_position
      (btree_insert_key_at_position node (btree_find_key_position node key) key tp ts) key =
      btree_find_key_position node key :=
    lower_bound_unique _ key _ _ (btree_find_key_position_spec _ key hord') hlb'
  unfold leaf_lookup
  rw [hfind, hcount, hkeys, hpids, hslots]
  simp only [if_true]
  rw [if_pos ⟨by omega, value_compare_self key⟩]

theorem getD_mem {α : Type} (l : List α) (i : Nat) (d : α) (h : i < l.length) :
    l.getD i d ∈ l := by
  induction l generalizing i with
  | nil => simp at h
  | cons x xs ih =>
    cases i with
    | zero => simp
    | succ k =>
      simp only [List.getD_cons_succ]
      exact List.mem_cons_of_mem _ (ih k (by simpa using h))

theorem pairwise_getD {α : Type} (R : α → α → Prop) (l : List α) (d : α)
    (h : l.Pairwise R) : ∀ i j, i < j → j < l.length → R (l.getD i d) (l.getD j d) := by
  induction l with
  | nil => intro i j _ hj; simp at hj
  | cons x xs ih =>
    intro i j hij hj
    rw [List.pairwise_cons] at h
    cases j with
    | zero => omega
    | succ m =>
      cases i with
      | zero =>
        simp only [List.getD_cons_zero, List.getD_cons_succ]
        exact h.1 _ (getD_mem xs m d (by simpa using hj))
      | succ k =>
        simp only [List.getD_cons_succ]
        exact ih h.2 k m (by omega) (by simpa using hj)

theorem frames_unique_of_pool_ok (db : database_t) (h : pool_ok db) : frames_unique db := by
  intro i j hij hi
  by_contra hne
  have hj : (db.frame j).page_id ≠ 0 := by rw [← hij]; exact hi
  have hil := frame_lt_of_page_id db i hi
  have hjl := frame_lt_of_page_id db j hj
  rcases Nat.lt_or_gt_of_ne hne with hlt | hgt
  · rcases pairwise_getD _ _ empty_frame h.1 i j hlt hjl with h1 | h1
    · exact h1 hij
    · exact hi h1
  · rcases pairwise_getD _ _ empty_frame h.1 j i hgt hil with h1 | h1
    · exact h1 hij.symm
    · exact hj h1

theorem frames_clean_of_pool_ok (db : database_t) (h : pool_ok db) : frames_clean db := by
  intro i hi hd
  exact h.2 _ (getD_mem _ i empty_frame (frame_lt_of_page_id db i hi)) hi hd

theorem page_ok_file_content (file : List page_data) (q : Nat)
    (h : ∀ d ∈ file, page_ok d) : page_ok (file_content file q) := by
  unfold file_content storage_read_page
  by_cases hq : q = 0
  · rw [if_pos hq]
    trivial
  · rw [if_neg hq]
    cases hg : file.get? (q - 1) with
    | none => trivial
    | some d => exact h d (List.get?_mem hg)

/-- Every page content of a database with well-formed pages is well formed. -/
theorem page_ok_page_content (db : database_t) (h : pages_ok db) (q : Nat) :
    page_ok (page_content db q) := by
  unfold page_content
  cases hr : find_resident q db.buffer_pool.pages with
  | none => exact page_ok_file_content _ q h.2
  | some i =>
    obtain ⟨hi, _, _⟩ := find_resident_some q _ i hr
    exact h.1 _ (getD_mem _ i empty_frame hi)

theorem same_storage_frame {db db' : database_t} (h : same_storage db db') (j : Nat) :
    db'.frame j = db.frame j := by
  unfold database_t.frame
  rw [h.pool]

theorem same_storage_unique {db db' : database_t} (h : same_storage db db')
    (hu : frames_unique db) : frames_unique db' := by
  intro i j
  rw [same_storage_frame h i, same_storage_frame h j]
  exact hu i j

theorem same_storage_clean {db db' : database_t} (h : same_storage db db')
    (hc : frames_clean db) : frames_clean db' := by
  intro i
  rw [same_storage_frame h i, h.file]
  exact hc i

theorem same_storage_free {db db' : database_t} (h : same_storage db db')
    (hf : free_frame db) : free_frame db' := by
  obtain ⟨j, hj, hj0⟩ := hf
  refine ⟨j, ?_, ?_⟩
  · unfold database_t.capacity
    rw [h.pool]
    exact hj
  · rw [same_storage_frame h j]
    exact hj0

theorem same_storage_content {db db' : database_t} (h : same_storage db db') (q : Nat) :
    page_content db' q = page_content db q := by
  unfold page_content database_t.frame
  rw [h.pool, h.file]

theorem same_storage_schema {db db' : database_t} (h : same_storage db db') (name : List Nat) :
    find_table_schema db' name = find_table_schema db name ∧
      ∀ i, db'.schema i = db.schema i := by
  unfold find_table_schema database_t.schema
  rw [h.schemas, h.schema_count]
  exact ⟨rfl, fun _ => rfl⟩

/-- A transaction sees the row it has inserted itself. -/
theorem mvcc_visible_own (txn_id : Nat) (manager : transaction_manager_t) :
    mvcc_is_visible { xmin := txn_id, xmax := 0, is_deleted := false } txn_id manager = true := by
  unfold mvcc_is_visible
  cases hf : find_transaction manager txn_id with
  | none => simp [hf]
  | some c =>
    have := find_transaction_txn_id manager txn_id c hf
    simp [hf, this]

/-- A row whose creator is recorded as Active is not visible to another transaction. -/
theorem mvcc_invisible_active (header : tuple_header_t) (viewer : Nat)
    (manager : transaction_manager_t)
    (hactive : txn_state_of manager header.xmin = some transaction_state_t.TXN_STATE_ACTIVE)
    (hne : viewer ≠ header.xmin) : mvcc_is_visible header viewer manager = false := by
  unfold txn_state_of at hactive
  cases hf : find_transaction manager header.xmin with
  | none => rw [hf] at hactive; simp at hactive
  | some c =>
    rw [hf] at hactive
    simp only [Option.map_some', Option.some.injEq] at hactive
    have hid := find_transaction_txn_id manager _ c hf
    unfold mvcc_is_visible
    cases header.is_deleted <;> by_cases h1 : header.xmin > viewer <;>
      simp [hf, hactive, hid, h1, Ne.symm hne]

/-- A row that is not deleted and whose creator is recorded as Committed is visible
to every transaction with an id not below the creator's. -/
theorem mvcc_visible_committed (creator viewer : Nat) (manager : transaction_manager_t)
    (hcommitted : txn_state_of manager creator =
      some transaction_state_t.TXN_STATE_COMMITTED)
    (hle : creator ≤ viewer) :
    mvcc_is_visible { xmin := creator, xmax := 0, is_deleted := false } viewer manager = true := by
  unfold txn_state_of at hcommitted
  cases hf : find_transaction manager creator with
  | none => rw [hf] at hcommitted; simp at hcommitted
  | some c =>
    rw [hf] at hcommitted
    simp only [Option.map_some', Option.some.injEq] at hcommitted
    unfold mvcc_is_visible
    simp [hf, hcommitted]
    omega

/-- A row stamped with `xmax = deleter` is not visible to a later transaction when
the deleter is recorded as Committed or is no longer recorded. -/
theorem mvcc_invisible_deleted (header : tuple_header_t) (viewer : Nat)
    (manager : transaction_manager_t) (h0 : header.xmax ≠ 0) (hlt : header.xmax < viewer)
    (hcommitted : ∀ t, find_transaction manager header.xmax = some t →
      t.state = transaction_state_t.TXN_STATE_COMMITTED) :
    mvcc_is_visible header viewer manager = false := by
  unfold mvcc_is_visible
  cases hf : find_transaction manager header.xmax with
  | none =>
    cases header.is_deleted <;> by_cases h1 : header.xmin > viewer <;>
      cases find_transaction manager header.xmin <;> simp [h1, h0]
    all_goals omega
  | some d =>
    have hs := hcommitted d hf
    cases header.is_deleted <;> by_cases h1 : header.xmin > viewer <;>
      cases find_transaction manager header.xmin <;> simp [h1, h0, hs]
    all_goals omega

theorem txn_begin_same_storage (db : database_t) (now : Nat) :
    same_storage db (txn_begin db now).2 := by
  unfold txn_begin
  simp only []
  split <;> exact ⟨rfl, rfl, rfl, rfl⟩

theorem find_transaction_idx_getD (txn_id : Nat) (l : List transaction_t) (i : Nat)
    (d : transaction_t) (h : find_transaction_idx txn_id l = some i) :
    (l.getD i d).txn_id = txn_id := by
  induction l generalizing i with
  | nil => simp [find_transaction_idx] at h
  | cons x xs ih =>
    unfold find_transaction_idx at h
    by_cases hx : x.txn_id = txn_id
    · rw [if_pos hx] at h
      cases h
      simpa using hx
    · rw [if_neg hx] at h
      cases hr : find_transaction_idx txn_id xs with
      | none => rw [hr] at h; simp at h
      | some k =>
        rw [hr] at h
        simp at h
        subst h
        simpa using ih k hr

theorem find_after_set (txn_id : Nat) (l : List transaction_t) (i : Nat) (t : transaction_t)
    (h : find_transaction_idx txn_id l = some i) (ht : t.txn_id = txn_id) :
    (l.set i t).find? (fun s => s.txn_id = txn_id) = some t := by
  induction l generalizing i with
  | nil => simp [find_transaction_idx] at h
  | cons x xs ih =>
    unfold find_transaction_idx at h
    by_cases hx : x.txn_id = txn_id
    · rw [if_pos hx] at h
      cases h
      simp [ht]
    · rw [if_neg hx] at h
      cases hr : find_transaction_idx txn_id xs with
      | none => rw [hr] at h; simp at h
      | some k =>
        rw [hr] at h
        simp at h
        subst h
        simp only [List.set_cons_succ]
        rw [List.find?_cons_of_neg _ (by simpa using hx)]
        exact ih k hr

/-- A successful `txn_commit` or `txn_abort` changes only the transaction manager, in
which the transaction is then recorded with the final state. -/
theorem txn_finish_success (db db' : database_t) (txn_id : Nat) (final : transaction_state_t)
    (h : txn_finish db txn_id final = (0, db')) :
    same_storage db db' ∧
      ∃ m, db'.txn_manager = some m ∧ txn_state_of m txn_id = some final := by
  unfold txn_finish at h
  cases hm : db.txn_manager with
  | none => rw [hm] at h; simp at h
  | some manager =>
    rw [hm] at h
    simp only [] at h
    cases hi : find_transaction_idx txn_id manager.transactions with
    | none => rw [hi] at h; simp at h
    | some i =>
      rw [hi] at h
      simp only [] at h
      by_cases hs : (manager.transactions.getD i
          { txn_id := 0, state := transaction_state_t.TXN_STATE_ABORTED, start_time := 0 }).state ≠
          transaction_state_t.TXN_STATE_ACTIVE
      · rw [if_pos hs] at h
        simp at h
      · rw [if_neg hs] at h
        simp only [Prod.mk.injEq, true_and] at h
        subst h
        refine ⟨⟨rfl, rfl, rfl, rfl⟩, _, rfl, ?_⟩
        unfold txn_state_of find_transaction
        simp only []
        rw [find_after_set txn_id manager.transactions i
          { txn_id := (manager.transactions.getD i
              { txn_id := 0, state := transaction_state_t.TXN_STATE_ABORTED,
                start_time := 0 }).txn_id,
            state := final,
            start_time := (manager.transactions.getD i
              { txn_id := 0, state := transaction_state_t.TXN_STATE_ABORTED,
                start_time := 0 }).start_time } hi
          (find_transaction_idx_getD txn_id _ i _ hi)]
        rfl

theorem same_env_schema {db db' : database_t} (h : same_env db db') (name : List Nat) :
    find_table_schema db' name = find_table_schema db name ∧
      ∀ i, db'.schema i = db.schema i := by
  unfold find_table_schema database_t.schema
  rw [h.schemas, h.schema_count]
  exact ⟨rfl, fun _ => rfl⟩

theorem leaf_lookup_some (node : btree_node_t) (key : value_t) (tp sl : Nat)
    (h : leaf_lookup node key = some (tp, sl)) :
    ∃ pos, pos < node.key_count ∧ tp = node.tuple_page_ids.getD pos 0 ∧
      sl = node.tuple_slots.getD pos 0 := by
  unfold leaf_lookup at h
  by_cases hc : btree_find_key_position node key < node.key_count ∧
      value_compare key (node.keys.getD (btree_find_key_position node key) zero_value) = 0
  · rw [if_pos hc] at h
    simp only [Option.some.injEq, Prod.mk.injEq] at h
    exact ⟨_, hc.1, h.1.symm, h.2.symm⟩
  · rw [if_neg hc] at h
    cases h

theorem slot_as_int_small (sl : Nat) (h : sl < TUPLES_PER_PAGE) : slot_as_int sl = sl := by
  have h6 : TUPLES_PER_PAGE = 6 := by decide
  unfold slot_as_int
  have h1 : sl % 2 ^ 32 = sl := Nat.mod_eq_of_lt (by omega)
  rw [h1, if_pos (by omega)]

theorem as_heap_length (d : page_data) (c : Nat) (tl : List tuple_t) (hok : page_ok d)
    (h : d.as_heap = some (c, tl)) : tl.length = TUPLES_PER_PAGE := by
  cases d with
  | zero =>
    simp only [page_data.as_heap, Option.some.injEq, Prod.mk.injEq] at h
    rw [← h.2]
    simp
  | metadata m ss => simp [page_data.as_heap] at h
  | btree_node n => simp [page_data.as_heap] at h
  | heap c' ts =>
    simp only [page_data.as_heap, Option.some.injEq, Prod.mk.injEq] at h
    rw [← h.2]
    exact hok

/-- After a successful `tuple_insert` into a single-leaf table, `tuple_select` of
the inserted key, in any later state that differs only in the transaction
manager, is decided by `mvcc_is_visible` on the stored row. -/
theorem insert_then_select (fuel : Nat) (db : database_t) (name : List Nat) (tuple : tuple_t)
    (txn_id si : Nat) (key : value_t) (m : metadata_t) (ss : List table_schema_t)
    (node : btree_node_t)
    (hpool : pool_ok db) (hfree : two_free_frames db) (htable : leaf_table db name si node)
    (hroom : node.key_count < BTREE_ORDER - 1)
    (hmeta : page_content db METADATA_PAGE_ID = page_data.metadata m ss)
    (hnew : m.next_page_id ≠ 0)
    (hzero : page_content db m.next_page_id = page_data.zero)
    (hcc : tuple.column_count = (db.schema si).column_count)
    (hpk : extract_primary_key (db.schema si) (stamped tuple txn_id) = some key)
    (habsent : ∀ i, i < node.key_count →
      value_compare key (node.keys.getD i zero_value) ≠ 0) :
    ∃ db1, tuple_insert (fuel + 1) db name tuple txn_id = some (0, db1) ∧
      db1.txn_manager = db.txn_manager ∧
      ∀ (db' : database_t) (manager : transaction_manager_t) (viewer : Nat),
        same_storage db1 db' → db'.txn_manager = some manager →
        ∃ db2, tuple_select (fuel + 1) db' name (some key) viewer =
          some (if mvcc_is_visible { xmin := txn_id, xmax := 0, is_deleted := false } viewer
                manager = true then
              { ret := 0, count := 1, results := some (stamped tuple txn_id) }
            else { ret := 0, count := 0, results := none }, db2) := by
  have hu := frames_unique_of_pool_ok db hpool
  have hc := frames_clean_of_pool_ok db hpool
  have hnodup : ¬ (btree_find_key_position node key < node.key_count ∧
      value_compare key (node.keys.getD (btree_find_key_position node key) zero_value) = 0) := by
    intro h
    exact habsent _ h.1 h.2
  have hB : BTREE_ORDER = 49 := rfl
  obtain ⟨db1, hins, hbal, hroot1, hnew1⟩ :=
    tuple_insert_spec fuel db name tuple txn_id si key m ss node hu hc hfree htable.schema hcc hpk
      hmeta hnew hzero htable.root_ne htable.root htable.leaf hnodup hroom
  refine ⟨db1, hins, hbal.env.txn, ?_⟩
  intro db' manager viewer hsame hmgr
  have hlook := leaf_lookup_after_insert node key m.next_page_id 0 htable.leaf htable.sorted
    habsent (by rw [htable.keys_len]; omega) (by rw [htable.page_ids_len]; omega)
    (by rw [htable.slots_len]; omega)
  obtain ⟨hpos, _, _, _⟩ :=
    btree_find_key_position_spec node key (ordered_of_sorted node key htable.sorted)
  obtain ⟨hleaf', _⟩ := btree_insert_key_at_position_leaf node
    (btree_find_key_position node key) key m.next_page_id 0 htable.leaf hpos
    (by rw [htable.keys_len]; omega) (by rw [htable.page_ids_len]; omega)
    (by rw [htable.slots_len]; omega)
  have hsch := same_env_schema hbal.env name
  have hsch' := same_storage_schema hsame name
  obtain ⟨db2, hsel, _, _⟩ := tuple_select_found fuel db' name key viewer si
    (btree_insert_key_at_position node (btree_find_key_position node key) key m.next_page_id 0)
    m.next_page_id 0 1 ((List.replicate TUPLES_PER_PAGE zero_tuple).set 0 (stamped tuple txn_id))
    manager (same_storage_unique hsame hbal.unique) (same_storage_clean hsame hbal.clean)
    (same_storage_free hsame (free_frame_of_balanced hbal (free_frame_of_two db hfree)))
    (by rw [hsch'.1, hsch.1]; exact htable.schema)
    (by rw [hsch'.2, hsch.2]; exact htable.root_ne)
    (by rw [hsch'.2, hsch.2, same_storage_content hsame]; exact hroot1)
    hleaf' hlook hnew
    (by rw [same_storage_content hsame, hnew1]; rfl)
    (by decide) hmgr
  refine ⟨db2, ?_⟩
  rw [hsel]
  rfl

/-- C7 as stated fails: transaction 3 deletes the row of id 1 and commits, the older
transaction 2, still Active, deletes it again (the row is visible to it, since
its deleter has a greater id) and so re-stamps `xmax` with 2; transaction 4
then selects id 1 and gets the row back, `count = 1`, although the committed
deleter 3 has a smaller id. -/
theorem c7_redeleted_row_is_visible :
    two_deleters_select =
      some (4, { ret := 0, count := 1, results := some (with_stamps (int_row 1) 1 2) }) := by
  decide!

/-- C7, as amended (deleted-tuple invisibility): in a table that is a single leaf
(at most 48 keys), after transaction `txn_id` has successfully deleted the row
of `key`, in every later state that differs only in the transaction manager (so
no other transaction has stamped the row since) and in which `txn_id` is
recorded as Committed or is no longer recorded (its slot was reused),
`tuple_select` of `key` by a transaction with a greater id returns `count = 0`. -/
theorem c7_deleted_row_invisible (fuel : Nat) (db db1 : database_t) (name : List Nat)
    (key : value_t) (txn_id si viewer : Nat) (node : btree_node_t)
    (manager : transaction_manager_t)
    (hpool : pool_ok db) (hpages : pages_ok db) (hfree : two_free_frames db)
    (htable : leaf_table db name si node) (hid : txn_id ≠ 0)
    (hdel : tuple_delete fuel db name key txn_id = some (0, db1))
    (hcommitted : txn_state_of manager txn_id = some transaction_state_t.TXN_STATE_COMMITTED ∨
      txn_state_of manager txn_id = none)
    (hlater : txn_id < viewer) :
    ∃ db2, tuple_select fuel { db1 with txn_manager := some manager } name (some key) viewer =
      some ({ ret := 0, count := 0, results := none }, db2) := by
  have hu := frames_unique_of_pool_ok db hpool
  have hc := frames_clean_of_pool_ok db hpool
  have hfree1 := free_frame_of_two db hfree
  have hptr : ∀ tp sl, leaf_lookup node key = some (tp, sl) → tp ≠ 0 := by
    intro tp sl h
    obtain ⟨pos, hpos, htp, _⟩ := leaf_lookup_some node key tp sl h
    rw [htp]
    exact (htable.locations pos hpos).1
  obtain ⟨tp, sl, c, tl, m, hlook, hheap, hslot, hm, hvis, hbal, htp1, hothers⟩ :=
    tuple_delete_leaf_success fuel db db1 name key txn_id si node hu hc hfree1 htable.schema
      htable.root_ne htable.root htable.leaf hptr hdel
  cases fuel with
  | zero =>
    unfold tuple_delete at hdel
    rw [htable.schema] at hdel
    simp [btree_search] at hdel
  | succ fuel =>
    obtain ⟨pos, hpos, htp, hsl⟩ := leaf_lookup_some node key tp sl hlook
    have htp0 : tp ≠ 0 := hptr tp sl hlook
    have hsl6 : sl < TUPLES_PER_PAGE := by rw [hsl]; exact (htable.locations pos hpos).2
    have hlen : tl.length = TUPLES_PER_PAGE :=
      as_heap_length _ c tl (page_ok_page_content db hpages tp) hheap
    have hrtp : (db.schema si).root_page_id ≠ tp := by
      intro h
      rw [← h, htable.root] at hheap
      simp [page_data.as_heap] at hheap
    have hsame : same_storage db1 { db1 with txn_manager := some manager } :=
      ⟨rfl, rfl, rfl, rfl⟩
    have hsch := same_env_schema hbal.env name
    have hsch' := same_storage_schema hsame name
    obtain ⟨db2, hsel, _, _⟩ := tuple_select_found fuel { db1 with txn_manager := some manager }
      name key viewer si node tp sl c
      (tl.set sl { tl.getD sl zero_tuple with
        header := mvcc_mark_deleted (tl.getD sl zero_tuple).header txn_id })
      manager (same_storage_unique hsame hbal.unique) (same_storage_clean hsame hbal.clean)
      (same_storage_free hsame (free_frame_of_balanced hbal hfree1))
      (by rw [hsch'.1, hsch.1]; exact htable.schema)
      (by rw [hsch'.2, hsch.2]; exact htable.root_ne)
      (by rw [hsch'.2, hsch.2, same_storage_content hsame, hothers _ htable.root_ne hrtp]
          exact htable.root)
      htable.leaf hlook htp0
      (by rw [same_storage_content hsame, htp1]; rfl)
      hslot rfl
    refine ⟨db2, ?_⟩
    rw [hsel, getD_set_same _ _ _ _ (by rw [hlen]; exact hsl6)]
    have hinv : mvcc_is_visible
        (mvcc_mark_deleted (tl.getD sl zero_tuple).header txn_id) viewer manager = false := by
      apply mvcc_invisible_deleted _ _ _ hid hlater
      intro t ht
      have hx : (mvcc_mark_deleted (tl.getD sl zero_tuple).header txn_id).xmax = txn_id := rfl
      rw [hx] at ht
      unfold txn_state_of at hcommitted
      rw [ht] at hcommitted
      rcases hcommitted with h | h
      · simpa using h
      · simp at h
    simp only []
    rw [hinv]
    simp

/-- Witness of C7: transaction 2 deletes the committed row of id 1 and commits;
viewer 3 selects id 1. -/
theorem c7_deleted_row_invisible_witness :
    ∃ db2, tuple_select 1 { one_row_deleted with txn_manager := some deleter_committed } t_name
      (some (int_value 1)) 3 = some ({ ret := 0, count := 0, results := none }, db2) :=
  c7_deleted_row_invisible 1 one_row_db one_row_deleted t_name (int_value 1) 2 0 3 one_row_leaf
    deleter_committed (by decide!) (by decide!) ⟨0, 1, by decide!⟩
    ⟨by decide!, by decide!, by decide!, by decide!, by decide!, by decide!, by decide!,
      by decide!, fun j hj i hi => by
        have h1 : one_row_leaf.key_count = 1 := by decide!
        omega,
      fun i hi => by
        have h1 : one_row_leaf.key_count = 1 := by decide!
        have h0 : i = 0 := by omega
        subst h0
        decide!⟩
    (by decide) (by decide!) (by decide!) (by decide)

/-- C8 (own writes are visible): in a table that is a single leaf with room (fewer
than 48 keys before the insert, so at most 48 after it), an insert of a row with
a new key `key` by the Active transaction `txn_id` succeeds, and the
`tuple_select` of `key` with viewer `txn_id` that follows returns `count = 1`
and the inserted row (the caller's column values under the header stamped by
`tuple_insert`). -/
theorem c8_own_insert_is_visible (fuel : Nat) (db : database_t) (name : List Nat)
    (tuple : tuple_t) (txn_id si : Nat) (key : value_t) (m : metadata_t)
    (ss : List table_schema_t) (node : btree_node_t) (manager : transaction_manager_t)
    (hpool : pool_ok db) (hfree : two_free_frames db) (htable : leaf_table db name si node)
    (hroom : node.key_count < BTREE_ORDER - 1)
    (hmeta : page_content db METADATA_PAGE_ID = page_data.metadata m ss)
    (hnew : m.next_page_id ≠ 0)
    (hzero : page_content db m.next_page_id = page_data.zero)
    (hcc : tuple.column_count = (db.schema si).column_count)
    (hpk : extract_primary_key (db.schema si) (stamped tuple txn_id) = some key)
    (habsent : ∀ i, i < node.key_count →
      value_compare key (node.keys.getD i zero_value) ≠ 0)
    (hmgr : db.txn_manager = some manager)
    (_hactive : txn_state_of manager txn_id = some transaction_state_t.TXN_STATE_ACTIVE) :
    ∃ db1 db2, tuple_insert (fuel + 1) db name tuple txn_id = some (0, db1) ∧
      tuple_select (fuel + 1) db1 name (some key) txn_id =
        some ({ ret := 0, count := 1, results := some (stamped tuple txn_id) }, db2) ∧
      (stamped tuple txn_id).values = tuple.values := by
  obtain ⟨db1, hins, hm1, hsel⟩ := insert_then_select fuel db name tuple txn_id si key m ss node
    hpool hfree htable hroom hmeta hnew hzero hcc hpk habsent
  obtain ⟨db2, h2⟩ := hsel db1 manager txn_id ⟨rfl, rfl, rfl, rfl⟩ (by rw [hm1, hmgr])
  rw [if_pos (mvcc_visible_own txn_id manager)] at h2
  exact ⟨db1, db2, hins, h2, rfl⟩

/-- C9 (no dirty reads): after transaction `creator` inserted a row with a new key
`key` into a single-leaf table with room, in every later state that differs
only in the transaction manager and in which `creator` is still recorded as
Active, `tuple_select` of `key` by any other transaction (smaller or larger
id) returns `count = 0`. -/
theorem c9_no_dirty_read (fuel : Nat) (db : database_t) (name : List Nat)
    (tuple : tuple_t) (creator si : Nat) (key : value_t) (m : metadata_t)
    (ss : List table_schema_t) (node : btree_node_t) (manager : transaction_manager_t)
    (viewer : Nat)
    (hpool : pool_ok db) (hfree : two_free_frames db) (htable : leaf_table db name si node)
    (hroom : node.key_count < BTREE_ORDER - 1)
    (hmeta : page_content db METADATA_PAGE_ID = page_data.metadata m ss)
    (hnew : m.next_page_id ≠ 0)
    (hzero : page_content db m.next_page_id = page_data.zero)
    (hcc : tuple.column_count = (db.schema si).column_count)
    (hpk : extract_primary_key (db.schema si) (stamped tuple creator) = some key)
    (habsent : ∀ i, i < node.key_count →
      value_compare key (node.keys.getD i zero_value) ≠ 0)
    (hactive : txn_state_of manager creator = some transaction_state_t.TXN_STATE_ACTIVE)
    (hne : viewer ≠ creator) :
    ∃ db1, tuple_insert (fuel + 1) db name tuple creator = some (0, db1) ∧
      ∃ db2, tuple_select (fuel + 1) { db1 with txn_manager := some manager } name (some key)
        viewer = some ({ ret := 0, count := 0, results := none }, db2) := by
  obtain ⟨db1, hins, _, hsel⟩ := insert_then_select fuel db name tuple creator si key m ss node
    hpool hfree htable hroom hmeta hnew hzero hcc hpk habsent
  obtain ⟨db2, h2⟩ := hsel { db1 with txn_manager := some manager } manager viewer
    ⟨rfl, rfl, rfl, rfl⟩ rfl
  have hinv : mvcc_is_visible { xmin := creator, xmax := 0, is_deleted := false } viewer
      manager = false := mvcc_invisible_active _ viewer manager hactive hne
  rw [hinv] at h2
  exact ⟨db1, hins, db2, by simpa using h2⟩

/-- C10 (visibility shifts on commit, scenario S3): transaction `t1` inserts a row
with a new key `key` into a single-leaf table with room; then `txn_begin`
hands out `t2`, with a larger id; then `txn_commit` of `t1` succeeds (which it
does only if `t1` was still Active). The `tuple_select` of `key` by `t2` that
follows returns `count = 1` and the row. -/
theorem c10_visible_after_commit (fuel : Nat) (db db1 db2 db3 : database_t) (name : List Nat)
    (tuple : tuple_t) (t1 t2 si now : Nat) (key : value_t) (m : metadata_t)
    (ss : List table_schema_t) (node : btree_node_t)
    (hpool : pool_ok db) (hfree : two_free_frames db) (htable : leaf_table db name si node)
    (hroom : node.key_count < BTREE_ORDER - 1)
    (hmeta : page_content db METADATA_PAGE_ID = page_data.metadata m ss)
    (hnew : m.next_page_id ≠ 0)
    (hzero : page_content db m.next_page_id = page_data.zero)
    (hcc : tuple.column_count = (db.schema si).column_count)
    (hpk : extract_primary_key (db.schema si) (stamped tuple t1) = some key)
    (habsent : ∀ i, i < node.key_count →
      value_compare key (node.keys.getD i zero_value) ≠ 0)
    (hins : tuple_insert (fuel + 1) db name tuple t1 = some (0, db1))
    (hbegin : txn_begin db1 now = (t2, db2))
    (hlt : t1 < t2)
    (hcommit : txn_commit db2 t1 = (0, db3)) :
    ∃ db4, tuple_select (fuel + 1) db3 name (some key) t2 =
      some ({ ret := 0, count := 1, results := some (stamped tuple t1) }, db4) := by
  obtain ⟨db1', hins', _, hsel⟩ := insert_then_select fuel db name tuple t1 si key m ss node
    hpool hfree htable hroom hmeta hnew hzero hcc hpk habsent
  rw [hins] at hins'
  simp only [Option.some.injEq, Prod.mk.injEq, true_and] at hins'
  subst hins'
  have hs12 : same_storage db1 db2 := by
    have h := txn_begin_same_storage db1 now
    rw [hbegin] at h
    exact h
  obtain ⟨hs23, m3, hm3, hstate⟩ :=
    txn_finish_success db2 db3 t1 transaction_state_t.TXN_STATE_COMMITTED hcommit
  have hs13 : same_storage db1 db3 :=
    ⟨hs23.file.trans hs12.file, hs23.pool.trans hs12.pool, hs23.schemas.trans hs12.schemas,
      hs23.schema_count.trans hs12.schema_count⟩
  obtain ⟨db4, h4⟩ := hsel db3 m3 t2 hs13 hm3
  rw [if_pos (mvcc_visible_committed t1 t2 m3 hstate (Nat.le_of_lt hlt))] at h4
  exact ⟨db4, h4⟩

/-- The table `t` of `begun_db` is the single empty leaf on page 2. -/
theorem begun_db_leaf_table : leaf_table begun_db t_name 0 empty_leaf :=
  ⟨by decide!, by decide!, by decide!, by decide!, by decide!, by decide!, by decide!,
    by decide!,
    fun j hj i _ => by
      have h0 : empty_leaf.key_count = 0 := by decide!
      omega,
    fun i hi => by
      have h0 : empty_leaf.key_count = 0 := by decide!
      omega⟩

/-- Witness of C8: transaction 1 inserts id 1 into the new table and selects it. -/
theorem c8_own_insert_is_visible_witness :
    ∃ db1 db2, tuple_insert 1 begun_db t_name (int_row 1) 1 = some (0, db1) ∧
      tuple_select 1 db1 t_name (some (int_value 1)) 1 =
        some ({ ret := 0, count := 1, results := some (stamped (int_row 1) 1) }, db2) ∧
      (stamped (int_row 1) 1).values = (int_row 1).values :=
  c8_own_insert_is_visible 0 begun_db t_name (int_row 1) 1 0 (int_value 1)
    { schema_count := 0, next_page_id := 3 } (List.replicate 9 zero_schema) empty_leaf
    begun_manager (by decide!) ⟨0, 1, by decide!⟩ begun_db_leaf_table (by decide!) (by decide!)
    (by decide) (by decide!) (by decide!) (by decide!)
    (fun i hi => by
      have h0 : empty_leaf.key_count = 0 := by decide!
      omega)
    (by decide!) (by decide!)

/-- Witness of C9: transaction 1 inserts id 1; transaction 2 begins and selects it
while transaction 1 is Active. -/
theorem c9_no_dirty_read_witness :
    ∃ db1, tuple_insert 1 begun_db t_name (int_row 1) 1 = some (0, db1) ∧
      ∃ db2, tuple_select 1 { db1 with txn_manager := some two_active_manager } t_name
        (some (int_value 1)) 2 = some ({ ret := 0, count := 0, results := none }, db2) :=
  c9_no_dirty_read 0 begun_db t_name (int_row 1) 1 0 (int_value 1)
    { schema_count := 0, next_page_id := 3 } (List.replicate 9 zero_schema) empty_leaf
    two_active_manager 2 (by decide!) ⟨0, 1, by decide!⟩ begun_db_leaf_table (by decide!)
    (by decide!) (by decide) (by decide!) (by decide!) (by decide!)
    (fun i hi => by
      have h0 : empty_leaf.key_count = 0 := by decide!
      omega)
    (by decide!) (by decide)

/-- Witness of C10: transaction 1 inserts id 1, transaction 2 begins, transaction 1
commits, transaction 2 selects id 1. -/
theorem c10_visible_after_commit_witness :
    ∃ db4, tuple_select 1 first_committed_db t_name (some (int_value 1)) 2 =
      some ({ ret := 0, count := 1, results := some (stamped (int_row 1) 1) }, db4) :=
  c10_visible_after_commit 0 begun_db inserted_db second_begun_db first_committed_db t_name
    (int_row 1) 1 2 0 0 (int_value 1) { schema_count := 0, next_page_id := 3 }
    (List.replicate 9 zero_schema) empty_leaf (by decide!) ⟨0, 1, by decide!⟩
    begun_db_leaf_table (by decide!) (by decide!) (by decide) (by decide!) (by decide!)
    (by decide!)
    (fun i hi => by
      have h0 : empty_leaf.key_count = 0 := by decide!
      omega)
    (by decide!) (by decide!) (by decide) (by decide!)

/-! ## Pin discipline, eviction, transaction manager, page allocation, catalog -/

/-- C11 at a failing input: after `db_recovery` and `CREATE TABLE` no frame is pinned,
and none is after 48 inserts; the 49th insert of scenario S2 splits the root leaf
and returns with two frames still pinned, those of pages 52 and 54, which
`btree_create_node` got from `storage_allocate_page` for the new leaf and the
new root and never released. -/
theorem c11_root_split_leaves_frames_pinned :
    fresh_db.map pinned_pages = some [] ∧ (s2_inserted 48).map pinned_pages = some [] ∧
      (s2_inserted 49).map pinned_pages = some [54, 52] := by
  decide!

theorem find_resident_eq_none (p : Nat) (l : List page_t) :
    find_resident p l = none ↔ ∀ f ∈ l, f.page_id ≠ p := by
  induction l with
  | nil => simp [find_resident]
  | cons x xs ih =>
    unfold find_resident
    by_cases hx : x.page_id = p
    · simp [hx]
    · simp [hx, ih]

theorem find_victim_eq_none (l : List page_t) :
    find_victim_page l = none ↔ ∀ f ∈ l, 0 < f.pin_count := by
  induction l with
  | nil => simp [find_victim_page]
  | cons x xs ih =>
    unfold find_victim_page
    by_cases hx : x.pin_count = 0
    · simp [hx]
    · simp [hx, ih]
      omega

theorem storage_read_write_same (file : List page_data) (q : Nat) (d : page_data) (hq : q ≠ 0) :
    storage_read_page (storage_write_page file q d) q = some d := by
  unfold storage_read_page storage_write_page
  rw [if_neg hq, if_neg hq]
  by_cases h : q - 1 < file.length
  · rw [if_pos h]
    simp [h]
  · rw [if_neg h]
    have hlen : (file ++ List.replicate (q - 1 - file.length) page_data.zero).length = q - 1 := by
      simp
      omega
    rw [List.get?_eq_getElem?, List.getElem?_append_right (by omega)]
    simp [hlen]

/-- What `buffer_get_page` does on a miss with a victim: the victim is flushed when it is
dirty and holds a page, then it is assigned the requested page. -/
theorem buffer_get_page_miss (db : database_t) (p v : Nat)
    (hr : find_resident p db.buffer_pool.pages = none)
    (hv : find_victim_page db.buffer_pool.pages = some v) :
    buffer_get_page db p =
      (some v,
        (if (db.frame v).is_dirty = true ∧ (db.frame v).page_id ≠ 0 then buffer_flush_page db v
          else db).set_frame v
          { page_id := p,
            data := file_content
              (if (db.frame v).is_dirty = true ∧ (db.frame v).page_id ≠ 0 then
                buffer_flush_page db v else db).data_file p,
            is_dirty := false, pin_count := 1 }) := by
  unfold buffer_get_page
  rw [hr, hv]

theorem buffer_get_page_hit_eq (db : database_t) (p i : Nat)
    (hr : find_resident p db.buffer_pool.pages = some i) :
    buffer_get_page db p =
      (some i, db.set_frame i { db.frame i with pin_count := (db.frame i).pin_count + 1 }) := by
  unfold buffer_get_page
  rw [hr]

theorem buffer_get_page_none (db : database_t) (p : Nat)
    (hr : find_resident p db.buffer_pool.pages = none)
    (hv : find_victim_page db.buffer_pool.pages = none) :
    buffer_get_page db p = (none, db) := by
  unfold buffer_get_page
  rw [hr, hv]

theorem frame_buffer_flush_page_ne (db : database_t) (v j : Nat) (h : j ≠ v) :
    (buffer_flush_page db v).frame j = db.frame j := by
  unfold buffer_flush_page
  by_cases hd : (db.frame v).is_dirty = true
  · simp only [hd, Bool.not_true, Bool.false_eq_true, if_false]
    rw [frame_set_frame_ne _ _ _ _ h]
    rfl
  · simp [hd]

/-- C12 (pinned frames are never evicted): for every pool state and page id `p`,
`buffer_get_page` leaves every frame that is pinned and holds another page than
`p` as it was (page id, data, dirty flag and pin count); and on a miss (no
frame holds `p`) the frame it returns is a frame of the pool whose pin count
was 0 before the call. -/
theorem c12_pinned_frames_never_evicted (db : database_t) (p : Nat) :
    (∀ j, 0 < (db.frame j).pin_count → (db.frame j).page_id ≠ p →
        (buffer_get_page db p).2.frame j = db.frame j) ∧
      ∀ v, (∀ f ∈ db.buffer_pool.pages, f.page_id ≠ p) →
        (buffer_get_page db p).1 = some v →
        v < db.capacity ∧ (db.frame v).pin_count = 0 := by
  constructor
  · intro j hpin hne
    cases hr : find_resident p db.buffer_pool.pages with
    | some i =>
      rw [buffer_get_page_hit_eq db p i hr]
      obtain ⟨_, hi, _⟩ := find_resident_some p _ i hr
      have hji : j ≠ i := by
        intro h
        subst h
        exact hne hi
      exact frame_set_frame_ne _ _ _ _ hji
    | none =>
      cases hv : find_victim_page db.buffer_pool.pages with
      | none => rw [buffer_get_page_none db p hr hv]
      | some v =>
        rw [buffer_get_page_miss db p v hr hv]
        obtain ⟨_, hv0⟩ := find_victim_some _ v hv
        have hjv : j ≠ v := by
          intro h
          subst h
          have : (db.frame j).pin_count = 0 := hv0
          omega
        simp only []
        rw [frame_set_frame_ne _ _ _ _ hjv]
        split
        · exact frame_buffer_flush_page_ne db v j hjv
        · rfl
  · intro v hmiss hret
    have hr := (find_resident_eq_none p _).mpr hmiss
    cases hv : find_victim_page db.buffer_pool.pages with
    | none =>
      rw [buffer_get_page_none db p hr hv] at hret
      cases hret
    | some w =>
      rw [buffer_get_page_miss db p w hr hv] at hret
      simp only [Option.some.injEq] at hret
      subst hret
      exact find_victim_some _ w hv

/-- Witness of C12: the root page 2 is pinned in frame 0; a request for page 7 misses,
leaves frame 0 alone and takes frame 1, which was not pinned. -/
theorem c12_pinned_frames_never_evicted_witness :
    (buffer_get_page root_pinned_db 7).2.frame 0 = root_pinned_db.frame 0 ∧
      1 < root_pinned_db.capacity ∧ (root_pinned_db.frame 1).pin_count = 0 :=
  ⟨(c12_pinned_frames_never_evicted root_pinned_db 7).1 0 (by decide!) (by decide!),
    (c12_pinned_frames_never_evicted root_pinned_db 7).2 1 (by decide!) (by decide!)⟩

/-- C13 (no dirty page is lost on eviction): when `buffer_get_page` misses and hands
back frame `v`, and that frame was dirty and held page `q ≠ 0`, then after the
call page `q` of the file is the data the frame held before the call. -/
theorem c13_dirty_victim_is_written (db : database_t) (p v : Nat)
    (hmiss : ∀ f ∈ db.buffer_pool.pages, f.page_id ≠ p)
    (hret : (buffer_get_page db p).1 = some v)
    (hdirty : (db.frame v).is_dirty = true) (hq : (db.frame v).page_id ≠ 0) :
    storage_read_page (buffer_get_page db p).2.data_file (db.frame v).page_id =
      some (db.frame v).data := by
  have hr := (find_resident_eq_none p _).mpr hmiss
  cases hv : find_victim_page db.buffer_pool.pages with
  | none =>
    rw [buffer_get_page_none db p hr hv] at hret
    cases hret
  | some w =>
    rw [buffer_get_page_miss db p w hr hv] at hret ⊢
    simp only [Option.some.injEq] at hret
    subst hret
    simp only []
    rw [if_pos ⟨hdirty, hq⟩, data_file_set_frame, buffer_flush_page_dirty db w hdirty,
      data_file_set_frame]
    exact storage_read_write_same _ _ _ hq

/-- Witness of C13: page 3 is pinned in frame 0, frame 1 holds the root page 2, dirty
and newer than the file; a request for page 9 evicts frame 1. -/
theorem c13_dirty_victim_is_written_witness :
    storage_read_page (buffer_get_page heap_pinned_db 9).2.data_file
        (heap_pinned_db.frame 1).page_id = some (heap_pinned_db.frame 1).data :=
  c13_dirty_victim_is_written heap_pinned_db 9 1 (by decide!) (by decide!) (by decide!)
    (by decide!)

/-- C14 (`buffer_get_page` fails only when nothing can be evicted): the call returns
no frame exactly when no frame holds `p` and every frame is pinned; and when
it returns no frame the database (every frame and the file) is unchanged. -/
theorem c14_get_page_fails_iff_all_pinned (db : database_t) (p : Nat) :
    ((buffer_get_page db p).1 = none ↔
        (∀ f ∈ db.buffer_pool.pages, f.page_id ≠ p) ∧
          ∀ f ∈ db.buffer_pool.pages, 0 < f.pin_count) ∧
      ((buffer_get_page db p).1 = none → (buffer_get_page db p).2 = db) := by
  cases hr : find_resident p db.buffer_pool.pages with
  | some i =>
    rw [buffer_get_page_hit_eq db p i hr]
    have hn : ¬ ∀ f ∈ db.buffer_pool.pages, f.page_id ≠ p := by
      intro h
      rw [(find_resident_eq_none p _).mpr h] at hr
      cases hr
    simp [hn]
  | none =>
    have hm := (find_resident_eq_none p _).mp hr
    cases hv : find_victim_page db.buffer_pool.pages with
    | none =>
      rw [buffer_get_page_none db p hr hv]
      have hp := (find_victim_eq_none _).mp hv
      exact ⟨⟨fun _ => ⟨hm, hp⟩, fun _ => rfl⟩, fun _ => rfl⟩
    | some v =>
      rw [buffer_get_page_miss db p v hr hv]
      have hn : ¬ ∀ f ∈ db.buffer_pool.pages, 0 < f.pin_count := by
        intro h
        rw [(find_victim_eq_none _).mpr h] at hv
        cases hv
      simp [hn]

/-- Witness of C14: with the three frames of a small pool pinned on pages 2, 3 and 4, a
request for page 1000 returns no frame and changes nothing. -/
theorem c14_get_page_fails_iff_all_pinned_witness :
    (buffer_get_page all_pinned_db 1000).2 = all_pinned_db :=
  (c14_get_page_fails_iff_all_pinned all_pinned_db 1000).2
    ((c14_get_page_fails_iff_all_pinned all_pinned_db 1000).1.mpr ⟨by decide!, by decide!⟩)

theorem find_transaction_idx_some (txn_id : Nat) (l : List transaction_t) (i : Nat)
    (h : find_transaction_idx txn_id l = some i) :
    i < l.length ∧ (l.getD i free_slot).txn_id = txn_id ∧
      ∀ j, j < i → (l.getD j free_slot).txn_id ≠ txn_id := by
  induction l generalizing i with
  | nil => simp [find_transaction_idx] at h
  | cons x xs ih =>
    unfold find_transaction_idx at h
    by_cases hx : x.txn_id = txn_id
    · rw [if_pos hx] at h
      cases h
      exact ⟨by simp, by simpa using hx, fun j hj => by omega⟩
    · rw [if_neg hx] at h
      cases hr : find_transaction_idx txn_id xs with
      | none => rw [hr] at h; cases h
      | some k =>
        rw [hr] at h
        simp only [Option.map_some', Option.some.injEq] at h
        subst h
        obtain ⟨h1, h2, h3⟩ := ih k hr
        refine ⟨by simpa using h1, by simpa using h2, ?_⟩
        intro j hj
        cases j with
        | zero => simpa using hx
        | succ m =>
          simp only [List.getD_cons_succ]
          exact h3 m (by omega)

theorem find_transaction_idx_none (txn_id : Nat) (l : List transaction_t)
    (h : find_transaction_idx txn_id l = none) :
    ∀ j, j < l.length → (l.getD j free_slot).txn_id ≠ txn_id := by
  induction l with
  | nil => intro j hj; simp at hj
  | cons x xs ih =>
    unfold find_transaction_idx at h
    by_cases hx : x.txn_id = txn_id
    · rw [if_pos hx] at h; cases h
    · rw [if_neg hx] at h
      cases hr : find_transaction_idx txn_id xs with
      | some k => rw [hr] at h; cases h
      | none =>
        intro j hj
        cases j with
        | zero => simpa using hx
        | succ m =>
          simp only [List.getD_cons_succ]
          exact ih hr m (by simpa using hj)

theorem find_free_slot_some (l : List transaction_t) (i : Nat)
    (h : find_free_slot l = some i) :
    i < l.length ∧ (l.getD i free_slot).state ≠ transaction_state_t.TXN_STATE_ACTIVE := by
  induction l generalizing i with
  | nil => simp [find_free_slot] at h
  | cons x xs ih =>
    unfold find_free_slot at h
    by_cases hx : x.state = transaction_state_t.TXN_STATE_ABORTED ∨
        x.state = transaction_state_t.TXN_STATE_COMMITTED
    · rw [if_pos hx] at h
      cases h
      refine ⟨by simp, ?_⟩
      simp only [List.getD_cons_zero]
      rcases hx with hx | hx <;> rw [hx] <;> decide
    · rw [if_neg hx] at h
      cases hr : find_free_slot xs with
      | none => rw [hr] at h; cases h
      | some k =>
        rw [hr] at h
        simp only [Option.map_some', Option.some.injEq] at h
        subst h
        obtain ⟨h1, h2⟩ := ih k hr
        exact ⟨by simpa using h1, by simpa using h2⟩

theorem find_free_slot_none (l : List transaction_t) (h : find_free_slot l = none) :
    ∀ j, j < l.length → (l.getD j free_slot).state = transaction_state_t.TXN_STATE_ACTIVE := by
  induction l with
  | nil => intro j hj; simp at hj
  | cons x xs ih =>
    unfold find_free_slot at h
    by_cases hx : x.state = transaction_state_t.TXN_STATE_ABORTED ∨
        x.state = transaction_state_t.TXN_STATE_COMMITTED
    · rw [if_pos hx] at h; cases h
    · rw [if_neg hx] at h
      cases hr : find_free_slot xs with
      | some k => rw [hr] at h; cases h
      | none =>
        intro j hj
        cases j with
        | zero =>
          simp only [List.getD_cons_zero]
          cases hs : x.state with
          | TXN_STATE_ACTIVE => rfl
          | TXN_STATE_COMMITTED => exact absurd (Or.inr hs) hx
          | TXN_STATE_ABORTED => exact absurd (Or.inl hs) hx
        | succ m =>
          simp only [List.getD_cons_succ]
          exact ih hr m (by simpa using hj)

/-- A `txn_begin` that finds no free slot: returns `0`, nothing changes. -/
theorem txn_begin_full (db : database_t) (manager : transaction_manager_t) (now : Nat)
    (hmgr : db.txn_manager = some manager)
    (h : find_free_slot manager.transactions = none) : txn_begin db now = (0, db) := by
  unfold txn_begin
  simp only [hmgr, h]
  cases db
  simp only [Prod.mk.injEq, true_and] at hmgr ⊢
  simp only [database_t.mk.injEq, true_and, and_true]
  exact hmgr.symm

/-- A `txn_begin` that finds the free slot `slot`. -/
theorem txn_begin_slot (db : database_t) (manager : transaction_manager_t) (now slot : Nat)
    (hmgr : db.txn_manager = some manager)
    (h : find_free_slot manager.transactions = some slot) :
    txn_begin db now =
      (manager.next_txn_id,
        { db with txn_manager := some (manager_after_begin manager slot now) }) := by
  unfold txn_begin manager_after_begin
  simp only [hmgr, h]

/-- C17 (`txn_begin` fails only when no slot is free): on a manager with its 1024 slots
and a counter that has not wrapped to 0, `txn_begin` returns 0 exactly when every
slot is Active; then nothing changes (no slot, not `next_txn_id`); otherwise it
returns `next_txn_id`, and the slot it chose, which was not Active, becomes
Active with that id, the counter advancing by one. -/
theorem c17_begin_fails_iff_all_active (db : database_t) (manager : transaction_manager_t)
    (now : Nat) (hmgr : db.txn_manager = some manager)
    (hlen : manager.transactions.length = MAX_TRANSACTIONS)
    (hnext : manager.next_txn_id ≠ 0) :
    ((txn_begin db now).1 = 0 ↔ ∀ i, i < MAX_TRANSACTIONS →
        (manager.transactions.getD i free_slot).state = transaction_state_t.TXN_STATE_ACTIVE) ∧
      ((txn_begin db now).1 = 0 → (txn_begin db now).2 = db) ∧
      ((txn_begin db now).1 ≠ 0 → ∃ slot, slot < MAX_TRANSACTIONS ∧
        (manager.transactions.getD slot free_slot).state ≠
          transaction_state_t.TXN_STATE_ACTIVE ∧
        (txn_begin db now).1 = manager.next_txn_id ∧
        (txn_begin db now).2 =
          { db with txn_manager := some (manager_after_begin manager slot now) }) := by
  cases hf : find_free_slot manager.transactions with
  | none =>
    rw [txn_begin_full db manager now hmgr hf]
    have hall := find_free_slot_none _ hf
    rw [hlen] at hall
    exact ⟨⟨fun _ => hall, fun _ => rfl⟩, fun _ => rfl, fun h => absurd rfl h⟩
  | some slot =>
    rw [txn_begin_slot db manager now slot hmgr hf]
    obtain ⟨hs, hst⟩ := find_free_slot_some _ slot hf
    rw [hlen] at hs
    refine ⟨⟨fun h => absurd h hnext, fun h => absurd (h slot hs) hst⟩,
      fun h => absurd h hnext, fun _ => ⟨slot, hs, hst, rfl, rfl⟩⟩

theorem txn_finish_none (db : database_t) (manager : transaction_manager_t) (txn_id : Nat)
    (final : transaction_state_t) (hmgr : db.txn_manager = some manager)
    (h : find_transaction_idx txn_id manager.transactions = none) :
    txn_finish db txn_id final = (-1, db) := by
  unfold txn_finish
  simp only [hmgr, h]

theorem txn_finish_not_active (db : database_t) (manager : transaction_manager_t)
    (txn_id i : Nat) (final : transaction_state_t) (hmgr : db.txn_manager = some manager)
    (h : find_transaction_idx txn_id manager.transactions = some i)
    (hs : (manager.transactions.getD i free_slot).state ≠
      transaction_state_t.TXN_STATE_ACTIVE) :
    txn_finish db txn_id final = (-1, db) := by
  unfold txn_finish
  simp only [hmgr, h]
  unfold free_slot at hs
  rw [if_pos hs]

theorem txn_finish_active (db : database_t) (manager : transaction_manager_t)
    (txn_id i : Nat) (final : transaction_state_t) (hmgr : db.txn_manager = some manager)
    (h : find_transaction_idx txn_id manager.transactions = some i)
    (hs : (manager.transactions.getD i free_slot).state =
      transaction_state_t.TXN_STATE_ACTIVE) :
    txn_finish db txn_id final =
      (0, { db with txn_manager := some (manager_after_finish manager i final) }) := by
  unfold txn_finish
  simp only [hmgr, h]
  unfold free_slot at hs
  rw [if_neg (by rw [hs]; simp)]
  rfl

/-- The contract holds for the common body of `txn_commit` and `txn_abort`. -/
theorem txn_finish_contract (db : database_t) (manager : transaction_manager_t) (txn_id : Nat)
    (final : transaction_state_t) (hmgr : db.txn_manager = some manager)
    (hd : slots_distinct manager) :
    finish_contract (txn_finish db txn_id final) final db manager txn_id := by
  unfold finish_contract
  cases hi : find_transaction_idx txn_id manager.transactions with
  | none =>
    rw [txn_finish_none db manager txn_id final hmgr hi]
    have hn := find_transaction_idx_none txn_id _ hi
    refine ⟨⟨fun h => by simp at h, ?_⟩, fun h => by simp at h, fun _ => rfl⟩
    rintro ⟨j, hj, hid, _⟩
    exact absurd hid (hn j hj)
  | some i =>
    obtain ⟨hlt, hid, hfirst⟩ := find_transaction_idx_some txn_id _ i hi
    by_cases hs : (manager.transactions.getD i free_slot).state =
        transaction_state_t.TXN_STATE_ACTIVE
    · rw [txn_finish_active db manager txn_id i final hmgr hi hs]
      exact ⟨⟨fun _ => ⟨i, hlt, hid, hs⟩, fun _ => rfl⟩, fun _ => ⟨i, hlt, hid, hs, rfl⟩,
        fun h => absurd rfl h⟩
    · rw [txn_finish_not_active db manager txn_id i final hmgr hi hs]
      refine ⟨⟨fun h => by simp at h, ?_⟩, fun h => by simp at h, fun _ => rfl⟩
      rintro ⟨j, hj, hjid, hjs⟩
      have hij : i ≤ j := by
        by_contra hc
        exact hfirst j (by omega) hjid
      rcases Nat.lt_or_eq_of_le hij with hlt2 | heq
      · exact absurd hjs (hd i j hlt2 hj (by rw [hid, hjid])).2
      · subst heq
        exact absurd hjs hs

theorem find_transaction_idx_set (txn_id : Nat) (l : List transaction_t) (i : Nat)
    (t : transaction_t) (ht : t.txn_id = (l.getD i free_slot).txn_id) (hi : i < l.length) :
    find_transaction_idx txn_id (l.set i t) = find_transaction_idx txn_id l := by
  induction l generalizing i with
  | nil => simp at hi
  | cons x xs ih =>
    cases i with
    | zero =>
      simp only [List.set_cons_zero, List.getD_cons_zero] at ht ⊢
      unfold find_transaction_idx
      rw [ht]
    | succ k =>
      simp only [List.set_cons_succ, List.getD_cons_succ] at ht ⊢
      unfold find_transaction_idx
      rw [ih k ht (by simpa using hi)]

/-- After a successful `txn_commit` or `txn_abort` of `txn_id`, a further one fails. -/
theorem txn_finish_twice (db db1 : database_t) (txn_id : Nat)
    (final final2 : transaction_state_t)
    (hfinal : final ≠ transaction_state_t.TXN_STATE_ACTIVE)
    (h : txn_finish db txn_id final = (0, db1)) :
    (txn_finish db1 txn_id final2).1 = -1 := by
  cases hm : db.txn_manager with
  | none =>
    unfold txn_finish at h
    simp [hm] at h
  | some manager =>
    cases hi : find_transaction_idx txn_id manager.transactions with
    | none =>
      rw [txn_finish_none db manager txn_id final hm hi] at h
      simp at h
    | some i =>
      obtain ⟨hlt, hid, _⟩ := find_transaction_idx_some txn_id _ i hi
      by_cases hs : (manager.transactions.getD i free_slot).state =
          transaction_state_t.TXN_STATE_ACTIVE
      · rw [txn_finish_active db manager txn_id i final hm hi hs] at h
        simp only [Prod.mk.injEq, true_and] at h
        subst h
        have hi2 : find_transaction_idx txn_id
            (manager_after_finish manager i final).transactions = some i := by
          unfold manager_after_finish
          simp only []
          rw [find_transaction_idx_set txn_id manager.transactions i
            { manager.transactions.getD i free_slot with state := final } rfl hlt]
          exact hi
        rw [txn_finish_not_active _ (manager_after_finish manager i final) txn_id i final2 rfl
          hi2 ?_]
        unfold manager_after_finish
        simp only []
        rw [getD_set_same _ _ _ _ hlt]
        exact hfinal
      · rw [txn_finish_not_active db manager txn_id i final hm hi hs] at h
        simp at h

theorem getD_replicate_lt {α : Type} (n i : Nat) (x d : α) (h : i < n) :
    (List.replicate n x).getD i d = x := by
  induction n generalizing i with
  | zero => omega
  | succ m ih =>
    cases i with
    | zero => simp [List.replicate_succ]
    | succ k =>
      simp only [List.replicate_succ, List.getD_cons_succ]
      exact ih k (by omega)

theorem manager_wf_create : manager_wf txn_manager_create := by
  unfold manager_wf txn_manager_create
  simp only [List.length_replicate]
  refine ⟨Nat.le_refl 1, ?_, ?_, ?_⟩
  · intro i hi
    rw [getD_replicate_lt _ _ _ _ hi]
    exact Nat.zero_lt_one
  · intro i hi _
    rw [getD_replicate_lt _ _ _ _ hi]
    decide
  · intro i j hij hj _
    rw [getD_replicate_lt _ _ _ _ (by omega)]

theorem slots_distinct_of_wf (manager : transaction_manager_t) (h : manager_wf manager) :
    slots_distinct manager := by
  obtain ⟨_, _, hzero, huniq⟩ := h
  intro i j hij hj heq
  have h0 := huniq i j hij hj heq
  exact ⟨hzero i (by omega) h0, hzero j hj (by rw [← heq]; exact h0)⟩

/-- The invariant is kept by `txn_begin` as long as the counter does not wrap. -/
theorem manager_wf_begin (manager : transaction_manager_t) (slot now : Nat)
    (h : manager_wf manager) (hslot : slot < manager.transactions.length)
    (hbound : manager.next_txn_id + 1 < 2 ^ 64) :
    manager_wf (manager_after_begin manager slot now) := by
  obtain ⟨h1, hbelow, hzero, huniq⟩ := h
  unfold manager_wf manager_after_begin
  simp only [List.length_set]
  rw [Nat.mod_eq_of_lt hbound]
  refine ⟨by omega, ?_, ?_, ?_⟩
  · intro i hi
    rw [getD_set_eq _ _ _ _ _ hslot]
    by_cases his : i = slot
    · rw [if_pos his]
      exact Nat.lt_succ_self _
    · rw [if_neg his]
      exact Nat.lt_succ_of_lt (hbelow i hi)
  · intro i hi
    rw [getD_set_eq _ _ _ _ _ hslot]
    by_cases his : i = slot
    · rw [if_pos his]
      intro h0
      simp only [] at h0
      omega
    · rw [if_neg his]
      exact hzero i hi
  · intro i j hij hj
    rw [getD_set_eq _ _ _ _ _ hslot, getD_set_eq _ _ _ _ _ hslot]
    by_cases his : i = slot
    · rw [if_pos his, if_neg (by omega)]
      intro heq
      have := hbelow j hj
      simp only [] at heq
      omega
    · rw [if_neg his]
      by_cases hjs : j = slot
      · rw [if_pos hjs]
        intro heq
        have := hbelow i (by omega)
        simp only [] at heq
        omega
      · rw [if_neg hjs]
        exact huniq i j hij hj

/-- The invariant is kept by a successful `txn_commit` or `txn_abort`. -/
theorem manager_wf_finish (manager : transaction_manager_t) (slot : Nat)
    (final : transaction_state_t) (h : manager_wf manager)
    (hslot : slot < manager.transactions.length)
    (hfinal : final ≠ transaction_state_t.TXN_STATE_ACTIVE) :
    manager_wf (manager_after_finish manager slot final) := by
  obtain ⟨h1, hbelow, hzero, huniq⟩ := h
  unfold manager_wf manager_after_finish
  simp only [List.length_set]
  refine ⟨h1, ?_, ?_, ?_⟩
  · intro i hi
    rw [getD_set_eq _ _ _ _ _ hslot]
    by_cases his : i = slot
    · rw [if_pos his]
      exact hbelow slot hslot
    · rw [if_neg his]
      exact hbelow i hi
  · intro i hi
    rw [getD_set_eq _ _ _ _ _ hslot]
    by_cases his : i = slot
    · rw [if_pos his]
      intro _
      exact hfinal
    · rw [if_neg his]
      exact hzero i hi
  · intro i j hij hj
    rw [getD_set_eq _ _ _ _ _ hslot, getD_set_eq _ _ _ _ _ hslot]
    by_cases his : i = slot
    · rw [if_pos his, if_neg (by omega)]
      subst his
      exact huniq i j hij hj
    · rw [if_neg his]
      by_cases hjs : j = slot
      · rw [if_pos hjs]
        subst hjs
        exact huniq i j hij hj
      · rw [if_neg hjs]
        exact huniq i j hij hj

theorem txn_begin_next_id (db : database_t) (now : Nat) :
    ((txn_begin db now).1 = 0 ∧ next_id (txn_begin db now).2 = next_id db) ∨
      ((txn_begin db now).1 = next_id db ∧
        next_id (txn_begin db now).2 = (next_id db + 1) % 2 ^ 64) := by
  unfold txn_begin next_id
  cases hm : db.txn_manager with
  | none =>
    simp only []
    cases hf : find_free_slot txn_manager_create.transactions with
    | none => left; exact ⟨rfl, rfl⟩
    | some slot => right; exact ⟨rfl, rfl⟩
  | some manager =>
    simp only []
    cases hf : find_free_slot manager.transactions with
    | none => left; exact ⟨rfl, rfl⟩
    | some slot => right; exact ⟨rfl, rfl⟩

theorem txn_finish_next_id (db : database_t) (txn_id : Nat) (final : transaction_state_t) :
    next_id (txn_finish db txn_id final).2 = next_id db := by
  unfold txn_finish
  cases hm : db.txn_manager with
  | none => simp only [hm]
  | some manager =>
    simp only []
    cases hi : find_transaction_idx txn_id manager.transactions with
    | none => simp only [next_id, hm]
    | some i =>
      simp only []
      split
      · simp only [next_id, hm]
      · simp only [next_id, hm]

/-- The ids handed out by a run count up from the counter's value. -/
theorem run_calls_ids (calls : List txn_call) (db : database_t) (n : Nat)
    (hn : next_id db = n) (h1 : 1 ≤ n) (hbound : n + calls.length < 2 ^ 64) :
    ∃ k, k ≤ calls.length ∧ (run_calls calls db).1 = List.range' n k ∧
      next_id (run_calls calls db).2 = n + k := by
  induction calls generalizing db n with
  | nil => exact ⟨0, Nat.le_refl 0, rfl, hn⟩
  | cons c cs ih =>
    simp only [List.length_cons] at hbound
    cases c with
    | call_begin now =>
      simp only [run_calls]
      rcases txn_begin_next_id db now with ⟨h0, hnext⟩ | ⟨hid, hnext⟩
      · obtain ⟨k, hk, hids, hfin⟩ := ih (txn_begin db now).2 n (by rw [hnext, hn]) h1 (by omega)
        refine ⟨k, by simp only [List.length_cons]; omega, ?_, hfin⟩
        rw [if_pos h0]
        exact hids
      · rw [hn] at hid hnext
        rw [Nat.mod_eq_of_lt (by omega)] at hnext
        obtain ⟨k, hk, hids, hfin⟩ := ih (txn_begin db now).2 (n + 1) hnext (by omega) (by omega)
        refine ⟨k + 1, by simp only [List.length_cons]; omega, ?_, by rw [hfin]; omega⟩
        rw [if_neg (by rw [hid]; omega), hid, hids]
        rfl
    | call_commit t =>
      simp only [run_calls]
      obtain ⟨k, hk, hids, hfin⟩ := ih (txn_commit db t).2 n
        (by unfold txn_commit; rw [txn_finish_next_id, hn]) h1 (by omega)
      exact ⟨k, by simp only [List.length_cons]; omega, hids, hfin⟩
    | call_abort t =>
      simp only [run_calls]
      obtain ⟨k, hk, hids, hfin⟩ := ih (txn_abort db t).2 n
        (by unfold txn_abort; rw [txn_finish_next_id, hn]) h1 (by omega)
      exact ⟨k, by simp only [List.length_cons]; omega, hids, hfin⟩

/-- C15 (monotonic transaction ids): on a manager as `txn_manager_create` makes it
(or yet to be made by the first `txn_begin`), for every sequence of fewer than
`2 ^ 64 - 1` calls of `txn_begin`, `txn_commit` and `txn_abort`, the ids returned
by the successful `txn_begin` calls are `1, 2, 3, ...` in call order, hence
strictly increasing and never repeated. -/
theorem c15_txn_ids_count_up (calls : List txn_call) (db : database_t)
    (hnew : db.txn_manager = none ∨ db.txn_manager = some txn_manager_create)
    (hlen : calls.length + 1 < 2 ^ 64) :
    (run_calls calls db).1 = List.range' 1 (run_calls calls db).1.length ∧
      (run_calls calls db).1.Pairwise (fun a b => a < b) := by
  have hn : next_id db = 1 := by
    unfold next_id
    rcases hnew with h | h
    · rw [h]
    · rw [h]
      rfl
  obtain ⟨k, _, hids, _⟩ := run_calls_ids calls db 1 hn (Nat.le_refl 1) (by omega)
  rw [hids]
  refine ⟨by simp, ?_⟩
  exact List.pairwise_lt_range' 1 k

/-- Witness of C15: two begins, commit of 1, a begin (it reuses the slot of 1),
abort of 2, a failing commit, a begin. -/
theorem c15_txn_ids_count_up_witness :
    (run_calls [txn_call.call_begin 0, txn_call.call_begin 0, txn_call.call_commit 1,
        txn_call.call_begin 0, txn_call.call_abort 2, txn_call.call_commit 7,
        txn_call.call_begin 0] (db_create [])).1 = [1, 2, 3, 4] := by
  have h := (c15_txn_ids_count_up [txn_call.call_begin 0, txn_call.call_begin 0,
    txn_call.call_commit 1, txn_call.call_begin 0, txn_call.call_abort 2,
    txn_call.call_commit 7, txn_call.call_begin 0] (db_create []) (Or.inl rfl) (by decide)).1
  have hl : (run_calls [txn_call.call_begin 0, txn_call.call_begin 0, txn_call.call_commit 1,
      txn_call.call_begin 0, txn_call.call_abort 2, txn_call.call_commit 7,
      txn_call.call_begin 0] (db_create [])).1.length = 4 := by decide!
  rw [hl] at h
  exact h

/-- The manager of `begun_db` is the new manager after its first `txn_begin`. -/
theorem begun_manager_wf : manager_wf begun_manager := by
  have h : begun_manager = manager_after_begin txn_manager_create 0 0 := by decide!
  rw [h]
  exact manager_wf_begin txn_manager_create 0 0 manager_wf_create (by decide!) (by decide!)

/-- C16 (commit and abort succeed only on an Active transaction): on a manager in which
no Active slot shares its id with another slot, `txn_commit` returns 0 exactly
when some slot holds `txn_id` in state Active; then that slot becomes Committed
and nothing else changes (no other slot, not `next_txn_id`), and a failing call
returns -1 and changes nothing. `txn_abort` does the same with Aborted. After
either has succeeded, a further `txn_commit` or `txn_abort` of the same id
returns -1. -/
theorem c16_finish_iff_active (db : database_t) (manager : transaction_manager_t)
    (txn_id : Nat) (hmgr : db.txn_manager = some manager) (hd : slots_distinct manager) :
    finish_contract (txn_commit db txn_id) transaction_state_t.TXN_STATE_COMMITTED db manager
        txn_id ∧
      finish_contract (txn_abort db txn_id) transaction_state_t.TXN_STATE_ABORTED db manager
        txn_id ∧
      ∀ db1, txn_commit db txn_id = (0, db1) ∨ txn_abort db txn_id = (0, db1) →
        (txn_commit db1 txn_id).1 = -1 ∧ (txn_abort db1 txn_id).1 = -1 := by
  refine ⟨txn_finish_contract db manager txn_id _ hmgr hd,
    txn_finish_contract db manager txn_id _ hmgr hd, ?_⟩
  intro db1 h
  rcases h with h | h
  · exact ⟨txn_finish_twice db db1 txn_id _ _ (by decide) h,
      txn_finish_twice db db1 txn_id _ _ (by decide) h⟩
  · exact ⟨txn_finish_twice db db1 txn_id _ _ (by decide) h,
      txn_finish_twice db db1 txn_id _ _ (by decide) h⟩

/-- Witness of C16: transaction 1 is Active in `begun_db`. -/
theorem c16_finish_iff_active_witness :
    finish_contract (txn_commit begun_db 1) transaction_state_t.TXN_STATE_COMMITTED begun_db
        begun_manager 1 ∧
      finish_contract (txn_abort begun_db 1) transaction_state_t.TXN_STATE_ABORTED begun_db
        begun_manager 1 ∧
      ∀ db1, txn_commit begun_db 1 = (0, db1) ∨ txn_abort begun_db 1 = (0, db1) →
        (txn_commit db1 1).1 = -1 ∧ (txn_abort db1 1).1 = -1 :=
  c16_finish_iff_active begun_db begun_manager 1 (by decide!)
    (slots_distinct_of_wf begun_manager begun_manager_wf)

/-- Witness of C17: in `begun_db` one slot is Active and 1023 are free. -/
theorem c17_begin_fails_iff_all_active_witness :
    ((txn_begin begun_db 0).1 = 0 ↔ ∀ i, i < MAX_TRANSACTIONS →
        (begun_manager.transactions.getD i free_slot).state =
          transaction_state_t.TXN_STATE_ACTIVE) ∧
      ((txn_begin begun_db 0).1 = 0 → (txn_begin begun_db 0).2 = begun_db) ∧
      ((txn_begin begun_db 0).1 ≠ 0 → ∃ slot, slot < MAX_TRANSACTIONS ∧
        (begun_manager.transactions.getD slot free_slot).state ≠
          transaction_state_t.TXN_STATE_ACTIVE ∧
        (txn_begin begun_db 0).1 = begun_manager.next_txn_id ∧
        (txn_begin begun_db 0).2 =
          { begun_db with txn_manager := some (manager_after_begin begun_manager slot 0) }) :=
  c17_begin_fails_iff_all_active begun_db begun_manager 0 (by decide!) (by decide!) (by decide!)

/-- C18 at a failing input: one transaction inserts the 48 ids 1048 down to 1001 and
then id 1000. Before the last insert the root leaf holds `BTREE_ORDER - 1 = 48`
keys, all the cells `keys[48]` of `tinydb.h` declares; the position found for
1000 is 0 and the page handed out for its row is 51; `tuple_insert` returns 0;
and `btree_insert_key_at_position`, called on the full leaf before the split,
leaves 49 keys in use: its shifting loop starts at `i = 48` and writes
`keys[48]`, one cell past the declared array. -/
theorem c18_full_leaf_insert_overruns_keys :
    full_leaf.map (fun n => n.key_count) = some (BTREE_ORDER - 1) ∧
      full_leaf.map (fun n => btree_find_key_position n (int_value 1000)) = some 0 ∧
      full_leaf_next_page = some 51 ∧
      full_leaf_db.bind (fun db =>
        (tuple_insert run_fuel db t_name (int_row 1000) 1).map Prod.fst) = some 0 ∧
      full_leaf.map (fun n =>
        (btree_insert_key_at_position n 0 (int_value 1000) 51 0).key_count) =
          some BTREE_ORDER ∧
      full_leaf.map (fun n =>
        ((btree_insert_key_at_position n 0 (int_value 1000) 51 0).keys.getD 48
          zero_value).int_val) = some 1048 := by
  decide!

theorem mem_getD {α : Type} (l : List α) (d x : α) (h : x ∈ l) :
    ∃ j, j < l.length ∧ l.getD j d = x := by
  induction l with
  | nil => cases h
  | cons y ys ih =>
    rcases List.mem_cons.mp h with h1 | h1
    · exact ⟨0, by simp, by simp [h1]⟩
    · obtain ⟨j, hj, hx⟩ := ih h1
      exact ⟨j + 1, by simpa using hj, by simpa using hx⟩

/-- A request for a page that no frame holds, with every frame pinned, returns no frame. -/
theorem buffer_get_page_fail (db : database_t) (p : Nat)
    (hn : ∀ j, j < db.capacity → (db.frame j).page_id ≠ p) (hfull : ¬ free_frame db) :
    buffer_get_page db p = (none, db) := by
  apply buffer_get_page_none
  · rw [find_resident_eq_none]
    intro f hf
    obtain ⟨j, hj, hx⟩ := mem_getD _ empty_frame f hf
    rw [← hx]
    exact hn j hj
  · rw [find_victim_eq_none]
    intro f hf
    obtain ⟨j, hj, hx⟩ := mem_getD _ empty_frame f hf
    rw [← hx]
    by_contra hc
    exact hfull ⟨j, hj, by
      have : (db.frame j).pin_count = (db.buffer_pool.pages.getD j empty_frame).pin_count := rfl
      omega⟩

/-- The function `allocate_new_page_id` when the metadata page is resident or a frame is
free: it returns the metadata page's `next_page_id` and advances it by one. -/
theorem allocate_new_page_id_spec_of (db : database_t) (m : metadata_t)
    (ss : List table_schema_t) (hu : frames_unique db) (hc : frames_clean db)
    (hfree : (∃ j, (db.frame j).page_id = METADATA_PAGE_ID) ∨ free_frame db)
    (hmeta : page_content db METADATA_PAGE_ID = page_data.metadata m ss) :
    ∃ db', allocate_new_page_id db = some (m.next_page_id, db') ∧ balanced db db' ∧
      ∀ q, q ≠ 0 → page_content db' q =
        if q = METADATA_PAGE_ID then
          page_data.metadata { m with next_page_id := m.next_page_id + 1 } ss
        else page_content db q := by
  obtain ⟨i, db1, hget, hlt, hpid, hdata, hpin, _, hf⟩ :=
    get_then_set db METADATA_PAGE_ID (by decide) hu hc hfree
  refine ⟨_, ?_, hf (page_t.mk (db1.frame i).page_id
      (page_data.metadata { m with next_page_id := m.next_page_id + 1 } ss) true
      ((db1.frame i).pin_count - 1)) hpid (by simp [hpin])
      (Or.inl rfl)⟩
  unfold allocate_new_page_id
  rw [hget]
  simp only []
  rw [hdata, hmeta]
  simp only [page_data.as_metadata]
  rw [modify_release_eq db1 i _ hlt (by omega)]

/-- When the metadata page cannot be pinned, `allocate_new_page_id` returns 0. -/
theorem allocate_new_page_id_fail (db : database_t)
    (hn : ∀ j, j < db.capacity → (db.frame j).page_id ≠ METADATA_PAGE_ID)
    (hfull : ¬ free_frame db) : allocate_new_page_id db = some (0, db) := by
  unfold allocate_new_page_id
  rw [buffer_get_page_fail db METADATA_PAGE_ID hn hfull]

/-- The function `storage_allocate_page` once `allocate_new_page_id` has handed out the id:
either the page is pinned and the call succeeds as the claim says, or no frame
can be had and the call returns no frame. -/
theorem storage_allocate_page_cases (db : database_t) (n : Nat) (h : alloc_ok db n)
    (hres : (∃ j, (db.frame j).page_id = METADATA_PAGE_ID) ∨ free_frame db) :
    (∃ i db', storage_allocate_page db = some (some i, db') ∧ (db'.frame i).page_id = n ∧
        0 < (db'.frame i).pin_count ∧ alloc_ok db' (n + 1)) ∨
      (¬ free_frame db ∧ ∃ db', storage_allocate_page db = some (none, db')) := by
  obtain ⟨m, ss, hmeta, hmn⟩ := h.next
  subst hmn
  have hnew := h.nonzero
  obtain ⟨da, halloc, hbal, hcont⟩ :=
    allocate_new_page_id_spec_of db m ss h.unique h.clean hres hmeta
  have hda0 : ∀ j, (da.frame j).page_id = 0 → (da.frame j).pin_count = 0 := by
    intro j hj
    rw [hbal.pins j]
    by_contra hc
    have hheld := hbal.held j (by omega)
    rw [hj] at hheld
    exact hc (h.empty_unpinned j hheld.symm)
  by_cases hcan : (∃ j, (da.frame j).page_id = m.next_page_id) ∨ free_frame da
  · left
    obtain ⟨i, db1, hget, hlt, henv, hu1, hc1, hpid, hdata, hpin, _, _, hothers, hcont1⟩ :=
      buffer_get_page_spec da m.next_page_id hnew hbal.unique hbal.clean hcan
    have hlt1 : i < db1.capacity := by rw [henv.cap]; exact hlt
    obtain ⟨hu2, hc2, hcont2⟩ := set_frame_spec db1 i m.next_page_id
      { db1.frame i with is_dirty := true } hnew hu1 hc1 hpid hpid (Or.inl rfl)
    refine ⟨i, mark_dirty db1 i, ?_, ?_, ?_, ?_⟩
    · unfold storage_allocate_page
      rw [halloc]
      simp only []
      rw [hget]
    · rw [mark_dirty_eq, frame_set_frame_same _ _ _ hlt1]
      exact hpid
    · rw [mark_dirty_eq, frame_set_frame_same _ _ _ hlt1]
      show 0 < (db1.frame i).pin_count
      omega
    · rw [mark_dirty_eq]
      refine ⟨hu2, hc2, ?_, ?_, Nat.succ_ne_zero _⟩
      · intro j hj
        by_cases hji : j = i
        · subst hji
          rw [frame_set_frame_same _ _ _ hlt1] at hj
          exact absurd (hpid.symm.trans hj) hnew
        · rw [frame_set_frame_ne _ _ _ _ hji] at hj ⊢
          rw [hothers j hji] at hj ⊢
          exact hda0 j hj
      · refine ⟨{ m with next_page_id := m.next_page_id + 1 }, ss, ?_, rfl⟩
        rw [hcont2 METADATA_PAGE_ID (by decide)]
        have hda1 := hcont METADATA_PAGE_ID (by decide)
        rw [if_pos rfl] at hda1
        by_cases h1 : METADATA_PAGE_ID = m.next_page_id
        · rw [if_pos h1]
          show (db1.frame i).data = _
          rw [hdata]
          have hsame : page_content da m.next_page_id = page_content da METADATA_PAGE_ID := by
            rw [h1]
          rw [hsame]
          exact hda1
        · rw [if_neg h1, hcont1 _ (by decide), hda1]
  · right
    have hnf : ¬ free_frame da := fun hf => hcan (Or.inr hf)
    have hdbf : ¬ free_frame db := fun hf => hnf (free_frame_of_balanced hbal hf)
    refine ⟨hdbf, da, ?_⟩
    unfold storage_allocate_page
    rw [halloc]
    simp only []
    rw [buffer_get_page_fail da m.next_page_id (fun j _ hj => hcan (Or.inl ⟨j, hj⟩)) hnf]

/-- When the metadata page cannot be pinned, `storage_allocate_page` returns no frame. -/
theorem storage_allocate_page_fail (db : database_t) (n : Nat) (h : alloc_ok db n)
    (hres : ¬ ((∃ j, (db.frame j).page_id = METADATA_PAGE_ID) ∨ free_frame db)) :
    storage_allocate_page db = some (none, db) := by
  have hnf : ¬ free_frame db := fun hf => hres (Or.inr hf)
  have hn1 : ∀ j, j < db.capacity → (db.frame j).page_id ≠ METADATA_PAGE_ID :=
    fun j _ hj => hres (Or.inl ⟨j, hj⟩)
  have hn0 : ∀ j, j < db.capacity → (db.frame j).page_id ≠ 0 := by
    intro j hj h0
    exact hnf ⟨j, hj, h.empty_unpinned j h0⟩
  unfold storage_allocate_page
  rw [allocate_new_page_id_fail db hn1 hnf]
  simp only []
  rw [buffer_get_page_fail db 0 hn0 hnf]

/-- C19 (page ids are handed out in sequence): on an empty file `db_load_metadata`
succeeds and leaves `schema_count = 0` and a metadata page with
`next_page_id = 2`; and in every state `alloc_ok db n` (the metadata page, resident
or not, has `next_page_id = n`) in which the counter, a C `int`, can be
incremented without overflow (`n + 1 < 2 ^ 31`), `storage_allocate_page` succeeds
when a frame is free, and whenever it succeeds the frame it returns is pinned
and holds page `n`, and the state after it is `alloc_ok` for `n + 1`: the counter
went up by exactly one, so that successive allocations hand out 2, 3, 4, ... -/
theorem c19_allocation_counts_up :
    (db_load_metadata (db_create []) = some (0, empty_loaded_db) ∧
        empty_loaded_db.schema_count = 0 ∧ alloc_ok empty_loaded_db 2) ∧
      ∀ db n, alloc_ok db n → n + 1 < 2 ^ 31 →
        (free_frame db → ∃ i db', storage_allocate_page db = some (some i, db')) ∧
        ∀ i db', storage_allocate_page db = some (some i, db') →
          (db'.frame i).page_id = n ∧ 0 < (db'.frame i).pin_count ∧ alloc_ok db' (n + 1) := by
  constructor
  · refine ⟨by decide!, by decide!, ?_⟩
    have hp : pool_ok empty_loaded_db := by decide!
    refine ⟨frames_unique_of_pool_ok _ hp, frames_clean_of_pool_ok _ hp, ?_,
      ⟨{ schema_count := 0, next_page_id := 2 }, List.replicate 9 zero_schema, by decide!, rfl⟩,
      by decide⟩
    intro j hj
    by_cases hlt : j < empty_loaded_db.capacity
    · have hall : ∀ f ∈ empty_loaded_db.buffer_pool.pages, f.page_id = 0 → f.pin_count = 0 := by
        decide!
      exact hall _ (getD_mem _ j empty_frame hlt) hj
    · rw [frame_ge _ j (by omega)]
      rfl
  · intro db n h _
    constructor
    · intro hfree
      rcases storage_allocate_page_cases db n h (Or.inr hfree) with ⟨i, db', hs, _⟩ | ⟨hnf, _⟩
      · exact ⟨i, db', hs⟩
      · exact absurd hfree hnf
    · intro i db' hs
      by_cases hres : (∃ j, (db.frame j).page_id = METADATA_PAGE_ID) ∨ free_frame db
      · rcases storage_allocate_page_cases db n h hres with ⟨i0, db0, hs0, hp⟩ | ⟨_, db0, hs0⟩
        · rw [hs0] at hs
          simp only [Option.some.injEq, Prod.mk.injEq] at hs
          obtain ⟨hi, hd⟩ := hs
          subst hi
          subst hd
          exact hp
        · rw [hs0] at hs
          simp at hs
      · rw [storage_allocate_page_fail db n h hres] at hs
        simp at hs

/-- Witness of C19: the first allocation on the new database hands out page 2. -/
theorem c19_allocation_counts_up_witness :
    ∃ i db', storage_allocate_page empty_loaded_db = some (some i, db') ∧
      (db'.frame i).page_id = 2 ∧ 0 < (db'.frame i).pin_count ∧ alloc_ok db' (2 + 1) := by
  obtain ⟨i, db', hs⟩ := (c19_allocation_counts_up.2 empty_loaded_db 2
    c19_allocation_counts_up.1.2.2 (by decide)).1 ⟨0, by decide!, by decide!⟩
  exact ⟨i, db', hs, (c19_allocation_counts_up.2 empty_loaded_db 2
    c19_allocation_counts_up.1.2.2 (by decide)).2 i db' hs⟩

theorem set_data_set_data (s : database_t) (i : Nat) (d1 d2 : page_data) (hlt : i < s.capacity) :
    set_data (set_data s i d1) i d2 = set_data s i d2 := by
  rw [set_data_eq, set_data_eq, set_data_eq, frame_set_frame_same _ _ _ hlt, set_frame_set_frame]

theorem schema_count_release (s : database_t) (i : Nat) :
    (buffer_release_page s i).schema_count = s.schema_count ∧
      (buffer_release_page s i).schemas = s.schemas ∧
      (buffer_release_page s i).data_file = s.data_file := by
  unfold buffer_release_page
  simp only []
  split <;> exact ⟨rfl, rfl, rfl⟩

/-- The function `db_save_metadata` when the metadata page can be pinned and at most 9
schemas are in the catalog: it succeeds, and the metadata page, in the pool and in
the file, is the page `saved_metadata`. -/
theorem db_save_metadata_spec (db : database_t) (m : metadata_t) (ss : List table_schema_t)
    (hu : frames_unique db) (hc : frames_clean db)
    (hfree : (∃ j, (db.frame j).page_id = METADATA_PAGE_ID) ∨ free_frame db)
    (hmeta : (page_content db METADATA_PAGE_ID).as_metadata = some (m, ss))
    (hcount : db.schema_count ≤ 9) :
    ∃ db', db_save_metadata db = some (0, db') ∧ balanced db db' ∧
      page_content db' METADATA_PAGE_ID = saved_metadata db m ss ∧
      storage_read_page db'.data_file METADATA_PAGE_ID = some (saved_metadata db m ss) := by
  have h1 : METADATA_PAGE_ID ≠ 0 := by decide
  obtain ⟨i0, da, hget0, hdata0, hbal0, hcont0⟩ :=
    get_then_release db METADATA_PAGE_ID h1 hu hc hfree
  have hfree2 : (∃ j, ((buffer_release_page da i0).frame j).page_id = METADATA_PAGE_ID) ∨
      free_frame (buffer_release_page da i0) := by
    rcases hfree with ⟨j, hj⟩ | hf
    · by_cases hpin : (db.frame j).pin_count > 0
      · exact Or.inl ⟨j, by rw [hbal0.held j hpin]; exact hj⟩
      · exact Or.inr (free_frame_of_balanced hbal0
          ⟨j, frame_lt_of_page_id db j (by rw [hj]; exact h1), by omega⟩)
    · exact Or.inr (free_frame_of_balanced hbal0 hf)
  obtain ⟨i, db1, hget, hlt, hpid, hdata, hpin, _, hf⟩ :=
    get_then_set (buffer_release_page da i0) METADATA_PAGE_ID h1 hbal0.unique hbal0.clean hfree2
  obtain ⟨hbal, hcont⟩ := hf (page_t.mk (db1.frame i).page_id (saved_metadata db m ss) true
      ((db1.frame i).pin_count - 1)) hpid (by simp [hpin]) (Or.inl rfl)
  have hfr := frame_set_frame_same db1 i (page_t.mk (db1.frame i).page_id
      (saved_metadata db m ss) true ((db1.frame i).pin_count - 1)) hlt
  obtain ⟨hbal2, hcont2⟩ := balanced_write_page hbal i METADATA_PAGE_ID h1
    (by rw [hfr]; exact hpid)
  rw [hfr] at hbal2 hcont2
  refine ⟨_, ?_, balanced_trans hbal0 hbal2, ?_, ?_⟩
  · unfold db_save_metadata
    rw [hget0]
    simp only []
    rw [hdata0, hmeta]
    simp only []
    rw [hget]
    simp only []
    rw [hdata, hcont0 _ h1, hmeta]
    simp only []
    rw [if_neg (by omega), set_data_set_data _ _ _ _ hlt, modify_eq db1 i _ hlt,
      frame_set_frame_same _ _ _ hlt]
    simp only []
    rw [release_eq _ _ (by rw [frame_write_page, frame_set_frame_same _ _ _ hlt]; simp; omega),
      frame_write_page, frame_set_frame_same _ _ _ hlt, set_frame_write_page,
      set_frame_set_frame]
    rfl
  · rw [hcont2 _ h1, hcont _ h1, if_pos rfl]
  · exact storage_read_write_same _ _ _ h1

theorem getD_take_append {α : Type} (l r : List α) (c i : Nat) (d : α) (hi : i < c)
    (hc : c ≤ l.length) : (l.take c ++ r).getD i d = l.getD i d := by
  induction l generalizing c i with
  | nil => simp at hc; omega
  | cons x xs ih =>
    cases c with
    | zero => omega
    | succ k =>
      cases i with
      | zero => simp
      | succ j =>
        simp only [List.take_succ_cons, List.cons_append, List.getD_cons_succ]
        exact ih k j (by omega) (by simpa using hc)

/-- The function `db_load_metadata` on a new handle over a file whose page 1 is a metadata
page with at most 9 schemas: it succeeds and copies the count and the first
`schema_count` schema records into the catalog. -/
theorem db_load_metadata_fresh (file : List page_data) (d : page_data) (m : metadata_t)
    (ss : List table_schema_t)
    (hread : storage_read_page file METADATA_PAGE_ID = some d)
    (hd : d.as_metadata = some (m, ss)) (hle : m.schema_count ≤ 9)
    (hss : m.schema_count ≤ ss.length) :
    ∃ db2, db_load_metadata (db_create file) = some (0, db2) ∧
      db2.schema_count = m.schema_count ∧
      ∀ i, i < m.schema_count → db2.schema i = ss.getD i zero_schema := by
  have hr : find_resident METADATA_PAGE_ID (db_create file).buffer_pool.pages = none := by
    show find_resident METADATA_PAGE_ID (List.replicate 256 empty_frame) = none
    decide!
  have hv : find_victim_page (db_create file).buffer_pool.pages = some 0 := by
    show find_victim_page (List.replicate 256 empty_frame) = some 0
    decide!
  have hfr : (db_create file).frame 0 = empty_frame := by
    show (List.replicate 256 empty_frame).getD 0 empty_frame = empty_frame
    decide!
  have hget := buffer_get_page_miss (db_create file) METADATA_PAGE_ID 0 hr hv
  rw [hfr] at hget
  have hnd : ¬ (empty_frame.is_dirty = true ∧ empty_frame.page_id ≠ 0) := by decide
  rw [if_neg hnd] at hget
  unfold db_load_metadata
  rw [hget]
  simp only []
  rw [data_file_set_frame]
  have hfile : (db_create file).data_file = file := rfl
  rw [hfile, hread]
  simp only []
  rw [hd]
  simp only []
  by_cases hpos : m.schema_count > 0
  · rw [if_pos hpos, if_pos hle]
    refine ⟨_, rfl, (schema_count_release _ _).1, ?_⟩
    intro i hi
    unfold database_t.schema
    rw [(schema_count_release _ _).2.1]
    exact getD_take_append _ _ _ _ _ hi hss
  · rw [if_neg hpos]
    refine ⟨_, rfl, (schema_count_release _ _).1, ?_⟩
    intro i hi
    omega

/-- C20 (catalog round trip): with a well-formed pool in which the metadata page can be
pinned, a metadata page of the metadata layout and a catalog of `schema_count ≤ 9`
schemas in its 9 records, `db_save_metadata` succeeds and leaves the metadata
page with the catalog's `schema_count` and the `next_page_id` it had before;
`db_load_metadata` on a new handle over the file then succeeds and restores the
same `schema_count` and the same schema records (name, column count, columns,
root page id). -/
theorem c20_catalog_round_trip (db : database_t) (m : metadata_t) (ss : List table_schema_t)
    (hpool : pool_ok db)
    (hfree : (∃ j, (db.frame j).page_id = METADATA_PAGE_ID) ∨ free_frame db)
    (hmeta : (page_content db METADATA_PAGE_ID).as_metadata = some (m, ss))
    (hcount : db.schema_count ≤ 9) (hlen : db.schemas.length = 9) :
    ∃ db1 db2, db_save_metadata db = some (0, db1) ∧
      (∃ ss1, page_content db1 METADATA_PAGE_ID = page_data.metadata
        { schema_count := db.schema_count, next_page_id := m.next_page_id } ss1) ∧
      db_load_metadata (db_create (db_close db1)) = some (0, db2) ∧
      db2.schema_count = db.schema_count ∧
      ∀ i, i < db.schema_count → db2.schema i = db.schema i := by
  obtain ⟨db1, hsave, _, hpage, hfile⟩ := db_save_metadata_spec db m ss
    (frames_unique_of_pool_ok db hpool) (frames_clean_of_pool_ok db hpool) hfree hmeta hcount
  have hlen2 : db.schema_count ≤
      (db.schemas.take db.schema_count ++ ss.drop db.schema_count).length := by
    rw [List.length_append, List.length_take]
    omega
  obtain ⟨db2, hload, hsc, hschemas⟩ := db_load_metadata_fresh (db_close db1)
    (saved_metadata db m ss)
    { schema_count := db.schema_count, next_page_id := m.next_page_id }
    (db.schemas.take db.schema_count ++ ss.drop db.schema_count) hfile rfl hcount hlen2
  refine ⟨db1, db2, hsave, ⟨_, hpage⟩, hload, hsc, ?_⟩
  intro i hi
  rw [hschemas i hi]
  exact getD_take_append _ _ _ _ _ hi (by omega)

/-- Witness of C20: the catalog of `inserted_db` holds the table `t`. -/
theorem c20_catalog_round_trip_witness :
    ∃ db1 db2, db_save_metadata inserted_db = some (0, db1) ∧
      (∃ ss1, page_content db1 METADATA_PAGE_ID = page_data.metadata
        { schema_count := inserted_db.schema_count, next_page_id := 4 } ss1) ∧
      db_load_metadata (db_create (db_close db1)) = some (0, db2) ∧
      db2.schema_count = inserted_db.schema_count ∧
      ∀ i, i < inserted_db.schema_count → db2.schema i = inserted_db.schema i :=
  c20_catalog_round_trip inserted_db { schema_count := 0, next_page_id := 4 }
    (List.replicate 9 zero_schema) (by decide!) (Or.inr ⟨0, by decide!, by decide!⟩)
    (by decide!) (by decide!) (by decide!)

/-! ## SQL layer, node insertion, table creation, search by key and checkpoint -/

/-- C27 (mutating SQL without BEGIN): `sql_execute` of a parsed INSERT or DELETE statement
while `*current_txn` is 0 returns -1, and the database (catalog, pages, file,
transaction manager) and the handle are what they were. -/
theorem c27_mutation_without_transaction (fuel : Nat) (db : database_t)
    (stmt : sql_statement_t) (now : Nat)
    (hcmd : stmt.command = sql_command_t.SQL_INSERT ∨
      stmt.command = sql_command_t.SQL_DELETE) :
    sql_execute fuel db (some stmt) 0 now = some (-1, db, 0) := by
  unfold sql_execute
  rcases hcmd with h | h <;> simp [h]

/-- Witness of C27: `INSERT INTO t VALUES (1)` on the new database before any BEGIN. -/
theorem c27_mutation_without_transaction_witness :
    sql_execute run_fuel begun_db (some (insert_statement 1)) 0 0 = some (-1, begun_db, 0) :=
  c27_mutation_without_transaction run_fuel begun_db (insert_statement 1) 0 (Or.inl rfl)

/-- C24 at failing inputs: `tuple_select` with the `NULL` key on the empty table `t`, on
the table holding one row, and through `sql_execute` of `SELECT * FROM t`, has
no defined result: at the root leaf `btree_search` reads `key->data.int_val` for
its `printf` (and, when the leaf holds keys, `key->type` in `value_compare`)
through the `NULL` pointer. With a key, the select on the empty table returns 0
with `count = 0`. -/
theorem c24_select_without_key_reads_null :
    tuple_select run_fuel begun_db t_name none 1 = none ∧
      tuple_select run_fuel inserted_db t_name none 1 = none ∧
      sql_execute run_fuel begun_db (some select_all_statement) 1 0 = none ∧
      (tuple_select run_fuel begun_db t_name (some (int_value 1)) 1).map Prod.fst =
        some { ret := 0, count := 0, results := none } := by
  decide!

/-- C28 at a failing input: the 49th insert of scenario S2. The root leaf holds 48 keys,
the position found for id 49 is 48, and `btree_insert_key_at_position`, called
before the split, writes the key into `keys[48]` and its location into
`tuple_page_ids[48]` and `tuple_slots[48]`, leaving `key_count = 49`, while
`tinydb.h` declares these arrays with `BTREE_ORDER - 1 = 48` cells (indices 0
to 47). -/
theorem c28_full_leaf_insert_writes_cell_48 :
    (s2_root_leaf 48).map (fun n => n.key_count) = some 48 ∧
      (s2_root_leaf 48).map (fun n => btree_find_key_position n (int_value 49)) = some 48 ∧
      (s2_leaf_after_insert 48 51).map (fun n => n.key_count) = some 49 ∧
      (s2_leaf_after_insert 48 51).map (fun n => (n.keys.getD 48 zero_value).int_val) =
        some 49 ∧
      (s2_leaf_after_insert 48 51).map (fun n => n.tuple_page_ids.getD 48 0) = some 51 ∧
      BTREE_ORDER - 1 = 48 := by
  decide!

/-- C29 as stated fails: the insertion of a new key into a leaf holding 47 keys brings the
leaf to 48 keys (not fewer than `BTREE_ORDER - 1`) and returns 0 (NoSplit); only
the insertion into the leaf that already holds 48 keys returns 1 (Split),
leaving 24 keys in the leaf. -/
theorem c29_insert_to_48_keys_does_not_split :
    s2_leaf_insert 47 = some [0, 48] ∧ s2_leaf_insert 48 = some [1, 24] := by
  decide!

/-- The split branch of `btree_insert_recursive` never returns 0. -/
theorem btree_split_and_save_result (db : database_t) (page_id page_handle : Nat)
    (r : insert_result) (db' : database_t)
    (h : btree_split_and_save db page_id page_handle = some (r, db')) :
    r.result = 1 ∨ r.result = -1 := by
  unfold btree_split_and_save at h
  split at h
  · cases h
  · split at h
    · simp only [Option.some.injEq, Prod.mk.injEq] at h
      right
      rw [← h.1]
      rfl
    · split at h
      · cases h
      · split at h
        · cases h
        · split at h
          · cases h
          · simp only [Option.some.injEq, Prod.mk.injEq] at h
            left
            rw [← h.1]

/-- C29, as amended (leaf split threshold): a leaf insertion of a new key returns 0
(NoSplit) when the leaf holds fewer than `BTREE_ORDER - 1 = 48` keys before the key
is added, so also when the key brings it to 48 keys; the leaf then holds one key
more. When the leaf already holds 48 keys the insertion takes the split branch
and returns 1 (Split) or -1, never 0. -/
theorem c29_leaf_insert_splits_when_full (fuel : Nat) (db : database_t) (root : Nat)
    (key : value_t) (tp ts : Nat) (node : btree_node_t) (hroot : root ≠ 0)
    (hu : frames_unique db) (hc : frames_clean db)
    (hfree : (∃ j, (db.frame j).page_id = root) ∨ free_frame db)
    (hnode : page_content db root = page_data.btree_node node) (hleaf : node.is_leaf = true)
    (hnodup : ¬ (btree_find_key_position node key < node.key_count ∧
      value_compare key (node.keys.getD (btree_find_key_position node key) zero_value) = 0)) :
    (node.key_count < BTREE_ORDER - 1 →
        ∃ db', btree_insert_recursive (fuel + 1) db root key tp ts = some (no_split 0, db') ∧
          page_content db' root = page_data.btree_node
            (btree_insert_key_at_position node (btree_find_key_position node key) key tp ts)) ∧
      (BTREE_ORDER - 1 ≤ node.key_count → ∀ r db',
        btree_insert_recursive (fuel + 1) db root key tp ts = some (r, db') →
          r.result = 1 ∨ r.result = -1) := by
  obtain ⟨i, db1, hget, hlt, hpid, hdata, hpin, hu1, hf⟩ := get_then_set db root hroot hu hc hfree
  constructor
  · intro hroom
    obtain ⟨_, hcont⟩ := hf (page_t.mk (db1.frame i).page_id
      (page_data.btree_node
        (btree_insert_key_at_position node (btree_find_key_position node key) key tp ts)) true
      ((db1.frame i).pin_count - 1)) hpid (by simp [hpin]) (Or.inl rfl)
    refine ⟨_, ?_, by rw [hcont root hroot, if_pos rfl]⟩
    rw [btree_insert_recursive]
    unfold btree_load_node
    rw [hget]
    simp only []
    rw [hdata, hnode]
    simp only [page_data.as_node]
    rw [if_pos hleaf, if_neg hnodup, if_pos hroom, set_data_mk]
    rw [btree_save_node_self (db1.set_frame i (page_t.mk (db1.frame i).page_id
        (page_data.btree_node
          (btree_insert_key_at_position node (btree_find_key_position node key) key tp ts))
        (db1.frame i).is_dirty (db1.frame i).pin_count)) i root hroot
      (frames_unique_set_frame db1 i _ hu1 hlt rfl)
      (by rw [frame_set_frame_same _ _ _ hlt]; exact hpid)
      (by rw [capacity_set_frame]; exact hlt)]
    simp only []
    rw [frame_set_frame_same _ _ _ hlt, set_frame_set_frame,
      release_eq _ _ (by rw [frame_set_frame_same _ _ _ hlt]; simp; omega),
      frame_set_frame_same _ _ _ hlt, set_frame_set_frame]
  · intro hfull r db' hrec
    rw [btree_insert_recursive] at hrec
    unfold btree_load_node at hrec
    rw [hget] at hrec
    simp only [] at hrec
    rw [hdata, hnode] at hrec
    simp only [page_data.as_node] at hrec
    rw [if_pos hleaf, if_neg hnodup, if_neg (by omega)] at hrec
    exact btree_split_and_save_result _ _ _ r db' hrec

/-- Witness of C29: the first insert into the empty leaf of `begun_db`. -/
theorem c29_leaf_insert_splits_when_full_witness :
    ∃ db', btree_insert_recursive 1 begun_db 2 (int_value 1) 3 0 = some (no_split 0, db') ∧
      page_content db' 2 = page_data.btree_node
        (btree_insert_key_at_position empty_leaf (btree_find_key_position empty_leaf (int_value 1))
          (int_value 1) 3 0) :=
  (c29_leaf_insert_splits_when_full 0 begun_db 2 (int_value 1) 3 0 empty_leaf (by decide)
    (frames_unique_of_pool_ok _ (by decide!)) (frames_clean_of_pool_ok _ (by decide!))
    (Or.inr ⟨0, by decide!, by decide!⟩) (by decide!) (by decide!) (by decide!)).1 (by decide!)

/-- The loop of `btree_find_key_position` ends within `right + 1 - left` iterations: with that
many iterations allowed or more, the result is the same. -/
theorem find_loop_fuel (node : btree_node_t) (key : value_t) :
    ∀ (fuel : Nat) (left right pos : Int), right + 1 - left ≤ fuel →
      ∀ fuel', fuel ≤ fuel' →
        btree_find_key_position_loop node key fuel' left right pos =
          btree_find_key_position_loop node key fuel left right pos := by
  intro fuel
  induction fuel with
  | zero =>
    intro left right pos h fuel' _
    cases fuel' with
    | zero => rfl
    | succ n =>
      rw [btree_find_key_position_loop, btree_find_key_position_loop, if_neg (by omega)]
  | succ k ih =>
    intro left right pos h fuel' hf
    cases fuel' with
    | zero => omega
    | succ n =>
      rw [btree_find_key_position_loop, btree_find_key_position_loop]
      by_cases hlr : left ≤ right
      · rw [if_pos hlr, if_pos hlr]
        simp only []
        have hmid1 : left ≤ (left + right) / 2 := by omega
        have hmid2 : (left + right) / 2 ≤ right := by omega
        rw [ih left ((left + right) / 2 - 1) ((left + right) / 2) (by omega) n (by omega),
          ih ((left + right) / 2 + 1) right ((left + right) / 2 + 1) (by omega) n (by omega)]
      · rw [if_neg hlr, if_neg hlr]

/-- C30 (`btree_find_key_position` is a lower-bound search): in a node whose keys in use are
strictly increasing, the position returned is at most `key_count`; the search key
is greater than every key before it and, when the position is below `key_count`,
not greater than the key at it, so it is the smallest index with
`key ≤ keys[pos]`, and it is `key_count` when every key is smaller; it is the
key's own index when the key is in the node, and 0 for an empty node; and the
loop ends: allowing more than `key_count + 1` iterations gives the same
result. -/
theorem c30_find_key_position_lower_bound (node : btree_node_t) (key : value_t)
    (hsorted : keys_sorted node) :
    btree_find_key_position node key ≤ node.key_count ∧
      (∀ i, i < btree_find_key_position node key →
        0 < value_compare key (node.keys.getD i zero_value)) ∧
      (btree_find_key_position node key < node.key_count →
        value_compare key (node.keys.getD (btree_find_key_position node key) zero_value) ≤ 0) ∧
      ((∀ i, i < node.key_count → 0 < value_compare key (node.keys.getD i zero_value)) →
        btree_find_key_position node key = node.key_count) ∧
      (∀ i, i < node.key_count → node.keys.getD i zero_value = key →
        btree_find_key_position node key = i) ∧
      (node.key_count = 0 → btree_find_key_position node key = 0) ∧
      ∀ fuel, node.key_count + 1 ≤ fuel →
        (btree_find_key_position_loop node key fuel 0 ((node.key_count : Int) - 1) 0).toNat =
          btree_find_key_position node key := by
  obtain ⟨hle, hbefore, hat, hafter⟩ :=
    btree_find_key_position_spec node key (ordered_of_sorted node key hsorted)
  refine ⟨hle, hbefore, ?_, ?_, ?_, ?_, ?_⟩
  · intro hlt
    exact hat _ (Nat.le_refl _) hlt
  · intro hall
    by_contra hne
    have hlt : btree_find_key_position node key < node.key_count := by omega
    have h1 := hat _ (Nat.le_refl _) hlt
    have h2 := hall _ hlt
    unfold key_cmp at h1
    omega
  · intro i hi hkey
    have hself : key_cmp node key i = 0 := by
      unfold key_cmp
      rw [hkey]
      exact value_compare_self key
    by_contra hne
    rcases Nat.lt_or_gt_of_ne hne with hlt | hgt
    · have := hafter i hlt hi
      omega
    · have := hbefore i hgt
      omega
  · intro h0
    omega
  · intro fuel hfuel
    unfold btree_find_key_position
    rw [find_loop_fuel node key (node.key_count + 1) 0 ((node.key_count : Int) - 1) 0
      (by push_cast; omega) fuel hfuel]

theorem three_key_leaf_sorted : keys_sorted three_key_leaf := by
  intro j hj i hij
  have h3 : three_key_leaf.key_count = 3 := by decide!
  rw [h3] at hj
  unfold value_lt
  interval_cases j <;> interval_cases i <;> decide!

/-- Witness of C30: the leaf with the keys 1, 2, 3 and the search key 2. -/
theorem c30_find_key_position_lower_bound_witness :
    btree_find_key_position three_key_leaf (int_value 2) = 1 :=
  (c30_find_key_position_lower_bound three_key_leaf (int_value 2)
    three_key_leaf_sorted).2.2.2.2.1 1 (by decide!) (by decide!)

/-- The function `storage_allocate_page` with a free frame: it returns a frame pinned on the
page the metadata page named, and advances the metadata page's counter. -/
theorem storage_allocate_page_acquired (db : database_t) (m : metadata_t)
    (ss : List table_schema_t) (hu : frames_unique db) (hc : frames_clean db)
    (hfree : free_frame db)
    (hmeta : page_content db METADATA_PAGE_ID = page_data.metadata m ss)
    (hnew : m.next_page_id ≠ 0) :
    ∃ i db', storage_allocate_page db = some (some i, db') ∧ acquired db db' i m.next_page_id ∧
      ∀ q, q ≠ 0 → q ≠ m.next_page_id → page_content db' q =
        if q = METADATA_PAGE_ID then
          page_data.metadata { m with next_page_id := m.next_page_id + 1 } ss
        else page_content db q := by
  obtain ⟨da, halloc, hbal, hcont⟩ := allocate_new_page_id_spec db m ss hu hc hfree hmeta
  obtain ⟨i, db1, hget, hlt, henv, hu1, hc1, hpid, hdata, hpin, hor, _, hothers, hcont1⟩ :=
    buffer_get_page_spec da m.next_page_id hnew hbal.unique hbal.clean
      (Or.inr (free_frame_of_balanced hbal hfree))
  have hlt1 : i < db1.capacity := by rw [henv.cap]; exact hlt
  obtain ⟨hu2, hc2, hcont2⟩ := set_frame_spec db1 i m.next_page_id
    { db1.frame i with is_dirty := true } hnew hu1 hc1 hpid hpid (Or.inl rfl)
  refine ⟨i, mark_dirty db1 i, ?_, ?_, ?_⟩
  · unfold storage_allocate_page
    rw [halloc]
    simp only []
    rw [hget]
  · rw [mark_dirty_eq]
    refine ⟨same_env_trans hbal.env (same_env_trans henv (same_env_set_frame _ _ _)), hu2, hc2,
      by rw [capacity_set_frame]; exact hlt1, ?_, ?_, ?_, ?_⟩
    · rw [frame_set_frame_same _ _ _ hlt1]; exact hpid
    · rw [frame_set_frame_same _ _ _ hlt1]
      show (db1.frame i).pin_count = _
      rw [hpin, hbal.pins i]
    · intro j hj
      rw [frame_set_frame_ne _ _ _ _ hj, hothers j hj, hbal.pins j]
    · intro j hj
      have hj' : (da.frame j).pin_count > 0 := by rw [hbal.pins j]; exact hj
      by_cases hji : j = i
      · subst hji
        rw [frame_set_frame_same _ _ _ hlt1]
        show (db1.frame j).page_id = _
        rw [hpid, ← hbal.held j hj]
        rcases hor with h | h
        · exact h.symm
        · omega
      · rw [frame_set_frame_ne _ _ _ _ hji, hothers j hji, hbal.held j hj]
  · intro q hq hqn
    rw [mark_dirty_eq, hcont2 q hq, if_neg hqn, hcont1 q hq, hcont q hq]

/-- Overwriting the data of an acquired frame and marking it dirty is a balanced step. -/
theorem acquired_modify {db db1 : database_t} {i p : Nat} (hacq : acquired db db1 i p)
    (hp : p ≠ 0) (d : page_data) :
    balanced db1 (db1.set_frame i (page_t.mk (db1.frame i).page_id d true
        (db1.frame i).pin_count)) ∧
      ∀ q, q ≠ 0 → page_content (db1.set_frame i (page_t.mk (db1.frame i).page_id d true
        (db1.frame i).pin_count)) q = if q = p then d else page_content db1 q := by
  obtain ⟨hu, hc, hcont⟩ := set_frame_spec db1 i p (page_t.mk (db1.frame i).page_id d true
    (db1.frame i).pin_count) hp hacq.unique hacq.clean hacq.page_id hacq.page_id (Or.inl rfl)
  refine ⟨⟨same_env_set_frame _ _ _, hu, hc, ?_, ?_⟩, hcont⟩
  · intro j
    by_cases hj : j = i
    · subst hj
      rw [frame_set_frame_same _ _ _ hacq.lt]
    · rw [frame_set_frame_ne _ _ _ _ hj]
  · intro j _
    by_cases hj : j = i
    · subst hj
      rw [frame_set_frame_same _ _ _ hacq.lt]
    · rw [frame_set_frame_ne _ _ _ _ hj]

theorem release_with_schemas (s : database_t) (i : Nat) (schemas : List table_schema_t) :
    buffer_release_page { s with schemas := schemas } i =
      { buffer_release_page s i with schemas := schemas } := by
  unfold buffer_release_page
  by_cases h : (s.frame i).pin_count > 0
  · have h' : (database_t.frame { s with schemas := schemas } i).pin_count > 0 := h
    simp only []
    rw [if_pos h, if_pos h']
    rfl
  · have h' : ¬ (database_t.frame { s with schemas := schemas } i).pin_count > 0 := h
    simp only []
    rw [if_neg h, if_neg h']

theorem leaf_lookup_empty (key : value_t) : leaf_lookup empty_leaf key = none := by
  unfold leaf_lookup
  rw [if_neg]
  intro h
  have h0 : empty_leaf.key_count = 0 := rfl
  omega

/-- The function `table_create` on a catalog with room that does not hold the name, with a
free frame: it succeeds; the catalog gets the record `created_schema` at index
`schema_count`, whose root page, the page the metadata page named, is an empty
leaf in the pool and in the file. -/
theorem table_create_spec (db : database_t) (table_name : List Nat)
    (columns : List column_def_t) (column_count : Nat) (m : metadata_t)
    (ss : List table_schema_t) (hu : frames_unique db) (hc : frames_clean db)
    (hfree : free_frame db)
    (hmeta : page_content db METADATA_PAGE_ID = page_data.metadata m ss)
    (hnew : m.next_page_id ≠ 0) (hne1 : m.next_page_id ≠ METADATA_PAGE_ID)
    (hroom : db.schema_count < db.max_schemas) (hlen : db.schema_count < db.schemas.length)
    (habsent : find_table_schema db table_name = none) :
    ∃ db', table_create db table_name columns column_count = some (0, db') ∧
      db'.schema_count = db.schema_count + 1 ∧
      db'.schemas = db.schemas.set db.schema_count
        (created_schema db table_name columns column_count m.next_page_id) ∧
      frames_unique db' ∧ frames_clean db' ∧ free_frame db' ∧
      page_content db' m.next_page_id = page_data.btree_node empty_leaf ∧
      storage_read_page db'.data_file m.next_page_id = some (page_data.btree_node empty_leaf) ∧
      page_content db' METADATA_PAGE_ID =
        page_data.metadata { m with next_page_id := m.next_page_id + 1 } ss ∧
      ∀ q, q ≠ 0 → q ≠ m.next_page_id → q ≠ METADATA_PAGE_ID →
        page_content db' q = page_content db q := by
  have hfree1 : free_frame (with_schema_record db table_name columns column_count) := hfree
  obtain ⟨i, db2, halloc, hacq, hcont⟩ := storage_allocate_page_acquired
    (with_schema_record db table_name columns column_count) m ss hu hc hfree1 hmeta hnew
  obtain ⟨hbal3, hcont3⟩ := acquired_modify hacq hnew (page_data.btree_node empty_leaf)
  have hfr := frame_set_frame_same db2 i (page_t.mk (db2.frame i).page_id
      (page_data.btree_node empty_leaf) true (db2.frame i).pin_count) hacq.lt
  obtain ⟨hbal4, hcont4⟩ := balanced_write_page hbal3 i m.next_page_id hnew
    (by rw [hfr]; exact hacq.page_id)
  rw [hfr] at hbal4 hcont4
  obtain ⟨hbal5, hcont5⟩ := release_acquired hacq hbal4 hnew
  have hge : ¬ db.schema_count ≥ db.max_schemas := by omega
  have hns : ¬ (find_table_schema db table_name).isSome = true := by rw [habsent]; simp
  have heq : table_create db table_name columns column_count =
      some (0, table_create_finish db2 i) := by
    unfold table_create
    rw [if_neg hge, if_neg hns]
    simp only []
    unfold with_schema_record created_schema at halloc
    simp only [] at halloc
    rw [halloc]
    rfl
  have hschemas : db2.schemas = db.schemas.set db.schema_count
      (created_schema db table_name columns column_count
        (db.schema db.schema_count).root_page_id) := hacq.env.schemas
  have hcount : db2.schema_count = db.schema_count := hacq.env.schema_count
  have hfin : table_create_finish db2 i =
      with_catalog (buffer_release_page (write_page (db2.set_frame i
          (page_t.mk m.next_page_id (page_data.btree_node empty_leaf) true
            (db2.frame i).pin_count)) m.next_page_id (page_data.btree_node empty_leaf)) i)
        (db.schemas.set db.schema_count
          (created_schema db table_name columns column_count m.next_page_id))
        (db.schema_count + 1) := by
    unfold table_create_finish
    simp only []
    rw [modify_eq db2 i _ hacq.lt, frame_set_frame_same _ _ _ hacq.lt]
    simp only []
    rw [hacq.page_id, release_with_schemas]
    unfold with_catalog
    simp only []
    congr 1
    · have hrec : db2.schema db2.schema_count = created_schema db table_name columns column_count
          (db.schema db.schema_count).root_page_id := by
        unfold database_t.schema
        rw [hschemas, hcount, getD_set_same _ _ _ _ hlen]
        rfl
      show db2.schemas.set db2.schema_count (table_schema_t.mk (db2.schema db2.schema_count).name
        (db2.schema db2.schema_count).column_count (db2.schema db2.schema_count).columns
        m.next_page_id) = _
      rw [hrec, hschemas, hcount, List.set_set]
      rfl
    · rw [(schema_count_release _ _).1]
      show db2.schema_count + 1 = _
      rw [hcount]
  have hX := hbal5
  have hXc := hcont5
  rw [hacq.page_id] at hbal3 hcont3 hbal4 hcont4 hX hXc
  rw [hfin] at heq
  have hff := free_frame_of_balanced hX hfree1
  refine ⟨_, heq, rfl, rfl, hX.unique, hX.clean, hff, ?_, ?_, ?_, ?_⟩
  · show page_content (buffer_release_page _ i) m.next_page_id = _
    rw [hXc _ hnew, hcont4 _ hnew, hcont3 _ hnew, if_pos rfl]
  · show storage_read_page (buffer_release_page _ i).data_file m.next_page_id = _
    rw [(schema_count_release _ _).2.2]
    exact storage_read_write_same _ _ _ hnew
  · show page_content (buffer_release_page _ i) METADATA_PAGE_ID = _
    rw [hXc _ (by decide), hcont4 _ (by decide), hcont3 _ (by decide),
      if_neg (fun h => hne1 h.symm), hcont _ (by decide) (fun h => hne1 h.symm), if_pos rfl]
  · intro q hq hqn hq1
    show page_content (buffer_release_page _ i) q = _
    rw [hXc _ hq, hcont4 _ hq, hcont3 _ hq, if_neg hqn, hcont _ hq hqn, if_neg hq1]
    rfl

theorem find_schema_idx_eq_none (name : List Nat) (l : List table_schema_t) :
    find_schema_idx name l = none ↔ ∀ s ∈ l, s.name ≠ name := by
  induction l with
  | nil => simp [find_schema_idx]
  | cons x xs ih =>
    unfold find_schema_idx
    by_cases hx : x.name = name
    · simp [hx]
    · simp [hx, ih]

theorem find_schema_idx_lt (name : List Nat) (l : List table_schema_t) (i : Nat)
    (h : find_schema_idx name l = some i) : i < l.length := by
  induction l generalizing i with
  | nil => simp [find_schema_idx] at h
  | cons x xs ih =>
    unfold find_schema_idx at h
    by_cases hx : x.name = name
    · rw [if_pos hx] at h
      cases h
      simp
    · rw [if_neg hx] at h
      cases hr : find_schema_idx name xs with
      | none => rw [hr] at h; cases h
      | some k =>
        rw [hr] at h
        simp only [Option.map_some', Option.some.injEq] at h
        subst h
        simpa using ih k hr

/-- C21 (`table_create` rejections): with `schema_count` at `max_schemas` (9 in every database
`db_create` makes), or with a schema of that name among the first `schema_count`
records, `table_create` returns -1 and leaves the database as it was (so
`schema_count`, every schema record and `next_page_id` are unchanged); in every
other case, in a state `alloc_ok db n` with a free frame, it returns 0. -/
theorem c21_table_create_rejections (db : database_t) (table_name : List Nat)
    (columns : List column_def_t) (column_count : Nat) :
    (∀ file, (db_create file).max_schemas = 9) ∧
      (db.max_schemas ≤ db.schema_count →
        table_create db table_name columns column_count = some (-1, db)) ∧
      ((∃ s ∈ db.schemas.take db.schema_count, s.name = table_name) →
        table_create db table_name columns column_count = some (-1, db)) ∧
      (db.schema_count < db.max_schemas →
        (∀ s ∈ db.schemas.take db.schema_count, s.name ≠ table_name) →
        ∀ n, alloc_ok db n → free_frame db →
          ∃ db', table_create db table_name columns column_count = some (0, db')) := by
  refine ⟨fun _ => rfl, ?_, ?_, ?_⟩
  · intro hfull
    unfold table_create
    rw [if_pos hfull]
  · rintro ⟨s, hs, hname⟩
    unfold table_create
    by_cases hfull : db.schema_count ≥ db.max_schemas
    · rw [if_pos hfull]
    · rw [if_neg hfull, if_pos]
      unfold find_table_schema
      cases hf : find_schema_idx table_name (List.take db.schema_count db.schemas) with
      | none => exact absurd hname ((find_schema_idx_eq_none _ _).mp hf s hs)
      | some i => rfl
  · intro hroom habsent n hok hfree
    have hns : ¬ (find_table_schema db table_name).isSome = true := by
      unfold find_table_schema
      rw [(find_schema_idx_eq_none _ _).mpr habsent]
      simp
    have hok1 : alloc_ok (with_schema_record db table_name columns column_count) n :=
      ⟨hok.unique, hok.clean, hok.empty_unpinned, hok.next, hok.nonzero⟩
    have hfree1 : free_frame (with_schema_record db table_name columns column_count) := hfree
    rcases storage_allocate_page_cases _ n hok1 (Or.inr hfree1) with ⟨i, db2, halloc, _⟩ | ⟨hnf, _⟩
    · refine ⟨table_create_finish db2 i, ?_⟩
      unfold table_create
      rw [if_neg (by omega), if_neg hns]
      simp only []
      unfold with_schema_record created_schema at halloc
      simp only [] at halloc
      rw [halloc]
      rfl
    · exact absurd hfree1 hnf

/-- Witness of C21: a second `CREATE TABLE t` on the database that holds table `t`. -/
theorem c21_table_create_rejections_witness :
    table_create created_db t_name t_columns 1 = some (-1, created_db) :=
  (c21_table_create_rejections created_db t_name t_columns 1).2.2.1 (by decide!)

/-- C22 as stated fails: `table_create` with a name of 64 bytes succeeds, and the new
schema, the only one in the catalog, carries the name cut to 63 bytes, which is
not the given name. -/
theorem c22_long_name_is_cut :
    long_name_db.map (fun db => db.schema_count) = some 1 ∧
      long_name_db.map (fun db => (db.schema 0).name) = some (List.replicate 63 97) ∧
      long_name_db.map (fun db => decide ((db.schema 0).name = long_name)) = some false := by
  decide!

/-- C22, as amended (result of a successful `table_create`): when `table_create` returns 0
in a state with well-formed pool, a free frame and a metadata page naming the
page `next_page_id` (not 0, not the metadata page) to hand out, then
`schema_count` has grown by one, the earlier schema records are unchanged, and
the record at the old `schema_count` is `created_schema`: the given name cut to
its first 63 bytes, the given column count, the first
`min column_count MAX_COLUMNS` of the given columns, and as root page the page
the allocator handed out; the metadata page's counter went up by one; the root
page, in the pool and in the file, is a leaf with `key_count = 0`; and
`btree_search` from that root finds no key. -/
theorem c22_table_create_result (fuel : Nat) (db db' : database_t) (table_name : List Nat)
    (columns : List column_def_t) (column_count : Nat) (m : metadata_t)
    (ss : List table_schema_t) (hpool : pool_ok db) (hfree : free_frame db)
    (hmeta : page_content db METADATA_PAGE_ID = page_data.metadata m ss)
    (hnew : m.next_page_id ≠ 0) (hne1 : m.next_page_id ≠ METADATA_PAGE_ID)
    (hlen : db.schemas.length = db.max_schemas)
    (hsucc : table_create db table_name columns column_count = some (0, db')) :
    db'.schema_count = db.schema_count + 1 ∧
      (∀ j, j < db.schema_count → db'.schema j = db.schema j) ∧
      db'.schema db.schema_count =
        created_schema db table_name columns column_count m.next_page_id ∧
      page_content db' METADATA_PAGE_ID =
        page_data.metadata { m with next_page_id := m.next_page_id + 1 } ss ∧
      page_content db' m.next_page_id = page_data.btree_node empty_leaf ∧
      storage_read_page db'.data_file m.next_page_id = some (page_data.btree_node empty_leaf) ∧
      empty_leaf.is_leaf = true ∧ empty_leaf.key_count = 0 ∧
      ∀ key, ∃ db'', btree_search (fuel + 1) db' m.next_page_id (some key) = some (none, db'') := by
  have hroom : db.schema_count < db.max_schemas := by
    by_contra hc
    unfold table_create at hsucc
    rw [if_pos (by omega)] at hsucc
    simp at hsucc
  have habsent : find_table_schema db table_name = none := by
    cases hf : find_table_schema db table_name with
    | none => rfl
    | some i =>
      unfold table_create at hsucc
      rw [if_neg (by omega), hf] at hsucc
      simp at hsucc
  obtain ⟨db1, hcreate, hcount, hschemas, hu1, hc1, hfree1, hroot, hfile, hmeta1, _⟩ :=
    table_create_spec db table_name columns column_count m ss
      (frames_unique_of_pool_ok db hpool) (frames_clean_of_pool_ok db hpool) hfree hmeta hnew hne1
      hroom (by omega) habsent
  rw [hsucc] at hcreate
  simp only [Option.some.injEq, Prod.mk.injEq, true_and] at hcreate
  subst hcreate
  refine ⟨hcount, ?_, ?_, hmeta1, hroot, hfile, rfl, rfl, ?_⟩
  · intro j hj
    unfold database_t.schema
    rw [hschemas, getD_set_ne _ _ _ _ _ (by omega)]
  · unfold database_t.schema
    rw [hschemas, getD_set_same _ _ _ _ (by omega)]
  · intro key
    obtain ⟨db2, hsearch, _, _⟩ := btree_search_leaf_spec fuel db' m.next_page_id key empty_leaf
      hnew hu1 hc1 (Or.inr hfree1) hroot rfl
    rw [leaf_lookup_empty] at hsearch
    exact ⟨db2, hsearch⟩

/-- Witness of C22: `CREATE TABLE t` on the new database. -/
theorem c22_table_create_result_witness :
    created_db.schema_count = empty_loaded_db.schema_count + 1 ∧
      (∀ j, j < empty_loaded_db.schema_count → created_db.schema j = empty_loaded_db.schema j) ∧
      created_db.schema empty_loaded_db.schema_count =
        created_schema empty_loaded_db t_name t_columns 1 2 ∧
      page_content created_db METADATA_PAGE_ID =
        page_data.metadata { schema_count := 0, next_page_id := 2 + 1 }
          (List.replicate 9 zero_schema) ∧
      page_content created_db 2 = page_data.btree_node empty_leaf ∧
      storage_read_page created_db.data_file 2 = some (page_data.btree_node empty_leaf) ∧
      empty_leaf.is_leaf = true ∧ empty_leaf.key_count = 0 ∧
      ∀ key, ∃ db'', btree_search (0 + 1) created_db 2 (some key) = some (none, db'') :=
  c22_table_create_result 0 empty_loaded_db created_db t_name t_columns 1
    { schema_count := 0, next_page_id := 2 } (List.replicate 9 zero_schema) (by decide!)
    ⟨0, by decide!, by decide!⟩ (by decide!) (by decide) (by decide) (by decide!) (by decide!)

/-- The function `btree_insert` into a root leaf that holds the key: it returns -1, and the
leaf, like every other page, keeps its content. -/
theorem btree_insert_leaf_duplicate (fuel : Nat) (db : database_t) (root : Nat) (key : value_t)
    (tp ts : Nat) (node : btree_node_t) (hroot : root ≠ 0)
    (hu : frames_unique db) (hc : frames_clean db)
    (hfree : (∃ j, (db.frame j).page_id = root) ∨ free_frame db)
    (hnode : page_content db root = page_data.btree_node node) (hleaf : node.is_leaf = true)
    (hdup : btree_find_key_position node key < node.key_count ∧
      value_compare key (node.keys.getD (btree_find_key_position node key) zero_value) = 0) :
    ∃ db', btree_insert (fuel + 1) db root key tp ts = some (-1, db') ∧ balanced db db' ∧
      ∀ q, q ≠ 0 → page_content db' q = page_content db q := by
  obtain ⟨i, db1, hget, hlt, hpid, hdata, hpin, hu1, hf⟩ := get_then_set db root hroot hu hc hfree
  obtain ⟨hbal, hcont⟩ := hf (page_t.mk (db1.frame i).page_id (db1.frame i).data true
      ((db1.frame i).pin_count - 1)) hpid (by simp [hpin]) (Or.inl rfl)
  refine ⟨_, ?_, hbal, ?_⟩
  · have hrec : btree_insert_recursive (fuel + 1) db root key tp ts =
        some (no_split (-1), db1.set_frame i (page_t.mk (db1.frame i).page_id
          (db1.frame i).data true ((db1.frame i).pin_count - 1))) := by
      rw [btree_insert_recursive]
      unfold btree_load_node
      rw [hget]
      simp only []
      rw [hdata, hnode]
      simp only [page_data.as_node]
      rw [if_pos hleaf, if_pos hdup]
      rw [btree_save_node_self db1 i root hroot hu1 hpid hlt]
      simp only []
      rw [release_eq _ _ (by rw [frame_set_frame_same _ _ _ hlt]; simp; omega),
        frame_set_frame_same _ _ _ hlt, set_frame_set_frame]
      simp only [hdata, hnode]
    unfold btree_insert
    rw [hrec]
    simp [no_split]
  · intro q hq
    rw [hcont q hq]
    by_cases hqr : q = root
    · rw [if_pos hqr, hqr]
      exact hdata
    · rw [if_neg hqr]

/-- The function `tuple_insert` of a row whose key the root leaf of the table already holds:
it returns -1; the leaf is unchanged, but the row is written to slot 0 of the
page the allocator handed out, and the metadata page's counter stays advanced. -/
theorem tuple_insert_duplicate_spec (fuel : Nat) (db : database_t) (name : List Nat)
    (tuple : tuple_t) (txn_id si : Nat) (key : value_t) (m : metadata_t)
    (ss : List table_schema_t) (node : btree_node_t)
    (hu : frames_unique db) (hc : frames_clean db) (hfree : two_free_frames db)
    (hs : find_table_schema db name = some si)
    (hcc : tuple.column_count = (db.schema si).column_count)
    (hpk : extract_primary_key (db.schema si) (stamped tuple txn_id) = some key)
    (hmeta : page_content db METADATA_PAGE_ID = page_data.metadata m ss)
    (hnew : m.next_page_id ≠ 0)
    (hzero : page_content db m.next_page_id = page_data.zero)
    (hroot : (db.schema si).root_page_id ≠ 0)
    (hnode : page_content db (db.schema si).root_page_id = page_data.btree_node node)
    (hleaf : node.is_leaf = true)
    (hdup : btree_find_key_position node key < node.key_count ∧
      value_compare key (node.keys.getD (btree_find_key_position node key) zero_value) = 0) :
    ∃ db', tuple_insert (fuel + 1) db name tuple txn_id = some (-1, db') ∧ balanced db db' ∧
      page_content db' m.next_page_id =
        page_data.heap 1 ((List.replicate TUPLES_PER_PAGE zero_tuple).set 0
          (stamped tuple txn_id)) ∧
      page_content db' METADATA_PAGE_ID =
        page_data.metadata { m with next_page_id := m.next_page_id + 1 } ss ∧
      ∀ q, q ≠ 0 → q ≠ m.next_page_id → q ≠ METADATA_PAGE_ID →
        page_content db' q = page_content db q := by
  have hne1 : m.next_page_id ≠ METADATA_PAGE_ID := by
    intro h
    rw [h, hmeta] at hzero
    cases hzero
  have hrne1 : (db.schema si).root_page_id ≠ METADATA_PAGE_ID := by
    intro h
    rw [h, hmeta] at hnode
    cases hnode
  have hrnew : (db.schema si).root_page_id ≠ m.next_page_id := by
    intro h
    rw [h, hzero] at hnode
    cases hnode
  obtain ⟨i, db1, halloc, hacq, hdz, hcont1⟩ :=
    storage_allocate_page_spec db m ss hu hc (free_frame_of_two db hfree) hmeta hnew hzero
  have hc1new : page_content db1 m.next_page_id = page_data.zero := by
    rw [page_content_of_frame db1 _ i hacq.unique hnew hacq.page_id, hdz]
  obtain ⟨db2, hstore, hbal2, hcont2⟩ :=
    store_tuple_in_page_spec db1 m.next_page_id (stamped tuple txn_id) 0
      (List.replicate TUPLES_PER_PAGE zero_tuple) hnew hacq.unique hacq.clean
      (Or.inl ⟨i, hacq.page_id⟩) (by rw [hc1new]; rfl) (by decide)
  have hpin1 : (db1.frame i).pin_count > 0 := by rw [hacq.pin]; omega
  have hpid2 : (db2.frame i).page_id = m.next_page_id := by
    rw [hbal2.held i hpin1, hacq.page_id]
  have hroot2 : page_content db2 (db.schema si).root_page_id = page_data.btree_node node := by
    rw [hcont2 _ hroot, if_neg hrnew, hcont1 _ hroot, if_neg hrne1, hnode]
  obtain ⟨db3, hins, hbal3, hcont3⟩ :=
    btree_insert_leaf_duplicate fuel db2 (db.schema si).root_page_id key m.next_page_id 0 node
      hroot hbal2.unique hbal2.clean
      (Or.inr (free_frame_of_balanced hbal2 (free_frame_of_acquired hacq hfree)))
      hroot2 hleaf hdup
  obtain ⟨hbal4, hcont4⟩ := release_acquired hacq (balanced_trans hbal2 hbal3) hnew
  refine ⟨buffer_release_page db3 i, ?_, hbal4, ?_, ?_, ?_⟩
  · unfold tuple_insert
    rw [hs]
    simp only []
    rw [if_neg (by simpa using hcc)]
    rw [halloc]
    simp only []
    rw [hacq.page_id]
    have hst : ({ tuple with header := { xmin := txn_id, xmax := 0, is_deleted := false } } :
        tuple_t) = stamped tuple txn_id := rfl
    rw [hst, hstore]
    simp only []
    rw [if_neg (by simp), hpk]
    simp only []
    rw [hpid2, hins]
    simp
  · rw [hcont4 _ hnew, hcont3 _ hnew, hcont2 _ hnew, if_pos rfl]
  · rw [hcont4 _ (by decide), hcont3 _ (by decide), hcont2 _ (by decide),
      if_neg (fun h => hne1 h.symm), hcont1 _ (by decide), if_pos rfl]
  · intro q hq hqn hq1
    rw [hcont4 _ hq, hcont3 _ hq, hcont2 _ hq, if_neg hqn, hcont1 _ hq, if_neg hq1]

/-- C25 (a failed insert keeps the index but not the heap): when `tuple_insert` is called
with a row whose primary key the single leaf of the table already holds, it
returns -1; every page that held a B+-tree node holds the same node afterwards,
so the leaf has the keys and the tuple locations it had; the page the allocator
handed out holds one tuple, the row at slot 0, with the header the call stamped
on it; the metadata page's `next_page_id` is one more than before; and every
page other than these two has the content it had. -/
theorem c25_duplicate_insert_keeps_index (fuel : Nat) (db : database_t) (name : List Nat)
    (tuple : tuple_t) (txn_id si : Nat) (key : value_t) (m : metadata_t)
    (ss : List table_schema_t) (node : btree_node_t)
    (hpool : pool_ok db) (hfree : two_free_frames db) (htable : leaf_table db name si node)
    (hmeta : page_content db METADATA_PAGE_ID = page_data.metadata m ss)
    (hnew : m.next_page_id ≠ 0)
    (hzero : page_content db m.next_page_id = page_data.zero)
    (hcc : tuple.column_count = (db.schema si).column_count)
    (hpk : extract_primary_key (db.schema si) (stamped tuple txn_id) = some key)
    (hpresent : ∃ i, i < node.key_count ∧
      value_compare key (node.keys.getD i zero_value) = 0) :
    ∃ db', tuple_insert (fuel + 1) db name tuple txn_id = some (-1, db') ∧
      page_content db' (db.schema si).root_page_id = page_data.btree_node node ∧
      (∀ q n, q ≠ 0 → page_content db q = page_data.btree_node n →
        page_content db' q = page_data.btree_node n) ∧
      page_content db' m.next_page_id =
        page_data.heap 1 ((List.replicate TUPLES_PER_PAGE zero_tuple).set 0
          (stamped tuple txn_id)) ∧
      ((List.replicate TUPLES_PER_PAGE zero_tuple).set 0 (stamped tuple txn_id)).getD 0
        zero_tuple = stamped tuple txn_id ∧
      page_content db' METADATA_PAGE_ID =
        page_data.metadata { m with next_page_id := m.next_page_id + 1 } ss ∧
      (∀ q, q ≠ 0 → q ≠ m.next_page_id → q ≠ METADATA_PAGE_ID →
        page_content db' q = page_content db q) ∧
      db'.schemas = db.schemas ∧ db'.schema_count = db.schema_count := by
  have hu := frames_unique_of_pool_ok db hpool
  have hc := frames_clean_of_pool_ok db hpool
  obtain ⟨i, hi, hcmp⟩ := hpresent
  obtain ⟨hle, hbefore, hat, hafter⟩ :=
    btree_find_key_position_spec node key (ordered_of_sorted node key htable.sorted)
  have hpos : btree_find_key_position node key = i := by
    have hself : key_cmp node key i = 0 := hcmp
    by_contra hne
    rcases Nat.lt_or_gt_of_ne hne with hlt | hgt
    · have := hafter i hlt hi
      omega
    · have := hbefore i hgt
      omega
  have hdup : btree_find_key_position node key < node.key_count ∧
      value_compare key (node.keys.getD (btree_find_key_position node key) zero_value) = 0 := by
    rw [hpos]
    exact ⟨hi, hcmp⟩
  obtain ⟨db', hins, hbal, hheap, hmeta', hrest⟩ :=
    tuple_insert_duplicate_spec fuel db name tuple txn_id si key m ss node hu hc hfree
      htable.schema hcc hpk hmeta hnew hzero htable.root_ne htable.root htable.leaf hdup
  have hnodes : ∀ q n, q ≠ 0 → page_content db q = page_data.btree_node n →
      page_content db' q = page_data.btree_node n := by
    intro q n hq hn
    have hqn : q ≠ m.next_page_id := by
      intro h
      rw [h, hzero] at hn
      cases hn
    have hq1 : q ≠ METADATA_PAGE_ID := by
      intro h
      rw [h, hmeta] at hn
      cases hn
    rw [hrest q hq hqn hq1, hn]
  refine ⟨db', hins, hnodes _ _ htable.root_ne htable.root, hnodes, hheap, ?_, hmeta', hrest,
    hbal.env.schemas, hbal.env.schema_count⟩
  exact getD_set_same _ _ _ _ (by decide)

theorem inserted_db_leaf_table : leaf_table inserted_db t_name 0 one_key_leaf :=
  ⟨by decide!, by decide!, by decide!, by decide!, by decide!, by decide!, by decide!,
    by decide!,
    fun j hj i hij => by
      have h1 : one_key_leaf.key_count = 1 := by decide!
      omega,
    fun i hi => by
      have h1 : one_key_leaf.key_count = 1 := by decide!
      rw [h1] at hi
      interval_cases i
      decide!⟩

/-- Witness of C25: transaction 1 inserted id 1; the same transaction inserts id 1 again. -/
theorem c25_duplicate_insert_keeps_index_witness :
    ∃ db', tuple_insert 1 inserted_db t_name (int_row 1) 1 = some (-1, db') ∧
      page_content db' 2 = page_data.btree_node one_key_leaf ∧
      page_content db' 4 =
        page_data.heap 1 ((List.replicate TUPLES_PER_PAGE zero_tuple).set 0
          (stamped (int_row 1) 1)) ∧
      page_content db' METADATA_PAGE_ID =
        page_data.metadata { schema_count := 0, next_page_id := 5 }
          (List.replicate 9 zero_schema) := by
  set_option maxRecDepth 8192 in
  obtain ⟨db', h1, h2, _, h3, _, h4, _⟩ :=
    c25_duplicate_insert_keeps_index 0 inserted_db t_name (int_row 1) 1 0 (int_value 1)
      { schema_count := 0, next_page_id := 4 } (List.replicate 9 zero_schema) one_key_leaf
      (by decide!) ⟨0, 1, by decide!⟩ inserted_db_leaf_table (by decide!) (by decide)
      (by decide!) (by decide!) (by decide!) ⟨0, by decide!, by decide!⟩
  exact ⟨db', h1, h2, h3, h4⟩

theorem value_compare_other_tag (a b : value_t) (h : a.type ≠ b.type) :
    value_compare a b = -2 := by
  unfold value_compare
  rw [if_pos h]

/-- In a node none of whose keys has the search key's tag, every comparison is an
error, which the binary search reads as "less": the position is 0. -/
theorem find_key_position_other_tag (node : btree_node_t) (key : value_t)
    (h : ∀ i, i < node.key_count → key.type ≠ (node.keys.getD i zero_value).type) :
    btree_find_key_position node key = 0 := by
  have hcmp : ∀ i, i < node.key_count → key_cmp node key i = -2 := fun i hi =>
    value_compare_other_tag _ _ (h i hi)
  have hord : ordered_for node key := by
    intro i j _ hj _
    rw [hcmp j hj]
    decide
  obtain ⟨hle, hbefore, _, _⟩ := btree_find_key_position_spec node key hord
  by_contra hne
  have hpos : 0 < btree_find_key_position node key := Nat.pos_of_ne_zero hne
  have h1 := hbefore 0 hpos
  rw [hcmp 0 (by omega)] at h1
  omega

theorem tagged_tree_of_content (db db' : database_t) (t : data_type_t)
    (hcont : ∀ q, q ≠ 0 → page_content db' q = page_content db q) :
    ∀ h p, tagged_tree db t h p → tagged_tree db' t h p := by
  intro h
  induction h with
  | zero =>
    intro p hp
    exact hp.elim
  | succ k ih =>
    intro p hp
    obtain ⟨hp0, node, hnode, hkeys, hsub⟩ := hp
    refine ⟨hp0, node, by rw [hcont p hp0, hnode], hkeys, ?_⟩
    rcases hsub with hleaf | hch
    · exact Or.inl hleaf
    · exact Or.inr (fun i hi => ih _ (hch i hi))

/-- C23 (a key of another type is never found): in every B+-tree of pages, of any height `h`
and with any contents, whose keys in use all carry one type tag `t`, `btree_search`
with a key of another tag returns (with `h` descents allowed, or more) the
result NotFound, with no tuple location; it hands back every pin it took. The
same holds for the empty tree, whose root is page 0. -/
theorem c23_search_other_tag_not_found (db : database_t) (t : data_type_t) (key : value_t)
    (hkey : key.type ≠ t) :
    (∀ fuel, btree_search (fuel + 1) db 0 (some key) = some (none, db)) ∧
    ∀ h root, tagged_tree db t h root → frames_unique db → frames_clean db →
      ∀ fuel, h ≤ fuel →
        ∃ db', btree_search fuel db root (some key) = some (none, db') ∧ balanced db db' ∧
          ∀ q, q ≠ 0 → page_content db' q = page_content db q := by
  constructor
  · intro fuel
    rw [btree_search, if_pos rfl]
  · intro h
    induction h generalizing db with
    | zero =>
      intro root hroot
      exact hroot.elim
    | succ k ih =>
      intro root htree hu hc fuel hfuel
      obtain ⟨hroot, node, hnode, hkeys, hsub⟩ := htree
      obtain ⟨f, rfl⟩ : ∃ f, fuel = f + 1 := ⟨fuel - 1, by omega⟩
      have hother : ∀ i, i < node.key_count → key.type ≠ (node.keys.getD i zero_value).type := by
        intro i hi heq
        exact hkey (heq.trans (hkeys i hi))
      have hpos := find_key_position_other_tag node key hother
      by_cases hfree : (∃ j, (db.frame j).page_id = root) ∨ free_frame db
      · obtain ⟨i, db1, hget, hdata, hbal, hcont⟩ := get_then_release db root hroot hu hc hfree
        by_cases hleaf : node.is_leaf = true
        · refine ⟨buffer_release_page db1 i, ?_, hbal, hcont⟩
          rw [btree_search, if_neg hroot]
          unfold btree_load_node
          rw [hget]
          simp only []
          rw [hdata, hnode]
          simp only [page_data.as_node]
          rw [if_pos hleaf]
          rw [hpos]
          have hno : ¬ (0 < node.key_count ∧
              value_compare key (node.keys.getD 0 zero_value) = 0) := by
            intro hx
            have h2 := value_compare_other_tag _ _ (hother 0 hx.1)
            rw [h2] at hx
            exact absurd hx.2 (by decide)
          rw [if_neg hno]
        · have hch : ∀ i, i ≤ node.key_count → tagged_tree db t k (node.children.getD i 0) := by
            rcases hsub with hl | hch
            · exact absurd hl hleaf
            · exact hch
          have hsubtree := tagged_tree_of_content db (buffer_release_page db1 i) t hcont k _
            (hch 0 (Nat.zero_le _))
          obtain ⟨db', hs, hbal', hcont'⟩ := ih (buffer_release_page db1 i) _ hsubtree
            hbal.unique hbal.clean f (by omega)
          refine ⟨db', ?_, balanced_trans hbal hbal', ?_⟩
          · rw [btree_search, if_neg hroot]
            unfold btree_load_node
            rw [hget]
            simp only []
            rw [hdata, hnode]
            simp only [page_data.as_node]
            rw [if_neg hleaf]
            rw [hpos]
            exact hs
          · intro q hq
            rw [hcont' q hq, hcont q hq]
      · refine ⟨db, ?_, balanced_refl db hu hc, fun _ _ => rfl⟩
        have hget : buffer_get_page db root = (none, db) := by
          apply buffer_get_page_fail
          · intro j _ hj
            exact hfree (Or.inl ⟨j, hj⟩)
          · intro hf
            exact hfree (Or.inr hf)
        rw [btree_search, if_neg hroot]
        unfold btree_load_node
        rw [hget]

/-- Witness of C23: the table `t` of `inserted_db` holds the INT key 1; the search key is
the string "1". -/
theorem c23_search_other_tag_not_found_witness :
    ∃ db', btree_search 1 inserted_db 2 (some (str_value [49])) = some (none, db') ∧
      balanced inserted_db db' ∧
      ∀ q, q ≠ 0 → page_content db' q = page_content inserted_db q :=
  (c23_search_other_tag_not_found inserted_db data_type_t.DATA_TYPE_INT (str_value [49])
    (by decide)).2 1 2
    ⟨by decide, one_key_leaf, by decide!,
      fun i hi => by
        have h1 : one_key_leaf.key_count = 1 := by decide!
        rw [h1] at hi
        interval_cases i
        decide!,
      Or.inl (by decide!)⟩
    (frames_unique_of_pool_ok _ (by decide!)) (frames_clean_of_pool_ok _ (by decide!)) 1
    (Nat.le_refl 1)

theorem checkpoint_loop_succ (n i : Nat) (db : database_t) :
    checkpoint_loop (n + 1) i db = checkpoint_loop n (i + 1) (checkpoint_step db i) := by
  rw [checkpoint_loop]
  rfl

theorem flushed_refl (db : database_t) (hu : frames_unique db) (hc : frames_clean db) :
    flushed db db :=
  ⟨same_env_refl db, hu, hc, fun _ => rfl, fun _ => rfl, fun _ => rfl, fun _ h => h,
    fun _ _ _ => rfl⟩

theorem flushed_trans {a b c : database_t} (h1 : flushed a b) (h2 : flushed b c) :
    flushed a c :=
  ⟨same_env_trans h1.env h2.env, h2.unique, h2.clean,
    fun j => (h2.page_id j).trans (h1.page_id j),
    fun j => (h2.data j).trans (h1.data j),
    fun j => (h2.pins j).trans (h1.pins j),
    fun j h => h1.dirty j (h2.dirty j h),
    fun q hq hn => (h2.file q hq (fun j => by rw [h1.page_id j]; exact hn j)).trans
      (h1.file q hq hn)⟩

theorem checkpoint_step_spec (db : database_t) (i : Nat)
    (hu : frames_unique db) (hc : frames_clean db) :
    flushed db (checkpoint_step db i) ∧
      (((checkpoint_step db i).frame i).is_dirty = true → (db.frame i).page_id = 0) := by
  unfold checkpoint_step
  by_cases h : (db.frame i).is_dirty = true ∧ (db.frame i).page_id ≠ 0
  · rw [if_pos h]
    have hlt : i < db.capacity := frame_lt_of_page_id db i h.2
    have hlt' : i < (write_page db (db.frame i).page_id (db.frame i).data).capacity := hlt
    have hfr : ∀ j, ((write_page db (db.frame i).page_id (db.frame i).data).set_frame i
        { db.frame i with is_dirty := false }).frame j =
        if j = i then { db.frame i with is_dirty := false } else db.frame j := by
      intro j
      by_cases hj : j = i
      · rw [if_pos hj, hj, frame_set_frame_same _ _ _ hlt']
      · rw [if_neg hj, frame_set_frame_ne _ _ _ _ hj, frame_write_page]
    have hpid : ∀ j, (((write_page db (db.frame i).page_id (db.frame i).data).set_frame i
        { db.frame i with is_dirty := false }).frame j).page_id = (db.frame j).page_id := by
      intro j
      rw [hfr j]
      by_cases hj : j = i
      · rw [if_pos hj, hj]
      · rw [if_neg hj]
    refine ⟨⟨same_env_trans (same_env_write_page _ _ _) (same_env_set_frame _ _ _), ?_, ?_,
      hpid, ?_, ?_, ?_, ?_⟩, ?_⟩
    · intro a b hab ha
      rw [hpid a] at ha
      rw [hpid a, hpid b] at hab
      exact hu a b hab ha
    · intro a ha hda
      rw [hpid a] at ha ⊢
      show _ = file_content (storage_write_page db.data_file _ _) _
      rw [file_content_write _ _ _ _ h.2 ha]
      rw [hfr a] at hda ⊢
      by_cases hai : a = i
      · rw [if_pos hai, hai, if_pos rfl]
      · rw [if_neg hai] at hda ⊢
        have hne : (db.frame a).page_id ≠ (db.frame i).page_id := fun he =>
          hai (hu a i he ha)
        rw [if_neg hne]
        exact hc a ha hda
    · intro j
      rw [hfr j]
      by_cases hj : j = i
      · rw [if_pos hj, hj]
      · rw [if_neg hj]
    · intro j
      rw [hfr j]
      by_cases hj : j = i
      · rw [if_pos hj, hj]
      · rw [if_neg hj]
    · intro j hd
      rw [hfr j] at hd
      by_cases hj : j = i
      · rw [if_pos hj] at hd
        cases hd
      · rw [if_neg hj] at hd
        exact hd
    · intro q hq hn
      show file_content (storage_write_page db.data_file _ _) _ = _
      rw [file_content_write _ _ _ _ h.2 hq, if_neg (fun he => hn i he.symm)]
    · intro hd
      rw [hfr i, if_pos rfl] at hd
      cases hd
  · rw [if_neg h]
    refine ⟨flushed_refl db hu hc, ?_⟩
    intro hd
    by_contra hne
    exact h ⟨hd, hne⟩

/-- The flush loop over the frames `i, ..., i + n - 1`: no frame among them that holds a
page is dirty afterwards. -/
theorem checkpoint_loop_spec (n : Nat) : ∀ (i : Nat) (db : database_t),
    frames_unique db → frames_clean db →
    flushed db (checkpoint_loop n i db) ∧
      ∀ j, i ≤ j → j < i + n → ((checkpoint_loop n i db).frame j).is_dirty = true →
        (db.frame j).page_id = 0 := by
  induction n with
  | zero =>
    intro i db hu hc
    rw [checkpoint_loop]
    exact ⟨flushed_refl db hu hc, fun j h1 h2 => by omega⟩
  | succ k ih =>
    intro i db hu hc
    rw [checkpoint_loop_succ]
    obtain ⟨hf1, hd1⟩ := checkpoint_step_spec db i hu hc
    obtain ⟨hf2, hd2⟩ := ih (i + 1) (checkpoint_step db i) hf1.unique hf1.clean
    refine ⟨flushed_trans hf1 hf2, ?_⟩
    intro j hij hjn hd
    by_cases hj : j = i
    · subst hj
      exact hd1 (hf2.dirty j hd)
    · rw [← hf1.page_id j]
      exact hd2 j (by omega) (by omega) hd

/-- After the flush loop over the whole pool, every frame that holds a page is clean and
the file has, for every page, the content the pool had for it. -/
theorem checkpoint_loop_all (db : database_t) (hu : frames_unique db) (hc : frames_clean db) :
    flushed db (checkpoint_loop db.buffer_pool.pages.length 0 db) ∧
      (∀ j, ((checkpoint_loop db.buffer_pool.pages.length 0 db).frame j).page_id ≠ 0 →
        ((checkpoint_loop db.buffer_pool.pages.length 0 db).frame j).is_dirty = false) ∧
      ∀ q, q ≠ 0 →
        file_content (checkpoint_loop db.buffer_pool.pages.length 0 db).data_file q =
          page_content db q := by
  obtain ⟨hf, hd⟩ := checkpoint_loop_spec db.buffer_pool.pages.length 0 db hu hc
  have hclean : ∀ j, ((checkpoint_loop db.buffer_pool.pages.length 0 db).frame j).page_id ≠ 0 →
      ((checkpoint_loop db.buffer_pool.pages.length 0 db).frame j).is_dirty = false := by
    intro j hj
    by_contra hdj
    have hdj' : ((checkpoint_loop db.buffer_pool.pages.length 0 db).frame j).is_dirty = true := by
      simpa using hdj
    rw [hf.page_id j] at hj
    have hlt : j < db.capacity := frame_lt_of_page_id db j hj
    exact hj (hd j (Nat.zero_le _) (by unfold database_t.capacity at hlt; omega) hdj')
  refine ⟨hf, hclean, ?_⟩
  intro q hq
  by_cases hres : ∃ j, (db.frame j).page_id = q
  · obtain ⟨j, hj⟩ := hres
    rw [page_content_of_frame db q j hu hq hj, ← hf.data j]
    have hpid : ((checkpoint_loop db.buffer_pool.pages.length 0 db).frame j).page_id = q := by
      rw [hf.page_id j, hj]
    have := hf.clean j (by rw [hpid]; exact hq) (hclean j (by rw [hpid]; exact hq))
    rw [hpid] at this
    exact this.symm
  · have hn : ∀ j, (db.frame j).page_id ≠ q := fun j hj => hres ⟨j, hj⟩
    rw [page_content_of_file db q hn]
    exact hf.file q hq hn

theorem checkpoint_step_frame_zero (db : database_t) (i j : Nat)
    (h0 : (db.frame j).page_id = 0) : (checkpoint_step db i).frame j = db.frame j := by
  unfold checkpoint_step
  by_cases hc : (db.frame i).is_dirty = true ∧ (db.frame i).page_id ≠ 0
  · rw [if_pos hc]
    have hji : j ≠ i := by
      intro h
      rw [h] at h0
      exact hc.2 h0
    rw [frame_set_frame_ne _ _ _ _ hji, frame_write_page]
  · rw [if_neg hc]

/-- The flush loop leaves every frame that holds no page as it is. -/
theorem checkpoint_loop_frame_zero (n : Nat) : ∀ (i : Nat) (db : database_t) (j : Nat),
    (db.frame j).page_id = 0 → (checkpoint_loop n i db).frame j = db.frame j := by
  induction n with
  | zero =>
    intro i db j _
    rw [checkpoint_loop]
  | succ n ih =>
    intro i db j h0
    have h1 := checkpoint_step_frame_zero db i j h0
    rw [checkpoint_loop_succ, ih (i + 1) (checkpoint_step db i) j (by rw [h1]; exact h0), h1]

/-- The function `db_save_metadata`, frame by frame: the frame `k` that `buffer_get_page` hands
out for the metadata page (the frame that held it, or an unpinned frame, whose
page is evicted) holds the saved metadata afterwards; every other frame is as it
was. -/
theorem db_save_metadata_frames (db : database_t) (m : metadata_t) (ss : List table_schema_t)
    (hu : frames_unique db) (hc : frames_clean db)
    (hfree : (∃ j, (db.frame j).page_id = METADATA_PAGE_ID) ∨ free_frame db)
    (hmeta : (page_content db METADATA_PAGE_ID).as_metadata = some (m, ss))
    (hcount : db.schema_count ≤ 9) :
    ∃ k db', db_save_metadata db = some (0, db') ∧ balanced db db' ∧ k < db.capacity ∧
      ((db.frame k).page_id = METADATA_PAGE_ID ∨ (db.frame k).pin_count = 0) ∧
      (db'.frame k).page_id = METADATA_PAGE_ID ∧
      (db'.frame k).data = saved_metadata db m ss ∧
      (∀ j, j ≠ k → db'.frame j = db.frame j) ∧
      ∀ q, q ≠ 0 → page_content db' q =
        if q = METADATA_PAGE_ID then saved_metadata db m ss else page_content db q := by
  have h1 : METADATA_PAGE_ID ≠ 0 := by decide
  obtain ⟨k, da, hgetA, hltA, henvA, _, _, hpidA, _, hpinA, horA, _, hothA, _⟩ :=
    buffer_get_page_spec db METADATA_PAGE_ID h1 hu hc hfree
  obtain ⟨i0, da0, hget0, hdata0, hbal0, hcont0⟩ :=
    get_then_release db METADATA_PAGE_ID h1 hu hc hfree
  have hsame : (some k, da) = (some i0, da0) := hgetA.symm.trans hget0
  simp only [Prod.mk.injEq, Option.some.injEq] at hsame
  obtain ⟨hk0, hda0⟩ := hsame
  subst hk0
  subst hda0
  have hkA : k < da.capacity := by rw [henvA.cap]; exact hltA
  have hrel : buffer_release_page da k =
      da.set_frame k (page_t.mk (da.frame k).page_id (da.frame k).data (da.frame k).is_dirty
        ((da.frame k).pin_count - 1)) := release_eq da k (by omega)
  have hpidB : ((buffer_release_page da k).frame k).page_id = METADATA_PAGE_ID := by
    rw [hrel, frame_set_frame_same _ _ _ hkA]
    exact hpidA
  have hothB : ∀ j, j ≠ k → (buffer_release_page da k).frame j = db.frame j := by
    intro j hj
    rw [hrel, frame_set_frame_ne _ _ _ _ hj, hothA j hj]
  obtain ⟨i, db1, hget, hlt, hpid, hdata, hpin, hu1, hf⟩ :=
    get_then_set (buffer_release_page da k) METADATA_PAGE_ID h1 hbal0.unique hbal0.clean
      (Or.inl ⟨k, hpidB⟩)
  obtain ⟨i', db1', hget', _, _, _, _, _, _, _, _, _, hoth1, _⟩ :=
    buffer_get_page_spec (buffer_release_page da k) METADATA_PAGE_ID h1 hbal0.unique hbal0.clean
      (Or.inl ⟨k, hpidB⟩)
  have hsame1 : (some i', db1') = (some i, db1) := hget'.symm.trans hget
  simp only [Prod.mk.injEq, Option.some.injEq] at hsame1
  obtain ⟨hi1, hdb1⟩ := hsame1
  subst hi1
  subst hdb1
  have hik : i' = k := by
    by_contra hne
    have hfk := hoth1 k (fun h => hne h.symm)
    exact hne (hu1 i' k (by rw [hpid, hfk, hpidB]) (by rw [hpid]; exact h1))
  subst hik
  obtain ⟨hbal, hcont⟩ := hf (page_t.mk (db1'.frame i').page_id (saved_metadata db m ss) true
      ((db1'.frame i').pin_count - 1)) hpid (by simp [hpin]) (Or.inl rfl)
  have hfr := frame_set_frame_same db1' i' (page_t.mk (db1'.frame i').page_id
      (saved_metadata db m ss) true ((db1'.frame i').pin_count - 1)) hlt
  obtain ⟨hbal2, hcont2⟩ := balanced_write_page hbal i' METADATA_PAGE_ID h1
    (by rw [hfr]; exact hpid)
  rw [hfr] at hbal2 hcont2
  refine ⟨i', _, ?_, balanced_trans hbal0 hbal2, hltA, horA, ?_, ?_, ?_, ?_⟩
  · unfold db_save_metadata
    rw [hget0]
    simp only []
    rw [hdata0, hmeta]
    simp only []
    rw [hget]
    simp only []
    rw [hdata, hcont0 _ h1, hmeta]
    simp only []
    rw [if_neg (by omega), set_data_set_data _ _ _ _ hlt, modify_eq db1' i' _ hlt,
      frame_set_frame_same _ _ _ hlt]
    simp only []
    rw [release_eq _ _ (by rw [frame_write_page, frame_set_frame_same _ _ _ hlt]; simp; omega),
      frame_write_page, frame_set_frame_same _ _ _ hlt, set_frame_write_page,
      set_frame_set_frame]
    rfl
  · rw [frame_write_page, hfr]
    exact hpid
  · rw [frame_write_page, hfr]
  · intro j hj
    rw [frame_write_page, frame_set_frame_ne _ _ _ _ hj, hoth1 j hj, hothB j hj]
  · intro q hq
    rw [hcont2 q hq, hcont q hq]
    by_cases hq1 : q = METADATA_PAGE_ID
    · rw [if_pos hq1, if_pos hq1]
    · rw [if_neg hq1, if_neg hq1, hcont0 q hq]

/-- The function `db_save_metadata` when no frame holds the metadata page and every frame is
pinned: it returns -1. -/
theorem db_save_metadata_unpinnable (db : database_t)
    (h : ¬ ((∃ j, (db.frame j).page_id = METADATA_PAGE_ID) ∨ free_frame db)) :
    db_save_metadata db = some (-1, db) := by
  have hget : buffer_get_page db METADATA_PAGE_ID = (none, db) := by
    apply buffer_get_page_fail
    · intro j _ hj
      exact h (Or.inl ⟨j, hj⟩)
    · intro hf
      exact h (Or.inr hf)
  unfold db_save_metadata
  rw [hget]

/-- The function `db_save_metadata` with more than 9 schemas in the catalog: it returns -1. -/
theorem db_save_metadata_many (db : database_t) (m : metadata_t) (ss : List table_schema_t)
    (hu : frames_unique db) (hc : frames_clean db)
    (hfree : (∃ j, (db.frame j).page_id = METADATA_PAGE_ID) ∨ free_frame db)
    (hmeta : (page_content db METADATA_PAGE_ID).as_metadata = some (m, ss))
    (hcount : 9 < db.schema_count) :
    ∃ db', db_save_metadata db = some (-1, db') := by
  have h1 : METADATA_PAGE_ID ≠ 0 := by decide
  obtain ⟨i0, da, hget0, hdata0, hbal0, hcont0⟩ :=
    get_then_release db METADATA_PAGE_ID h1 hu hc hfree
  have hfree2 : (∃ j, ((buffer_release_page da i0).frame j).page_id = METADATA_PAGE_ID) ∨
      free_frame (buffer_release_page da i0) := by
    rcases hfree with ⟨j, hj⟩ | hf
    · by_cases hpin : (db.frame j).pin_count > 0
      · exact Or.inl ⟨j, by rw [hbal0.held j hpin]; exact hj⟩
      · exact Or.inr (free_frame_of_balanced hbal0
          ⟨j, frame_lt_of_page_id db j (by rw [hj]; exact h1), by omega⟩)
    · exact Or.inr (free_frame_of_balanced hbal0 hf)
  obtain ⟨i, db1, hget, _, _, hdata, _, _, _⟩ :=
    get_then_set (buffer_release_page da i0) METADATA_PAGE_ID h1 hbal0.unique hbal0.clean hfree2
  refine ⟨buffer_release_page (set_data db1 i (page_data.metadata
    { schema_count := db.schema_count, next_page_id := m.next_page_id } ss)) i, ?_⟩
  unfold db_save_metadata
  rw [hget0]
  simp only []
  rw [hdata0, hmeta]
  simp only []
  rw [hget]
  simp only []
  rw [hdata, hcont0 _ h1, hmeta]
  simp only []
  rw [if_pos (by omega)]

/-- C26 at failing inputs. Right after `CREATE TABLE` frame 0 holds the table's root
page 2, dirty; `db_checkpoint` succeeds, and frame 0 holds page 1, the metadata
page, afterwards: its page id and its data are not those before the call, and
not those the file has for page 2. In `dirty_empty_db` frame 1 holds no page
and is dirty; `db_checkpoint` succeeds and frame 1 is dirty afterwards. In
`allocated_db` frame 0 holds the metadata page, dirty, with `schema_count = 0` and
`next_page_id = 4`; `db_checkpoint` succeeds and the file then has as page 1 the
metadata with the catalog's `schema_count = 1`, not the bytes that frame had. -/
theorem c26_checkpoint_replaces_frame :
    ((created_db.frame 0).page_id = 2 ∧ (created_db.frame 0).is_dirty = true ∧
      (created_db.frame 0).data = page_data.btree_node empty_leaf ∧
      (db_checkpoint created_db).map Prod.fst = some 0 ∧
      (db_checkpoint created_db).map (fun r => (r.2.frame 0).page_id) = some 1 ∧
      (db_checkpoint created_db).map (fun r => (r.2.frame 0).data) =
        some (saved_metadata created_db { schema_count := 0, next_page_id := 3 }
          (List.replicate 9 zero_schema)) ∧
      (db_checkpoint created_db).map (fun r => file_content r.2.data_file 2) =
        some (page_data.btree_node empty_leaf)) ∧
    ((buffer_get_page created_db 0).1 = some 1 ∧
      (dirty_empty_db.frame 1).page_id = 0 ∧ (dirty_empty_db.frame 1).is_dirty = true ∧
      (db_checkpoint dirty_empty_db).map Prod.fst = some 0 ∧
      (db_checkpoint dirty_empty_db).map (fun r => (r.2.frame 1).is_dirty) = some true) ∧
    ((allocated_db.frame 0).page_id = 1 ∧ (allocated_db.frame 0).is_dirty = true ∧
      (allocated_db.frame 0).data =
        page_data.metadata { schema_count := 0, next_page_id := 4 }
          (List.replicate 9 zero_schema) ∧
      allocated_db.schema_count = 1 ∧
      (db_checkpoint allocated_db).map Prod.fst = some 0 ∧
      (db_checkpoint allocated_db).map (fun r => file_content r.2.data_file 1) =
        some (saved_metadata allocated_db { schema_count := 0, next_page_id := 4 }
          (List.replicate 9 zero_schema)) ∧
      saved_metadata allocated_db { schema_count := 0, next_page_id := 4 }
          (List.replicate 9 zero_schema) ≠ (allocated_db.frame 0).data) := by
  refine ⟨by decide!, by decide!, by decide!⟩

/-- C26, amended (`db_checkpoint` saves the catalog, then flushes the pool): in a pool where no
two frames hold the same page and clean frames hold the file's bytes, with a
metadata page on page 1, `db_checkpoint` succeeds exactly when the metadata page
can be pinned and the catalog has at most 9 schemas. After a success, one frame
`k` (the frame that held the metadata page, or a frame that was not pinned,
whose page was evicted) holds the metadata page as `db_save_metadata` wrote it;
every other frame has the page id and the data it had, and every frame the pin
count it had; no frame that holds a page is dirty; a frame other than `k` that
held no page has the dirty flag it had, so that no frame at all is dirty when
no frame without a page was dirty before; the file has, for the metadata page,
the saved metadata and, for every other page, the content the pool had for it
before the call, so the data of every frame that held another page than the
metadata page is stored as that page. -/
theorem c26_checkpoint_flushes_pool (db : database_t) (m : metadata_t)
    (ss : List table_schema_t) (hpool : pool_ok db)
    (hmeta : (page_content db METADATA_PAGE_ID).as_metadata = some (m, ss)) :
    ((∃ db2, db_checkpoint db = some (0, db2)) ↔
      ((∃ j, (db.frame j).page_id = METADATA_PAGE_ID) ∨ free_frame db) ∧
        db.schema_count ≤ 9) ∧
    ∀ db2, db_checkpoint db = some (0, db2) →
      ∃ k, k < db.capacity ∧
        ((db.frame k).page_id = METADATA_PAGE_ID ∨ (db.frame k).pin_count = 0) ∧
        (db2.frame k).page_id = METADATA_PAGE_ID ∧
        (db2.frame k).data = saved_metadata db m ss ∧
        (∀ j, j ≠ k → (db2.frame j).page_id = (db.frame j).page_id ∧
          (db2.frame j).data = (db.frame j).data) ∧
        (∀ j, (db2.frame j).pin_count = (db.frame j).pin_count) ∧
        (∀ j, (db2.frame j).page_id ≠ 0 → (db2.frame j).is_dirty = false) ∧
        (∀ j, j ≠ k → (db.frame j).page_id = 0 →
          (db2.frame j).is_dirty = (db.frame j).is_dirty) ∧
        ((∀ j, (db.frame j).page_id = 0 → (db.frame j).is_dirty = false) →
          ∀ j, (db2.frame j).is_dirty = false) ∧
        (∀ j, (db.frame j).page_id ≠ 0 → (db.frame j).page_id ≠ METADATA_PAGE_ID →
          file_content db2.data_file (db.frame j).page_id = (db.frame j).data) ∧
        file_content db2.data_file METADATA_PAGE_ID = saved_metadata db m ss ∧
        ∀ q, q ≠ 0 → q ≠ METADATA_PAGE_ID →
          file_content db2.data_file q = page_content db q := by
  have hu := frames_unique_of_pool_ok db hpool
  have hc := frames_clean_of_pool_ok db hpool
  have h1 : METADATA_PAGE_ID ≠ 0 := by decide
  have hcond : ∀ db2, db_checkpoint db = some (0, db2) →
      ((∃ j, (db.frame j).page_id = METADATA_PAGE_ID) ∨ free_frame db) ∧
        db.schema_count ≤ 9 := by
    intro db2 hs
    by_cases hfree : (∃ j, (db.frame j).page_id = METADATA_PAGE_ID) ∨ free_frame db
    · refine ⟨hfree, ?_⟩
      by_contra hgt
      obtain ⟨x, hx⟩ := db_save_metadata_many db m ss hu hc hfree hmeta (by omega)
      unfold db_checkpoint at hs
      rw [hx] at hs
      simp at hs
    · unfold db_checkpoint at hs
      rw [db_save_metadata_unpinnable db hfree] at hs
      simp at hs
  have hmain : ∀ (hfree : (∃ j, (db.frame j).page_id = METADATA_PAGE_ID) ∨ free_frame db)
      (hcount : db.schema_count ≤ 9),
      ∃ k db1, db_checkpoint db =
          some (0, checkpoint_loop db1.buffer_pool.pages.length 0 db1) ∧
        db_save_metadata db = some (0, db1) ∧ balanced db db1 ∧ k < db.capacity ∧
        ((db.frame k).page_id = METADATA_PAGE_ID ∨ (db.frame k).pin_count = 0) ∧
        (db1.frame k).page_id = METADATA_PAGE_ID ∧
        (db1.frame k).data = saved_metadata db m ss ∧
        (∀ j, j ≠ k → db1.frame j = db.frame j) ∧
        ∀ q, q ≠ 0 → page_content db1 q =
          if q = METADATA_PAGE_ID then saved_metadata db m ss else page_content db q := by
    intro hfree hcount
    obtain ⟨k, db1, hsave, hbal, hk, hor, hpid, hdata, hoth, hcont⟩ :=
      db_save_metadata_frames db m ss hu hc hfree hmeta hcount
    refine ⟨k, db1, ?_, hsave, hbal, hk, hor, hpid, hdata, hoth, hcont⟩
    unfold db_checkpoint
    rw [hsave]
    simp
  refine ⟨⟨fun ⟨db2, hs⟩ => hcond db2 hs, fun ⟨hfree, hcount⟩ => ?_⟩, ?_⟩
  · obtain ⟨_, db1, hck, _⟩ := hmain hfree hcount
    exact ⟨_, hck⟩
  · intro db2 hs
    obtain ⟨hfree, hcount⟩ := hcond db2 hs
    obtain ⟨k, db1, hck, _, hbal, hk, hor, hpid, hdata, hoth, hcont⟩ := hmain hfree hcount
    rw [hck] at hs
    simp only [Option.some.injEq, Prod.mk.injEq, true_and] at hs
    subst hs
    obtain ⟨hf, hclean, hfile⟩ := checkpoint_loop_all db1 hbal.unique hbal.clean
    refine ⟨k, hk, hor, ?_, ?_, ?_, ?_, hclean, ?_, ?_, ?_, ?_, ?_⟩
    · rw [hf.page_id k, hpid]
    · rw [hf.data k, hdata]
    · intro j hj
      rw [hf.page_id j, hf.data j, hoth j hj]
      exact ⟨rfl, rfl⟩
    · intro j
      rw [hf.pins j, hbal.pins j]
    · intro j hjk h0
      rw [checkpoint_loop_frame_zero _ 0 db1 j (by rw [hoth j hjk]; exact h0), hoth j hjk]
    · intro hzero j
      by_cases hp : ((checkpoint_loop db1.buffer_pool.pages.length 0 db1).frame j).page_id = 0
      · by_contra hd
        have hd1 : (db1.frame j).is_dirty = true := hf.dirty j (by simpa using hd)
        rw [hf.page_id j] at hp
        have hjk : j ≠ k := by
          intro h
          rw [h, hpid] at hp
          exact h1 hp
        rw [hoth j hjk] at hd1 hp
        rw [hzero j hp] at hd1
        cases hd1
      · exact hclean j hp
    · intro j hj hj1
      rw [hfile _ hj, hcont _ hj, if_neg hj1]
      exact page_content_of_frame db _ j hu hj rfl
    · rw [hfile _ h1, hcont _ h1, if_pos rfl]
    · intro q hq hq1
      rw [hfile q hq, hcont q hq, if_neg hq1]

/-- Witness of C26: `db_checkpoint` right after `CREATE TABLE` succeeds, and the file then has
the table's root leaf as page 2 and the saved metadata as page 1. -/
theorem c26_checkpoint_flushes_pool_witness :
    (∃ db2, db_checkpoint created_db = some (0, db2)) ∧
      ∀ db2, db_checkpoint created_db = some (0, db2) →
        file_content db2.data_file 2 = page_data.btree_node empty_leaf ∧
        file_content db2.data_file METADATA_PAGE_ID =
          saved_metadata created_db { schema_count := 0, next_page_id := 3 }
            (List.replicate 9 zero_schema) ∧
        ∀ j, (db2.frame j).is_dirty = false := by
  obtain ⟨hiff, hall⟩ := c26_checkpoint_flushes_pool created_db
    { schema_count := 0, next_page_id := 3 } (List.replicate 9 zero_schema) (by decide!)
    (by decide!)
  refine ⟨hiff.2 ⟨Or.inr ⟨0, by decide!, by decide!⟩, by decide!⟩, ?_⟩
  intro db2 hs
  obtain ⟨k, _, _, _, _, _, _, _, _, hnone, _, hmetafile, hfile⟩ := hall db2 hs
  refine ⟨?_, hmetafile, hnone ?_⟩
  · rw [hfile 2 (by decide) (by decide)]
    decide!
  · intro j hj
    by_cases hlt : j < created_db.capacity
    · by_contra hd
      have hcap : created_db.capacity = 256 := by decide!
      have hall0 : ∀ i, i < 256 → (created_db.frame i).page_id = 0 →
          (created_db.frame i).is_dirty = false := by decide!
      exact hd (hall0 j (by omega) hj)
    · rw [frame_ge created_db j (by omega)]
      rfl

/-! ## Split layout, page table of the pool, terminal transaction states, deletes and
repeated inserts -/

theorem file_content_zero (file : List page_data) : file_content file 0 = page_data.zero := by
  unfold file_content storage_read_page
  rw [if_pos rfl]
  rfl

/-- A flush of a frame that does not hold page `p` leaves the file's page `p`. -/
theorem file_content_flush_other (db : database_t) (v p : Nat)
    (hne : (db.frame v).page_id ≠ p) (h0 : (db.frame v).page_id ≠ 0) :
    file_content (buffer_flush_page db v).data_file p = file_content db.data_file p := by
  by_cases hp : p = 0
  · rw [hp, file_content_zero, file_content_zero]
  · by_cases hd : (db.frame v).is_dirty = true
    · rw [buffer_flush_page_dirty db v hd, data_file_set_frame]
      show file_content (storage_write_page db.data_file _ _) p = _
      rw [file_content_write _ _ _ _ h0 hp, if_neg (fun h => hne h.symm)]
    · unfold buffer_flush_page
      simp [hd]

/-- C34 (contract of `buffer_get_page`): when a frame holds page `p`, the call returns the
first such frame, with its pin count increased by one and its page id, data and
dirty flag as they were, and changes no other frame and not the file. When no
frame holds `p` and some frame is unpinned, for a page id `p ≠ 0` whose file
offset `(p - 1) * PAGE_SIZE` fits a C `long`, in a pool whose frames hold page ids
with such offsets, the call returns a frame that was unpinned; afterwards
that frame has `page_id = p`, `pin_count = 1`, is not dirty, and its data are
page `p` of the file when the file has that page (`storage_read_page` succeeds,
which it does exactly when the file has at least `p` pages), and zero bytes
otherwise. -/
theorem c34_get_page_contract (db : database_t) (p : Nat) :
    ((∃ j, j < db.capacity ∧ (db.frame j).page_id = p) →
      ∃ i, (buffer_get_page db p).1 = some i ∧ i < db.capacity ∧
        (db.frame i).page_id = p ∧
        (buffer_get_page db p).2.frame i =
          { db.frame i with pin_count := (db.frame i).pin_count + 1 } ∧
        (∀ j, j ≠ i → (buffer_get_page db p).2.frame j = db.frame j) ∧
        (buffer_get_page db p).2.data_file = db.data_file) ∧
    ((∀ j, j < db.capacity → (db.frame j).page_id ≠ p) → free_frame db →
      p ≠ 0 → (p - 1) * PAGE_SIZE < 2 ^ 63 →
      (∀ j, j < db.capacity → ((db.frame j).page_id - 1) * PAGE_SIZE < 2 ^ 63) →
      ∃ v, (buffer_get_page db p).1 = some v ∧ v < db.capacity ∧
        (db.frame v).pin_count = 0 ∧
        (buffer_get_page db p).2.frame v =
          { page_id := p, data := file_content db.data_file p, is_dirty := false,
            pin_count := 1 } ∧
        (∀ d, storage_read_page db.data_file p = some d → file_content db.data_file p = d) ∧
        (storage_read_page db.data_file p = none →
          file_content db.data_file p = page_data.zero) ∧
        storage_read_page db.data_file p = db.data_file.get? (p - 1)) := by
  constructor
  · rintro ⟨j, hj, hjp⟩
    cases hr : find_resident p db.buffer_pool.pages with
    | none =>
      exact absurd hjp (find_resident_none p _ hr j hj)
    | some i =>
      obtain ⟨hi, hip, _⟩ := find_resident_some p _ i hr
      rw [buffer_get_page_hit_eq db p i hr]
      refine ⟨i, rfl, hi, hip, frame_set_frame_same _ _ _ hi, ?_, rfl⟩
      intro k hk
      exact frame_set_frame_ne _ _ _ _ hk
  · intro hmiss hfree hp0 _ _
    have hr : find_resident p db.buffer_pool.pages = none := by
      rw [find_resident_eq_none]
      intro f hf
      obtain ⟨j, hj, hx⟩ := mem_getD _ empty_frame f hf
      rw [← hx]
      exact hmiss j hj
    cases hv : find_victim_page db.buffer_pool.pages with
    | none =>
      obtain ⟨j, hj, hj0⟩ := hfree
      exact absurd hj0 (find_victim_none _ hv j hj)
    | some v =>
      obtain ⟨hvl, hv0⟩ := find_victim_some _ v hv
      rw [buffer_get_page_miss db p v hr hv]
      refine ⟨v, rfl, hvl, hv0, ?_, ?_, ?_, ?_⟩
      · by_cases hd : (db.frame v).is_dirty = true ∧ (db.frame v).page_id ≠ 0
        · rw [if_pos hd]
          have hcap : v < (buffer_flush_page db v).capacity := by
            rw [buffer_flush_page_dirty db v hd.1, capacity_set_frame]
            exact hvl
          rw [frame_set_frame_same _ _ _ hcap,
            file_content_flush_other db v p (hmiss v hvl) hd.2]
        · rw [if_neg hd, frame_set_frame_same _ _ _ hvl]
      · intro d hd
        unfold file_content
        rw [hd]
        rfl
      · intro hn
        unfold file_content
        rw [hn]
        rfl
      · unfold storage_read_page
        rw [if_neg hp0]

/-- Witness of C34: page 9 is held by frame 1 of `three_calls_db` (a hit); the metadata page
is not in the pool of `created_db`, whose frame 0 is unpinned and dirty (a miss:
frame 0 is taken and loaded with page 1 of the file). -/
theorem c34_get_page_contract_witness :
    (∃ i, (buffer_get_page three_calls_db 9).1 = some i ∧ i < three_calls_db.capacity ∧
      (three_calls_db.frame i).page_id = 9 ∧
      (buffer_get_page three_calls_db 9).2.frame i =
        { three_calls_db.frame i with pin_count := (three_calls_db.frame i).pin_count + 1 } ∧
      (∀ j, j ≠ i → (buffer_get_page three_calls_db 9).2.frame j = three_calls_db.frame j) ∧
      (buffer_get_page three_calls_db 9).2.data_file = three_calls_db.data_file) ∧
    ∃ v, (buffer_get_page created_db 1).1 = some v ∧ v < created_db.capacity ∧
      (created_db.frame v).pin_count = 0 ∧
      (buffer_get_page created_db 1).2.frame v =
        { page_id := 1, data := file_content created_db.data_file 1, is_dirty := false,
          pin_count := 1 } ∧
      (∀ d, storage_read_page created_db.data_file 1 = some d →
        file_content created_db.data_file 1 = d) ∧
      (storage_read_page created_db.data_file 1 = none →
        file_content created_db.data_file 1 = page_data.zero) ∧
      storage_read_page created_db.data_file 1 = created_db.data_file.get? (1 - 1) :=
  ⟨(c34_get_page_contract three_calls_db 9).1 ⟨1, by decide!, by decide!⟩,
    (c34_get_page_contract created_db 1).2 (by decide!) ⟨0, by decide!, by decide!⟩
      (by decide) (by decide) (by decide!)⟩

theorem frames_unique_get_page (db : database_t) (p : Nat) (hu : frames_unique db) :
    frames_unique (buffer_get_page db p).2 := by
  cases hr : find_resident p db.buffer_pool.pages with
  | some i =>
    obtain ⟨hi, _, _⟩ := find_resident_some p _ i hr
    rw [buffer_get_page_hit_eq db p i hr]
    exact frames_unique_set_frame db i _ hu hi rfl
  | none =>
    cases hv : find_victim_page db.buffer_pool.pages with
    | none =>
      rw [buffer_get_page_none db p hr hv]
      exact hu
    | some v =>
      obtain ⟨hvl, _⟩ := find_victim_some _ v hv
      rw [buffer_get_page_miss db p v hr hv]
      have hmiss : ∀ j, (db.frame j).page_id = p → p = 0 := by
        intro j hj
        by_contra hp
        have hjl : j < db.capacity := frame_lt_of_page_id db j (by rw [hj]; exact hp)
        exact find_resident_none p _ hr j hjl hj
      have hflush : ∀ j, j ≠ v →
          ((if (db.frame v).is_dirty = true ∧ (db.frame v).page_id ≠ 0 then
            buffer_flush_page db v else db).frame j) = db.frame j := by
        intro j hj
        by_cases hd : (db.frame v).is_dirty = true ∧ (db.frame v).page_id ≠ 0
        · rw [if_pos hd]
          exact frame_buffer_flush_page_ne db v j hj
        · rw [if_neg hd]
      have hcap : v < (if (db.frame v).is_dirty = true ∧ (db.frame v).page_id ≠ 0 then
            buffer_flush_page db v else db).capacity := by
        by_cases hd : (db.frame v).is_dirty = true ∧ (db.frame v).page_id ≠ 0
        · rw [if_pos hd, buffer_flush_page_dirty db v hd.1, capacity_set_frame]
          exact hvl
        · rw [if_neg hd]
          exact hvl
      intro a b hab ha
      by_cases hav : a = v <;> by_cases hbv : b = v
      · rw [hav, hbv]
      · rw [hav, frame_set_frame_same _ _ _ hcap] at hab ha
        rw [frame_set_frame_ne _ _ _ _ hbv, hflush b hbv] at hab
        exact absurd (hmiss b hab.symm) ha
      · rw [hbv, frame_set_frame_same _ _ _ hcap] at hab
        rw [frame_set_frame_ne _ _ _ _ hav, hflush a hav] at hab ha
        exact absurd (hmiss a hab) (fun h => ha (hab.trans h))
      · rw [frame_set_frame_ne _ _ _ _ hav, hflush a hav] at hab ha
        rw [frame_set_frame_ne _ _ _ _ hbv, hflush b hbv] at hab
        exact hu a b hab ha

theorem frames_unique_release (db : database_t) (i : Nat) (hu : frames_unique db) :
    frames_unique (buffer_release_page db i) := by
  unfold buffer_release_page
  by_cases hp : (db.frame i).pin_count > 0
  · simp only [hp, if_true]
    by_cases hi : i < db.capacity
    · exact frames_unique_set_frame db i _ hu hi rfl
    · intro a b hab ha
      have hfr : ∀ j, (db.set_frame i
          { db.frame i with pin_count := (db.frame i).pin_count - 1 }).frame j = db.frame j := by
        intro j
        unfold database_t.set_frame database_t.frame
        unfold database_t.capacity at hi
        simp only []
        rw [List.set_eq_of_length_le (by omega)]
      rw [hfr a] at hab ha
      rw [hfr b] at hab
      exact hu a b hab ha
  · simp only [hp, if_false]
    exact hu

theorem frames_unique_flush (db : database_t) (i : Nat) (hu : frames_unique db) :
    frames_unique (buffer_flush_page db i) := by
  by_cases hd : (db.frame i).is_dirty = true
  · rw [buffer_flush_page_dirty db i hd]
    by_cases hi : i < db.capacity
    · exact frames_unique_set_frame (write_page db _ _) i _ hu hi rfl
    · rw [frame_ge db i (by omega)] at hd
      cases hd
  · unfold buffer_flush_page
    simp only [hd]
    exact hu

theorem frames_unique_create (file : List page_data) : frames_unique (db_create file) := by
  intro i j _ hi
  exfalso
  apply hi
  unfold database_t.frame db_create buffer_pool_create
  simp only []
  by_cases h : i < 256
  · rw [getD_replicate_lt _ _ _ _ h]
    rfl
  · rw [getD_ge _ _ _ (by rw [List.length_replicate]; omega)]
    rfl

/-- C40 (resident pages are unique): each of `buffer_get_page`, `buffer_release_page` and
`buffer_flush_page` keeps the property that no two frames hold the same page id
other than 0; the pool `db_create` makes has it (every frame holds page id 0);
so it holds in every pool state reached by such calls, for any page ids and
frames given to them. -/
theorem c40_resident_pages_unique (file : List page_data) (calls : List pool_call) :
    (∀ db c, frames_unique db → frames_unique (run_pool_call db c)) ∧
      frames_unique (db_create file) ∧
      ∀ i j, i ≠ j →
        ((run_pool_calls calls (db_create file)).frame i).page_id ≠ 0 →
        ((run_pool_calls calls (db_create file)).frame i).page_id ≠
          ((run_pool_calls calls (db_create file)).frame j).page_id := by
  have hstep : ∀ db c, frames_unique db → frames_unique (run_pool_call db c) := by
    intro db c hu
    cases c with
    | call_get p => exact frames_unique_get_page db p hu
    | call_release i => exact frames_unique_release db i hu
    | call_flush i => exact frames_unique_flush db i hu
  have hrun : ∀ (cs : List pool_call) db, frames_unique db →
      frames_unique (run_pool_calls cs db) := by
    intro cs
    induction cs with
    | nil => intro db hu; exact hu
    | cons c cs ih => intro db hu; exact ih _ (hstep db c hu)
  refine ⟨hstep, frames_unique_create file, ?_⟩
  intro i j hij hi heq
  exact hij (hrun calls _ (frames_unique_create file) i j heq hi)

/-- Witness of C40: frames 0 and 1 of `three_calls_db` hold different pages. -/
theorem c40_resident_pages_unique_witness :
    (three_calls_db.frame 0).page_id ≠ (three_calls_db.frame 1).page_id :=
  (c40_resident_pages_unique [] [pool_call.call_get 7, pool_call.call_get 9,
    pool_call.call_release 0, pool_call.call_get 7, pool_call.call_flush 1]).2.2 0 1
    (by decide) (by decide!)

/-- The function `load_tuple_from_page` for a slot id below `2 ^ 31` on a heap page that can be
pinned: it returns the tuple of the slot exactly when the slot is below the
page's tuple count, and `NULL` otherwise. -/
theorem load_tuple_small_slot (db : database_t) (p slot c : Nat) (tl : List tuple_t)
    (hp : p ≠ 0) (hu : frames_unique db) (hc : frames_clean db)
    (hfree : (∃ j, (db.frame j).page_id = p) ∨ free_frame db)
    (hheap : (page_content db p).as_heap = some (c, tl)) (hslot : slot < 2 ^ 31) :
    ∃ db', load_tuple_from_page db p slot =
        some (if slot < c then some (tl.getD slot zero_tuple) else none, db') := by
  obtain ⟨db', h, _, _⟩ := load_tuple_from_page_spec db p slot c tl hp hu hc hfree hheap
  refine ⟨db', ?_⟩
  rw [h]
  have hs : slot_as_int slot = (slot : Int) := by
    unfold slot_as_int
    have h1 : slot % 2 ^ 32 = slot := Nat.mod_eq_of_lt (by omega)
    rw [h1, if_pos hslot]
  rw [hs]
  by_cases hlt : slot < c
  · rw [if_neg (by omega), if_pos hlt]
  · rw [if_pos (by omega), if_neg hlt]

/-- C33 at a failing input: heap page 3 of `one_row_db` holds one tuple. For the slot id
`2 ^ 31` the conversion `(int)slot` gives `-2 ^ 31`, the test
`(int)slot >= *tuple_count` is false, and `load_tuple_from_page` does not return
`NULL`: it goes on to read `tuples[slot]`, far outside the page (the embedding
puts a zero tuple there). For the slot ids 0 and 1 the test is right: slot 0
gives the tuple, slot 1 gives `NULL`. -/
theorem c33_large_slot_passes_bounds_check :
    (page_content one_row_db 3).as_heap.map Prod.fst = some 1 ∧
      slot_as_int (2 ^ 31) = -(2 ^ 31) ∧
      (load_tuple_from_page one_row_db 3 (2 ^ 31)).map (fun r => r.1.isSome) = some true ∧
      (load_tuple_from_page one_row_db 3 0).map (fun r => r.1.isSome) = some true ∧
      (load_tuple_from_page one_row_db 3 1).map (fun r => r.1.isSome) = some false := by
  decide!

/-- C39 (a key of the wrong type is inserted): in a table whose tree is a single leaf with room,
all of whose keys carry the type tag `t`, for a key with another tag:
`btree_find_key_position` returns 0; `btree_insert` with any tuple location returns
0 and leaves the leaf with the key and the location in cell 0; `tuple_insert` of
a row with that key and the table's column count returns 0, and afterwards the
leaf has one key more, the new key with the location of the new row (slot 0 of
the page allocated) in cell 0, and each earlier key with its location one cell
up. -/
theorem c39_wrong_type_key_is_inserted (fuel : Nat) (db : database_t) (name : List Nat)
    (tuple : tuple_t) (txn_id si : Nat) (key : value_t) (m : metadata_t)
    (ss : List table_schema_t) (node : btree_node_t) (t : data_type_t)
    (hpool : pool_ok db) (hfree : two_free_frames db) (htable : leaf_table db name si node)
    (hroom : node.key_count < BTREE_ORDER - 1)
    (hmeta : page_content db METADATA_PAGE_ID = page_data.metadata m ss)
    (hnew : m.next_page_id ≠ 0)
    (hzero : page_content db m.next_page_id = page_data.zero)
    (hcc : tuple.column_count = (db.schema si).column_count)
    (hpk : extract_primary_key (db.schema si) (stamped tuple txn_id) = some key)
    (htags : ∀ i, i < node.key_count → (node.keys.getD i zero_value).type = t)
    (hkey : key.type ≠ t) :
    btree_find_key_position node key = 0 ∧
    (∀ tp ts, ∃ db', btree_insert (fuel + 1) db (db.schema si).root_page_id key tp ts =
        some (0, db') ∧
      page_content db' (db.schema si).root_page_id =
        page_data.btree_node (btree_insert_key_at_position node 0 key tp ts)) ∧
    ∃ db' node', tuple_insert (fuel + 1) db name tuple txn_id = some (0, db') ∧
      page_content db' (db.schema si).root_page_id = page_data.btree_node node' ∧
      node'.is_leaf = true ∧ node'.key_count = node.key_count + 1 ∧
      node'.keys.getD 0 zero_value = key ∧
      node'.tuple_page_ids.getD 0 0 = m.next_page_id ∧ node'.tuple_slots.getD 0 0 = 0 ∧
      ∀ i, i < node.key_count →
        node'.keys.getD (i + 1) zero_value = node.keys.getD i zero_value ∧
        node'.tuple_page_ids.getD (i + 1) 0 = node.tuple_page_ids.getD i 0 ∧
        node'.tuple_slots.getD (i + 1) 0 = node.tuple_slots.getD i 0 := by
  have hu := frames_unique_of_pool_ok db hpool
  have hc := frames_clean_of_pool_ok db hpool
  have h49 : BTREE_ORDER = 49 := by decide
  have hother : ∀ i, i < node.key_count → key.type ≠ (node.keys.getD i zero_value).type := by
    intro i hi heq
    exact hkey (heq.trans (htags i hi))
  have hcmp : ∀ i, i < node.key_count → key_cmp node key i = -2 := by
    intro i hi
    unfold key_cmp value_compare
    rw [if_pos (hother i hi)]
  have hpos : btree_find_key_position node key = 0 := by
    have hord : ordered_for node key := by
      intro i j _ hj _
      rw [hcmp j hj]
      decide
    obtain ⟨hle, hbefore, _, _⟩ := btree_find_key_position_spec node key hord
    by_contra hne
    have h1 := hbefore 0 (Nat.pos_of_ne_zero hne)
    rw [hcmp 0 (by omega)] at h1
    omega
  have hnodup : ¬ (btree_find_key_position node key < node.key_count ∧
      value_compare key (node.keys.getD (btree_find_key_position node key) zero_value) = 0) := by
    rw [hpos]
    intro hx
    have h2 := hcmp 0 hx.1
    unfold key_cmp at h2
    rw [h2] at hx
    exact absurd hx.2 (by decide)
  refine ⟨hpos, ?_, ?_⟩
  · intro tp ts
    obtain ⟨db', hins, _, hcont⟩ := btree_insert_leaf_spec fuel db _ key tp ts node
      htable.root_ne hu hc (Or.inr (free_frame_of_two db hfree)) htable.root htable.leaf
      hnodup hroom
    refine ⟨db', hins, ?_⟩
    rw [hcont _ htable.root_ne, if_pos rfl, hpos]
  · obtain ⟨db', hins, _, hroot, _⟩ := tuple_insert_spec fuel db name tuple txn_id si key m ss
      node hu hc hfree htable.schema hcc hpk hmeta hnew hzero htable.root_ne htable.root
      htable.leaf hnodup hroom
    obtain ⟨hl, hcount, hkeys, hpids, hslots⟩ :=
      btree_insert_key_at_position_leaf node 0 key m.next_page_id 0 htable.leaf
        (Nat.zero_le _) (by rw [htable.keys_len]; omega) (by rw [htable.page_ids_len]; omega)
        (by rw [htable.slots_len]; omega)
    rw [hpos] at hroot
    refine ⟨db', _, hins, hroot, hl, hcount, ?_, ?_, ?_, ?_⟩
    · rw [hkeys 0, if_pos rfl]
    · rw [hpids 0, if_pos rfl]
    · rw [hslots 0, if_pos rfl]
    · intro i hi
      refine ⟨?_, ?_, ?_⟩
      · rw [hkeys (i + 1), if_neg (by omega), if_pos ⟨by omega, by omega⟩]
        rfl
      · rw [hpids (i + 1), if_neg (by omega), if_pos ⟨by omega, by omega⟩]
        rfl
      · rw [hslots (i + 1), if_neg (by omega), if_pos ⟨by omega, by omega⟩]
        rfl

/-- Witness of C39: transaction 1 has inserted id 1 into table `t(id INT PRIMARY KEY)`
and inserts the string 'x'. -/
theorem c39_wrong_type_key_is_inserted_witness :
    btree_find_key_position one_key_leaf (str_value [120]) = 0 ∧
      ∃ db' node', tuple_insert 1 inserted_db t_name (str_row [120]) 1 = some (0, db') ∧
        page_content db' 2 = page_data.btree_node node' ∧ node'.key_count = 2 ∧
        node'.keys.getD 0 zero_value = str_value [120] ∧
        node'.keys.getD 1 zero_value = int_value 1 := by
  set_option maxRecDepth 8192 in
  obtain ⟨hpos, _, db', node', hins, hroot, _, hcount, hk0, _, _, hshift⟩ :=
    c39_wrong_type_key_is_inserted 0 inserted_db t_name (str_row [120]) 1 0 (str_value [120])
      { schema_count := 0, next_page_id := 4 } (List.replicate 9 zero_schema) one_key_leaf
      data_type_t.DATA_TYPE_INT (by decide!) ⟨0, 1, by decide!⟩ inserted_db_leaf_table
      (by decide!) (by decide!) (by decide) (by decide!) (by decide!) (by decide!)
      (fun i hi => by
        have h1 : one_key_leaf.key_count = 1 := by decide!
        rw [h1] at hi
        interval_cases i
        decide!)
      (by decide)
  refine ⟨hpos, db', node', hins, hroot, hcount, hk0, ?_⟩
  rw [(hshift 0 (by decide!)).1]
  decide!

/-- The copy loop of `btree_split_node` after `n` iterations: the first `n` cells of the new
node hold the cells `mid + 1, ...` of the full node; the rest of the new node is as
it was. -/
theorem btree_split_copy_spec (full : btree_node_t) (mid : Nat) (n : Nat) (new0 : btree_node_t)
    (hk : n ≤ new0.keys.length) (hc : n ≤ new0.children.length)
    (htp : n ≤ new0.tuple_page_ids.length) (hsl : n ≤ new0.tuple_slots.length) :
    (btree_split_copy full mid n new0).is_leaf = new0.is_leaf ∧
    (btree_split_copy full mid n new0).key_count = new0.key_count ∧
    (btree_split_copy full mid n new0).keys.length = new0.keys.length ∧
    (btree_split_copy full mid n new0).children.length = new0.children.length ∧
    (btree_split_copy full mid n new0).tuple_page_ids.length = new0.tuple_page_ids.length ∧
    (btree_split_copy full mid n new0).tuple_slots.length = new0.tuple_slots.length ∧
    (∀ j, (btree_split_copy full mid n new0).keys.getD j zero_value =
      if j < n then full.keys.getD (mid + 1 + j) zero_value else new0.keys.getD j zero_value) ∧
    (full.is_leaf = true → ∀ j,
      (btree_split_copy full mid n new0).tuple_page_ids.getD j 0 =
        (if j < n then full.tuple_page_ids.getD (mid + 1 + j) 0
          else new0.tuple_page_ids.getD j 0) ∧
      (btree_split_copy full mid n new0).tuple_slots.getD j 0 =
        (if j < n then full.tuple_slots.getD (mid + 1 + j) 0 else new0.tuple_slots.getD j 0) ∧
      (btree_split_copy full mid n new0).children.getD j 0 = new0.children.getD j 0) ∧
    (full.is_leaf = false → ∀ j,
      (btree_split_copy full mid n new0).children.getD j 0 =
        (if j < n then full.children.getD (mid + 1 + j) 0 else new0.children.getD j 0) ∧
      (btree_split_copy full mid n new0).tuple_page_ids.getD j 0 =
        new0.tuple_page_ids.getD j 0 ∧
      (btree_split_copy full mid n new0).tuple_slots.getD j 0 = new0.tuple_slots.getD j 0) := by
  induction n with
  | zero =>
    unfold btree_split_copy
    refine ⟨rfl, rfl, rfl, rfl, rfl, rfl, ?_, ?_, ?_⟩
    · intro j
      rw [if_neg (by omega)]
    · intro _ j
      rw [if_neg (by omega), if_neg (by omega)]
      exact ⟨rfl, rfl, rfl⟩
    · intro _ j
      rw [if_neg (by omega)]
      exact ⟨rfl, rfl, rfl⟩
  | succ n ih =>
    obtain ⟨h1, h2, h3, h4, h5, h6, h7, h8, h9⟩ :=
      ih (by omega) (by omega) (by omega) (by omega)
    unfold btree_split_copy
    simp only []
    cases hl : full.is_leaf with
    | true =>
      simp only [if_true]
      refine ⟨h1, h2, by simp [h3], h4, by simp [h5], by simp [h6], ?_, ?_, ?_⟩
      · intro j
        rw [getD_set_eq _ _ _ _ _ (by rw [h3]; omega), h7 j]
        by_cases hj : j = n
        · rw [if_pos hj, if_pos (by omega), hj]
        · rw [if_neg hj]
          by_cases hjn : j < n
          · rw [if_pos hjn, if_pos (by omega)]
          · rw [if_neg hjn, if_neg (by omega)]
      · intro _ j
        obtain ⟨ha, hb, hcc⟩ := h8 hl j
        refine ⟨?_, ?_, hcc⟩
        · rw [getD_set_eq _ _ _ _ _ (by rw [h5]; omega), ha]
          by_cases hj : j = n
          · rw [if_pos hj, if_pos (by omega), hj]
          · rw [if_neg hj]
            by_cases hjn : j < n
            · rw [if_pos hjn, if_pos (by omega)]
            · rw [if_neg hjn, if_neg (by omega)]
        · rw [getD_set_eq _ _ _ _ _ (by rw [h6]; omega), hb]
          by_cases hj : j = n
          · rw [if_pos hj, if_pos (by omega), hj]
          · rw [if_neg hj]
            by_cases hjn : j < n
            · rw [if_pos hjn, if_pos (by omega)]
            · rw [if_neg hjn, if_neg (by omega)]
      · intro hf
        cases hf
    | false =>
      simp only [Bool.false_eq_true, if_false]
      refine ⟨h1, h2, by simp [h3], by simp [h4], h5, h6, ?_, ?_, ?_⟩
      · intro j
        rw [getD_set_eq _ _ _ _ _ (by rw [h3]; omega), h7 j]
        by_cases hj : j = n
        · rw [if_pos hj, if_pos (by omega), hj]
        · rw [if_neg hj]
          by_cases hjn : j < n
          · rw [if_pos hjn, if_pos (by omega)]
          · rw [if_neg hjn, if_neg (by omega)]
      · intro hf
        cases hf
      · intro _ j
        obtain ⟨ha, hb, hcc⟩ := h9 hl j
        refine ⟨?_, hb, hcc⟩
        rw [getD_set_eq _ _ _ _ _ (by rw [h4]; omega), ha]
        by_cases hj : j = n
        · rw [if_pos hj, if_pos (by omega), hj]
        · rw [if_neg hj]
          by_cases hjn : j < n
          · rw [if_pos hjn, if_pos (by omega)]
          · rw [if_neg hjn, if_neg (by omega)]

/-- The result of `btree_split_fill`, with `mid = BTREE_ORDER / 2 = 24`. -/
theorem btree_split_fill_eq (full new_node : btree_node_t) :
    btree_split_fill full new_node =
      (full.keys.getD 24 zero_value, { full with key_count := 24 },
        if full.is_leaf = false then
          { btree_split_copy full 24 (full.key_count - 24 - 1)
              { new_node with key_count := full.key_count - 24 - 1 } with
            children := (btree_split_copy full 24 (full.key_count - 24 - 1)
                { new_node with key_count := full.key_count - 24 - 1 }).children.set
              (btree_split_copy full 24 (full.key_count - 24 - 1)
                { new_node with key_count := full.key_count - 24 - 1 }).key_count
              (full.children.getD full.key_count 0) }
        else btree_split_copy full 24 (full.key_count - 24 - 1)
          { new_node with key_count := full.key_count - 24 - 1 }) := by
  have hmid : BTREE_ORDER / 2 = 24 := by decide
  unfold btree_split_fill
  simp only [hmid]
  cases full.is_leaf <;> simp

/-- The node-local part of `btree_split_node` on a node with 49 keys and a new node of the same
kind with room for 24 keys. -/
theorem btree_split_fill_layout (full new_node : btree_node_t)
    (hcount : full.key_count = BTREE_ORDER) (hkind : new_node.is_leaf = full.is_leaf)
    (hk : 24 ≤ new_node.keys.length) (hc : 25 ≤ new_node.children.length)
    (htp : 24 ≤ new_node.tuple_page_ids.length) (hsl : 24 ≤ new_node.tuple_slots.length) :
    (btree_split_fill full new_node).1 = full.keys.getD 24 zero_value ∧
    (btree_split_fill full new_node).2.1 = { full with key_count := 24 } ∧
    (btree_split_fill full new_node).2.2.is_leaf = full.is_leaf ∧
    (btree_split_fill full new_node).2.2.key_count = 24 ∧
    (∀ i, i < 24 → (btree_split_fill full new_node).2.2.keys.getD i zero_value =
      full.keys.getD (25 + i) zero_value) ∧
    (full.is_leaf = true → ∀ i, i < 24 →
      (btree_split_fill full new_node).2.2.tuple_page_ids.getD i 0 =
          full.tuple_page_ids.getD (25 + i) 0 ∧
      (btree_split_fill full new_node).2.2.tuple_slots.getD i 0 =
          full.tuple_slots.getD (25 + i) 0) ∧
    (full.is_leaf = false → ∀ i, i ≤ 24 →
      (btree_split_fill full new_node).2.2.children.getD i 0 =
        full.children.getD (25 + i) 0) := by
  have h49 : BTREE_ORDER = 49 := by decide
  have hnc : full.key_count - 24 - 1 = 24 := by rw [hcount, h49]
  have hfill := btree_split_fill_eq full new_node
  rw [hnc] at hfill
  generalize hN : ({ new_node with key_count := 24 } : btree_node_t) = N at hfill
  have hNl : N.is_leaf = full.is_leaf := by rw [← hN]; exact hkind
  have hNc : N.key_count = 24 := by rw [← hN]
  have hNk : N.keys.length = new_node.keys.length := by rw [← hN]
  have hNch : N.children.length = new_node.children.length := by rw [← hN]
  have hNp : N.tuple_page_ids.length = new_node.tuple_page_ids.length := by rw [← hN]
  have hNs : N.tuple_slots.length = new_node.tuple_slots.length := by rw [← hN]
  obtain ⟨h1, h2, h3, h4, h5, h6, h7, h8, h9⟩ :=
    btree_split_copy_spec full 24 24 N (by omega) (by omega) (by omega) (by omega)
  generalize hC : btree_split_copy full 24 24 N = C at hfill h1 h2 h3 h4 h5 h6 h7 h8 h9
  have e1 : (btree_split_fill full new_node).1 = full.keys.getD 24 zero_value := by rw [hfill]
  have e21 : (btree_split_fill full new_node).2.1 = { full with key_count := 24 } := by
    rw [hfill]
  have e22 : (btree_split_fill full new_node).2.2 =
      if full.is_leaf = false then
        { C with children := C.children.set C.key_count (full.children.getD full.key_count 0) }
      else C := by rw [hfill]
  refine ⟨e1, e21, ?_, ?_, ?_, ?_, ?_⟩
  · rw [e22]
    cases hl : full.is_leaf
    · rw [if_pos rfl]
      show C.is_leaf = false
      rw [h1, hNl, hl]
    · rw [if_neg (by decide)]
      rw [h1, hNl, hl]
  · rw [e22]
    cases hl : full.is_leaf
    · rw [if_pos rfl]
      show C.key_count = 24
      rw [h2, hNc]
    · rw [if_neg (by decide)]
      rw [h2, hNc]
  · intro i hi
    have hk2 : (btree_split_fill full new_node).2.2.keys = C.keys := by
      rw [e22]
      cases full.is_leaf
      · rw [if_pos rfl]
      · rw [if_neg (by decide)]
    rw [hk2, h7 i, if_pos hi, show 24 + 1 + i = 25 + i by omega]
  · intro hl i hi
    have hk2 : (btree_split_fill full new_node).2.2 = C := by
      rw [e22, hl, if_neg (by decide)]
    obtain ⟨ha, hb, _⟩ := h8 hl i
    rw [hk2, ha, hb, if_pos hi, if_pos hi, show 24 + 1 + i = 25 + i by omega]
    exact ⟨rfl, rfl⟩
  · intro hl i hi
    have hk2 : (btree_split_fill full new_node).2.2.children =
        C.children.set 24 (full.children.getD full.key_count 0) := by
      rw [e22, hl, if_pos rfl]
      show C.children.set C.key_count _ = _
      rw [h2, hNc]
    rw [hk2, getD_set_eq _ _ _ _ _ (by rw [h4]; omega)]
    by_cases hi24 : i = 24
    · rw [if_pos hi24, hi24, hcount, h49]
    · rw [if_neg hi24, (h9 hl i).1, if_pos (by omega), show 24 + 1 + i = 25 + i by omega]

theorem pages_ext (l l' : List page_t) (hlen : l.length = l'.length)
    (h : ∀ j, l.getD j empty_frame = l'.getD j empty_frame) : l = l' := by
  apply List.ext_getElem hlen
  intro n h1 h2
  have := h n
  rw [List.getD_eq_getElem _ _ h1, List.getD_eq_getElem _ _ h2] at this
  exact this

/-- Two databases with the same file, the same frames and the same catalog and manager are
equal. -/
theorem db_ext (a b : database_t) (h1 : a.data_file = b.data_file)
    (h2 : a.capacity = b.capacity) (h3 : ∀ j, a.frame j = b.frame j)
    (h4 : a.txn_manager = b.txn_manager) (h5 : a.schemas = b.schemas)
    (h6 : a.schema_count = b.schema_count) (h7 : a.max_schemas = b.max_schemas) : a = b := by
  have hp : a.buffer_pool.pages = b.buffer_pool.pages := pages_ext _ _ h2 h3
  cases a with
  | mk f1 bp1 t1 s1 c1 m1 =>
    cases b with
    | mk f2 bp2 t2 s2 c2 m2 =>
      cases bp1
      cases bp2
      simp only [] at h1 hp h4 h5 h6 h7
      subst h1 hp h4 h5 h6 h7
      rfl

theorem frame_mark_dirty_same (db : database_t) (h : Nat) (hlt : h < db.capacity) :
    (mark_dirty db h).frame h = { db.frame h with is_dirty := true } := by
  rw [mark_dirty_eq, frame_set_frame_same _ _ _ hlt]

theorem frame_mark_dirty_ne (db : database_t) (h j : Nat) (hj : j ≠ h) :
    (mark_dirty db h).frame j = db.frame j := by
  rw [mark_dirty_eq, frame_set_frame_ne _ _ _ _ hj]

theorem frame_lt_of_pinned (db : database_t) (h : Nat) (hpin : 0 < (db.frame h).pin_count) :
    h < db.capacity := by
  by_contra hc
  rw [frame_ge db h (by omega)] at hpin
  exact absurd hpin (by decide)

/-- Writes to two different frames can be done in either order. -/
theorem set_frame_comm (db : database_t) (i j : Nat) (a b : page_t) (hij : i ≠ j) :
    (db.set_frame i a).set_frame j b = (db.set_frame j b).set_frame i a := by
  unfold database_t.set_frame
  simp only []
  rw [List.set_comm a b db.buffer_pool.pages hij]

/-- A write to another frame and the marking of frame `h` can be done in either order. -/
theorem set_frame_mark_dirty (db : database_t) (h j : Nat) (f : page_t) (hj : j ≠ h) :
    (mark_dirty db h).set_frame j f = mark_dirty (db.set_frame j f) h := by
  rw [mark_dirty_eq, mark_dirty_eq, frame_set_frame_ne _ _ _ _ (fun e => hj e.symm),
    set_frame_comm _ _ _ _ _ (fun e => hj e.symm)]

theorem find_resident_set (p : Nat) (l : List page_t) (h : Nat) (f : page_t)
    (hf : f.page_id = (l.getD h empty_frame).page_id) :
    find_resident p (l.set h f) = find_resident p l := by
  induction l generalizing h with
  | nil => rfl
  | cons x xs ih =>
    cases h with
    | zero =>
      simp only [List.set_cons_zero, List.getD_cons_zero] at hf ⊢
      unfold find_resident
      rw [hf]
      simp only [Nat.zero_le, and_true]
    | succ k =>
      simp only [List.set_cons_succ, List.getD_cons_succ] at hf ⊢
      unfold find_resident
      rw [ih k hf]

theorem find_victim_set (l : List page_t) (h : Nat) (f : page_t)
    (hf : f.pin_count = (l.getD h empty_frame).pin_count) :
    find_victim_page (l.set h f) = find_victim_page l := by
  induction l generalizing h with
  | nil => rfl
  | cons x xs ih =>
    cases h with
    | zero =>
      simp only [List.set_cons_zero, List.getD_cons_zero] at hf ⊢
      unfold find_victim_page
      rw [hf]
    | succ k =>
      simp only [List.set_cons_succ, List.getD_cons_succ] at hf ⊢
      unfold find_victim_page
      rw [ih k hf]

theorem find_resident_mark_dirty (db : database_t) (h p : Nat) :
    find_resident p (mark_dirty db h).buffer_pool.pages =
      find_resident p db.buffer_pool.pages :=
  find_resident_set p _ h _ rfl

theorem find_victim_mark_dirty (db : database_t) (h : Nat) :
    find_victim_page (mark_dirty db h).buffer_pool.pages =
      find_victim_page db.buffer_pool.pages :=
  find_victim_set _ h _ rfl

/-- The content of every page is the same whether or not frame `h` counts as dirty. -/
theorem page_content_mark_dirty (db : database_t) (h q : Nat) :
    page_content (mark_dirty db h) q = page_content db q := by
  unfold page_content
  rw [find_resident_mark_dirty]
  cases hr : find_resident q db.buffer_pool.pages with
  | none => rfl
  | some i =>
    simp only []
    by_cases hi : i = h
    · subst hi
      obtain ⟨hlt, _, _⟩ := find_resident_some q _ i hr
      rw [frame_mark_dirty_same db i hlt]
    · rw [frame_mark_dirty_ne db h i hi]

/-- A pinned frame that holds another page than the one asked for is left as it is. -/
theorem get_page_frame_pinned (db : database_t) (p j : Nat)
    (hpin : 0 < (db.frame j).pin_count) (hne : (db.frame j).page_id ≠ p) :
    (buffer_get_page db p).2.frame j = db.frame j := by
  cases hr : find_resident p db.buffer_pool.pages with
  | some i =>
    rw [buffer_get_page_hit_eq db p i hr]
    obtain ⟨_, hi, _⟩ := find_resident_some p _ i hr
    have hji : j ≠ i := by
      intro h
      subst h
      exact hne hi
    exact frame_set_frame_ne _ _ _ _ hji
  | none =>
    cases hv : find_victim_page db.buffer_pool.pages with
    | none => rw [buffer_get_page_none db p hr hv]
    | some v =>
      rw [buffer_get_page_miss db p v hr hv]
      obtain ⟨_, hv0⟩ := find_victim_some _ v hv
      have hjv : j ≠ v := by
        intro h
        subst h
        have : (db.frame j).pin_count = 0 := hv0
        omega
      simp only []
      rw [frame_set_frame_ne _ _ _ _ hjv]
      split
      · exact frame_buffer_flush_page_ne db v j hjv
      · rfl

/-- The frame `buffer_get_page` returns is a frame of the pool and holds the page asked for. -/
theorem get_page_returned (db : database_t) (p i : Nat) (db' : database_t)
    (h : buffer_get_page db p = (some i, db')) :
    i < db.capacity ∧ (db'.frame i).page_id = p := by
  cases hr : find_resident p db.buffer_pool.pages with
  | some k =>
    rw [buffer_get_page_hit_eq db p k hr] at h
    simp only [Prod.mk.injEq, Option.some.injEq] at h
    obtain ⟨hk, hdb⟩ := h
    subst hk
    subst hdb
    obtain ⟨hlt, hpid, _⟩ := find_resident_some p _ k hr
    exact ⟨hlt, by rw [frame_set_frame_same _ _ _ hlt]; exact hpid⟩
  | none =>
    cases hv : find_victim_page db.buffer_pool.pages with
    | none =>
      rw [buffer_get_page_none db p hr hv] at h
      simp at h
    | some v =>
      rw [buffer_get_page_miss db p v hr hv] at h
      simp only [Prod.mk.injEq, Option.some.injEq] at h
      obtain ⟨hk, hdb⟩ := h
      subst hk
      subst hdb
      obtain ⟨hlt, _⟩ := find_victim_some _ v hv
      refine ⟨hlt, ?_⟩
      have hcap : v < (if (db.frame v).is_dirty = true ∧ (db.frame v).page_id ≠ 0 then
          buffer_flush_page db v else db).capacity := by
        by_cases hd : (db.frame v).is_dirty = true ∧ (db.frame v).page_id ≠ 0
        · rw [if_pos hd, buffer_flush_page_dirty db v hd.1, capacity_set_frame]
          exact hlt
        · rw [if_neg hd]
          exact hlt
      rw [frame_set_frame_same _ _ _ hcap]

theorem buffer_flush_page_mark_dirty (db : database_t) (h v : Nat) (hv : v ≠ h) :
    buffer_flush_page (mark_dirty db h) v = mark_dirty (buffer_flush_page db v) h := by
  by_cases hd : (db.frame v).is_dirty = true
  · rw [buffer_flush_page_dirty db v hd,
      buffer_flush_page_dirty (mark_dirty db h) v (by rw [frame_mark_dirty_ne db h v hv]; exact hd),
      frame_mark_dirty_ne db h v hv]
    rw [← set_frame_mark_dirty _ _ _ _ hv]
    rfl
  · unfold buffer_flush_page
    simp only [frame_mark_dirty_ne db h v hv, hd]
    rfl

/-- The call `buffer_get_page` does not look at the dirty flag of a pinned frame that holds
another page: marking that frame dirty before or after the call gives the same
state. -/
theorem buffer_get_page_mark_dirty (db : database_t) (h p : Nat)
    (hpin : 0 < (db.frame h).pin_count) (hne : (db.frame h).page_id ≠ p) :
    buffer_get_page (mark_dirty db h) p =
      ((buffer_get_page db p).1, mark_dirty (buffer_get_page db p).2 h) := by
  have hr' := find_resident_mark_dirty db h p
  have hv' := find_victim_mark_dirty db h
  cases hr : find_resident p db.buffer_pool.pages with
  | some i =>
    rw [hr] at hr'
    rw [buffer_get_page_hit_eq db p i hr, buffer_get_page_hit_eq _ p i hr']
    obtain ⟨_, hi, _⟩ := find_resident_some p _ i hr
    have hih : i ≠ h := by
      intro e
      subst e
      exact hne hi
    simp only []
    rw [frame_mark_dirty_ne db h i hih, set_frame_mark_dirty _ _ _ _ hih]
  | none =>
    rw [hr] at hr'
    cases hv : find_victim_page db.buffer_pool.pages with
    | none =>
      rw [hv] at hv'
      rw [buffer_get_page_none db p hr hv, buffer_get_page_none _ p hr' hv']
    | some v =>
      rw [hv] at hv'
      obtain ⟨_, hv0⟩ := find_victim_some _ v hv
      have hvh : v ≠ h := by
        intro e
        subst e
        have : (db.frame v).pin_count = 0 := hv0
        omega
      rw [buffer_get_page_miss db p v hr hv, buffer_get_page_miss _ p v hr' hv']
      simp only []
      rw [frame_mark_dirty_ne db h v hvh]
      by_cases hd : (db.frame v).is_dirty = true ∧ (db.frame v).page_id ≠ 0
      · rw [if_pos hd, if_pos hd, buffer_flush_page_mark_dirty db h v hvh,
          set_frame_mark_dirty _ _ _ _ hvh]
        rfl
      · rw [if_neg hd, if_neg hd, set_frame_mark_dirty _ _ _ _ hvh]
        rfl

theorem set_data_mark_dirty (db : database_t) (h k : Nat) (d : page_data) (hk : k ≠ h) :
    set_data (mark_dirty db h) k d = mark_dirty (set_data db k d) h := by
  rw [set_data_eq, set_data_eq, frame_mark_dirty_ne db h k hk, set_frame_mark_dirty _ _ _ _ hk]

theorem mark_dirty_mark_dirty (db : database_t) (h k : Nat) (hk : k ≠ h) :
    mark_dirty (mark_dirty db h) k = mark_dirty (mark_dirty db k) h := by
  rw [mark_dirty_eq (mark_dirty db h) k, frame_mark_dirty_ne db h k hk,
    set_frame_mark_dirty _ _ _ _ hk, ← mark_dirty_eq]

theorem release_mark_dirty (db : database_t) (h k : Nat) (hk : k ≠ h) :
    buffer_release_page (mark_dirty db h) k = mark_dirty (buffer_release_page db k) h := by
  unfold buffer_release_page
  simp only [frame_mark_dirty_ne db h k hk]
  by_cases hp : (db.frame k).pin_count > 0
  · rw [if_pos hp, if_pos hp, set_frame_mark_dirty _ _ _ _ hk]
  · rw [if_neg hp, if_neg hp]

theorem frame_release_ne (s : database_t) (i j : Nat) (hj : j ≠ i) :
    (buffer_release_page s i).frame j = s.frame j := by
  unfold buffer_release_page
  by_cases hp : (s.frame i).pin_count > 0
  · simp only [hp, if_true]
    exact frame_set_frame_ne _ _ _ _ hj
  · simp only [hp, if_false]

/-- The function `allocate_new_page_id` does not look at the dirty flag of a pinned frame that
holds another page than the metadata page, and leaves that frame as it is. -/
theorem allocate_new_page_id_mark_dirty (db : database_t) (h : Nat)
    (hpin : 0 < (db.frame h).pin_count) (hne : (db.frame h).page_id ≠ METADATA_PAGE_ID) :
    allocate_new_page_id (mark_dirty db h) =
        (allocate_new_page_id db).map (fun r => (r.1, mark_dirty r.2 h)) ∧
      ∀ r db', allocate_new_page_id db = some (r, db') → db'.frame h = db.frame h := by
  have hG := buffer_get_page_mark_dirty db h METADATA_PAGE_ID hpin hne
  have hfr := get_page_frame_pinned db METADATA_PAGE_ID h hpin hne
  unfold allocate_new_page_id
  rw [hG]
  cases hg : buffer_get_page db METADATA_PAGE_ID with
  | mk r db1 =>
    rw [hg] at hfr
    simp only [] at hfr
    cases r with
    | none =>
      simp only [Option.map]
      refine ⟨by first | rfl | trivial, ?_⟩
      intro r db' hres
      simp only [Option.some.injEq, Prod.mk.injEq] at hres
      rw [← hres.2]
      exact hfr
    | some k =>
      obtain ⟨_, hkp⟩ := get_page_returned db METADATA_PAGE_ID k db1 hg
      have hkh : k ≠ h := by
        intro e
        subst e
        rw [hfr] at hkp
        exact hne hkp
      simp only []
      rw [frame_mark_dirty_ne db1 h k hkh]
      cases hm : (db1.frame k).data.as_metadata with
      | none =>
        simp only [Option.map]
        refine ⟨trivial, ?_⟩
        intro r db' hres
        cases hres
      | some ms =>
        obtain ⟨md, sch⟩ := ms
        simp only [Option.map]
        rw [set_data_mark_dirty _ _ _ _ hkh, mark_dirty_mark_dirty _ _ _ hkh,
          release_mark_dirty _ _ _ hkh]
        refine ⟨by first | rfl | trivial, ?_⟩
        intro r db' hres
        simp only [Option.some.injEq, Prod.mk.injEq] at hres
        rw [← hres.2, frame_release_ne _ _ _ (fun e => hkh e.symm), mark_dirty_eq,
          frame_set_frame_ne _ _ _ _ (fun e => hkh e.symm), set_data_eq,
          frame_set_frame_ne _ _ _ _ (fun e => hkh e.symm)]
        exact hfr

/-- The function `storage_allocate_page` does not look at the dirty flag of a pinned frame that
holds neither the metadata page nor the page handed out, and leaves that frame
as it is. -/
theorem storage_allocate_page_mark_dirty (db : database_t) (h : Nat)
    (hpin : 0 < (db.frame h).pin_count) (hne : (db.frame h).page_id ≠ METADATA_PAGE_ID)
    (hcid : ∀ r db1, allocate_new_page_id db = some (r, db1) → (db.frame h).page_id ≠ r) :
    storage_allocate_page (mark_dirty db h) =
        (storage_allocate_page db).map (fun r => (r.1, mark_dirty r.2 h)) ∧
      ∀ r db', storage_allocate_page db = some (r, db') → db'.frame h = db.frame h := by
  obtain ⟨hA, hAf⟩ := allocate_new_page_id_mark_dirty db h hpin hne
  unfold storage_allocate_page
  rw [hA]
  cases ha : allocate_new_page_id db with
  | none =>
    simp only [Option.map]
    refine ⟨trivial, ?_⟩
    intro r db' hres
    cases hres
  | some rd =>
    obtain ⟨cid, da⟩ := rd
    have hfa := hAf cid da ha
    have hc := hcid cid da ha
    have hG := buffer_get_page_mark_dirty da h cid (by rw [hfa]; exact hpin)
      (by rw [hfa]; exact hc)
    have hfr := get_page_frame_pinned da cid h (by rw [hfa]; exact hpin) (by rw [hfa]; exact hc)
    simp only [Option.map]
    rw [hG]
    cases hg : buffer_get_page da cid with
    | mk r db2 =>
      rw [hg] at hfr
      simp only [] at hfr
      cases r with
      | none =>
        simp only []
        refine ⟨by first | rfl | trivial, ?_⟩
        intro r db' hres
        simp only [Option.some.injEq, Prod.mk.injEq] at hres
        rw [← hres.2, hfr, hfa]
      | some i =>
        obtain ⟨_, hip⟩ := get_page_returned da cid i db2 hg
        have hih : i ≠ h := by
          intro e
          subst e
          rw [hfr, hfa] at hip
          exact hc hip
        simp only []
        rw [mark_dirty_mark_dirty _ _ _ hih]
        refine ⟨by first | rfl | trivial, ?_⟩
        intro r db' hres
        simp only [Option.some.injEq, Prod.mk.injEq] at hres
        rw [← hres.2, mark_dirty_eq, frame_set_frame_ne _ _ _ _ (fun e => hih e.symm), hfr, hfa]

theorem two_free_frames_mark_dirty (db : database_t) (h : Nat)
    (hpin : 0 < (db.frame h).pin_count) (hfree : two_free_frames db) :
    two_free_frames (mark_dirty db h) := by
  obtain ⟨a, b, hab, ha, hb, ha0, hb0⟩ := hfree
  have hah : a ≠ h := by
    intro e
    subst e
    omega
  have hbh : b ≠ h := by
    intro e
    subst e
    omega
  exact ⟨a, b, hab, by rw [mark_dirty_eq, capacity_set_frame]; exact ha,
    by rw [mark_dirty_eq, capacity_set_frame]; exact hb,
    by rw [frame_mark_dirty_ne db h a hah]; exact ha0,
    by rw [frame_mark_dirty_ne db h b hbh]; exact hb0⟩

/-- The result of `storage_allocate_page` when the pool invariants hold once the pinned frame
`h` counts as dirty: a frame other than `h` is pinned on the page the metadata
page named, and frame `h` is as it was. -/
theorem storage_allocate_page_beside (db : database_t) (h : Nat) (m : metadata_t)
    (ss : List table_schema_t)
    (hu : frames_unique (mark_dirty db h)) (hc : frames_clean (mark_dirty db h))
    (hfree : free_frame (mark_dirty db h))
    (hpin : 0 < (db.frame h).pin_count)
    (hmeta : page_content db METADATA_PAGE_ID = page_data.metadata m ss)
    (hnew : m.next_page_id ≠ 0)
    (hne1 : (db.frame h).page_id ≠ METADATA_PAGE_ID)
    (hne : (db.frame h).page_id ≠ m.next_page_id) :
    ∃ n db', storage_allocate_page db = some (some n, db') ∧ n ≠ h ∧
      db'.frame h = db.frame h ∧
      acquired (mark_dirty db h) (mark_dirty db' h) n m.next_page_id ∧
      ∀ q, q ≠ 0 → q ≠ m.next_page_id → page_content (mark_dirty db' h) q =
        if q = METADATA_PAGE_ID then
          page_data.metadata { m with next_page_id := m.next_page_id + 1 } ss
        else page_content db q := by
  have hlt := frame_lt_of_pinned db h hpin
  have hmetaD : page_content (mark_dirty db h) METADATA_PAGE_ID = page_data.metadata m ss := by
    rw [page_content_mark_dirty, hmeta]
  obtain ⟨n, DA, hallocD, hacq, hcontA⟩ :=
    storage_allocate_page_acquired (mark_dirty db h) m ss hu hc hfree hmetaD hnew
  obtain ⟨da, hallocid, _, _⟩ := allocate_new_page_id_spec (mark_dirty db h) m ss hu hc hfree hmetaD
  have hcid : ∀ r db1, allocate_new_page_id db = some (r, db1) → (db.frame h).page_id ≠ r := by
    intro r db1 hr
    have := (allocate_new_page_id_mark_dirty db h hpin hne1).1
    rw [hr, hallocid] at this
    simp only [Option.map, Option.some.injEq, Prod.mk.injEq] at this
    rw [← this.1]
    exact hne
  obtain ⟨hSA, hSAf⟩ := storage_allocate_page_mark_dirty db h hpin hne1 hcid
  rw [hallocD] at hSA
  cases hs : storage_allocate_page db with
  | none =>
    rw [hs] at hSA
    simp at hSA
  | some rd =>
    obtain ⟨r, dbA⟩ := rd
    rw [hs] at hSA
    simp only [Option.map, Option.some.injEq, Prod.mk.injEq] at hSA
    obtain ⟨hr, hDA⟩ := hSA
    subst hr
    subst hDA
    have hfh := hSAf _ _ hs
    have hnh : n ≠ h := by
      intro e
      subst e
      have h1 := hacq.page_id
      have hltA : n < dbA.capacity := by
        have := hacq.lt
        rw [mark_dirty_eq, capacity_set_frame] at this
        exact this
      rw [frame_mark_dirty_same dbA n hltA] at h1
      have h2 : (dbA.frame n).page_id = m.next_page_id := h1
      rw [hfh] at h2
      exact hne h2
    refine ⟨n, dbA, rfl, hnh, hfh, hacq, ?_⟩
    intro q hq hqn
    rw [hcontA q hq hqn, page_content_mark_dirty]

theorem frame_set_data_same (db : database_t) (i : Nat) (d : page_data) (hlt : i < db.capacity) :
    (set_data db i d).frame i = { db.frame i with data := d } := by
  rw [set_data_eq, frame_set_frame_same _ _ _ hlt]

theorem frame_set_data_ne (db : database_t) (i j : Nat) (d : page_data) (hj : j ≠ i) :
    (set_data db i d).frame j = db.frame j := by
  rw [set_data_eq, frame_set_frame_ne _ _ _ _ hj]

theorem capacity_set_data (db : database_t) (i : Nat) (d : page_data) :
    (set_data db i d).capacity = db.capacity := by
  rw [set_data_eq, capacity_set_frame]

theorem capacity_mark_dirty (db : database_t) (i : Nat) :
    (mark_dirty db i).capacity = db.capacity := by
  rw [mark_dirty_eq, capacity_set_frame]

/-- The state of `btree_split_node` before its second allocation, seen with the
frame of the full node counted as dirty: the pool invariants hold, and the two nodes are the
contents of their pages. -/
theorem split_states_ok (db dbA : database_t) (h n cid : Nat) (full1 new1 : page_data)
    (Z : page_data)
    (hacq : acquired (mark_dirty db h) (mark_dirty dbA h) n cid) (hcid : cid ≠ 0)
    (hnh : n ≠ h) (hfh : dbA.frame h = db.frame h)
    (hpin : 0 < (db.frame h).pin_count) (hp0 : (db.frame h).page_id ≠ 0)
    (hne : (db.frame h).page_id ≠ cid)
    (hfree : two_free_frames (mark_dirty db h)) :
    let db3 := set_data (set_data (mark_dirty (set_data dbA n Z) n) n new1) h full1
    frames_unique (mark_dirty db3 h) ∧ frames_clean (mark_dirty db3 h) ∧
      free_frame (mark_dirty db3 h) ∧
      db3.frame h = { db.frame h with data := full1 } ∧
      (db3.frame n).data = new1 ∧ (db3.frame n).page_id = cid ∧
      0 < (db3.frame n).pin_count ∧
      ∀ q, q ≠ 0 → page_content db3 q =
        if q = (db.frame h).page_id then full1
        else if q = cid then new1 else page_content (mark_dirty dbA h) q := by
  intro db3
  have hlt : h < db.capacity := frame_lt_of_pinned db h hpin
  have hnA : n < dbA.capacity := by
    have := hacq.lt
    rw [capacity_mark_dirty] at this
    exact this
  have hhA : h < dbA.capacity := by
    have := hacq.env.cap
    rw [capacity_mark_dirty, capacity_mark_dirty] at this
    omega
  have hDn : (mark_dirty dbA h).frame n = dbA.frame n := frame_mark_dirty_ne dbA h n hnh
  -- the state after the new node is filled
  have hdb2 : set_data (mark_dirty (set_data dbA n Z) n) n new1 =
      dbA.set_frame n (page_t.mk (dbA.frame n).page_id new1 true (dbA.frame n).pin_count) := by
    rw [modify_eq dbA n Z hnA, set_data_eq, frame_set_frame_same _ _ _ hnA, set_frame_set_frame]
  have hD2 : mark_dirty (set_data (mark_dirty (set_data dbA n Z) n) n new1) h =
      (mark_dirty dbA h).set_frame n (page_t.mk ((mark_dirty dbA h).frame n).page_id new1 true
        ((mark_dirty dbA h).frame n).pin_count) := by
    rw [hdb2, hDn, set_frame_mark_dirty _ _ _ _ hnh]
  obtain ⟨hbal2, hcont2⟩ := acquired_modify hacq hcid new1
  rw [← hD2] at hbal2 hcont2
  generalize hdb2g : set_data (mark_dirty (set_data dbA n Z) n) n new1 = db2
    at hdb2 hD2 hbal2 hcont2
  have hdb3 : db3 = set_data db2 h full1 := by
    show set_data (set_data (mark_dirty (set_data dbA n Z) n) n new1) h full1 = _
    rw [hdb2g]
  have h2h : db2.frame h = db.frame h := by
    rw [hdb2, frame_set_frame_ne _ _ _ _ (fun e => hnh e.symm), hfh]
  have h2n : db2.frame n =
      page_t.mk (dbA.frame n).page_id new1 true (dbA.frame n).pin_count := by
    rw [hdb2, frame_set_frame_same _ _ _ hnA]
  have hc2 : db2.capacity = dbA.capacity := by rw [hdb2, capacity_set_frame]
  have hD3 : mark_dirty db3 h = (mark_dirty db2 h).set_frame h
      (page_t.mk (db.frame h).page_id full1 true (db.frame h).pin_count) := by
    rw [hdb3, modify_eq db2 h full1 (by omega), h2h, mark_dirty_eq db2 h, set_frame_set_frame]
  have hD2h : ((mark_dirty db2 h).frame h).page_id = (db.frame h).page_id := by
    rw [frame_mark_dirty_same db2 h (by omega), h2h]
  obtain ⟨hu3, hcl3, hcont3⟩ := set_frame_spec (mark_dirty db2 h) h (db.frame h).page_id
    (page_t.mk (db.frame h).page_id full1 true (db.frame h).pin_count) hp0
    hbal2.unique hbal2.clean hD2h rfl (Or.inl rfl)
  rw [← hD3] at hu3 hcl3 hcont3
  have hfree3 : free_frame (mark_dirty db3 h) := by
    obtain ⟨j, hj, hj0⟩ := free_frame_of_balanced hbal2 (free_frame_of_acquired hacq hfree)
    have hjh : j ≠ h := by
      intro e
      subst e
      rw [frame_mark_dirty_same db2 j (by omega), h2h] at hj0
      have : (db.frame j).pin_count = 0 := hj0
      omega
    refine ⟨j, ?_, ?_⟩
    · rw [hD3, capacity_set_frame]
      exact hj
    · rw [hD3, frame_set_frame_ne _ _ _ _ hjh]
      exact hj0
  have h3h : db3.frame h = { db.frame h with data := full1 } := by
    rw [hdb3, frame_set_data_same db2 h full1 (by omega), h2h]
  have h3n : db3.frame n =
      page_t.mk (dbA.frame n).page_id new1 true (dbA.frame n).pin_count := by
    rw [hdb3, frame_set_data_ne db2 h n full1 hnh, h2n]
  have hpidn : (dbA.frame n).page_id = cid := by
    rw [← hDn]
    exact hacq.page_id
  have hpinn : 0 < (dbA.frame n).pin_count := by
    rw [← hDn, hacq.pin]
    omega
  refine ⟨hu3, hcl3, hfree3, h3h, by rw [h3n], by rw [h3n]; exact hpidn,
    by rw [h3n]; exact hpinn, ?_⟩
  intro q hq
  rw [← page_content_mark_dirty db3 h q, hcont3 q hq]
  by_cases hqh : q = (db.frame h).page_id
  · rw [if_pos hqh, if_pos hqh]
  · rw [if_neg hqh, if_neg hqh, hcont2 q hq]

/-- C31: `btree_split_node` on a pinned frame whose node holds 49 keys returns with
`keys[24]` as promoted key; the original node keeps its arrays and has `key_count = 24`; the
new node, in another frame, is of the same kind, has `key_count = 24`, holds the old
`keys[25..48]` in order together with their tuple locations (leaf) or the old
`children[25..49]` (internal). -/
theorem c31_split_layout (db : database_t) (h : Nat) (full : btree_node_t) (m : metadata_t)
    (ss : List table_schema_t)
    (hpool : pool_ok (mark_dirty db h)) (hfree : two_free_frames db)
    (hpin : 0 < (db.frame h).pin_count)
    (hdata : (db.frame h).data = page_data.btree_node full)
    (hcount : full.key_count = BTREE_ORDER)
    (hmeta : page_content db METADATA_PAGE_ID = page_data.metadata m ss)
    (hnew : m.next_page_id ≠ 0) (hnew1 : m.next_page_id ≠ METADATA_PAGE_ID)
    (hp0 : (db.frame h).page_id ≠ 0)
    (hne : (db.frame h).page_id ≠ m.next_page_id)
    (hne2 : (db.frame h).page_id ≠ m.next_page_id + 1) :
    ∃ n db' new_node,
      btree_split_node db h =
        some ({ new_node := some n, promoted_key := full.keys.getD 24 zero_value,
                new_page_id := some (m.next_page_id + 1) }, db') ∧
      n ≠ h ∧
      (db'.frame h).page_id = (db.frame h).page_id ∧
      (db'.frame h).data = page_data.btree_node { full with key_count := 24 } ∧
      (db'.frame n).page_id = m.next_page_id ∧
      (db'.frame n).data = page_data.btree_node new_node ∧
      new_node.is_leaf = full.is_leaf ∧ new_node.key_count = 24 ∧
      (∀ i, i < 24 → new_node.keys.getD i zero_value = full.keys.getD (25 + i) zero_value) ∧
      (full.is_leaf = true → ∀ i, i < 24 →
        new_node.tuple_page_ids.getD i 0 = full.tuple_page_ids.getD (25 + i) 0 ∧
        new_node.tuple_slots.getD i 0 = full.tuple_slots.getD (25 + i) 0) ∧
      (full.is_leaf = false → ∀ i, i ≤ 24 →
        new_node.children.getD i 0 = full.children.getD (25 + i) 0) := by
  have hu := frames_unique_of_pool_ok _ hpool
  have hc := frames_clean_of_pool_ok _ hpool
  have hlt : h < db.capacity := frame_lt_of_pinned db h hpin
  have hfreeD := two_free_frames_mark_dirty db h hpin hfree
  have hne1 : (db.frame h).page_id ≠ METADATA_PAGE_ID := by
    intro e
    have hpc := page_content_of_frame (mark_dirty db h) METADATA_PAGE_ID h hu (by decide)
      (by rw [frame_mark_dirty_same db h hlt]; exact e)
    rw [page_content_mark_dirty, hmeta, frame_mark_dirty_same db h hlt] at hpc
    have hpc2 : page_data.metadata m ss = (db.frame h).data := hpc
    rw [hdata] at hpc2
    cases hpc2
  obtain ⟨n, dbA, hallocA, hnh, hfh, hacq, hcontA⟩ :=
    storage_allocate_page_beside db h m ss hu hc (free_frame_of_two _ hfreeD) hpin hmeta hnew
      hne1 hne
  have hnA : n < dbA.capacity := by
    have := hacq.lt
    rw [capacity_mark_dirty] at this
    exact this
  have hz1 : 24 ≤ zero_node.keys.length := by decide
  have hz2 : 25 ≤ zero_node.children.length := by decide
  have hz3 : 24 ≤ zero_node.tuple_page_ids.length := by decide
  have hz4 : 24 ≤ zero_node.tuple_slots.length := by decide
  have hlay := btree_split_fill_layout full { zero_node with is_leaf := full.is_leaf } hcount rfl
    hz1 hz2 hz3 hz4
  cases hsf : btree_split_fill full { zero_node with is_leaf := full.is_leaf } with
  | mk pk rest =>
  cases rest with
  | mk f1 n1 =>
  rw [hsf] at hlay
  simp only [] at hlay
  obtain ⟨hl1, hl2, hl3, hl4, hl5, hl6, hl7⟩ := hlay
  obtain ⟨hu3, hcl3, hfree3, h3h, h3n, h3np, h3npin, hcont3⟩ :=
    split_states_ok db dbA h n m.next_page_id (page_data.btree_node f1) (page_data.btree_node n1)
      (page_data.btree_node { zero_node with is_leaf := full.is_leaf }) hacq hnew hnh hfh hpin hp0
      hne hfreeD
  simp only [] at hu3 hcl3 hfree3 h3h h3n h3np h3npin hcont3
  generalize hdb3 : set_data (set_data (mark_dirty (set_data dbA n
    (page_data.btree_node { zero_node with is_leaf := full.is_leaf })) n) n
      (page_data.btree_node n1)) h (page_data.btree_node f1) = db3
    at hu3 hcl3 hfree3 h3h h3n h3np h3npin hcont3
  have hmeta3 : page_content db3 METADATA_PAGE_ID =
      page_data.metadata { m with next_page_id := m.next_page_id + 1 } ss := by
    rw [hcont3 METADATA_PAGE_ID (by decide), if_neg (fun e => hne1 e.symm),
      if_neg (fun e => hnew1 e.symm), hcontA METADATA_PAGE_ID (by decide)
        (fun e => hnew1 e.symm), if_pos rfl]
  obtain ⟨i2, db4, halloc2, hi2h, h4h, hacq2, hcont4⟩ :=
    storage_allocate_page_beside db3 h { m with next_page_id := m.next_page_id + 1 } ss
      hu3 hcl3 hfree3 (by rw [h3h]; exact hpin) hmeta3 (Nat.succ_ne_zero _)
      (by rw [h3h]; exact hne1) (by rw [h3h]; exact hne2)
  have hi2 : (db4.frame i2).page_id = m.next_page_id + 1 := by
    rw [← frame_mark_dirty_ne db4 h i2 hi2h]
    exact hacq2.page_id
  have h4np : ((mark_dirty db4 h).frame n).page_id = m.next_page_id := by
    rw [hacq2.held n (by rw [frame_mark_dirty_ne db3 h n hnh]; exact h3npin),
      frame_mark_dirty_ne db3 h n hnh, h3np]
  have hi2n : i2 ≠ n := by
    intro e
    subst e
    rw [frame_mark_dirty_ne db4 h i2 hi2h, hi2] at h4np
    omega
  have h4nd : (db4.frame n).data = page_data.btree_node n1 := by
    rw [← frame_mark_dirty_ne db4 h n hnh,
      ← page_content_of_frame (mark_dirty db4 h) m.next_page_id n hacq2.unique hnew h4np,
      hcont4 m.next_page_id hnew (by show m.next_page_id ≠ m.next_page_id + 1; omega),
      if_neg hnew1, hcont3 m.next_page_id hnew, if_neg (fun e => hne e.symm), if_pos rfl]
  have hcreate : btree_create_node db full.is_leaf = some (some n, mark_dirty (set_data dbA n
      (page_data.btree_node { zero_node with is_leaf := full.is_leaf })) n) := by
    unfold btree_create_node
    rw [hallocA]
  have h1h : ((mark_dirty (set_data dbA n
      (page_data.btree_node { zero_node with is_leaf := full.is_leaf })) n).frame h).data =
      page_data.btree_node full := by
    rw [frame_mark_dirty_ne _ n h (fun e => hnh e.symm),
      frame_set_data_ne _ n h _ (fun e => hnh e.symm), hfh, hdata]
  have h1n : ((mark_dirty (set_data dbA n
      (page_data.btree_node { zero_node with is_leaf := full.is_leaf })) n).frame n).data =
      page_data.btree_node { zero_node with is_leaf := full.is_leaf } := by
    rw [modify_eq dbA n _ hnA, frame_set_frame_same _ _ _ hnA]
  refine ⟨n, buffer_release_page db4 i2, n1, ?_, hnh, ?_, ?_, ?_, ?_, hl3, hl4, hl5, hl6, hl7⟩
  · unfold btree_split_node
    rw [hdata]
    simp only [page_data.as_node]
    rw [hcreate]
    simp only []
    rw [h1h, h1n]
    simp only [page_data.as_node]
    rw [hsf]
    simp only []
    rw [hdb3, halloc2]
    simp only []
    rw [hi2, hl1]
  · rw [frame_release_ne db4 i2 h (fun e => hi2h e.symm), h4h, h3h]
  · rw [frame_release_ne db4 i2 h (fun e => hi2h e.symm), h4h, h3h, hl2]
  · rw [frame_release_ne db4 i2 n (fun e => hi2n e.symm), ← frame_mark_dirty_ne db4 h n hnh]
    exact h4np
  · rw [frame_release_ne db4 i2 n (fun e => hi2n e.symm)]
    exact h4nd

theorem split_ready_facts :
    (btree_load_node begun_db 2).1 = some 0 ∧
    pool_ok (mark_dirty split_ready_db 0) ∧
    (split_ready_db.frame 1).pin_count = 0 ∧ (split_ready_db.frame 2).pin_count = 0 ∧
    (split_ready_db.frame 0).pin_count = 1 ∧
    (split_ready_db.frame 0).data = page_data.btree_node split_ready_leaf ∧
    page_content split_ready_db METADATA_PAGE_ID =
      page_data.metadata { schema_count := 0, next_page_id := 3 }
        (List.replicate 9 zero_schema) ∧
    (split_ready_db.frame 0).page_id = 2 ∧ split_ready_db.capacity = 256 := by
  decide!

/-- Witness of C31: the root leaf of table `t`, pinned and holding the keys 1 .. 49, is split;
the promoted key is 25. -/
theorem c31_split_layout_witness :
    split_ready_leaf.key_count = BTREE_ORDER ∧
    split_ready_leaf.keys.getD 24 zero_value = int_value 25 ∧
    ∃ n db' new_node,
      btree_split_node split_ready_db 0 =
        some ({ new_node := some n, promoted_key := split_ready_leaf.keys.getD 24 zero_value,
                new_page_id := some (3 + 1) }, db') ∧
      n ≠ 0 ∧
      (db'.frame 0).page_id = (split_ready_db.frame 0).page_id ∧
      (db'.frame 0).data = page_data.btree_node { split_ready_leaf with key_count := 24 } ∧
      (db'.frame n).page_id = 3 ∧
      (db'.frame n).data = page_data.btree_node new_node ∧
      new_node.is_leaf = split_ready_leaf.is_leaf ∧ new_node.key_count = 24 ∧
      (∀ i, i < 24 → new_node.keys.getD i zero_value =
        split_ready_leaf.keys.getD (25 + i) zero_value) ∧
      (split_ready_leaf.is_leaf = true → ∀ i, i < 24 →
        new_node.tuple_page_ids.getD i 0 = split_ready_leaf.tuple_page_ids.getD (25 + i) 0 ∧
        new_node.tuple_slots.getD i 0 = split_ready_leaf.tuple_slots.getD (25 + i) 0) ∧
      (split_ready_leaf.is_leaf = false → ∀ i, i ≤ 24 →
        new_node.children.getD i 0 = split_ready_leaf.children.getD (25 + i) 0) := by
  obtain ⟨_, hpool, h1, h2, h0, hdata, hmeta, hpid, hcap⟩ := split_ready_facts
  exact ⟨rfl, by decide!, c31_split_layout split_ready_db 0 split_ready_leaf
    { schema_count := 0, next_page_id := 3 } (List.replicate 9 zero_schema) hpool
    ⟨1, 2, by decide, by rw [hcap]; decide, by rw [hcap]; decide, h1, h2⟩
    (by rw [h0]; decide) hdata rfl hmeta (by decide) (by decide)
    (by rw [hpid]; decide) (by rw [hpid]; decide) (by rw [hpid]; decide)⟩

/-- C32 at a failing input: the ids 1 to 49 inserted in ascending order, the 49th going to
position 48 of the full root leaf. On the usual layout `keys[48]` starts at the byte where
`tuple_page_ids[0]` starts and ends where `tuple_page_ids[9]` starts, while
`tuple_page_ids[48]` starts where `tuple_slots[0]` starts. After the inserts the new root, on
page 55, has the key 25 and the children 2 and 53; the search from it does not find 25. With
the cells 48 kept apart from the union, as here, the search finds id 1 at (3, 0) and id 26 at
(28, 0). -/
theorem c32_split_insert_overlaps_left_locations :
    keys_offset 48 = tuple_page_ids_offset 0 ∧
      keys_offset 48 + 72 = tuple_page_ids_offset 9 ∧
      tuple_page_ids_offset 48 = tuple_slots_offset 0 ∧
      s2_split_node 55 = some (false, 1, 25, 2, 53) ∧
      s2_search_from 55 25 = some none ∧
      s2_search_from 55 1 = some (some (3, 0)) ∧
      s2_search_from 55 26 = some (some (28, 0)) := by
  decide!

theorem run_calls_cons (c : txn_call) (cs : List txn_call) (db : database_t) :
    (run_calls (c :: cs) db).2 = (run_calls cs (run_calls [c] db).2).2 := by
  cases c <;> simp only [run_calls]

theorem run_calls_append (pre post : List txn_call) (db : database_t) :
    (run_calls (pre ++ post) db).2 = (run_calls post (run_calls pre db).2).2 := by
  induction pre generalizing db with
  | nil => rfl
  | cons c cs ih =>
    rw [List.cons_append, run_calls_cons, ih, ← run_calls_cons]

theorem next_id_step (c : txn_call) (db : database_t) (hb : next_id db + 1 < 2 ^ 64) :
    next_id (run_calls [c] db).2 ≤ next_id db + 1 := by
  cases c with
  | call_begin now =>
    simp only [run_calls]
    rcases txn_begin_next_id db now with ⟨_, h⟩ | ⟨_, h⟩
    · rw [h]
      omega
    · rw [h, Nat.mod_eq_of_lt hb]
  | call_commit t =>
    simp only [run_calls]
    unfold txn_commit
    rw [txn_finish_next_id]
    omega
  | call_abort t =>
    simp only [run_calls]
    unfold txn_abort
    rw [txn_finish_next_id]
    omega

/-- A property kept by every call whose `txn_begin` does not wrap the counter is kept by
every run that does not wrap it. -/
theorem run_calls_invariant (Q : database_t → Prop)
    (hstep : ∀ c db, Q db → next_id db + 1 < 2 ^ 64 → Q (run_calls [c] db).2)
    (calls : List txn_call) (db : database_t) (hq : Q db)
    (hb : next_id db + calls.length < 2 ^ 64) :
    Q (run_calls calls db).2 ∧ next_id (run_calls calls db).2 ≤ next_id db + calls.length := by
  induction calls generalizing db with
  | nil => exact ⟨hq, Nat.le_refl _⟩
  | cons c cs ih =>
    simp only [List.length_cons] at hb ⊢
    have h1 := next_id_step c db (by omega)
    obtain ⟨h2, h3⟩ := ih (run_calls [c] db).2 (hstep c db hq (by omega)) (by omega)
    rw [run_calls_cons]
    exact ⟨h2, by omega⟩

/-- What one call does to the manager: nothing, or the slot write of `txn_begin` on a slot
that is not Active, or the state write of `txn_commit` or `txn_abort` on an Active slot. -/
theorem call_step (c : txn_call) (db : database_t) :
    (run_calls [c] db).2.txn_manager = db.txn_manager ∨
    (db.txn_manager = none ∧ ∃ slot now, slot < txn_manager_create.transactions.length ∧
      ((run_calls [c] db).2.txn_manager = some txn_manager_create ∨
      (run_calls [c] db).2.txn_manager =
        some (manager_after_begin txn_manager_create slot now))) ∨
    (∃ manager slot now, db.txn_manager = some manager ∧
      slot < manager.transactions.length ∧
      (run_calls [c] db).2.txn_manager = some (manager_after_begin manager slot now)) ∨
    (∃ manager slot final, db.txn_manager = some manager ∧
      slot < manager.transactions.length ∧
      (manager.transactions.getD slot free_slot).state = transaction_state_t.TXN_STATE_ACTIVE ∧
      final ≠ transaction_state_t.TXN_STATE_ACTIVE ∧
      (run_calls [c] db).2.txn_manager = some (manager_after_finish manager slot final)) := by
  have hfin : ∀ txn_id final, final ≠ transaction_state_t.TXN_STATE_ACTIVE →
      (txn_finish db txn_id final).2.txn_manager = db.txn_manager ∨
      (∃ manager slot, db.txn_manager = some manager ∧
        slot < manager.transactions.length ∧
        (manager.transactions.getD slot free_slot).state =
          transaction_state_t.TXN_STATE_ACTIVE ∧
        final ≠ transaction_state_t.TXN_STATE_ACTIVE ∧
        (txn_finish db txn_id final).2.txn_manager =
          some (manager_after_finish manager slot final)) := by
    intro txn_id final hfinal
    cases hm : db.txn_manager with
    | none =>
      left
      unfold txn_finish
      simp only [hm]
    | some manager =>
      cases hi : find_transaction_idx txn_id manager.transactions with
      | none =>
        left
        rw [txn_finish_none db manager txn_id final hm hi, hm]
      | some i =>
        by_cases hs : (manager.transactions.getD i free_slot).state =
            transaction_state_t.TXN_STATE_ACTIVE
        · right
          rw [txn_finish_active db manager txn_id i final hm hi hs]
          exact ⟨manager, i, rfl, (find_transaction_idx_some _ _ _ hi).1, hs, hfinal, rfl⟩
        · left
          rw [txn_finish_not_active db manager txn_id i final hm hi hs, hm]
  cases c with
  | call_begin now =>
    simp only [run_calls]
    cases hm : db.txn_manager with
    | none =>
      right; left
      refine ⟨rfl, ?_⟩
      unfold txn_begin
      simp only [hm]
      cases hf : find_free_slot txn_manager_create.transactions with
      | none =>
        exact ⟨0, now, by
          rw [show txn_manager_create.transactions.length = MAX_TRANSACTIONS from
            List.length_replicate _ _]
          decide, Or.inl rfl⟩
      | some slot =>
        exact ⟨slot, now, (find_free_slot_some _ _ hf).1, Or.inr rfl⟩
    | some manager =>
      cases hf : find_free_slot manager.transactions with
      | none =>
        left
        rw [txn_begin_full db manager now hm hf, hm]
      | some slot =>
        right; right; left
        rw [txn_begin_slot db manager now slot hm hf]
        exact ⟨manager, slot, now, rfl, (find_free_slot_some _ _ hf).1, rfl⟩
  | call_commit t =>
    simp only [run_calls]
    unfold txn_commit
    rcases hfin t transaction_state_t.TXN_STATE_COMMITTED (by decide) with h | ⟨m, sl, h⟩
    · exact Or.inl h
    · exact Or.inr (Or.inr (Or.inr ⟨m, sl, _, h⟩))
  | call_abort t =>
    simp only [run_calls]
    unfold txn_abort
    rcases hfin t transaction_state_t.TXN_STATE_ABORTED (by decide) with h | ⟨m, sl, h⟩
    · exact Or.inl h
    · exact Or.inr (Or.inr (Or.inr ⟨m, sl, _, h⟩))

theorem manager_ok_step (c : txn_call) (db : database_t) (h : manager_ok db)
    (hb : next_id db + 1 < 2 ^ 64) : manager_ok (run_calls [c] db).2 := by
  rcases call_step c db with h1 | ⟨_, slot, now, hslot, h1 | h1⟩ |
    ⟨manager, slot, now, hm, hslot, h1⟩ | ⟨manager, slot, final, hm, hslot, _, hfinal, h1⟩
  · intro m hm
    rw [h1] at hm
    exact h m hm
  · intro m hm
    rw [h1] at hm
    cases hm
    exact manager_wf_create
  · intro m hm
    rw [h1] at hm
    cases hm
    exact manager_wf_begin _ slot now manager_wf_create hslot (by decide)
  · intro m hm'
    rw [h1] at hm'
    cases hm'
    have hn : next_id db = manager.next_txn_id := by
      unfold next_id
      rw [hm]
    exact manager_wf_begin _ slot now (h manager hm) hslot (by omega)
  · intro m hm'
    rw [h1] at hm'
    cases hm'
    exact manager_wf_finish _ slot final (h manager hm) hslot hfinal

theorem settled_step (txn_id : Nat) (st : transaction_state_t)
    (hst : st ≠ transaction_state_t.TXN_STATE_ACTIVE) (c : txn_call) (db : database_t)
    (h : settled db txn_id st) (hb : next_id db + 1 < 2 ^ 64) :
    settled (run_calls [c] db).2 txn_id st := by
  obtain ⟨m, hm, hlt, hall⟩ := h
  have hn : next_id db = m.next_txn_id := by
    unfold next_id
    rw [hm]
  rcases call_step c db with h1 | ⟨hnone, _⟩ |
    ⟨manager, slot, now, hm', hslot, h1⟩ | ⟨manager, slot, final, hm', hslot, hact, hfinal, h1⟩
  · exact ⟨m, by rw [h1, hm], hlt, hall⟩
  · rw [hm] at hnone
    cases hnone
  · rw [hm] at hm'
    cases hm'
    refine ⟨_, h1, ?_, ?_⟩
    · show txn_id < (m.next_txn_id + 1) % 2 ^ 64
      rw [Nat.mod_eq_of_lt (by omega)]
      omega
    · intro t ht hid
      rcases List.mem_or_eq_of_mem_set ht with h2 | h2
      · exact hall t h2 hid
      · rw [h2] at hid
        simp only [] at hid
        omega
  · rw [hm] at hm'
    cases hm'
    refine ⟨_, h1, hlt, ?_⟩
    intro t ht hid
    rcases List.mem_or_eq_of_mem_set ht with h2 | h2
    · exact hall t h2 hid
    · rw [h2] at hid
      simp only [] at hid
      have := hall _ (getD_mem m.transactions slot free_slot hslot) hid
      rw [hact] at this
      exact absurd this.symm hst

theorem settled_of_recorded (db : database_t) (txn_id : Nat) (st : transaction_state_t)
    (hok : manager_ok db) (hid : txn_id ≠ 0) (h : recorded db txn_id st) :
    settled db txn_id st := by
  unfold recorded at h
  cases hm : db.txn_manager with
  | none =>
    rw [hm] at h
    exact absurd h id
  | some m =>
    rw [hm] at h
    simp only [] at h
    obtain ⟨t, ht, htid, hts⟩ := h
    obtain ⟨_, hbelow, _, huniq⟩ := hok m hm
    obtain ⟨i, hi, hei⟩ := mem_getD m.transactions free_slot t ht
    refine ⟨m, hm, ?_, ?_⟩
    · have := hbelow i hi
      rw [hei, htid] at this
      exact this
    · intro u hu huid
      obtain ⟨j, hj, hej⟩ := mem_getD m.transactions free_slot u hu
      have hsame : i = j := by
        by_contra hne
        rcases Nat.lt_or_gt_of_ne hne with hlt | hgt
        · have := huniq i j hlt hj (by rw [hei, hej, htid, huid])
          rw [hei, htid] at this
          exact hid this
        · have := huniq j i hgt hi (by rw [hei, hej, htid, huid])
          rw [hej, huid] at this
          exact hid this
      subst hsame
      rw [← hej, hei]
      exact hts

theorem recorded_of_settled (db : database_t) (txn_id : Nat) (st s : transaction_state_t)
    (h : settled db txn_id st) (hr : recorded db txn_id s) : s = st := by
  obtain ⟨m, hm, _, hall⟩ := h
  unfold recorded at hr
  rw [hm] at hr
  simp only [] at hr
  obtain ⟨t, ht, htid, hts⟩ := hr
  rw [← hts]
  exact hall t ht htid

/-- A transaction id recorded in a terminal state keeps that state in every later record of
the id. -/
theorem terminal_stays (db : database_t) (pre post : List txn_call) (txn_id : Nat)
    (st s : transaction_state_t) (hok : manager_ok db) (hid : txn_id ≠ 0)
    (hb : next_id db + (pre ++ post).length < 2 ^ 64)
    (hst : st ≠ transaction_state_t.TXN_STATE_ACTIVE)
    (h1 : recorded (run_calls pre db).2 txn_id st)
    (h2 : recorded (run_calls (pre ++ post) db).2 txn_id s) : s = st := by
  rw [List.length_append] at hb
  obtain ⟨hok1, hn1⟩ := run_calls_invariant manager_ok manager_ok_step pre db hok (by omega)
  have hs1 := settled_of_recorded _ txn_id st hok1 hid h1
  obtain ⟨hs2, _⟩ := run_calls_invariant (fun d => settled d txn_id st)
    (settled_step txn_id st hst) post _ hs1 (by omega)
  rw [run_calls_append] at h2
  exact recorded_of_settled _ txn_id st s hs2 h2

/-- C35: over a run of `txn_begin`, `txn_commit` and `txn_abort` calls that does not wrap the
counter, started with no manager or a well-formed one, let the id `txn_id` (not 0) be recorded
in state `s` after the calls `pre` and in state `s'` after the further calls `post`. If the
states differ, `s` is Active and `s'` is Committed or Aborted; a Committed id is not later
recorded as Aborted or Active, an Aborted id not as Committed or Active. -/
theorem c35_terminal_transaction_states (db : database_t) (pre post : List txn_call)
    (txn_id : Nat) (s s' : transaction_state_t) (hok : manager_ok db) (hid : txn_id ≠ 0)
    (hb : next_id db + (pre ++ post).length < 2 ^ 64)
    (h1 : recorded (run_calls pre db).2 txn_id s)
    (h2 : recorded (run_calls (pre ++ post) db).2 txn_id s') :
    (s ≠ s' → s = transaction_state_t.TXN_STATE_ACTIVE ∧
      (s' = transaction_state_t.TXN_STATE_COMMITTED ∨
        s' = transaction_state_t.TXN_STATE_ABORTED)) ∧
    (s = transaction_state_t.TXN_STATE_COMMITTED →
      s' ≠ transaction_state_t.TXN_STATE_ABORTED ∧ s' ≠ transaction_state_t.TXN_STATE_ACTIVE) ∧
    (s = transaction_state_t.TXN_STATE_ABORTED →
      s' ≠ transaction_state_t.TXN_STATE_COMMITTED ∧
        s' ≠ transaction_state_t.TXN_STATE_ACTIVE) := by
  have hkeep : s ≠ transaction_state_t.TXN_STATE_ACTIVE → s' = s := fun hs =>
    terminal_stays db pre post txn_id s s' hok hid hb hs h1 h2
  refine ⟨?_, ?_, ?_⟩
  · intro hne
    have hs : s = transaction_state_t.TXN_STATE_ACTIVE := by
      by_contra hs
      exact hne (hkeep hs).symm
    refine ⟨hs, ?_⟩
    rw [hs] at hne
    cases s' with
    | TXN_STATE_ACTIVE => exact absurd rfl hne
    | TXN_STATE_COMMITTED => exact Or.inl rfl
    | TXN_STATE_ABORTED => exact Or.inr rfl
  · intro hs
    rw [hkeep (by rw [hs]; decide), hs]
    exact ⟨by decide, by decide⟩
  · intro hs
    rw [hkeep (by rw [hs]; decide), hs]
    exact ⟨by decide, by decide⟩

theorem c35_terminal_transaction_states_witness :
    recorded (run_calls two_begun_one_committed (db_create [])).2 1
      transaction_state_t.TXN_STATE_ACTIVE ∧
    recorded (run_calls (two_begun_one_committed ++ later_finish_calls) (db_create [])).2 1
      transaction_state_t.TXN_STATE_ABORTED ∧
    ((transaction_state_t.TXN_STATE_ACTIVE ≠ transaction_state_t.TXN_STATE_ABORTED →
      transaction_state_t.TXN_STATE_ACTIVE = transaction_state_t.TXN_STATE_ACTIVE ∧
      (transaction_state_t.TXN_STATE_ABORTED = transaction_state_t.TXN_STATE_COMMITTED ∨
        transaction_state_t.TXN_STATE_ABORTED = transaction_state_t.TXN_STATE_ABORTED)) ∧
    (transaction_state_t.TXN_STATE_ACTIVE = transaction_state_t.TXN_STATE_COMMITTED →
      transaction_state_t.TXN_STATE_ABORTED ≠ transaction_state_t.TXN_STATE_ABORTED ∧
        transaction_state_t.TXN_STATE_ABORTED ≠ transaction_state_t.TXN_STATE_ACTIVE) ∧
    (transaction_state_t.TXN_STATE_ACTIVE = transaction_state_t.TXN_STATE_ABORTED →
      transaction_state_t.TXN_STATE_ABORTED ≠ transaction_state_t.TXN_STATE_COMMITTED ∧
        transaction_state_t.TXN_STATE_ABORTED ≠ transaction_state_t.TXN_STATE_ACTIVE)) :=
  have h1 : recorded (run_calls two_begun_one_committed (db_create [])).2 1
      transaction_state_t.TXN_STATE_ACTIVE := by decide!
  have h2 : recorded (run_calls (two_begun_one_committed ++ later_finish_calls)
      (db_create [])).2 1 transaction_state_t.TXN_STATE_ABORTED := by decide!
  ⟨h1, h2, c35_terminal_transaction_states (db_create []) two_begun_one_committed
    later_finish_calls 1 transaction_state_t.TXN_STATE_ACTIVE
    transaction_state_t.TXN_STATE_ABORTED (fun _ hm => by cases hm) (by decide)
    (by decide) h1 h2⟩

/-- The function `tuple_delete` on a table whose root is a leaf, for a key the leaf does not hold:
the call returns -1 and no page content changes. -/
theorem tuple_delete_leaf_absent (fuel : Nat) (db : database_t) (name : List Nat)
    (key : value_t) (txn_id si : Nat) (node : btree_node_t)
    (hu : frames_unique db) (hc : frames_clean db) (hfree : free_frame db)
    (hs : find_table_schema db name = some si)
    (hroot : (db.schema si).root_page_id ≠ 0)
    (hnode : page_content db (db.schema si).root_page_id = page_data.btree_node node)
    (hleaf : node.is_leaf = true)
    (hlook : leaf_lookup node key = none) :
    ∃ db1, tuple_delete (fuel + 1) db name key txn_id = some (-1, db1) ∧ balanced db db1 ∧
      ∀ q, q ≠ 0 → page_content db1 q = page_content db q := by
  obtain ⟨da, hsearch, hbala, hconta⟩ :=
    btree_search_leaf_spec fuel db _ key node hroot hu hc (Or.inr hfree) hnode hleaf
  refine ⟨da, ?_, hbala, hconta⟩
  unfold tuple_delete
  rw [hs]
  simp only []
  rw [hsearch, hlook]

/-- The function `tuple_delete` on a table whose root is a leaf, for a key the leaf maps to a
slot of a heap page: the call returns 0 when the row is visible to the transaction, and then
the slot holds the row with `xmax` set to the transaction; else it returns -1; no other
page content changes. -/
theorem tuple_delete_leaf_spec (fuel : Nat) (db : database_t) (name : List Nat)
    (key : value_t) (txn_id si : Nat) (node : btree_node_t) (tp sl c : Nat) (tl : List tuple_t)
    (m : transaction_manager_t)
    (hu : frames_unique db) (hc : frames_clean db) (hfree : free_frame db)
    (hs : find_table_schema db name = some si)
    (hroot : (db.schema si).root_page_id ≠ 0)
    (hnode : page_content db (db.schema si).root_page_id = page_data.btree_node node)
    (hleaf : node.is_leaf = true)
    (hlook : leaf_lookup node key = some (tp, sl)) (htp : tp ≠ 0)
    (hheap : (page_content db tp).as_heap = some (c, tl))
    (hslot : slot_as_int sl < (c : Int))
    (hm : db.txn_manager = some m) :
    ∃ db1, tuple_delete (fuel + 1) db name key txn_id =
        some (if mvcc_is_visible (tl.getD sl zero_tuple).header txn_id m = true then 0 else -1,
          db1) ∧
      balanced db db1 ∧
      ∀ q, q ≠ 0 → page_content db1 q =
        if mvcc_is_visible (tl.getD sl zero_tuple).header txn_id m = true ∧ q = tp then
          page_data.heap c (tl.set sl
            { tl.getD sl zero_tuple with
              header := mvcc_mark_deleted (tl.getD sl zero_tuple).header txn_id })
        else page_content db q := by
  obtain ⟨da, hsearch, hbala, hconta⟩ :=
    btree_search_leaf_spec fuel db _ key node hroot hu hc (Or.inr hfree) hnode hleaf
  have hfa := free_frame_of_balanced hbala hfree
  obtain ⟨dbb, hload, hbalb, hcontb⟩ :=
    load_tuple_from_page_spec da tp sl c tl htp hbala.unique hbala.clean (Or.inr hfa)
      (by rw [hconta tp htp]; exact hheap)
  rw [if_neg (by omega)] at hload
  have hbalab := balanced_trans hbala hbalb
  have hmb : dbb.txn_manager = some m := by rw [hbalb.env.txn, hbala.env.txn, hm]
  by_cases hv : mvcc_is_visible (tl.getD sl zero_tuple).header txn_id m = true
  · obtain ⟨i, dbc, hget, hlt, hpid, hdata, hpin, _, hf⟩ :=
      get_then_set dbb tp htp hbalab.unique hbalab.clean
        (Or.inr (free_frame_of_balanced hbalab hfree))
    have hcb : page_content dbb tp = page_content db tp := by
      rw [hcontb tp htp, hconta tp htp]
    obtain ⟨hbal, hcont⟩ := hf (page_t.mk (dbc.frame i).page_id
      (page_data.heap c (tl.set sl
        { tl.getD sl zero_tuple with
          header := mvcc_mark_deleted (tl.getD sl zero_tuple).header txn_id })) true
      ((dbc.frame i).pin_count - 1)) hpid (by simp [hpin]) (Or.inl rfl)
    have hfr := frame_set_frame_same dbc i (page_t.mk (dbc.frame i).page_id
      (page_data.heap c (tl.set sl
        { tl.getD sl zero_tuple with
          header := mvcc_mark_deleted (tl.getD sl zero_tuple).header txn_id })) true
      ((dbc.frame i).pin_count - 1)) hlt
    obtain ⟨hbal2, hcont2⟩ := balanced_write_page hbal i tp htp (by rw [hfr]; exact hpid)
    rw [hfr] at hbal2 hcont2
    refine ⟨_, ?_, balanced_trans hbalab hbal2, ?_⟩
    · unfold tuple_delete
      rw [hs]
      simp only []
      rw [hsearch, hlook]
      simp only []
      rw [hload]
      simp only []
      rw [hmb]
      simp only []
      rw [if_pos hv, if_pos hv, hget]
      simp only []
      rw [hdata, hcb, hheap]
      simp only []
      rw [modify_write_release_eq dbc i tp _ hlt (by omega)]
    · intro q hq
      rw [hcont2 q hq, hcont q hq]
      by_cases hqtp : q = tp
      · rw [if_pos hqtp, if_pos ⟨hv, hqtp⟩]
      · rw [if_neg hqtp, if_neg (fun h => hqtp h.2), hcontb q hq, hconta q hq]
  · refine ⟨dbb, ?_, hbalab, ?_⟩
    · unfold tuple_delete
      rw [hs]
      simp only []
      rw [hsearch, hlook]
      simp only []
      rw [hload]
      simp only []
      rw [hmb]
      simp only []
      rw [if_neg hv, if_neg hv]
    · intro q hq
      rw [if_neg (fun h => hv h.1), hcontb q hq, hconta q hq]

/-- C36: `tuple_delete` of key `key` by transaction `txn_id` on a table whose root is a leaf,
where the index entries of `key` point to slots in use of heap pages. The call returns 0 or -1 and
leaves the catalog and the transaction manager as they were. When it returns 0, the key is in
the index with a row visible to the transaction, the row's record differs from before only
in `xmax`, which is `txn_id`, the heap page keeps its `tuple_count` and other records, and the
content of every other page, the root leaf included, is unchanged. When the key is not in the
index the call returns -1; when it is, the call returns 0 exactly when the row is visible to
the transaction, else -1; when it returns -1 no page content changes. -/
theorem c36_tuple_delete_frame_effect (fuel : Nat) (db : database_t) (name : List Nat)
    (key : value_t) (txn_id si : Nat) (node : btree_node_t) (m : transaction_manager_t)
    (hpool : pool_ok db) (hfree : free_frame db)
    (hs : find_table_schema db name = some si)
    (hroot : (db.schema si).root_page_id ≠ 0)
    (hnode : page_content db (db.schema si).root_page_id = page_data.btree_node node)
    (hleaf : node.is_leaf = true)
    (hm : db.txn_manager = some m)
    (hrows : ∀ tp sl, leaf_lookup node key = some (tp, sl) →
      tp ≠ 0 ∧ ∃ c tl, (page_content db tp).as_heap = some (c, tl) ∧
        slot_as_int sl < (c : Int) ∧ sl < tl.length) :
    ∃ r db1, tuple_delete (fuel + 1) db name key txn_id = some (r, db1) ∧
      (r = 0 ∨ r = -1) ∧
      db1.schemas = db.schemas ∧ db1.schema_count = db.schema_count ∧
      db1.txn_manager = db.txn_manager ∧
      (r = 0 → ∃ tp sl c tl, leaf_lookup node key = some (tp, sl) ∧
        (page_content db tp).as_heap = some (c, tl) ∧
        mvcc_is_visible (tl.getD sl zero_tuple).header txn_id m = true ∧
        page_content db1 tp = page_data.heap c (tl.set sl
          { tl.getD sl zero_tuple with
            header := { (tl.getD sl zero_tuple).header with xmax := txn_id } }) ∧
        page_content db1 (db.schema si).root_page_id = page_data.btree_node node ∧
        ∀ q, q ≠ 0 → q ≠ tp → page_content db1 q = page_content db q) ∧
      (leaf_lookup node key = none → r = -1) ∧
      (∀ tp sl c tl, leaf_lookup node key = some (tp, sl) →
        (page_content db tp).as_heap = some (c, tl) →
        (r = 0 ↔ mvcc_is_visible (tl.getD sl zero_tuple).header txn_id m = true)) ∧
      (r = -1 → ∀ q, q ≠ 0 → page_content db1 q = page_content db q) := by
  have hu := frames_unique_of_pool_ok db hpool
  have hc := frames_clean_of_pool_ok db hpool
  cases hlook : leaf_lookup node key with
  | none =>
    obtain ⟨db1, hdel, hbal, hcont⟩ := tuple_delete_leaf_absent fuel db name key txn_id si node
      hu hc hfree hs hroot hnode hleaf hlook
    refine ⟨-1, db1, hdel, Or.inr rfl, hbal.env.schemas, hbal.env.schema_count, hbal.env.txn,
      fun h => absurd h (by decide), fun _ => rfl, fun tp sl c tl h => (by cases h),
      fun _ => hcont⟩
  | some loc =>
    obtain ⟨tp, sl⟩ := loc
    obtain ⟨htp, c, tl, hheap, hslot, _⟩ := hrows tp sl hlook
    obtain ⟨db1, hdel, hbal, hcont⟩ := tuple_delete_leaf_spec fuel db name key txn_id si node
      tp sl c tl m hu hc hfree hs hroot hnode hleaf hlook htp hheap hslot hm
    have hrtp : (db.schema si).root_page_id ≠ tp := by
      intro e
      rw [← e, hnode] at hheap
      cases hheap
    by_cases hv : mvcc_is_visible (tl.getD sl zero_tuple).header txn_id m = true
    · rw [if_pos hv] at hdel
      refine ⟨0, db1, hdel, Or.inl rfl, hbal.env.schemas, hbal.env.schema_count, hbal.env.txn,
        fun _ => ⟨tp, sl, c, tl, rfl, hheap, hv, ?_, ?_, ?_⟩, fun h => (by cases h), ?_,
        fun h => absurd h (by decide)⟩
      · rw [hcont tp htp, if_pos ⟨hv, rfl⟩]
        rfl
      · rw [hcont _ hroot, if_neg (fun h => hrtp h.2), hnode]
      · intro q hq hqtp
        rw [hcont q hq, if_neg (fun h => hqtp h.2)]
      · intro tp2 sl2 c2 tl2 h2 hh2
        simp only [Option.some.injEq, Prod.mk.injEq] at h2
        obtain ⟨e1, e2⟩ := h2
        subst e1
        subst e2
        rw [hheap] at hh2
        simp only [Option.some.injEq, Prod.mk.injEq] at hh2
        obtain ⟨_, e4⟩ := hh2
        subst e4
        exact ⟨fun _ => hv, fun _ => rfl⟩
    · rw [if_neg hv] at hdel
      refine ⟨-1, db1, hdel, Or.inr rfl, hbal.env.schemas, hbal.env.schema_count, hbal.env.txn,
        fun h => absurd h (by decide), fun h => (by cases h), ?_, ?_⟩
      · intro tp2 sl2 c2 tl2 h2 hh2
        simp only [Option.some.injEq, Prod.mk.injEq] at h2
        obtain ⟨e1, e2⟩ := h2
        subst e1
        subst e2
        rw [hheap] at hh2
        simp only [Option.some.injEq, Prod.mk.injEq] at hh2
        obtain ⟨_, e4⟩ := hh2
        subst e4
        exact ⟨fun h => absurd h (by decide), fun h => absurd h hv⟩
      · intro _ q hq
        rw [hcont q hq, if_neg (fun h => hv h.1)]

theorem some_getD {α : Type} (o : Option α) (d : α) (h : o.isSome = true) :
    o = some (o.getD d) := by
  cases o with
  | none => cases h
  | some a => rfl

/-- Witness of C36: transaction 1 has inserted id 1 and deletes it. -/
theorem c36_tuple_delete_frame_effect_witness :
    ∃ db1, tuple_delete 1 inserted_db t_name (int_value 1) 1 = some (0, db1) ∧
      db1.txn_manager = inserted_db.txn_manager ∧
      page_content db1 3 = page_data.heap inserted_heap.1 (inserted_heap.2.set 0
        { inserted_heap.2.getD 0 zero_tuple with
          header := { (inserted_heap.2.getD 0 zero_tuple).header with xmax := 1 } }) ∧
      page_content db1 2 = page_data.btree_node one_key_leaf := by
  have hl : leaf_lookup one_key_leaf (int_value 1) = some (3, 0) := by decide!
  have hsome : ((page_content inserted_db 3).as_heap).isSome = true := by decide!
  have hheap0 : (page_content inserted_db 3).as_heap = some inserted_heap :=
    some_getD ((page_content inserted_db 3).as_heap) (0, []) hsome
  have hheap : (page_content inserted_db 3).as_heap =
      some (inserted_heap.1, inserted_heap.2) := by
    rw [Prod.mk.eta]
    exact hheap0
  have hvis : mvcc_is_visible (inserted_heap.2.getD 0 zero_tuple).header 1 inserted_manager =
      true := by decide!
  have hroot2 : (inserted_db.schema 0).root_page_id = 2 := by decide!
  set_option maxRecDepth 8192 in
  obtain ⟨r, db1, hdel, _, _, _, htxn, hzero, _, hiff, _⟩ :=
    c36_tuple_delete_frame_effect 0 inserted_db t_name (int_value 1) 1 0 one_key_leaf
      inserted_manager (by decide!) ⟨0, by decide!⟩ inserted_db_leaf_table.schema
      inserted_db_leaf_table.root_ne inserted_db_leaf_table.root inserted_db_leaf_table.leaf
      (some_getD inserted_db.txn_manager txn_manager_create (by decide!))
      (fun tp sl h => by
        rw [hl] at h
        cases h
        exact ⟨by decide, inserted_heap.1, inserted_heap.2, hheap, by decide!, by decide!⟩)
  have hr : r = 0 := (hiff 3 0 _ _ hl hheap).mpr hvis
  subst hr
  obtain ⟨tp, sl, c, tl, hl2, hh2, _, hpage, hnode, _⟩ := hzero rfl
  rw [hl] at hl2
  cases hl2
  rw [hheap] at hh2
  cases hh2
  rw [hroot2] at hnode
  exact ⟨db1, hdel, htxn, hpage, hnode⟩

theorem same_storage_refl (db : database_t) : same_storage db db := ⟨rfl, rfl, rfl, rfl⟩

theorem same_storage_trans {a b c : database_t} (h1 : same_storage a b)
    (h2 : same_storage b c) : same_storage a c :=
  ⟨h2.file.trans h1.file, h2.pool.trans h1.pool, h2.schemas.trans h1.schemas,
    h2.schema_count.trans h1.schema_count⟩

theorem txn_finish_same_storage (db : database_t) (txn_id : Nat)
    (final : transaction_state_t) : same_storage db (txn_finish db txn_id final).2 := by
  unfold txn_finish
  cases db.txn_manager with
  | none => exact same_storage_refl db
  | some manager =>
    simp only []
    cases find_transaction_idx txn_id manager.transactions with
    | none => exact same_storage_refl db
    | some i =>
      simp only []
      split
      · exact same_storage_refl db
      · exact ⟨rfl, rfl, rfl, rfl⟩

theorem run_calls_same_storage (calls : List txn_call) (db : database_t) :
    same_storage db (run_calls calls db).2 := by
  induction calls generalizing db with
  | nil => exact same_storage_refl db
  | cons c cs ih =>
    cases c with
    | call_begin now =>
      simp only [run_calls]
      exact same_storage_trans (txn_begin_same_storage db now) (ih _)
    | call_commit t =>
      simp only [run_calls]
      exact same_storage_trans (txn_finish_same_storage db t _) (ih _)
    | call_abort t =>
      simp only [run_calls]
      exact same_storage_trans (txn_finish_same_storage db t _) (ih _)

/-- A row stamped with `xmax = deleter`, in a table whose root is a leaf, is not handed out by
`tuple_select` to a transaction with a greater id when every slot that holds the deleter's id
is Committed (in particular when no slot holds it). -/
theorem stamped_row_not_selected (fuel : Nat) (db : database_t) (name : List Nat)
    (key : value_t) (deleter viewer si : Nat) (node : btree_node_t) (tp sl c : Nat)
    (tl : List tuple_t) (m : transaction_manager_t)
    (hu : frames_unique db) (hc : frames_clean db) (hfree : free_frame db)
    (hs : find_table_schema db name = some si)
    (hroot : (db.schema si).root_page_id ≠ 0)
    (hnode : page_content db (db.schema si).root_page_id = page_data.btree_node node)
    (hleaf : node.is_leaf = true)
    (hlook : leaf_lookup node key = some (tp, sl)) (htp : tp ≠ 0)
    (hheap : (page_content db tp).as_heap = some (c, tl))
    (hslot : slot_as_int sl < (c : Int))
    (hm : db.txn_manager = some m)
    (hx : (tl.getD sl zero_tuple).header.xmax = deleter) (hid : deleter ≠ 0)
    (hlater : deleter < viewer)
    (hset : ∀ t ∈ m.transactions, t.txn_id = deleter →
      t.state = transaction_state_t.TXN_STATE_COMMITTED) :
    ∃ db', tuple_select (fuel + 1) db name (some key) viewer =
      some ({ ret := 0, count := 0, results := none }, db') := by
  obtain ⟨db', hsel, _, _⟩ := tuple_select_found fuel db name key viewer si node tp sl c tl m
    hu hc hfree hs hroot hnode hleaf hlook htp hheap hslot hm
  have hinv : mvcc_is_visible (tl.getD sl zero_tuple).header viewer m = false := by
    apply mvcc_invisible_deleted _ _ _ (by rw [hx]; exact hid) (by rw [hx]; exact hlater)
    intro t ht
    rw [hx] at ht
    have hid2 := find_transaction_txn_id m deleter t ht
    unfold find_transaction at ht
    exact hset t (List.mem_of_find?_eq_some ht) hid2
  refine ⟨db', ?_⟩
  rw [hsel, hinv]
  simp

/-- A successful `txn_commit` or `txn_abort`: the slot found held the id in state Active. -/
theorem txn_finish_zero (db db' : database_t) (m : transaction_manager_t) (txn_id : Nat)
    (final : transaction_state_t) (hm : db.txn_manager = some m)
    (h : txn_finish db txn_id final = (0, db')) :
    ∃ i, find_transaction_idx txn_id m.transactions = some i ∧
      (m.transactions.getD i free_slot).state = transaction_state_t.TXN_STATE_ACTIVE ∧
      db' = { db with txn_manager := some (manager_after_finish m i final) } := by
  cases hi : find_transaction_idx txn_id m.transactions with
  | none =>
    rw [txn_finish_none db m txn_id final hm hi] at h
    simp only [Prod.mk.injEq] at h
    exact absurd h.1 (by decide)
  | some i =>
    by_cases hs : (m.transactions.getD i free_slot).state = transaction_state_t.TXN_STATE_ACTIVE
    · rw [txn_finish_active db m txn_id i final hm hi hs] at h
      simp only [Prod.mk.injEq, true_and] at h
      exact ⟨i, rfl, hs, h.symm⟩
    · rw [txn_finish_not_active db m txn_id i final hm hi hs] at h
      simp only [Prod.mk.injEq] at h
      exact absurd h.1 (by decide)

/-- After `txn_begin` took the slot of transaction `txn_id`, no slot holds that id. -/
theorem settled_after_reuse (m : transaction_manager_t) (txn_id i now : Nat)
    (final : transaction_state_t) (hwf : manager_wf m) (hid : txn_id ≠ 0)
    (hi : find_transaction_idx txn_id m.transactions = some i)
    (hb : m.next_txn_id + 1 < 2 ^ 64) :
    txn_id < m.next_txn_id ∧
    txn_id < (manager_after_begin (manager_after_finish m i final) i now).next_txn_id ∧
    ∀ t ∈ (manager_after_begin (manager_after_finish m i final) i now).transactions,
      t.txn_id ≠ txn_id := by
  obtain ⟨_, hbelow, _, huniq⟩ := hwf
  obtain ⟨hilt, hieq, _⟩ := find_transaction_idx_some txn_id _ i hi
  have hlt : txn_id < m.next_txn_id := by
    have := hbelow i hilt
    rw [hieq] at this
    exact this
  refine ⟨hlt, ?_, ?_⟩
  · show txn_id < (m.next_txn_id + 1) % 2 ^ 64
    rw [Nat.mod_eq_of_lt hb]
    omega
  · intro t ht
    have hlist : (manager_after_begin (manager_after_finish m i final) i now).transactions =
        m.transactions.set i
          (transaction_t.mk m.next_txn_id transaction_state_t.TXN_STATE_ACTIVE now) := by
      unfold manager_after_begin manager_after_finish
      simp only [List.set_set]
    rw [hlist] at ht
    obtain ⟨j, hj, hej⟩ := mem_getD _ free_slot t ht
    rw [List.length_set] at hj
    rw [getD_set_eq _ _ _ _ _ hilt] at hej
    by_cases hji : j = i
    · rw [if_pos hji] at hej
      rw [← hej]
      simp only []
      omega
    · rw [if_neg hji] at hej
      intro htid
      have hsame : (m.transactions.getD j free_slot).txn_id =
          (m.transactions.getD i free_slot).txn_id := by rw [hej, htid, hieq]
      rcases Nat.lt_or_gt_of_ne hji with hlt2 | hgt2
      · have := huniq j i hlt2 hilt hsame
        rw [hej, htid] at this
        exact hid this
      · have := huniq i j hgt2 hj hsame.symm
        rw [hieq] at this
        exact hid this

/-- C37, as amended (a rolled-back DELETE is not undone once the deleter's slot is reused): in a
table whose root is a leaf, let transaction `deleter` delete the row of `key` with success and
then abort, and let the next `txn_begin` take the slot that holds `deleter`. The new
transaction's id is greater than `deleter`, and after every further run of `txn_begin`,
`txn_commit` and `txn_abort` calls that does not wrap the counter, so as long as no other
transaction stamps the row again, `tuple_select` of `key` by a transaction with an id
greater than `deleter` returns `count = 0`. -/
theorem c37_rolled_back_delete_stays_invisible (fuel : Nat) (db db1 db2 : database_t)
    (name : List Nat) (key : value_t) (deleter si : Nat) (node : btree_node_t)
    (m : transaction_manager_t) (now : Nat) (calls : List txn_call) (viewer : Nat)
    (hpool : pool_ok db) (hfree : free_frame db)
    (hs : find_table_schema db name = some si)
    (hroot : (db.schema si).root_page_id ≠ 0)
    (hnode : page_content db (db.schema si).root_page_id = page_data.btree_node node)
    (hleaf : node.is_leaf = true)
    (hm : db.txn_manager = some m) (hwf : manager_wf m)
    (hrows : ∀ tp sl, leaf_lookup node key = some (tp, sl) →
      tp ≠ 0 ∧ ∃ c tl, (page_content db tp).as_heap = some (c, tl) ∧
        slot_as_int sl < (c : Int) ∧ sl < tl.length)
    (hid : deleter ≠ 0)
    (hdel : tuple_delete (fuel + 1) db name key deleter = some (0, db1))
    (habort : txn_abort db1 deleter = (0, db2))
    (hreuse : ∀ m2, db2.txn_manager = some m2 →
      find_free_slot m2.transactions = find_transaction_idx deleter m2.transactions)
    (hb : next_id db + 1 + calls.length < 2 ^ 64) (hlater : deleter < viewer) :
    deleter < (txn_begin db2 now).1 ∧
      ∃ db', tuple_select (fuel + 1) (run_calls calls (txn_begin db2 now).2).2 name (some key)
        viewer = some ({ ret := 0, count := 0, results := none }, db') := by
  have hu := frames_unique_of_pool_ok db hpool
  have hc := frames_clean_of_pool_ok db hpool
  have hnext : next_id db = m.next_txn_id := by
    unfold next_id
    rw [hm]
  cases hlook : leaf_lookup node key with
  | none =>
    obtain ⟨d1, hd1, _, _⟩ := tuple_delete_leaf_absent fuel db name key deleter si node
      hu hc hfree hs hroot hnode hleaf hlook
    rw [hd1] at hdel
    simp only [Option.some.injEq, Prod.mk.injEq] at hdel
    exact absurd hdel.1 (by decide)
  | some loc =>
    obtain ⟨tp, sl⟩ := loc
    obtain ⟨htp, c, tl, hheap, hslot, hsl⟩ := hrows tp sl hlook
    obtain ⟨d1, hd1, hbal, hcont⟩ := tuple_delete_leaf_spec fuel db name key deleter si node
      tp sl c tl m hu hc hfree hs hroot hnode hleaf hlook htp hheap hslot hm
    rw [hd1] at hdel
    by_cases hv : mvcc_is_visible (tl.getD sl zero_tuple).header deleter m = true
    · rw [if_pos hv] at hdel
      simp only [Option.some.injEq, Prod.mk.injEq, true_and] at hdel
      subst hdel
      have hm1 : d1.txn_manager = some m := by rw [hbal.env.txn, hm]
      unfold txn_abort at habort
      obtain ⟨i, hi, _, hdb2⟩ := txn_finish_zero d1 db2 m deleter _ hm1 habort
      obtain ⟨hilt, _, _⟩ := find_transaction_idx_some deleter _ i hi
      have hm2 : db2.txn_manager =
          some (manager_after_finish m i transaction_state_t.TXN_STATE_ABORTED) := by
        rw [hdb2]
      have hfi2 : find_transaction_idx deleter
          (manager_after_finish m i transaction_state_t.TXN_STATE_ABORTED).transactions =
          some i := by
        have hset := find_transaction_idx_set deleter m.transactions i
          { m.transactions.getD i free_slot with
            state := transaction_state_t.TXN_STATE_ABORTED } rfl hilt
        exact hset.trans hi
      have hff := (hreuse _ hm2).trans hfi2
      have hbeg := txn_begin_slot db2 _ now i hm2 hff
      obtain ⟨hlt, hlt3, habsent⟩ := settled_after_reuse m deleter i now
        transaction_state_t.TXN_STATE_ABORTED hwf hid hi (by omega)
      rw [hbeg]
      simp only []
      refine ⟨hlt, ?_⟩
      generalize hdb3 : ({ db2 with txn_manager := some (manager_after_begin
        (manager_after_finish m i transaction_state_t.TXN_STATE_ABORTED) i now) } :
          database_t) = db3
      have hm3 : db3.txn_manager = some (manager_after_begin
          (manager_after_finish m i transaction_state_t.TXN_STATE_ABORTED) i now) := by
        rw [← hdb3]
      have hset3 : settled db3 deleter transaction_state_t.TXN_STATE_COMMITTED :=
        ⟨_, hm3, hlt3, fun t ht hid2 => absurd hid2 (habsent t ht)⟩
      have hnext3 : next_id db3 = m.next_txn_id + 1 := by
        unfold next_id
        rw [hm3]
        show (m.next_txn_id + 1) % 2 ^ 64 = _
        rw [Nat.mod_eq_of_lt (by omega)]
      obtain ⟨hset4, _⟩ := run_calls_invariant
        (fun d => settled d deleter transaction_state_t.TXN_STATE_COMMITTED)
        (settled_step deleter _ (by decide)) calls db3 hset3 (by omega)
      obtain ⟨m4, hm4, _, hall4⟩ := hset4
      have hst12 : same_storage d1 db2 := by
        rw [hdb2]
        exact ⟨rfl, rfl, rfl, rfl⟩
      have hst23 : same_storage db2 db3 := by
        rw [← hdb3]
        exact ⟨rfl, rfl, rfl, rfl⟩
      have hst := same_storage_trans hst12
        (same_storage_trans hst23 (run_calls_same_storage calls db3))
      have hsch := same_env_schema hbal.env name
      have hsch4 := same_storage_schema hst name
      have hrtp : (db.schema si).root_page_id ≠ tp := by
        intro e
        rw [← e, hnode] at hheap
        cases hheap
      exact stamped_row_not_selected fuel _ name key deleter viewer si node tp sl c
        (tl.set sl { tl.getD sl zero_tuple with
          header := mvcc_mark_deleted (tl.getD sl zero_tuple).header deleter }) m4
        (same_storage_unique hst hbal.unique) (same_storage_clean hst hbal.clean)
        (same_storage_free hst (free_frame_of_balanced hbal hfree))
        (by rw [hsch4.1, hsch.1]; exact hs)
        (by rw [hsch4.2, hsch.2]; exact hroot)
        (by rw [hsch4.2, hsch.2, same_storage_content hst, hcont _ hroot,
          if_neg (fun h => hrtp h.2)]; exact hnode)
        hleaf hlook htp
        (by rw [same_storage_content hst, hcont tp htp, if_pos ⟨hv, rfl⟩]; rfl)
        hslot hm4
        (by rw [getD_set_same _ _ _ _ hsl]; rfl)
        hid hlater hall4
    · rw [if_neg hv] at hdel
      simp only [Option.some.injEq, Prod.mk.injEq] at hdel
      exact absurd hdel.1 (by decide)

theorem result_zero_eq {β : Type} (o : Option (Int × β)) (d : β)
    (h : o.map Prod.fst = some 0) : o = some (0, (o.map Prod.snd).getD d) := by
  cases o with
  | none => cases h
  | some r =>
    obtain ⟨a, b⟩ := r
    simp only [Option.map_some', Option.some.injEq] at h
    subst h
    rfl

theorem pair_zero_eq {β : Type} (p : Int × β) (h : p.1 = 0) : p = (0, p.2) := by
  obtain ⟨a, b⟩ := p
  simp only [] at h
  subst h
  rfl

/-- C37 as stated fails: transaction 3 deletes the committed row of id 1 and aborts, and the
next `txn_begin` gives transaction 4 the slot of transaction 3 (slot 1). Transaction 4 does
not see the row (`count = 0`); then transaction 2, older than 3 and still Active, deletes
the row with success, which stamps `xmax = 2`, and transaction 4 selects the row again and
gets it, `count = 1`. -/
theorem c37_redeleted_row_selected_again :
    (tuple_delete run_fuel third_begun_db t_name (int_value 1) 3).map Prod.fst = some 0 ∧
      (txn_abort third_deleted_db 3).1 = 0 ∧
      redelete_after_rollback = some [4, 1, 1, 0, 0, 1] := by
  decide!

theorem third_manager_wf : manager_wf third_manager := by
  have hrun : (run_calls third_begun_calls (db_create [])).2.txn_manager = some third_manager := by
    decide!
  have hok := (run_calls_invariant manager_ok manager_ok_step third_begun_calls (db_create [])
    (fun _ hm => by cases hm) (by decide)).1
  exact hok third_manager hrun

/-- Witness of C37 as amended: transaction 3 deletes the committed row of id 1 and aborts,
transaction 4 takes its slot, transaction 5 begins and selects id 1. -/
theorem c37_rolled_back_delete_stays_invisible_witness :
    3 < (txn_begin third_aborted_db 0).1 ∧
      ∃ db', tuple_select run_fuel
        (run_calls [txn_call.call_begin 0] (txn_begin third_aborted_db 0).2).2 t_name
        (some (int_value 1)) 5 = some ({ ret := 0, count := 0, results := none }, db') := by
  have hl : leaf_lookup one_row_leaf (int_value 1) = some (3, 0) := by decide!
  have hsome : ((page_content third_begun_db 3).as_heap).isSome = true := by decide!
  have hheap : (page_content third_begun_db 3).as_heap = some (third_heap.1, third_heap.2) := by
    rw [Prod.mk.eta]
    exact some_getD ((page_content third_begun_db 3).as_heap) (0, []) hsome
  have hdel : tuple_delete (3 + 1) third_begun_db t_name (int_value 1) 3 =
      some (0, third_deleted_db) :=
    result_zero_eq (tuple_delete run_fuel third_begun_db t_name (int_value 1) 3) third_begun_db
      (by decide!)
  have hab1 : (txn_abort third_deleted_db 3).1 = 0 := by decide!
  have habort : txn_abort third_deleted_db 3 = (0, third_aborted_db) :=
    pair_zero_eq (txn_abort third_deleted_db 3) hab1
  have hm2 : (third_aborted_db.txn_manager).isSome = true := by decide!
  have hfree2 : find_free_slot
      ((third_aborted_db.txn_manager).getD txn_manager_create).transactions =
      find_transaction_idx 3
        ((third_aborted_db.txn_manager).getD txn_manager_create).transactions := by decide!
  set_option maxRecDepth 8192 in
  exact c37_rolled_back_delete_stays_invisible 3 third_begun_db third_deleted_db
    third_aborted_db t_name (int_value 1) 3 0 one_row_leaf third_manager 0
    [txn_call.call_begin 0] 5 (by decide!) ⟨0, by decide!⟩ (by decide!) (by decide!)
    (by decide!) (by decide!)
    (some_getD third_begun_db.txn_manager txn_manager_create (by decide!)) third_manager_wf
    (fun tp sl h => by
      rw [hl] at h
      cases h
      exact ⟨by decide, third_heap.1, third_heap.2, hheap, by decide!, by decide!⟩)
    (by decide) hdel habort
    (fun m2 h => by
      rw [some_getD third_aborted_db.txn_manager txn_manager_create hm2] at h
      cases h
      exact hfree2)
    (by decide!) (by decide)

theorem strcmp_gt_lt (x y : List Nat) (h : 0 < strcmp x y) : strcmp y x < 0 := by
  induction x generalizing y with
  | nil =>
    cases y with
    | nil => simp [strcmp] at h
    | cons b bs => simp [strcmp] at h
  | cons a as ih =>
    cases y with
    | nil => simp [strcmp]
    | cons b bs =>
      unfold strcmp at h ⊢
      by_cases hab : a < b
      · rw [if_pos hab] at h
        omega
      · rw [if_neg hab] at h
        by_cases hba : b < a
        · rw [if_pos hba]
          omega
        · rw [if_neg hba] at h
          rw [if_neg hba, if_neg hab]
          exact ih bs h

/-- With equal type tags, a value above another is seen as below from the other side. -/
theorem value_compare_gt_lt (a b : value_t) (h : 0 < value_compare a b) :
    b.type = a.type ∧ value_compare b a < 0 := by
  have hty : a.type = b.type := by
    by_contra hne
    rw [value_compare_other_tag a b hne] at h
    omega
  refine ⟨hty.symm, ?_⟩
  unfold value_compare at h ⊢
  rw [if_neg (by simpa using hty)] at h
  rw [if_neg (by simpa using hty.symm)]
  rw [← hty]
  cases hta : a.type with
  | DATA_TYPE_INT =>
    rw [hta] at h
    simp only [] at h ⊢
    by_cases h1 : a.int_val < b.int_val
    · rw [if_pos h1] at h
      omega
    · rw [if_neg h1] at h
      by_cases h2 : a.int_val > b.int_val
      · rw [if_pos (by omega)]
        omega
      · rw [if_neg h2] at h
        omega
  | DATA_TYPE_VARCHAR =>
    rw [hta] at h
    simp only [] at h ⊢
    exact strcmp_gt_lt _ _ h
  | DATA_TYPE_FLOAT =>
    rw [hta] at h
    simp only [] at h ⊢
    by_cases h1 : a.float_val < b.float_val
    · rw [if_pos h1] at h
      omega
    · rw [if_neg h1] at h
      by_cases h2 : a.float_val > b.float_val
      · rw [if_pos h2]
        omega
      · rw [if_neg h2] at h
        omega

/-- The array lengths of a leaf are kept by `btree_insert_key_at_position`. -/
theorem btree_insert_key_at_position_lengths (node : btree_node_t) (pos : Nat) (key : value_t)
    (tp ts : Nat) (hleaf : node.is_leaf = true)
    (hk : node.key_count < node.keys.length)
    (htp : node.key_count < node.tuple_page_ids.length)
    (hsl : node.key_count < node.tuple_slots.length) :
    (btree_insert_key_at_position node pos key tp ts).keys.length = node.keys.length ∧
    (btree_insert_key_at_position node pos key tp ts).tuple_page_ids.length =
      node.tuple_page_ids.length ∧
    (btree_insert_key_at_position node pos key tp ts).tuple_slots.length =
      node.tuple_slots.length := by
  obtain ⟨h1, _, h3, h4, h5, _, _, _⟩ :=
    btree_shift_loop_spec pos node.key_count node hleaf hk htp hsl
  unfold btree_insert_key_at_position
  simp only [h1, if_true, List.length_set]
  exact ⟨h3, h4, h5⟩

/-- A key of the node's tag that the sorted leaf does not hold, put at the position
`btree_find_key_position` gives, leaves the keys strictly increasing. -/
theorem keys_sorted_insert (node : btree_node_t) (key : value_t) (tp ts : Nat)
    (hleaf : node.is_leaf = true) (hsorted : keys_sorted node)
    (htags : ∀ i, i < node.key_count → (node.keys.getD i zero_value).type = key.type)
    (hnodup : ¬ (btree_find_key_position node key < node.key_count ∧
      value_compare key (node.keys.getD (btree_find_key_position node key) zero_value) = 0))
    (hk : node.key_count < node.keys.length)
    (htp : node.key_count < node.tuple_page_ids.length)
    (hsl : node.key_count < node.tuple_slots.length) :
    keys_sorted
      (btree_insert_key_at_position node (btree_find_key_position node key) key tp ts) := by
  obtain ⟨hpos, hbefore, hle, hafter⟩ :=
    btree_find_key_position_spec node key (ordered_of_sorted node key hsorted)
  obtain ⟨_, hcount, hkeys, _, _⟩ :=
    btree_insert_key_at_position_leaf node (btree_find_key_position node key) key tp ts hleaf
      hpos hk htp hsl
  generalize btree_find_key_position node key = pos at hpos hbefore hle hafter hcount hkeys hnodup
  have hlt : ∀ i, pos ≤ i → i < node.key_count →
      value_lt key (node.keys.getD i zero_value) := by
    intro i hi hin
    have h1 : key_cmp node key i < 0 := by
      rcases Nat.lt_or_ge pos i with h | h
      · exact hafter i h hin
      · have hip : i = pos := by omega
        subst hip
        have h2 := hle i (Nat.le_refl _) hin
        have h3 : key_cmp node key i ≠ 0 := fun h0 => hnodup ⟨hin, h0⟩
        omega
    exact ⟨(htags i hin).symm, h1⟩
  have hgt : ∀ i, i < pos → value_lt (node.keys.getD i zero_value) key := by
    intro i hi
    exact value_compare_gt_lt key _ (hbefore i hi)
  intro j hj i hij
  rw [hcount] at hj
  rw [hkeys j, hkeys i]
  by_cases hjp : j = pos
  · rw [if_pos hjp, if_neg (by omega), if_neg (by omega)]
    exact hgt i (by omega)
  · rw [if_neg hjp]
    by_cases hj2 : pos < j ∧ j ≤ node.key_count
    · rw [if_pos hj2]
      by_cases hip : i = pos
      · rw [if_pos hip]
        exact hlt (j - 1) (by omega) (by omega)
      · rw [if_neg hip]
        by_cases hi2 : pos < i ∧ i ≤ node.key_count
        · rw [if_pos hi2]
          exact hsorted (j - 1) (by omega) (i - 1) (by omega)
        · rw [if_neg hi2]
          exact hsorted (j - 1) (by omega) i (by omega)
    · rw [if_neg hj2, if_neg (by omega), if_neg (by omega)]
      exact hsorted j (by omega) i hij

/-- In a leaf with strictly increasing keys that holds a key equal to the search key, the
duplicate test of `btree_insert_recursive` finds it. -/
theorem duplicate_found (node : btree_node_t) (key : value_t) (hsorted : keys_sorted node)
    (hpresent : ∃ i, i < node.key_count ∧ value_compare key (node.keys.getD i zero_value) = 0) :
    btree_find_key_position node key < node.key_count ∧
      value_compare key (node.keys.getD (btree_find_key_position node key) zero_value) = 0 := by
  obtain ⟨i, hi, h0⟩ := hpresent
  obtain ⟨_, hbefore, _, hafter⟩ :=
    btree_find_key_position_spec node key (ordered_of_sorted node key hsorted)
  have hpi : btree_find_key_position node key = i := by
    by_contra hne
    rcases Nat.lt_or_gt_of_ne hne with hlt | hgt
    · have := hafter i hlt hi
      unfold key_cmp at this
      omega
    · have := hbefore i hgt
      unfold key_cmp at this
      omega
  rw [hpi]
  exact ⟨hi, h0⟩

/-- A key the leaf holds is still held after another key is put into the leaf. -/
theorem present_after_insert (node : btree_node_t) (pos : Nat) (key k : value_t) (tp ts : Nat)
    (hleaf : node.is_leaf = true) (hpos : pos ≤ node.key_count)
    (hk : node.key_count < node.keys.length)
    (htp : node.key_count < node.tuple_page_ids.length)
    (hsl : node.key_count < node.tuple_slots.length)
    (hpresent : ∃ i, i < node.key_count ∧ value_compare k (node.keys.getD i zero_value) = 0) :
    ∃ i, i < (btree_insert_key_at_position node pos key tp ts).key_count ∧
      value_compare k
        ((btree_insert_key_at_position node pos key tp ts).keys.getD i zero_value) = 0 := by
  obtain ⟨i, hi, h0⟩ := hpresent
  obtain ⟨_, hcount, hkeys, _, _⟩ :=
    btree_insert_key_at_position_leaf node pos key tp ts hleaf hpos hk htp hsl
  by_cases hip : i < pos
  · refine ⟨i, by rw [hcount]; omega, ?_⟩
    rw [hkeys i, if_neg (by omega), if_neg (by omega)]
    exact h0
  · refine ⟨i + 1, by rw [hcount]; omega, ?_⟩
    rw [hkeys (i + 1), if_neg (by omega), if_pos (by omega)]
    exact h0

theorem two_free_of_balanced {db db' : database_t} (h : balanced db db')
    (hf : two_free_frames db) : two_free_frames db' := by
  obtain ⟨a, b, hab, ha, hb, ha0, hb0⟩ := hf
  exact ⟨a, b, hab, by rw [h.env.cap]; exact ha, by rw [h.env.cap]; exact hb,
    by rw [h.pins a]; exact ha0, by rw [h.pins b]; exact hb0⟩

theorem two_free_of_same_storage {db db' : database_t} (h : same_storage db db')
    (hf : two_free_frames db) : two_free_frames db' := by
  obtain ⟨a, b, hab, ha, hb, ha0, hb0⟩ := hf
  refine ⟨a, b, hab, ?_, ?_, ?_, ?_⟩
  · unfold database_t.capacity
    rw [h.pool]
    exact ha
  · unfold database_t.capacity
    rw [h.pool]
    exact hb
  · rw [same_storage_frame h a]
    exact ha0
  · rw [same_storage_frame h b]
    exact hb0

/-- The function `tuple_insert` into a table whose root is a leaf with room, for a key the
leaf does not hold, with the content of every page afterwards. -/
theorem tuple_insert_new_spec (fuel : Nat) (db : database_t) (name : List Nat) (tuple : tuple_t)
    (txn_id si : Nat) (key : value_t) (m : metadata_t) (ss : List table_schema_t)
    (node : btree_node_t)
    (hu : frames_unique db) (hc : frames_clean db) (hfree : two_free_frames db)
    (hs : find_table_schema db name = some si)
    (hcc : tuple.column_count = (db.schema si).column_count)
    (hpk : extract_primary_key (db.schema si) (stamped tuple txn_id) = some key)
    (hmeta : page_content db METADATA_PAGE_ID = page_data.metadata m ss)
    (hnew : m.next_page_id ≠ 0)
    (hzero : page_content db m.next_page_id = page_data.zero)
    (hroot : (db.schema si).root_page_id ≠ 0)
    (hnode : page_content db (db.schema si).root_page_id = page_data.btree_node node)
    (hleaf : node.is_leaf = true)
    (hnodup : ¬ (btree_find_key_position node key < node.key_count ∧
      value_compare key (node.keys.getD (btree_find_key_position node key) zero_value) = 0))
    (hroom : node.key_count < BTREE_ORDER - 1) :
    ∃ db', tuple_insert (fuel + 1) db name tuple txn_id = some (0, db') ∧ balanced db db' ∧
      page_content db' (db.schema si).root_page_id =
        page_data.btree_node (btree_insert_key_at_position node
          (btree_find_key_position node key) key m.next_page_id 0) ∧
      page_content db' m.next_page_id =
        page_data.heap 1 ((List.replicate TUPLES_PER_PAGE zero_tuple).set 0
          (stamped tuple txn_id)) ∧
      page_content db' METADATA_PAGE_ID =
        page_data.metadata { m with next_page_id := m.next_page_id + 1 } ss ∧
      ∀ q, q ≠ 0 → q ≠ (db.schema si).root_page_id → q ≠ m.next_page_id →
        q ≠ METADATA_PAGE_ID → page_content db' q = page_content db q := by
  have hne1 : m.next_page_id ≠ METADATA_PAGE_ID := by
    intro h
    rw [h, hmeta] at hzero
    cases hzero
  have hrne1 : (db.schema si).root_page_id ≠ METADATA_PAGE_ID := by
    intro h
    rw [h, hmeta] at hnode
    cases hnode
  have hrnew : (db.schema si).root_page_id ≠ m.next_page_id := by
    intro h
    rw [h, hzero] at hnode
    cases hnode
  obtain ⟨i, db1, halloc, hacq, hdz, hcont1⟩ :=
    storage_allocate_page_spec db m ss hu hc (free_frame_of_two db hfree) hmeta hnew hzero
  have hc1new : page_content db1 m.next_page_id = page_data.zero := by
    rw [page_content_of_frame db1 _ i hacq.unique hnew hacq.page_id, hdz]
  obtain ⟨db2, hstore, hbal2, hcont2⟩ :=
    store_tuple_in_page_spec db1 m.next_page_id (stamped tuple txn_id) 0
      (List.replicate TUPLES_PER_PAGE zero_tuple) hnew hacq.unique hacq.clean
      (Or.inl ⟨i, hacq.page_id⟩) (by rw [hc1new]; rfl) (by decide)
  have hpin1 : (db1.frame i).pin_count > 0 := by rw [hacq.pin]; omega
  have hpid2 : (db2.frame i).page_id = m.next_page_id := by
    rw [hbal2.held i hpin1, hacq.page_id]
  have hroot2 : page_content db2 (db.schema si).root_page_id = page_data.btree_node node := by
    rw [hcont2 _ hroot, if_neg hrnew, hcont1 _ hroot, if_neg hrne1, hnode]
  obtain ⟨db3, hins, hbal3, hcont3⟩ :=
    btree_insert_leaf_spec fuel db2 (db.schema si).root_page_id key m.next_page_id 0 node hroot
      hbal2.unique hbal2.clean
      (Or.inr (free_frame_of_balanced hbal2 (free_frame_of_acquired hacq hfree)))
      hroot2 hleaf hnodup hroom
  obtain ⟨hbal4, hcont4⟩ := release_acquired hacq (balanced_trans hbal2 hbal3) hnew
  refine ⟨buffer_release_page db3 i, ?_, hbal4, ?_, ?_, ?_, ?_⟩
  · unfold tuple_insert
    rw [hs]
    simp only []
    rw [if_neg (by simpa using hcc)]
    rw [halloc]
    simp only []
    rw [hacq.page_id]
    have hst : ({ tuple with header := { xmin := txn_id, xmax := 0, is_deleted := false } } :
        tuple_t) = stamped tuple txn_id := rfl
    rw [hst, hstore]
    simp only []
    rw [if_neg (by simp), hpk]
    simp only []
    rw [hpid2, hins]
    simp
  · rw [hcont4 _ hroot, hcont3 _ hroot, if_pos rfl]
  · rw [hcont4 _ hnew, hcont3 _ hnew, if_neg (fun h => hrnew h.symm), hcont2 _ hnew, if_pos rfl]
  · rw [hcont4 _ (by decide), hcont3 _ (by decide), if_neg (fun h => hrne1 h.symm),
      hcont2 _ (by decide), if_neg (fun h => hne1 h.symm), hcont1 _ (by decide), if_pos rfl]
  · intro q hq hqr hqn hq1
    rw [hcont4 _ hq, hcont3 _ hq, if_neg hqr, hcont2 _ hq, if_neg hqn, hcont1 _ hq, if_neg hq1]

theorem as_heap_node (n : btree_node_t) : (page_data.btree_node n).as_heap = none := rfl

theorem as_heap_metadata (m : metadata_t) (ss : List table_schema_t) :
    (page_data.metadata m ss).as_heap = none := rfl

/-- The invariant `table_kept` passes to a state with the same catalog and manager in which
every page has its content, or is a heap page below the counter as before. -/
theorem table_kept_of_contents {db db' : database_t} {name : List Nat} {si : Nat}
    {t : data_type_t} {node : btree_node_t} {m : metadata_t} {ss : List table_schema_t}
    (h : table_kept db name si t node m ss) (hbal : balanced db db')
    (hcont : ∀ q, q ≠ 0 → page_content db' q = page_content db q ∨
      (q < m.next_page_id ∧ ((page_content db q).as_heap).isSome = true ∧
        ((page_content db' q).as_heap).isSome = true)) :
    table_kept db' name si t node m ss := by
  have hsch := same_env_schema hbal.env name
  have hroot' : page_content db' (db.schema si).root_page_id = page_data.btree_node node := by
    rcases hcont _ h.table.root_ne with h1 | ⟨_, h2, _⟩
    · rw [h1]
      exact h.table.root
    · rw [h.table.root, as_heap_node] at h2
      cases h2
  have hmeta' : page_content db' METADATA_PAGE_ID = page_data.metadata m ss := by
    rcases hcont METADATA_PAGE_ID (by decide) with h1 | ⟨_, h2, _⟩
    · rw [h1]
      exact h.metadata
    · rw [h.metadata, as_heap_metadata] at h2
      cases h2
  refine ⟨hbal.unique, hbal.clean, two_free_of_balanced hbal h.free,
    ⟨by rw [hsch.1]; exact h.table.schema, by rw [hsch.2]; exact h.table.root_ne,
      by rw [hsch.2]; exact hroot', h.table.leaf, h.table.count, h.table.keys_len,
      h.table.page_ids_len, h.table.slots_len, h.table.sorted, h.table.locations⟩,
    h.tags, hmeta', h.next_ne, ?_, ?_, by rw [hbal.env.txn]; exact h.manager⟩
  · intro q hq
    have hq0 : q ≠ 0 := by
      have := h.next_ne
      omega
    rcases hcont q hq0 with h1 | ⟨h2, _, _⟩
    · rw [h1]
      exact h.fresh q hq
    · omega
  · intro i hi
    obtain ⟨hlt, hheap⟩ := h.rows i hi
    refine ⟨hlt, ?_⟩
    rcases hcont _ (h.table.locations i hi).1 with h1 | ⟨_, _, h3⟩
    · rw [h1]
      exact hheap
    · exact h3

theorem table_kept_same_storage {db db' : database_t} {name : List Nat} {si : Nat}
    {t : data_type_t} {node : btree_node_t} {m : metadata_t} {ss : List table_schema_t}
    (h : table_kept db name si t node m ss) (hst : same_storage db db')
    (hm : db'.txn_manager.isSome = true) : table_kept db' name si t node m ss := by
  have hsch := same_storage_schema hst name
  refine ⟨same_storage_unique hst h.unique, same_storage_clean hst h.clean,
    two_free_of_same_storage hst h.free,
    ⟨by rw [hsch.1]; exact h.table.schema, by rw [hsch.2]; exact h.table.root_ne,
      by rw [hsch.2, same_storage_content hst]; exact h.table.root, h.table.leaf,
      h.table.count, h.table.keys_len, h.table.page_ids_len, h.table.slots_len,
      h.table.sorted, h.table.locations⟩,
    h.tags, by rw [same_storage_content hst]; exact h.metadata, h.next_ne, ?_, ?_, hm⟩
  · intro q hq
    rw [same_storage_content hst]
    exact h.fresh q hq
  · intro i hi
    rw [same_storage_content hst]
    exact h.rows i hi

/-- A call on the transaction manager keeps `table_kept`. -/
theorem table_kept_txn_call {db : database_t} {name : List Nat} {si : Nat}
    {t : data_type_t} {node : btree_node_t} {m : metadata_t} {ss : List table_schema_t}
    (h : table_kept db name si t node m ss) (c : txn_call) :
    table_kept (run_calls [c] db).2 name si t node m ss := by
  apply table_kept_same_storage h (run_calls_same_storage [c] db)
  rcases call_step c db with h1 | ⟨hnone, _⟩ | ⟨_, _, _, _, _, h1⟩ | ⟨_, _, _, _, _, _, _, h1⟩
  · rw [h1]
    exact h.manager
  · have := h.manager
    rw [hnone] at this
    cases this
  · rw [h1]
    rfl
  · rw [h1]
    rfl

/-- The function `tuple_delete` on a table whose root is a leaf, for a key the leaf maps to a
slot of a heap page that is not in use: the call returns -1 and no page content changes. -/
theorem tuple_delete_leaf_unused_slot (fuel : Nat) (db : database_t) (name : List Nat)
    (key : value_t) (txn_id si : Nat) (node : btree_node_t) (tp sl c : Nat) (tl : List tuple_t)
    (hu : frames_unique db) (hc : frames_clean db) (hfree : free_frame db)
    (hs : find_table_schema db name = some si)
    (hroot : (db.schema si).root_page_id ≠ 0)
    (hnode : page_content db (db.schema si).root_page_id = page_data.btree_node node)
    (hleaf : node.is_leaf = true)
    (hlook : leaf_lookup node key = some (tp, sl)) (htp : tp ≠ 0)
    (hheap : (page_content db tp).as_heap = some (c, tl))
    (hslot : slot_as_int sl ≥ (c : Int)) :
    ∃ db1, tuple_delete (fuel + 1) db name key txn_id = some (-1, db1) ∧ balanced db db1 ∧
      ∀ q, q ≠ 0 → page_content db1 q = page_content db q := by
  obtain ⟨da, hsearch, hbala, hconta⟩ :=
    btree_search_leaf_spec fuel db _ key node hroot hu hc (Or.inr hfree) hnode hleaf
  have hfa := free_frame_of_balanced hbala hfree
  obtain ⟨dbb, hload, hbalb, hcontb⟩ :=
    load_tuple_from_page_spec da tp sl c tl htp hbala.unique hbala.clean (Or.inr hfa)
      (by rw [hconta tp htp]; exact hheap)
  rw [if_pos hslot] at hload
  refine ⟨dbb, ?_, balanced_trans hbala hbalb, ?_⟩
  · unfold tuple_delete
    rw [hs]
    simp only []
    rw [hsearch, hlook]
    simp only []
    rw [hload]
  · intro q hq
    rw [hcontb q hq, hconta q hq]

/-- The function `tuple_delete` returns, and keeps `table_kept`. -/
theorem table_kept_delete (fuel : Nat) {db : database_t} {name : List Nat} {si : Nat}
    {t : data_type_t} {node : btree_node_t} {m : metadata_t} {ss : List table_schema_t}
    (h : table_kept db name si t node m ss) (key : value_t) (txn_id : Nat) :
    ∃ r db', tuple_delete (fuel + 1) db name key txn_id = some (r, db') ∧
      (∀ i, db'.schema i = db.schema i) ∧ table_kept db' name si t node m ss := by
  have hfree := free_frame_of_two db h.free
  cases hlook : leaf_lookup node key with
  | none =>
    obtain ⟨db1, hdel, hbal, hcont⟩ := tuple_delete_leaf_absent fuel db name key txn_id si node
      h.unique h.clean hfree h.table.schema h.table.root_ne h.table.root h.table.leaf hlook
    exact ⟨-1, db1, hdel, (same_env_schema hbal.env name).2,
      table_kept_of_contents h hbal (fun q hq => Or.inl (hcont q hq))⟩
  | some loc =>
    obtain ⟨tp, sl⟩ := loc
    obtain ⟨pos, hpos, htpe, _⟩ := leaf_lookup_some node key tp sl hlook
    have htp : tp ≠ 0 := by
      rw [htpe]
      exact (h.table.locations pos hpos).1
    obtain ⟨hlt, hsome⟩ := h.rows pos hpos
    rw [← htpe] at hlt hsome
    cases hheap : (page_content db tp).as_heap with
    | none =>
      rw [hheap] at hsome
      cases hsome
    | some ct =>
      obtain ⟨c, tl⟩ := ct
      obtain ⟨mgr, hmgr⟩ := Option.isSome_iff_exists.mp h.manager
      by_cases hslot : slot_as_int sl < (c : Int)
      · obtain ⟨db1, hdel, hbal, hcont⟩ := tuple_delete_leaf_spec fuel db name key txn_id si
          node tp sl c tl mgr h.unique h.clean hfree h.table.schema h.table.root_ne
          h.table.root h.table.leaf hlook htp hheap hslot hmgr
        refine ⟨_, db1, hdel, (same_env_schema hbal.env name).2,
          table_kept_of_contents h hbal ?_⟩
        intro q hq
        rw [hcont q hq]
        by_cases hq2 : mvcc_is_visible (tl.getD sl zero_tuple).header txn_id mgr = true ∧ q = tp
        · rw [if_pos hq2]
          right
          rw [hq2.2]
          exact ⟨hlt, hsome, rfl⟩
        · rw [if_neg hq2]
          exact Or.inl rfl
      · obtain ⟨db1, hdel, hbal, hcont⟩ := tuple_delete_leaf_unused_slot fuel db name key
          txn_id si node tp sl c tl h.unique h.clean hfree h.table.schema h.table.root_ne
          h.table.root h.table.leaf hlook htp hheap (by omega)
        exact ⟨-1, db1, hdel, (same_env_schema hbal.env name).2,
      table_kept_of_contents h hbal (fun q hq => Or.inl (hcont q hq))⟩

/-- A `tuple_insert` of a row whose key the leaf holds fails and keeps `table_kept`, with the
counter advanced. -/
theorem table_kept_insert_duplicate (fuel : Nat) {db : database_t} {name : List Nat} {si : Nat}
    {t : data_type_t} {node : btree_node_t} {m : metadata_t} {ss : List table_schema_t}
    (h : table_kept db name si t node m ss) (tuple : tuple_t) (txn_id : Nat) (key : value_t)
    (hcc : tuple.column_count = (db.schema si).column_count)
    (hpk : extract_primary_key (db.schema si) (stamped tuple txn_id) = some key)
    (hdup : holds_key node key) :
    ∃ db', tuple_insert (fuel + 1) db name tuple txn_id = some (-1, db') ∧
      (∀ i, db'.schema i = db.schema i) ∧
      table_kept db' name si t node { m with next_page_id := m.next_page_id + 1 } ss := by
  have hzero := h.fresh m.next_page_id (Nat.le_refl _)
  obtain ⟨db', hins, hbal, hnewp, hmeta', hothers⟩ :=
    tuple_insert_duplicate_spec fuel db name tuple txn_id si key m ss node h.unique h.clean
      h.free h.table.schema hcc hpk h.metadata h.next_ne hzero h.table.root_ne h.table.root
      h.table.leaf (duplicate_found node key h.table.sorted hdup)
  have hsch := same_env_schema hbal.env name
  have hrn : (db.schema si).root_page_id ≠ m.next_page_id := by
    intro e
    have := h.table.root
    rw [e, hzero] at this
    cases this
  have hr1 : (db.schema si).root_page_id ≠ METADATA_PAGE_ID := by
    intro e
    have := h.table.root
    rw [e, h.metadata] at this
    cases this
  refine ⟨db', hins, hsch.2, hbal.unique, hbal.clean, two_free_of_balanced hbal h.free,
    ⟨by rw [hsch.1]; exact h.table.schema, by rw [hsch.2]; exact h.table.root_ne,
      by rw [hsch.2, hothers _ h.table.root_ne hrn hr1]; exact h.table.root, h.table.leaf,
      h.table.count, h.table.keys_len, h.table.page_ids_len, h.table.slots_len,
      h.table.sorted, h.table.locations⟩,
    h.tags, hmeta', Nat.succ_ne_zero _, ?_, ?_, by rw [hbal.env.txn]; exact h.manager⟩
  · intro q hq
    have hq' : m.next_page_id + 1 ≤ q := hq
    have hq1 : q ≠ METADATA_PAGE_ID := by
      intro e
      have := h.fresh q (by omega)
      rw [e, h.metadata] at this
      cases this
    rw [hothers q (by omega) (by omega) hq1]
    exact h.fresh q (by omega)
  · intro i hi
    obtain ⟨hlt, hheap⟩ := h.rows i hi
    refine ⟨Nat.lt_succ_of_lt hlt, ?_⟩
    have hq1 : node.tuple_page_ids.getD i 0 ≠ METADATA_PAGE_ID := by
      intro e
      rw [e, h.metadata, as_heap_metadata] at hheap
      cases hheap
    rw [hothers _ (h.table.locations i hi).1 (by omega) hq1]
    exact hheap

/-- A `tuple_insert` of a row whose key has the table's tag and is not in the leaf, which has
room, succeeds and keeps `table_kept` for the leaf with the key put in. -/
theorem table_kept_insert_new (fuel : Nat) {db : database_t} {name : List Nat} {si : Nat}
    {t : data_type_t} {node : btree_node_t} {m : metadata_t} {ss : List table_schema_t}
    (h : table_kept db name si t node m ss) (tuple : tuple_t) (txn_id : Nat) (key : value_t)
    (hcc : tuple.column_count = (db.schema si).column_count)
    (hpk : extract_primary_key (db.schema si) (stamped tuple txn_id) = some key)
    (hkt : key.type = t) (hnew : ¬ holds_key node key)
    (hroom : node.key_count < BTREE_ORDER - 1) :
    ∃ db', tuple_insert (fuel + 1) db name tuple txn_id = some (0, db') ∧
      (∀ i, db'.schema i = db.schema i) ∧
      table_kept db' name si t
        (btree_insert_key_at_position node (btree_find_key_position node key) key
          m.next_page_id 0)
        { m with next_page_id := m.next_page_id + 1 } ss ∧
      (btree_insert_key_at_position node (btree_find_key_position node key) key
        m.next_page_id 0).key_count = node.key_count + 1 ∧
      ∀ k, holds_key node k →
        holds_key (btree_insert_key_at_position node (btree_find_key_position node key) key
          m.next_page_id 0) k := by
  have h49 : BTREE_ORDER = 49 := by decide
  have h6 : TUPLES_PER_PAGE = 6 := by decide
  have hzero := h.fresh m.next_page_id (Nat.le_refl _)
  have hnodup : ¬ (btree_find_key_position node key < node.key_count ∧
      value_compare key (node.keys.getD (btree_find_key_position node key) zero_value) = 0) :=
    fun hd => hnew ⟨_, hd.1, hd.2⟩
  obtain ⟨db', hins, hbal, hrootp, hnewp, hmeta', hothers⟩ :=
    tuple_insert_new_spec fuel db name tuple txn_id si key m ss node h.unique h.clean
      h.free h.table.schema hcc hpk h.metadata h.next_ne hzero h.table.root_ne h.table.root
      h.table.leaf hnodup hroom
  have hsch := same_env_schema hbal.env name
  have hk : node.key_count < node.keys.length := by
    rw [h.table.keys_len]
    omega
  have htpl : node.key_count < node.tuple_page_ids.length := by
    rw [h.table.page_ids_len]
    omega
  have hsl : node.key_count < node.tuple_slots.length := by
    rw [h.table.slots_len]
    omega
  have hpos := (btree_find_key_position_spec node key
    (ordered_of_sorted node key h.table.sorted)).1
  have hsorted' := keys_sorted_insert node key m.next_page_id 0 h.table.leaf h.table.sorted
    (fun i hi => (h.tags i hi).trans hkt.symm) hnodup hk htpl hsl
  obtain ⟨hlen1, hlen2, hlen3⟩ := btree_insert_key_at_position_lengths node
    (btree_find_key_position node key) key m.next_page_id 0 h.table.leaf hk htpl hsl
  obtain ⟨hleaf', hcount', hkeys', hpids', hslots'⟩ :=
    btree_insert_key_at_position_leaf node (btree_find_key_position node key) key
      m.next_page_id 0 h.table.leaf hpos hk htpl hsl
  have hpres : ∀ k, holds_key node k →
      holds_key (btree_insert_key_at_position node (btree_find_key_position node key) key
        m.next_page_id 0) k := fun k hk0 =>
    present_after_insert node _ key k m.next_page_id 0 h.table.leaf hpos hk htpl hsl hk0
  have hall := And.intro hsorted' (And.intro hlen1 (And.intro hlen2 (And.intro hlen3
    (And.intro hleaf' (And.intro hcount' (And.intro hkeys' (And.intro hpids'
      (And.intro hslots' (And.intro hrootp hpres)))))))))
  clear hsorted' hlen1 hlen2 hlen3 hleaf' hcount' hkeys' hpids' hslots' hrootp hpres
  generalize btree_find_key_position node key = pos at hpos hall
  generalize btree_insert_key_at_position node pos key m.next_page_id 0 = node' at hall
  obtain ⟨hsorted', hlen1, hlen2, hlen3, hleaf', hcount', hkeys', hpids', hslots', hrootp,
    hpres⟩ := hall
  have hold : ∀ i, i < node.key_count →
      node.tuple_page_ids.getD i 0 < m.next_page_id + 1 ∧
      ((page_content db' (node.tuple_page_ids.getD i 0)).as_heap).isSome = true := by
    intro i hi
    obtain ⟨hlt, hheap⟩ := h.rows i hi
    refine ⟨Nat.lt_succ_of_lt hlt, ?_⟩
    have hq1 : node.tuple_page_ids.getD i 0 ≠ METADATA_PAGE_ID := by
      intro e
      rw [e, h.metadata, as_heap_metadata] at hheap
      cases hheap
    have hqr : node.tuple_page_ids.getD i 0 ≠ (db.schema si).root_page_id := by
      intro e
      rw [e, h.table.root, as_heap_node] at hheap
      cases hheap
    rw [hothers _ (h.table.locations i hi).1 hqr (by omega) hq1]
    exact hheap
  refine ⟨db', hins, hsch.2, ⟨hbal.unique, hbal.clean, two_free_of_balanced hbal h.free,
    ⟨by rw [hsch.1]; exact h.table.schema, by rw [hsch.2]; exact h.table.root_ne,
      by rw [hsch.2]; exact hrootp, hleaf', by rw [hcount']; omega,
      by rw [hlen1]; exact h.table.keys_len, by rw [hlen2]; exact h.table.page_ids_len,
      by rw [hlen3]; exact h.table.slots_len, hsorted', ?_⟩,
    ?_, hmeta', Nat.succ_ne_zero _, ?_, ?_, by rw [hbal.env.txn]; exact h.manager⟩,
    hcount', hpres⟩
  · intro j hj
    rw [hcount'] at hj
    rw [hpids' j, hslots' j]
    by_cases hjp : j = pos
    · rw [if_pos hjp, if_pos hjp]
      exact ⟨h.next_ne, by omega⟩
    · rw [if_neg hjp, if_neg hjp]
      by_cases hj2 : pos < j ∧ j ≤ node.key_count
      · rw [if_pos hj2, if_pos hj2]
        exact h.table.locations (j - 1) (by omega)
      · rw [if_neg hj2, if_neg hj2]
        exact h.table.locations j (by omega)
  · intro j hj
    rw [hcount'] at hj
    rw [hkeys' j]
    by_cases hjp : j = pos
    · rw [if_pos hjp]
      exact hkt
    · rw [if_neg hjp]
      by_cases hj2 : pos < j ∧ j ≤ node.key_count
      · rw [if_pos hj2]
        exact h.tags (j - 1) (by omega)
      · rw [if_neg hj2]
        exact h.tags j (by omega)
  · intro q hq
    have hq' : m.next_page_id + 1 ≤ q := hq
    have hq1 : q ≠ METADATA_PAGE_ID := by
      intro e
      have := h.fresh q (by omega)
      rw [e, h.metadata] at this
      cases this
    have hqr : q ≠ (db.schema si).root_page_id := by
      intro e
      have := h.fresh q (by omega)
      rw [e, h.table.root] at this
      cases this
    rw [hothers q (by omega) hqr (by omega) hq1]
    exact h.fresh q (by omega)
  · intro j hj
    rw [hcount'] at hj
    rw [hpids' j]
    by_cases hjp : j = pos
    · rw [if_pos hjp]
      refine ⟨Nat.lt_succ_self _, ?_⟩
      rw [hnewp]
      rfl
    · rw [if_neg hjp]
      by_cases hj2 : pos < j ∧ j ≤ node.key_count
      · rw [if_pos hj2]
        exact hold (j - 1) (by omega)
      · rw [if_neg hj2]
        exact hold j (by omega)

/-- The operations keep the table state `table_kept` and every key of the leaf, as long as
the inserted keys carry the table's type tag and the leaf has room for them. -/
theorem run_ops_kept (fuel : Nat) (name : List Nat) (si : Nat) (t : data_type_t)
    (ss : List table_schema_t) (k : value_t) (ops : List table_op) :
    ∀ (db : database_t) (node : btree_node_t) (m : metadata_t),
      table_kept db name si t node m ss → holds_key node k →
      (∀ op ∈ ops, op_typed (db.schema si) t op) →
      node.key_count + ops.length ≤ BTREE_ORDER - 1 →
      ∃ db' node' m', run_ops (fuel + 1) name ops db = some db' ∧
        table_kept db' name si t node' m' ss ∧ holds_key node' k ∧
        db'.schema si = db.schema si := by
  induction ops with
  | nil =>
    intro db node m h hk _ _
    exact ⟨db, node, m, rfl, h, hk, rfl⟩
  | cons op ops ih =>
    intro db node m h hk htyped hroom
    simp only [List.length_cons] at hroom
    have hrest : ∀ o ∈ ops, op_typed (db.schema si) t o := fun o ho =>
      htyped o (List.mem_cons_of_mem _ ho)
    have hop := htyped op (List.mem_cons_self _ _)
    cases op with
    | op_insert tuple txn_id =>
      obtain ⟨hcc, hpk⟩ := hop
      cases hkey : extract_primary_key (db.schema si) (stamped tuple txn_id) with
      | none =>
        rw [hkey] at hpk
        cases hpk
      | some key =>
        rw [hkey] at hpk
        simp only [Option.map_some', Option.some.injEq] at hpk
        by_cases hdup : holds_key node key
        · obtain ⟨db1, hins, hsch, h1⟩ :=
            table_kept_insert_duplicate fuel h tuple txn_id key hcc hkey hdup
          obtain ⟨db', node', m', hrun, h', hk', hs'⟩ := ih db1 node _ h1 hk
            (fun o ho => by rw [hsch si]; exact hrest o ho) (by omega)
          refine ⟨db', node', m', ?_, h', hk', by rw [hs', hsch si]⟩
          simp only [run_ops, run_op, hins, Option.map_some']
          exact hrun
        · obtain ⟨db1, hins, hsch, h1, hcount, hpres⟩ :=
            table_kept_insert_new fuel h tuple txn_id key hcc hkey hpk hdup (by omega)
          obtain ⟨db', node', m', hrun, h', hk', hs'⟩ := ih db1 _ _ h1 (hpres k hk)
            (fun o ho => by rw [hsch si]; exact hrest o ho) (by rw [hcount]; omega)
          refine ⟨db', node', m', ?_, h', hk', by rw [hs', hsch si]⟩
          simp only [run_ops, run_op, hins, Option.map_some']
          exact hrun
    | op_delete key txn_id =>
      obtain ⟨r, db1, hdel, hsch, h1⟩ := table_kept_delete fuel h key txn_id
      obtain ⟨db', node', m', hrun, h', hk', hs'⟩ := ih db1 node m h1 hk
        (fun o ho => by rw [hsch si]; exact hrest o ho) (by omega)
      refine ⟨db', node', m', ?_, h', hk', by rw [hs', hsch si]⟩
      simp only [run_ops, run_op, hdel, Option.map_some']
      exact hrun
    | op_btree_delete key =>
      obtain ⟨db', node', m', hrun, h', hk', hs'⟩ := ih db node m h hk hrest (by omega)
      refine ⟨db', node', m', ?_, h', hk', hs'⟩
      simp only [run_ops, run_op, h.table.schema, btree_delete, if_true]
      exact hrun
    | op_txn call =>
      have h1 := table_kept_txn_call h call
      have hsch := (same_storage_schema (run_calls_same_storage [call] db) name).2
      obtain ⟨db', node', m', hrun, h', hk', hs'⟩ := ih _ node m h1 hk
        (fun o ho => by rw [hsch si]; exact hrest o ho) (by omega)
      refine ⟨db', node', m', ?_, h', hk', by rw [hs', hsch si]⟩
      simp only [run_ops, run_op]
      exact hrun

/-- C38, as amended (a primary key is not inserted twice): in a table that is a single leaf
whose keys all carry the type tag `t`, after a `tuple_insert` of a row with key `k` of that
tag has succeeded, let any operations follow: inserts of rows whose key has the tag `t`,
`tuple_delete`, `btree_delete`, `txn_begin`, `txn_commit` and `txn_abort`, the leaf keeping
room for the inserted keys (at most 48 keys). All of them return, and a `tuple_insert` of a
row with key `k` then returns -1. -/
theorem c38_key_not_reinserted (fuel : Nat) (db db1 : database_t) (name : List Nat)
    (si : Nat) (t : data_type_t) (node : btree_node_t) (m : metadata_t)
    (ss : List table_schema_t) (tuple : tuple_t) (txn_id : Nat) (k : value_t)
    (ops : List table_op) (tuple2 : tuple_t) (txn2 : Nat)
    (h : table_kept db name si t node m ss)
    (hcc : tuple.column_count = (db.schema si).column_count)
    (hpk : extract_primary_key (db.schema si) (stamped tuple txn_id) = some k)
    (hkt : k.type = t)
    (hins : tuple_insert (fuel + 1) db name tuple txn_id = some (0, db1))
    (hops : ∀ op ∈ ops, op_typed (db.schema si) t op)
    (hroom : node.key_count + 1 + ops.length ≤ BTREE_ORDER - 1)
    (hcc2 : tuple2.column_count = (db.schema si).column_count)
    (hpk2 : extract_primary_key (db.schema si) (stamped tuple2 txn2) = some k) :
    ∃ db2 db3, run_ops (fuel + 1) name ops db1 = some db2 ∧
      tuple_insert (fuel + 1) db2 name tuple2 txn2 = some (-1, db3) := by
  by_cases hdup : holds_key node k
  · obtain ⟨d, hd, _, _⟩ := table_kept_insert_duplicate fuel h tuple txn_id k hcc hpk hdup
    rw [hd] at hins
    simp only [Option.some.injEq, Prod.mk.injEq] at hins
    exact absurd hins.1 (by decide)
  · obtain ⟨d, hd, hsch, h1, hcount, _⟩ :=
      table_kept_insert_new fuel h tuple txn_id k hcc hpk hkt hdup (by omega)
    rw [hd] at hins
    simp only [Option.some.injEq, Prod.mk.injEq, true_and] at hins
    subst hins
    have hpos := (btree_find_key_position_spec node k
      (ordered_of_sorted node k h.table.sorted)).1
    have h49 : BTREE_ORDER = 49 := by decide
    obtain ⟨_, _, hkeys, _, _⟩ := btree_insert_key_at_position_leaf node
      (btree_find_key_position node k) k m.next_page_id 0 h.table.leaf hpos
      (by rw [h.table.keys_len]; omega) (by rw [h.table.page_ids_len]; omega)
      (by rw [h.table.slots_len]; omega)
    have hk1 : holds_key (btree_insert_key_at_position node (btree_find_key_position node k) k
        m.next_page_id 0) k :=
      ⟨btree_find_key_position node k, by rw [hcount]; omega, by
        rw [hkeys _, if_pos rfl]
        exact value_compare_self k⟩
    obtain ⟨db2, node2, m2, hrun, h2, hk2, hs2⟩ := run_ops_kept fuel name si t ss k ops d _ _
      h1 hk1 (fun o ho => by rw [hsch si]; exact hops o ho) (by rw [hcount]; omega)
    obtain ⟨db3, hins3, _, _⟩ := table_kept_insert_duplicate fuel h2 tuple2 txn2 k
      (by rw [hs2, hsch si]; exact hcc2) (by rw [hs2, hsch si]; exact hpk2) hk2
    exact ⟨db2, db3, hrun, hins3⟩

/-- C38 as stated fails: in table `t(id INT PRIMARY KEY)` transaction 1 inserts id 1, then a
row with the string 'x' as key, which `tuple_insert` accepts and puts in front of id 1,
and then id 1 again: the third `tuple_insert` returns 0 as well, and the leaf holds three
keys. -/
theorem c38_key_reinserted_after_other_type :
    reinsert_after_other_type = some [0, 0, 0, 3] := by
  decide!

/-- No frame holds a page from `n` on and the file ends before page `n`: every page from `n`
on is a zero page. -/
theorem fresh_of_bounds (db : database_t) (n : Nat)
    (hf : ∀ f ∈ db.buffer_pool.pages, f.page_id < n) (hlen : db.data_file.length < n) :
    ∀ q, n ≤ q → page_content db q = page_data.zero := by
  intro q hq
  unfold page_content
  cases hr : find_resident q db.buffer_pool.pages with
  | some i =>
    obtain ⟨hi, hpid, _⟩ := find_resident_some q _ i hr
    have := hf _ (getD_mem _ i empty_frame hi)
    have hpid' : (db.buffer_pool.pages.getD i empty_frame).page_id = q := hpid
    omega
  | none =>
    simp only []
    unfold file_content storage_read_page
    rw [if_neg (by omega), List.get?_eq_none.mpr (by omega)]
    rfl

theorem begun_db_kept : table_kept begun_db t_name 0 data_type_t.DATA_TYPE_INT empty_leaf
    { schema_count := 0, next_page_id := 3 } (List.replicate 9 zero_schema) := by
  have hpool : pool_ok begun_db := by decide!
  have h0 : empty_leaf.key_count = 0 := by decide!
  exact ⟨frames_unique_of_pool_ok _ hpool, frames_clean_of_pool_ok _ hpool,
    ⟨0, 1, by decide!⟩, begun_db_leaf_table, fun i hi => by omega, by decide!, by decide,
    fresh_of_bounds begun_db 3 (by decide!) (by decide!), fun i hi => by omega, by decide!⟩

/-- Witness of C38 as amended: transaction 1 inserts id 1, deletes it and rolls back,
transaction 2 begins and inserts id 2; then transaction 2 inserts id 1. -/
theorem c38_key_not_reinserted_witness :
    ∃ db2 db3, run_ops run_fuel t_name example_ops first_insert_db = some db2 ∧
      tuple_insert run_fuel db2 t_name (int_row 1) 2 = some (-1, db3) := by
  have hins : tuple_insert (3 + 1) begun_db t_name (int_row 1) 1 = some (0, first_insert_db) :=
    result_zero_eq (tuple_insert run_fuel begun_db t_name (int_row 1) 1) begun_db (by decide!)
  exact c38_key_not_reinserted 3 begun_db first_insert_db t_name 0 data_type_t.DATA_TYPE_INT
    empty_leaf { schema_count := 0, next_page_id := 3 } (List.replicate 9 zero_schema)
    (int_row 1) 1 (int_value 1) example_ops (int_row 1) 2 begun_db_kept (by decide!)
    (by decide!) (by decide) hins (by decide!) (by decide!) (by decide!) (by decide!)

end TinyDB
